import Mathlib

/-!
# Wakefield surface engine

A shallow embedding of `src/wakefield-surface.c`: the double-buffered surface
state machine, the xdg-shell role objects (shell surface, toplevel, popup,
positioner), the popup placement solver and the destructors that keep the
cross links between these objects consistent.

Conventions of the embedding.

* C pointers to the objects of this file are addresses (`Nat`) into the
  tables of `World`; a null pointer is `none`.  A wire resource and the record
  it carries as user data share one address.
* A handler that cannot return yields a `Fault`: a failed `g_assert`
  (`Fault.assertion`), a null or dangling dereference or an integer division
  by zero (`Fault.undefined`), or a walk that did not finish within the given
  number of steps (`Fault.fuel`).
* Everything a handler sends to its collaborators (client events, compositor
  notifications, toolkit redraw requests) is returned as a list of `Event`s,
  in the order of the calls.
* `int`/`int32_t` values are `Int`; additions are not wrapped.
* cairo regions are finite sets of pixels.
-/

namespace Wakefield

/-! ## Faults and small helpers -/

/-- Reasons for which a handler does not return. -/
inductive Fault where
  /-- A `g_assert` did not hold: the process aborts. -/
  | assertion
  /-- Undefined behaviour: null or dangling dereference, division by zero. -/
  | undefined
  /-- An ancestor walk did not finish within the fuel it was given. -/
  | fuel
deriving DecidableEq, Repr

/-- Dereference of a pointer that may be null, or of an address that may be
free. -/
def deref {α : Type} : Option α → Except Fault α
  | some a => .ok a
  | none => .error .undefined

/-- The glib assertion `g_assert (cond)`. -/
def g_assert (cond : Bool) : Except Fault Unit :=
  if cond then .ok () else .error .assertion

/-- C integer division `a / b`: truncation toward zero, undefined for a zero
divisor. -/
def c_div (a b : Int) : Except Fault Int :=
  if b = 0 then .error .undefined else .ok (Int.tdiv a b)

/-- Whether a handler returned. -/
def returned {α : Type} : Except Fault α → Bool
  | .ok _ => true
  | .error _ => false

/-- The fault of a handler that did not return. -/
def faultOf {α : Type} : Except Fault α → Option Fault
  | .ok _ => none
  | .error f => some f

/-! ## Library objects the file works with -/

/-- The cairo rectangle `cairo_rectangle_int_t`. -/
structure cairo_rectangle_int_t where
  x : Int
  y : Int
  width : Int
  height : Int
deriving DecidableEq, Repr

/-- A cairo region, as the finite set of the pixels it covers. -/
abbrev cairo_region_t := Finset (Int × Int)

/-- The pixels of a rectangle; none when a side is not positive. -/
def cairo_region_create_rectangle (r : cairo_rectangle_int_t) : cairo_region_t :=
  Finset.Ico r.x (r.x + r.width) ×ˢ Finset.Ico r.y (r.y + r.height)

/-- The empty region of `cairo_region_create ()`. -/
def cairo_region_create : cairo_region_t := ∅

/-- Union of a region with a rectangle. -/
def cairo_region_union_rectangle (d : cairo_region_t) (r : cairo_rectangle_int_t) :
    cairo_region_t :=
  d ∪ cairo_region_create_rectangle r

/-- Removal of a rectangle from a region. -/
def cairo_region_subtract_rectangle (d : cairo_region_t) (r : cairo_rectangle_int_t) :
    cairo_region_t :=
  d \ cairo_region_create_rectangle r

/-- Union of two regions. -/
def cairo_region_union (d other : cairo_region_t) : cairo_region_t :=
  d ∪ other

/-- Intersection of a region with a rectangle.  The C function updates the
region in place and returns a status, which is `CAIRO_STATUS_SUCCESS` (zero)
unless memory runs out; only the updated region is returned here. -/
def cairo_region_intersect_rectangle (d : cairo_region_t) (r : cairo_rectangle_int_t) :
    cairo_region_t :=
  d ∩ cairo_region_create_rectangle r

/-- Translation of a region. -/
def cairo_region_translate (d : cairo_region_t) (dx dy : Int) : cairo_region_t :=
  d.image (fun p => (p.1 + dx, p.2 + dy))

/-- The shared-memory pixel store behind a buffer: its pixel size. -/
structure wl_shm_buffer where
  width : Int
  height : Int
deriving DecidableEq, Repr

/-- A client buffer resource.  `shm` is what `wl_shm_buffer_get` finds behind
it: nothing when the buffer is not a shared-memory buffer. -/
structure wl_buffer where
  id : Nat
  shm : Option wl_shm_buffer
deriving DecidableEq, Repr

/-- The shared-memory store of a buffer resource, if it has one. -/
def wl_shm_buffer_get (b : wl_buffer) : Option wl_shm_buffer := b.shm

/-- A toolkit window (`GdkWindow`), by its geometry as last requested. -/
structure GdkWindow where
  x : Int
  y : Int
  width : Int
  height : Int
deriving DecidableEq, Repr

/-- A `wl_list` of resources, by its elements read from the head onward (the
order in which `wl_resource_for_each` walks it).  `wl_list_init` gives the
empty list. -/
abbrev wl_list := List Nat

/-- The libwayland `wl_list_init`. -/
def wl_list_init : wl_list := []

/-- The libwayland `wl_list_insert (list, elm)`: `elm` is linked right after
the head `list`, so it becomes the first element. -/
def wl_list_insert (list : wl_list) (elm : Nat) : wl_list := elm :: list

/-- The libwayland `wl_list_insert_list (list, other)`: the elements of
`other` are spliced in right after the head `list`, ahead of the elements
`list` already had, in their own order. -/
def wl_list_insert_list (list other : wl_list) : wl_list := other ++ list

/-! ## Data model -/

/-- Modelled from the spec: the enumeration `WakefieldSurfaceRole` declared in
`wakefield-private.h`, which is not among the sources; its three values are
the ones `wakefield-surface.c` names. -/
inductive WakefieldSurfaceRole where
  | NONE
  | XDG_TOPLEVEL
  | XDG_POPUP
deriving DecidableEq, Repr

/-- The C struct `WakefieldSurfacePendingState`, used for both the pending and
the current state of a surface. -/
structure WakefieldSurfacePendingState where
  buffer : Option wl_buffer
  scale : Int
  input_region : Option cairo_region_t
  frame_callbacks : wl_list
deriving DecidableEq

/-- The C struct `WakefieldXdgSurface`. -/
structure WakefieldXdgSurface where
  surface : Option Nat
  window : Option GdkWindow
deriving DecidableEq, Repr

/-- The C struct `WakefieldXdgToplevel` (its `window` field is never used). -/
structure WakefieldXdgToplevel where
  surface : Option Nat
deriving DecidableEq, Repr

/-- Values of `enum xdg_positioner_anchor` (xdg-shell protocol), in the
protocol's numbering 0 to 8. -/
inductive xdg_positioner_anchor where
  | NONE
  | TOP
  | BOTTOM
  | LEFT
  | RIGHT
  | TOP_LEFT
  | BOTTOM_LEFT
  | TOP_RIGHT
  | BOTTOM_RIGHT
deriving DecidableEq, Repr

/-- The anchor with a given protocol number, for numbers up to
`XDG_POSITIONER_ANCHOR_BOTTOM_RIGHT` = 8. -/
def xdg_positioner_anchor.ofNumber : Nat → xdg_positioner_anchor
  | 0 => .NONE
  | 1 => .TOP
  | 2 => .BOTTOM
  | 3 => .LEFT
  | 4 => .RIGHT
  | 5 => .TOP_LEFT
  | 6 => .BOTTOM_LEFT
  | 7 => .TOP_RIGHT
  | _ => .BOTTOM_RIGHT

/-- Protocol bit `XDG_POSITIONER_CONSTRAINT_ADJUSTMENT_SLIDE_X`. -/
def XDG_POSITIONER_CONSTRAINT_ADJUSTMENT_SLIDE_X : Nat := 1
/-- Protocol bit `XDG_POSITIONER_CONSTRAINT_ADJUSTMENT_SLIDE_Y`. -/
def XDG_POSITIONER_CONSTRAINT_ADJUSTMENT_SLIDE_Y : Nat := 2
/-- Protocol bit `XDG_POSITIONER_CONSTRAINT_ADJUSTMENT_FLIP_X`. -/
def XDG_POSITIONER_CONSTRAINT_ADJUSTMENT_FLIP_X : Nat := 4
/-- Protocol bit `XDG_POSITIONER_CONSTRAINT_ADJUSTMENT_FLIP_Y`. -/
def XDG_POSITIONER_CONSTRAINT_ADJUSTMENT_FLIP_Y : Nat := 8
/-- Protocol bit `XDG_POSITIONER_CONSTRAINT_ADJUSTMENT_RESIZE_X`. -/
def XDG_POSITIONER_CONSTRAINT_ADJUSTMENT_RESIZE_X : Nat := 16
/-- Protocol bit `XDG_POSITIONER_CONSTRAINT_ADJUSTMENT_RESIZE_Y`. -/
def XDG_POSITIONER_CONSTRAINT_ADJUSTMENT_RESIZE_Y : Nat := 32

/-- The C struct `WakeFieldXdgPositioner`. -/
structure WakeFieldXdgPositioner where
  anchor_rect : cairo_rectangle_int_t
  width : Int
  height : Int
  gravity : Nat
  anchor : xdg_positioner_anchor
  constraint_adjustment : Nat
  offset_x : Int
  offset_y : Int
  is_reactive : Bool
  has_parent_size : Bool
  parent_width : Int
  parent_height : Int
  acked_parent_configure : Bool
  parent_configure_serial : Nat
deriving DecidableEq, Repr

/-- The all-zero positioner that `g_new0` allocates. -/
def WakeFieldXdgPositioner.zero : WakeFieldXdgPositioner :=
  { anchor_rect := ⟨0, 0, 0, 0⟩, width := 0, height := 0, gravity := 0, anchor := .NONE,
    constraint_adjustment := 0, offset_x := 0, offset_y := 0, is_reactive := false,
    has_parent_size := false, parent_width := 0, parent_height := 0,
    acked_parent_configure := false, parent_configure_serial := 0 }

/-- The C struct `WakefieldXdgPopup`. -/
structure WakefieldXdgPopup where
  surface : Option Nat
  parent_surface : Option Nat
  xdg_positioner : WakeFieldXdgPositioner
  allocation : cairo_rectangle_int_t
  grab_serial : Nat
deriving DecidableEq, Repr

/-- The C struct `_WakefieldSurface`.  The compositor it belongs to is the one
compositor of the `World`; its resource has the surface's own address. -/
structure WakefieldSurface where
  role : WakefieldSurfaceRole
  xdg_surface : Option Nat
  xdg_toplevel : Option Nat
  xdg_popup : Option Nat
  damage : cairo_region_t
  pending : WakefieldSurfacePendingState
  current : WakefieldSurfacePendingState
  mapped : Bool
deriving DecidableEq

/-- Protocol error codes the handlers post. -/
inductive ProtocolError where
  | XDG_WM_BASE_ERROR_INVALID_POPUP_PARENT
  | XDG_WM_BASE_ERROR_INVALID_POSITIONER
  | XDG_POSITIONER_ERROR_INVALID_INPUT
  /-- A bare numeric code. -/
  | code (n : Nat)
deriving DecidableEq, Repr

/-- What a handler sends out, one constructor per outgoing call. -/
inductive Event where
  /-- The call `wl_buffer_send_release (buffer)`. -/
  | buffer_release (buffer : wl_buffer)
  /-- The call `wl_callback_send_done (callback, time)`. -/
  | callback_done (callback : Nat) (time : Int)
  /-- The call `wakefield_compositor_surface_mapped`. -/
  | surface_mapped (surface : Nat)
  /-- The call `wakefield_compositor_surface_unmapped`. -/
  | surface_unmapped (surface : Nat)
  /-- Emission of the `committed` signal. -/
  | committed (surface : Nat)
  /-- The call `wakefield_compositor_send_configure`. -/
  | send_configure (xdg_surface : Nat)
  /-- The call `gtk_widget_queue_draw_region` on the compositor widget. -/
  | queue_draw_region (region : cairo_region_t)
  /-- The call `wl_resource_post_error`. -/
  | post_error (resource : Nat) (error : ProtocolError)
  /-- The call `wl_resource_post_no_memory`. -/
  | post_no_memory (resource : Nat)
  /-- The call `xdg_popup_send_repositioned`. -/
  | repositioned (xdg_popup : Nat) (token : Nat)
  /-- The call `xdg_popup_send_popup_done`. -/
  | popup_done (xdg_popup : Nat)
  /-- The call `wakefield_compositor_grab_pointer`. -/
  | grab_pointer (owner : Nat) (grabber : Nat) (serial : Nat)
  /-- Painting of a buffer at an offset by `wakefield_surface_draw`. -/
  | paint (buffer : wl_buffer) (scale : Int) (x : Int) (y : Int)
deriving DecidableEq

/-- The heap of live objects, the compositor widget's allocation, the next
unused address, and the number of blocks that were allocated and then lost. -/
structure World where
  surfaces : Nat → Option WakefieldSurface
  xdg_surfaces : Nat → Option WakefieldXdgSurface
  xdg_toplevels : Nat → Option WakefieldXdgToplevel
  xdg_popups : Nat → Option WakefieldXdgPopup
  xdg_positioners : Nat → Option WakeFieldXdgPositioner
  allocation : cairo_rectangle_int_t
  next : Nat
  leaked : Nat

/-- The world before any object exists, for a compositor widget of the given
allocation. -/
def World.empty (allocation : cairo_rectangle_int_t) : World :=
  { surfaces := fun _ => none, xdg_surfaces := fun _ => none, xdg_toplevels := fun _ => none,
    xdg_popups := fun _ => none, xdg_positioners := fun _ => none,
    allocation := allocation, next := 0, leaked := 0 }

/-- Store a surface record at an address. -/
def World.setSurface (w : World) (a : Nat) (s : Option WakefieldSurface) : World :=
  { w with surfaces := Function.update w.surfaces a s }

/-- Store a shell-surface record at an address. -/
def World.setXdgSurface (w : World) (a : Nat) (s : Option WakefieldXdgSurface) : World :=
  { w with xdg_surfaces := Function.update w.xdg_surfaces a s }

/-- Store a toplevel record at an address. -/
def World.setXdgToplevel (w : World) (a : Nat) (s : Option WakefieldXdgToplevel) : World :=
  { w with xdg_toplevels := Function.update w.xdg_toplevels a s }

/-- Store a popup record at an address. -/
def World.setXdgPopup (w : World) (a : Nat) (s : Option WakefieldXdgPopup) : World :=
  { w with xdg_popups := Function.update w.xdg_popups a s }

/-- Store a positioner record at an address. -/
def World.setXdgPositioner (w : World) (a : Nat) (s : Option WakeFieldXdgPositioner) : World :=
  { w with xdg_positioners := Function.update w.xdg_positioners a s }

/-! ## Accessors and role -/

/-- The C function `wakefield_surface_get_role`. -/
def wakefield_surface_get_role (w : World) (surface_resource : Nat) :
    Except Fault WakefieldSurfaceRole := do
  let surface ← deref (w.surfaces surface_resource)
  pure surface.role

/-- The C function `wakefield_surface_set_role`: the role is stored when the
assertion `role == NONE || role == new role` holds. -/
def wakefield_surface_set_role (w : World) (surface_resource : Nat)
    (role : WakefieldSurfaceRole) : Except Fault World := do
  let surface ← deref (w.surfaces surface_resource)
  g_assert (surface.role = .NONE || surface.role = role)
  pure (w.setSurface surface_resource (some { surface with role := role }))

/-- The C function `wakefield_surface_is_mapped`. -/
def wakefield_surface_is_mapped (w : World) (surface_resource : Nat) : Except Fault Bool := do
  let surface ← deref (w.surfaces surface_resource)
  pure surface.mapped

/-- The C function `wakefield_surface_get_current_size`: the pixel size of the
current buffer divided by the current scale, `(0, 0)` without a shared-memory
buffer. -/
def wakefield_surface_get_current_size (surface : WakefieldSurface) :
    Except Fault (Int × Int) :=
  match surface.current.buffer with
  | none => .ok (0, 0)
  | some buffer =>
    match wl_shm_buffer_get buffer with
    | none => .ok (0, 0)
    | some shm_buffer => do
      let width ← c_div shm_buffer.width surface.current.scale
      let height ← c_div shm_buffer.height surface.current.scale
      pure (width, height)

/-! ## Popup placement -/

/-- The C function `get_positioner_anchor_point` in exact arithmetic: what the
function computes when no `int32_t` sum overflows.
`get_positioner_anchor_point_int32` is the function with the sums wrapping. -/
def get_positioner_anchor_point (xdg_positioner : WakeFieldXdgPositioner) : Int × Int :=
  let anchor_rect := xdg_positioner.anchor_rect
  match xdg_positioner.anchor with
  | .NONE =>
    (anchor_rect.x + Int.tdiv anchor_rect.width 2, anchor_rect.y + Int.tdiv anchor_rect.height 2)
  | .TOP => (anchor_rect.x + Int.tdiv anchor_rect.width 2, anchor_rect.y)
  | .BOTTOM => (anchor_rect.x + Int.tdiv anchor_rect.width 2, anchor_rect.y + anchor_rect.height)
  | .LEFT => (anchor_rect.x, anchor_rect.y + Int.tdiv anchor_rect.height 2)
  | .RIGHT => (anchor_rect.x + anchor_rect.width, anchor_rect.y + Int.tdiv anchor_rect.height 2)
  | .TOP_LEFT => (anchor_rect.x, anchor_rect.y)
  | .BOTTOM_LEFT => (anchor_rect.x, anchor_rect.y + anchor_rect.height)
  | .TOP_RIGHT => (anchor_rect.x + anchor_rect.width, anchor_rect.y)
  | .BOTTOM_RIGHT => (anchor_rect.x + anchor_rect.width, anchor_rect.y + anchor_rect.height)

/-- The C function `get_parent_toplevel`, with the surface pointer it is
called on (possibly null) and a bound on the depth of its recursion. -/
def get_parent_toplevel : Nat → World → Option Nat → Except Fault (Option Nat)
  | 0, _, _ => .error .fuel
  | fuel + 1, w, surface_ptr => do
    let surface ← deref (surface_ptr.bind w.surfaces)
    if surface.role = .NONE then
      pure none
    else if surface.role = .XDG_TOPLEVEL then do
      let xdg_toplevel ← deref (surface.xdg_toplevel.bind w.xdg_toplevels)
      pure xdg_toplevel.surface
    else do
      let xdg_popup ← deref (surface.xdg_popup.bind w.xdg_popups)
      get_parent_toplevel fuel w xdg_popup.parent_surface

/-- Whether a constraint-adjustment bit set has a given bit: the C test
`constraint_adjustment & BIT`. -/
def has_adjustment (constraint_adjustment bit : Nat) : Bool :=
  (constraint_adjustment &&& bit) != 0

/-- Anchor coordinate after the two slide steps of
`xdg_popup_compute_allocation` (lines 1168-1188) along one axis: first against
the parent size, then against the compositor size.  The arithmetic is exact:
what the steps compute when no `int32_t` sum or difference overflows;
`slide_anchor_int32` has them wrapping. -/
def slide_anchor (slide : Bool) (anchor size offset parent_size max_size : Int) : Int :=
  let anchor :=
    if anchor + size > parent_size ∧ slide then max 0 (parent_size - size + offset) else anchor
  if anchor + size > max_size ∧ slide then max 0 (max_size - size + offset) else anchor

/-- Popup size after the resize step of `xdg_popup_compute_allocation`
(lines 1190-1199) along one axis, in exact arithmetic; `resize_popup_int32` has
the `int32_t` sum and difference wrapping. -/
def resize_popup (resize : Bool) (anchor size max_size : Int) : Int :=
  if anchor + size > max_size ∧ resize then max 0 (max_size - anchor) else size

/-- Lines 1164-1204 of `xdg_popup_compute_allocation`: the allocation for a
positioner, given the nominal popup size and its centring offsets (lines
1119-1137), the parent size (lines 1139-1159) and the compositor size (lines
1161-1162).  The arithmetic is exact: what the lines compute when no `int32_t`
sum or difference overflows; `xdg_popup_solve_int32` has them wrapping. -/
def xdg_popup_solve (xdg_positioner : WakeFieldXdgPositioner)
    (x_offset y_offset popup_width popup_height : Int)
    (parent_width parent_height max_width max_height : Int) : cairo_rectangle_int_t :=
  let anchor := get_positioner_anchor_point xdg_positioner
  let anchor_x := anchor.1 - x_offset
  let anchor_y := anchor.2 - y_offset
  let slide_x :=
    has_adjustment xdg_positioner.constraint_adjustment XDG_POSITIONER_CONSTRAINT_ADJUSTMENT_SLIDE_X
  let slide_y :=
    has_adjustment xdg_positioner.constraint_adjustment XDG_POSITIONER_CONSTRAINT_ADJUSTMENT_SLIDE_Y
  let resize_x :=
    has_adjustment xdg_positioner.constraint_adjustment XDG_POSITIONER_CONSTRAINT_ADJUSTMENT_RESIZE_X
  let resize_y :=
    has_adjustment xdg_positioner.constraint_adjustment XDG_POSITIONER_CONSTRAINT_ADJUSTMENT_RESIZE_Y
  let anchor_x := slide_anchor slide_x anchor_x popup_width x_offset parent_width max_width
  let anchor_y := slide_anchor slide_y anchor_y popup_height y_offset parent_height max_height
  let popup_width := resize_popup resize_x anchor_x popup_width max_width
  let popup_height := resize_popup resize_y anchor_y popup_height max_height
  { x := max 0 (anchor_x + xdg_positioner.offset_x),
    y := max 0 (anchor_y + xdg_positioner.offset_y),
    width := popup_width,
    height := popup_height }

/-- The test `use_surface_size && parent_surface->role == XDG_TOPLEVEL` of
line 1119; the parent surface is read only when `use_surface_size` holds. -/
def xdg_popup_uses_surface_size (w : World) (xdg_popup : WakefieldXdgPopup) :
    Bool → Except Fault Bool
  | false => .ok false
  | true => do
    let parent_surface ← deref (xdg_popup.parent_surface.bind w.surfaces)
    pure (decide (parent_surface.role = .XDG_TOPLEVEL))

/-- Lines 1119-1137 of `xdg_popup_compute_allocation`: the nominal popup size
and the centring offsets `(x_offset, y_offset, popup_width, popup_height)`. -/
def xdg_popup_nominal_size (w : World) (xdg_popup : WakefieldXdgPopup)
    (surface : WakefieldSurface) (use_surface_size : Bool) :
    Except Fault (Int × Int × Int × Int) := do
  let xdg_positioner := xdg_popup.xdg_positioner
  let enlarge ← xdg_popup_uses_surface_size w xdg_popup use_surface_size
  if enlarge then do
    let size ← wakefield_surface_get_current_size surface
    let popup_width := max xdg_positioner.width size.1
    let popup_height := max xdg_positioner.height size.2
    pure (Int.tdiv (max 0 (popup_width - xdg_positioner.width)) 2,
          Int.tdiv (max 0 (popup_height - xdg_positioner.height)) 2,
          popup_width, popup_height)
  else
    pure (0, 0, xdg_positioner.width, xdg_positioner.height)

/-- Lines 1139-1159 of `xdg_popup_compute_allocation`: the parent size, from
the positioner when it carries one, else from the window of the nearest
toplevel ancestor, else `(0, 0)`. -/
def xdg_popup_parent_size (fuel : Nat) (w : World) (xdg_popup : WakefieldXdgPopup) :
    Except Fault (Int × Int) :=
  if xdg_popup.xdg_positioner.has_parent_size then
    pure (xdg_popup.xdg_positioner.parent_width, xdg_popup.xdg_positioner.parent_height)
  else do
    let parent_toplevel ← get_parent_toplevel fuel w xdg_popup.surface
    match parent_toplevel with
    | none => pure (0, 0)
    | some toplevel_ptr => do
      let parent_surface ← deref (w.surfaces toplevel_ptr)
      let xdg_surface ← deref (parent_surface.xdg_surface.bind w.xdg_surfaces)
      match xdg_surface.window with
      | some window => pure (window.width, window.height)
      | none => pure (0, 0)

/-- The C function `xdg_popup_compute_allocation`, in exact arithmetic: stores
the solved allocation in the popup.  `xdg_popup_compute_allocation_int32` is the
function with the `int32_t` sums and differences wrapping. -/
def xdg_popup_compute_allocation (fuel : Nat) (w : World) (xdg_popup_ptr : Nat)
    (use_surface_size : Bool) : Except Fault World := do
  let xdg_popup ← deref (w.xdg_popups xdg_popup_ptr)
  let surface ← deref (xdg_popup.surface.bind w.surfaces)
  let nominal ← xdg_popup_nominal_size w xdg_popup surface use_surface_size
  let parent ← xdg_popup_parent_size fuel w xdg_popup
  let allocation :=
    xdg_popup_solve xdg_popup.xdg_positioner nominal.1 nominal.2.1 nominal.2.2.1 nominal.2.2.2
      parent.1 parent.2 w.allocation.width w.allocation.height
  pure (w.setXdgPopup xdg_popup_ptr (some { xdg_popup with allocation := allocation }))

/-- The C function `wakefield_xdg_popup_get_allocation`. -/
def wakefield_xdg_popup_get_allocation (w : World) (xdg_popup_resource : Nat) :
    Except Fault cairo_rectangle_int_t := do
  let xdg_popup ← deref (w.xdg_popups xdg_popup_resource)
  pure xdg_popup.allocation

/-- The loop of `xdg_popup_get_absolute_coordinates` (lines 455-463), run from
a popup and the point accumulated so far, in exact arithmetic;
`absolute_coordinates_loop_int32` has the `gint` sums wrapping. -/
def absolute_coordinates_loop : Nat → World → WakefieldXdgPopup → Int × Int →
    Except Fault (Int × Int)
  | 0, _, _, _ => .error .fuel
  | fuel + 1, w, xdg_popup, point =>
    match xdg_popup.parent_surface with
    | none => .ok point
    | some parent_ptr => do
      let parent_surface ← deref (w.surfaces parent_ptr)
      if parent_surface.role = .XDG_POPUP then do
        let parent_popup ← deref (parent_surface.xdg_popup.bind w.xdg_popups)
        absolute_coordinates_loop fuel w parent_popup
          (point.1 + parent_popup.allocation.x, point.2 + parent_popup.allocation.y)
      else
        pure point

/-- The C function `xdg_popup_get_absolute_coordinates`, in exact arithmetic;
`xdg_popup_get_absolute_coordinates_int32` has the `gint` sums wrapping. -/
def xdg_popup_get_absolute_coordinates (fuel : Nat) (w : World) (xdg_popup_resource : Nat) :
    Except Fault (Int × Int) := do
  let xdg_popup ← deref (w.xdg_popups xdg_popup_resource)
  absolute_coordinates_loop fuel w xdg_popup (xdg_popup.allocation.x, xdg_popup.allocation.y)

/-! ## Surface requests -/

/-- The record `wakefield_surface_new` sets up: zeroed by `g_object_new` (no
role, no links, no buffers, not mapped), then given an empty damage region,
empty callback lists and both scales 1. -/
def new_surface : WakefieldSurface :=
  let state : WakefieldSurfacePendingState :=
    { buffer := none, scale := 1, input_region := none, frame_callbacks := wl_list_init }
  { role := .NONE, xdg_surface := none, xdg_toplevel := none, xdg_popup := none,
    damage := cairo_region_create, pending := state, current := state, mapped := false }

/-- The C function `wakefield_surface_new`: the new surface and its address. -/
def wakefield_surface_new (w : World) : World × Nat :=
  ({ w with surfaces := Function.update w.surfaces w.next (some new_surface),
            next := w.next + 1 }, w.next)

/-- The C function `wl_surface_attach`; `dx` and `dy` are ignored. -/
def wl_surface_attach (w : World) (surface_resource : Nat) (buffer_resource : Option wl_buffer)
    (_dx _dy : Int) : Except Fault (World × List Event) := do
  let surface ← deref (w.surfaces surface_resource)
  pure (w.setSurface surface_resource
    (some { surface with pending := { surface.pending with buffer := buffer_resource } }), [])

/-- The C function `wl_surface_damage`. -/
def wl_surface_damage (w : World) (surface_resource : Nat) (x y width height : Int) :
    Except Fault (World × List Event) := do
  let surface ← deref (w.surfaces surface_resource)
  pure (w.setSurface surface_resource
    (some { surface with
      damage := cairo_region_union_rectangle surface.damage ⟨x, y, width, height⟩ }), [])

/-- The C function `wl_surface_frame`: the new callback resource is linked at
the head of the pending list. -/
def wl_surface_frame (w : World) (surface_resource : Nat) (callback_id : Nat) :
    Except Fault (World × List Event) := do
  let surface ← deref (w.surfaces surface_resource)
  pure (w.setSurface surface_resource
    (some { surface with
      pending := { surface.pending with
        frame_callbacks := wl_list_insert surface.pending.frame_callbacks callback_id } }), [])

/-- The C function `wl_surface_set_input_region`; the region of the region
resource, if one is given, is passed in. -/
def wl_surface_set_input_region (w : World) (surface_resource : Nat)
    (region : Option cairo_region_t) : Except Fault (World × List Event) := do
  let surface ← deref (w.surfaces surface_resource)
  pure (w.setSurface surface_resource
    (some { surface with pending := { surface.pending with input_region := region } }), [])

/-- The C function `wl_surface_set_buffer_scale`. -/
def wl_surface_set_buffer_scale (w : World) (resource : Nat) (scale : Int) :
    Except Fault (World × List Event) := do
  let surface ← deref (w.surfaces resource)
  pure (w.setSurface resource
    (some { surface with pending := { surface.pending with scale := scale } }), [])

/-- The C function `wl_surface_damage_buffer`. -/
def wl_surface_damage_buffer (w : World) (resource : Nat) : Except Fault (World × List Event) :=
  pure (w, [.post_error resource (.code 1)])

/-- The C function `wl_surface_offset`. -/
def wl_surface_offset (w : World) (resource : Nat) : Except Fault (World × List Event) :=
  pure (w, [.post_error resource (.code 1)])

/-- Lines 475-488 of `wl_surface_commit`: the footprint of the current buffer,
when it is a shared-memory buffer. -/
def wl_surface_commit_footprint (surface : WakefieldSurface) :
    Except Fault (Option cairo_region_t) :=
  match surface.current.buffer with
  | none => .ok none
  | some buffer =>
    match wl_shm_buffer_get buffer with
    | none => .ok none
    | some shm_buffer => do
      let width ← c_div shm_buffer.width surface.current.scale
      let height ← c_div shm_buffer.height surface.current.scale
      pure (some (cairo_region_create_rectangle ⟨0, 0, width, height⟩))

/-- Lines 490-508 of `wl_surface_commit`: with a pending buffer, its footprint
is taken out of the clear region, the current buffer (if any) is released and
the pending buffer becomes the current one. -/
def wl_surface_commit_buffer (surface : WakefieldSurface) (clear_region : Option cairo_region_t) :
    Except Fault (WakefieldSurface × Option cairo_region_t × List Event) :=
  match surface.pending.buffer with
  | none => .ok (surface, clear_region, [])
  | some pending_buffer => do
    let clear_region ←
      match clear_region, wl_shm_buffer_get pending_buffer with
      | some region, some shm_buffer => do
        let width ← c_div shm_buffer.width surface.pending.scale
        let height ← c_div shm_buffer.height surface.pending.scale
        pure (some (cairo_region_subtract_rectangle region ⟨0, 0, width, height⟩))
      | region, _ => pure region
    let release : List Event :=
      match surface.current.buffer with
      | some old => [.buffer_release old]
      | none => []
    pure ({ surface with
              current := { surface.current with buffer := some pending_buffer },
              pending := { surface.pending with buffer := none } },
          clear_region, release)

/-- Lines 510-523 of `wl_surface_commit`: the scale, the frame callbacks and
the union of the clear region into the damage. -/
def wl_surface_commit_state (surface : WakefieldSurface) (clear_region : Option cairo_region_t) :
    WakefieldSurface :=
  { surface with
    current :=
      { surface.current with
        scale := if surface.pending.scale > 0 then surface.pending.scale else surface.current.scale,
        frame_callbacks :=
          wl_list_insert_list surface.current.frame_callbacks surface.pending.frame_callbacks },
    pending := { surface.pending with frame_callbacks := wl_list_init },
    damage :=
      match clear_region with
      | some region => cairo_region_union surface.damage region
      | none => surface.damage }

/-- The toolkit call `gdk_window_move`. -/
def gdk_window_move (window : GdkWindow) (x y : Int) : GdkWindow :=
  { window with x := x, y := y }

/-- The toolkit call `gdk_window_move_resize`. -/
def gdk_window_move_resize (_window : GdkWindow) (x y width height : Int) : GdkWindow :=
  { x := x, y := y, width := width, height := height }

/-- Lines 527-556 of `wl_surface_commit`, on the world that already holds the
surface as updated so far: with a shell surface, the popup allocation is
recomputed, the damage is moved to widget coordinates and handed to the
toolkit. -/
def wl_surface_commit_process_damage (fuel : Nat) (w : World) (resource : Nat) :
    Except Fault (World × List Event) := do
  let surface ← deref (w.surfaces resource)
  match surface.xdg_surface with
  | none => pure (w, [])
  | some xdg_surface_ptr =>
    match surface.xdg_popup with
    | none =>
      let damage := cairo_region_translate surface.damage w.allocation.x w.allocation.y
      pure (w.setSurface resource (some { surface with damage := damage }),
            [.queue_draw_region damage])
    | some xdg_popup_ptr => do
      let w1 ← xdg_popup_compute_allocation fuel w xdg_popup_ptr true
      let popup_orig ← xdg_popup_get_absolute_coordinates fuel w1 xdg_popup_ptr
      let damage := cairo_region_intersect_rectangle surface.damage w.allocation
      let xdg_surface ← deref (w1.xdg_surfaces xdg_surface_ptr)
      let w2 :=
        match xdg_surface.window with
        | some window =>
          w1.setXdgSurface xdg_surface_ptr
            (some { xdg_surface with
              window := some (gdk_window_move window popup_orig.1 popup_orig.2) })
        | none => w1
      let damage :=
        cairo_region_translate damage (w.allocation.x + popup_orig.1)
          (w.allocation.y + popup_orig.2)
      pure (w2.setSurface resource (some { surface with damage := damage }),
            [.queue_draw_region damage])

/-- Lines 558-575 of `wl_surface_commit`: the damage is emptied, the pending
input region and scale are reset, an unmapped surface is mapped and
announced, and `committed` is emitted. -/
def wl_surface_commit_finish (resource : Nat) (surface : WakefieldSurface) :
    WakefieldSurface × List Event :=
  let surface :=
    { surface with
      damage := cairo_region_intersect_rectangle surface.damage ⟨0, 0, 0, 0⟩,
      pending := { surface.pending with input_region := none, scale := 1 } }
  if surface.mapped then
    (surface, [.committed resource])
  else
    ({ surface with mapped := true }, [.surface_mapped resource, .committed resource])

/-- The C function `wl_surface_commit`. -/
def wl_surface_commit (fuel : Nat) (w : World) (resource : Nat) :
    Except Fault (World × List Event) := do
  let surface ← deref (w.surfaces resource)
  let clear_region ← wl_surface_commit_footprint surface
  let swapped ← wl_surface_commit_buffer surface clear_region
  let surface := wl_surface_commit_state swapped.1 swapped.2.1
  let processed ← wl_surface_commit_process_damage fuel (w.setSurface resource (some surface))
    resource
  let surface ← deref (processed.1.surfaces resource)
  let finished := wl_surface_commit_finish resource surface
  pure (processed.1.setSurface resource (some finished.1),
        swapped.2.2 ++ processed.2 ++ finished.2)

/-- Lines 327-355 of `wakefield_surface_draw`: a shared-memory current buffer
is painted, at the popup's allocation when the surface has a popup. -/
def wakefield_surface_draw_paint (w : World) (surface : WakefieldSurface) :
    Except Fault (List Event) :=
  match surface.current.buffer with
  | none => .ok []
  | some buffer =>
    match wl_shm_buffer_get buffer with
    | none => .ok []
    | some _ =>
      match surface.xdg_popup with
      | none => .ok [Event.paint buffer surface.current.scale 0 0]
      | some xdg_popup_ptr => do
        let popup_allocation ← wakefield_xdg_popup_get_allocation w xdg_popup_ptr
        pure [Event.paint buffer surface.current.scale popup_allocation.x popup_allocation.y]

/-- The C function `wakefield_surface_draw`, with the monotonic time in
milliseconds it reads (the `int64_t now` of line 360): after the painting,
every callback of the current list is signalled with that time, converted to
the `uint32_t` argument of `wl_callback_send_done`, and the list is emptied. -/
def wakefield_surface_draw (w : World) (surface_resource : Nat) (now : Int) :
    Except Fault (World × List Event) := do
  let surface ← deref (w.surfaces surface_resource)
  let painted ← wakefield_surface_draw_paint w surface
  pure (w.setSurface surface_resource
          (some { surface with current := { surface.current with frame_callbacks := wl_list_init } }),
        painted ++
          surface.current.frame_callbacks.map
            (fun cr => Event.callback_done cr (now % 4294967296)))

/-- The C function `wl_surface_unmap`. -/
def wl_surface_unmap (w : World) (surface_ptr : Nat) : Except Fault (World × List Event) := do
  let surface ← deref (w.surfaces surface_ptr)
  if surface.mapped then
    pure (w.setSurface surface_ptr (some { surface with mapped := false }),
          [.surface_unmapped surface_ptr])
  else
    pure (w, [])

/-- The statement `if (p) p->surface = NULL` on a shell-surface pointer. -/
def clear_xdg_surface_surface (w : World) : Option Nat → Except Fault World
  | none => .ok w
  | some p => do
    let xdg_surface ← deref (w.xdg_surfaces p)
    pure (w.setXdgSurface p (some { xdg_surface with surface := none }))

/-- The statement `if (p) p->surface = NULL` on a toplevel pointer. -/
def clear_xdg_toplevel_surface (w : World) : Option Nat → Except Fault World
  | none => .ok w
  | some p => do
    let xdg_toplevel ← deref (w.xdg_toplevels p)
    pure (w.setXdgToplevel p (some { xdg_toplevel with surface := none }))

/-- The statement `if (p) p->surface = NULL` on a popup pointer. -/
def clear_xdg_popup_surface (w : World) : Option Nat → Except Fault World
  | none => .ok w
  | some p => do
    let xdg_popup ← deref (w.xdg_popups p)
    pure (w.setXdgPopup p (some { xdg_popup with surface := none }))

/-- The C function `wl_surface_finalize`, the destructor of a surface
resource: the surface is unmapped, the `surface` link of its shell surface,
toplevel and popup is cleared, and the surface is freed with its callbacks. -/
def wl_surface_finalize (w : World) (resource : Nat) : Except Fault (World × List Event) := do
  let unmapped ← wl_surface_unmap w resource
  let surface ← deref (unmapped.1.surfaces resource)
  let w1 ← clear_xdg_surface_surface unmapped.1 surface.xdg_surface
  let w2 ← clear_xdg_toplevel_surface w1 surface.xdg_toplevel
  let w3 ← clear_xdg_popup_surface w2 surface.xdg_popup
  pure (w3.setSurface resource none, unmapped.2)

/-! ## Shell surfaces and toplevels -/

/-- The C function `wakefield_xdg_surface_get_surface`. -/
def wakefield_xdg_surface_get_surface (w : World) (xdg_surface_resource : Nat) :
    Except Fault (Option Nat) := do
  let xdg_surface ← deref (w.xdg_surfaces xdg_surface_resource)
  pure xdg_surface.surface

/-- The C function `wakefield_surface_get_xdg_surface`. -/
def wakefield_surface_get_xdg_surface (w : World) (surface_resource : Nat) :
    Except Fault (Option Nat) := do
  let surface ← deref (w.surfaces surface_resource)
  match surface.xdg_surface with
  | some p => do
    let _ ← deref (w.xdg_surfaces p)
    pure (some p)
  | none => pure none

/-- The C function `wakefield_xdg_surface_get_xdg_toplevel`. -/
def wakefield_xdg_surface_get_xdg_toplevel (w : World) (xdg_surface_resource : Nat) :
    Except Fault (Option Nat) := do
  let surface_ptr ← wakefield_xdg_surface_get_surface w xdg_surface_resource
  match surface_ptr with
  | none => pure none
  | some p => do
    let surface ← deref (w.surfaces p)
    match surface.xdg_toplevel with
    | some t => do
      let _ ← deref (w.xdg_toplevels t)
      pure (some t)
    | none => pure none

/-- The C function `wakefield_xdg_surface_get_xdg_popup`. -/
def wakefield_xdg_surface_get_xdg_popup (w : World) (xdg_surface_resource : Nat) :
    Except Fault (Option Nat) := do
  let surface_ptr ← wakefield_xdg_surface_get_surface w xdg_surface_resource
  match surface_ptr with
  | none => pure none
  | some p => do
    let surface ← deref (w.surfaces p)
    match surface.xdg_popup with
    | some t => do
      let _ ← deref (w.xdg_popups t)
      pure (some t)
    | none => pure none

/-- The C function `wakefield_xdg_surface_new`: a shell surface linked to the
surface, recorded as the surface's shell surface. -/
def wakefield_xdg_surface_new (w : World) (surface_resource : Nat) :
    Except Fault (World × Nat) := do
  let surface ← deref (w.surfaces surface_resource)
  let w1 := w.setXdgSurface w.next (some { surface := some surface_resource, window := none })
  let w2 := w1.setSurface surface_resource (some { surface with xdg_surface := some w.next })
  pure ({ w2 with next := w.next + 1 }, w.next)

/-- The C function `wakefield_xdg_surface_realize`: the shell surface gets a
window of the size of the surface's current buffer footprint. -/
def wakefield_xdg_surface_realize (w : World) (xdg_surface_resource : Nat) :
    Except Fault (World × List Event) := do
  let xdg_surface ← deref (w.xdg_surfaces xdg_surface_resource)
  match xdg_surface.surface with
  | none => pure (w, [])
  | some surface_ptr => do
    let surface ← deref (w.surfaces surface_ptr)
    let size ← wakefield_surface_get_current_size surface
    pure (w.setXdgSurface xdg_surface_resource
            (some { xdg_surface with
              window := some { x := 0, y := 0, width := size.1, height := size.2 } }), [])

/-- The statement `if (p) wl_surface_unmap (p)` on a surface pointer. -/
def unmap_if_linked (w : World) : Option Nat → Except Fault (World × List Event)
  | none => .ok (w, [])
  | some surface_ptr => wl_surface_unmap w surface_ptr

/-- The C function `wakefield_xdg_surface_unrealize`: the linked surface is
unmapped and the window, if any, destroyed. -/
def wakefield_xdg_surface_unrealize (w : World) (xdg_surface_resource : Nat) :
    Except Fault (World × List Event) := do
  let xdg_surface ← deref (w.xdg_surfaces xdg_surface_resource)
  let unmapped ← unmap_if_linked w xdg_surface.surface
  match xdg_surface.window with
  | some _ =>
    pure (unmapped.1.setXdgSurface xdg_surface_resource (some { xdg_surface with window := none }),
          unmapped.2)
  | none => pure unmapped

/-- The statement `if (p) p->xdg_surface = NULL` on a surface pointer. -/
def clear_surface_xdg_surface (w : World) : Option Nat → Except Fault World
  | none => .ok w
  | some p => do
    let surface ← deref (w.surfaces p)
    pure (w.setSurface p (some { surface with xdg_surface := none }))

/-- The statement `if (p) p->xdg_toplevel = NULL` on a surface pointer. -/
def clear_surface_xdg_toplevel (w : World) : Option Nat → Except Fault World
  | none => .ok w
  | some p => do
    let surface ← deref (w.surfaces p)
    pure (w.setSurface p (some { surface with xdg_toplevel := none }))

/-- The statement `if (p) p->xdg_popup = NULL` on a surface pointer. -/
def clear_surface_xdg_popup (w : World) : Option Nat → Except Fault World
  | none => .ok w
  | some p => do
    let surface ← deref (w.surfaces p)
    pure (w.setSurface p (some { surface with xdg_popup := none }))

/-- The C function `xdg_surface_finalize`, the destructor of a shell-surface
resource. -/
def xdg_surface_finalize (w : World) (xdg_resource : Nat) : Except Fault (World × List Event) := do
  let xdg_surface ← deref (w.xdg_surfaces xdg_resource)
  let unrealized ← wakefield_xdg_surface_unrealize w xdg_resource
  let w1 ← clear_surface_xdg_surface unrealized.1 xdg_surface.surface
  pure (w1.setXdgSurface xdg_resource none, unrealized.2)

/-- The C function `xdg_surface_set_window_geometry`. -/
def xdg_surface_set_window_geometry (w : World) (resource : Nat) (x y width height : Int) :
    Except Fault (World × List Event) := do
  let xdg_surface ← deref (w.xdg_surfaces resource)
  match xdg_surface.window with
  | some window =>
    pure (w.setXdgSurface resource
            (some { xdg_surface with
              window := some (gdk_window_move_resize window x y width height) }), [])
  | none => pure (w, [])

/-- The C function `xdg_toplevel_finalize`, the destructor of a toplevel
resource. -/
def xdg_toplevel_finalize (w : World) (xdg_resource : Nat) : Except Fault (World × List Event) := do
  let xdg_toplevel ← deref (w.xdg_toplevels xdg_resource)
  let w1 ← clear_surface_xdg_toplevel w xdg_toplevel.surface
  pure (w1.setXdgToplevel xdg_resource none, [])

/-- The C function `xdg_surface_get_toplevel`.  `created` tells whether
`wl_resource_create` returned a resource.  The toplevel record allocated on
entry is freed again when no resource could be created. -/
def xdg_surface_get_toplevel (w : World) (resource : Nat) (created : Bool) :
    Except Fault (World × List Event) := do
  let xdg_surface ← deref (w.xdg_surfaces resource)
  let surface_ptr ← deref xdg_surface.surface
  let surface ← deref (w.surfaces surface_ptr)
  g_assert (surface.xdg_toplevel = none)
  if created then do
    let xdg_toplevel_ptr := w.next
    let w1 := w.setSurface surface_ptr (some { surface with xdg_toplevel := some xdg_toplevel_ptr })
    let w2 ← wakefield_surface_set_role w1 surface_ptr .XDG_TOPLEVEL
    let w3 := w2.setXdgToplevel xdg_toplevel_ptr (some { surface := some surface_ptr })
    pure ({ w3 with next := w.next + 1 }, [.send_configure resource])
  else
    pure (w, [.post_no_memory resource])

/-! ## Popups -/

/-- The C function `xdg_popup_finalize`, the destructor of a popup resource. -/
def xdg_popup_finalize (w : World) (xdg_popup_resource : Nat) :
    Except Fault (World × List Event) := do
  let xdg_popup ← deref (w.xdg_popups xdg_popup_resource)
  let unmapped ← unmap_if_linked w xdg_popup.surface
  let w1 ← clear_surface_xdg_popup unmapped.1 xdg_popup.surface
  pure (w1.setXdgPopup xdg_popup_resource none, unmapped.2)

/-- The C function `wakefield_xdg_popup_close`. -/
def wakefield_xdg_popup_close (w : World) (xdg_popup_resource : Nat) :
    Except Fault (World × List Event) := do
  let xdg_popup ← deref (w.xdg_popups xdg_popup_resource)
  match xdg_popup.surface with
  | none => pure (w, [.popup_done xdg_popup_resource])
  | some surface_ptr => do
    let surface ← deref (w.surfaces surface_ptr)
    if surface.mapped then
      pure (w.setSurface surface_ptr (some { surface with mapped := false }),
            [.surface_unmapped surface_ptr, .popup_done xdg_popup_resource])
    else
      pure (w, [.popup_done xdg_popup_resource])

/-- The C function `xdg_popup_grab`. -/
def xdg_popup_grab (w : World) (resource : Nat) (serial : Nat) :
    Except Fault (World × List Event) := do
  let xdg_popup ← deref (w.xdg_popups resource)
  let w1 := w.setXdgPopup resource (some { xdg_popup with grab_serial := serial })
  let surface ← deref (xdg_popup.surface.bind w1.surfaces)
  let parent_surface ← deref (xdg_popup.parent_surface.bind w1.surfaces)
  let owner ← deref parent_surface.xdg_surface
  let _ ← deref (w1.xdg_surfaces owner)
  let grabber ← deref surface.xdg_surface
  let _ ← deref (w1.xdg_surfaces grabber)
  pure (w1, [.grab_pointer owner grabber serial])

/-- The C function `xdg_popup_reposition`; `xdg_positioner` is the record the
positioner resource carries. -/
def xdg_popup_reposition (fuel : Nat) (w : World) (resource : Nat)
    (xdg_positioner : Option WakeFieldXdgPositioner) (token : Nat) :
    Except Fault (World × List Event) := do
  let xdg_popup ← deref (w.xdg_popups resource)
  let positioner ← deref xdg_positioner
  let w1 := w.setXdgPopup resource (some { xdg_popup with xdg_positioner := positioner })
  let w2 ← xdg_popup_compute_allocation fuel w1 resource false
  let surface ← deref (xdg_popup.surface.bind w2.surfaces)
  let xdg_surface_ptr ← deref surface.xdg_surface
  let _ ← deref (w2.xdg_surfaces xdg_surface_ptr)
  pure (w2, [.repositioned resource token, .send_configure xdg_surface_ptr])

/-- The C function `xdg_surface_get_popup`.  `parent` is the parent
shell-surface resource, null when the client gave none; `xdg_positioner` is
the record the positioner resource carries, as read on entry; `created` tells
whether `wl_resource_create` returned a resource.  The popup record allocated
on entry is lost on the two early error returns and freed when no resource
could be created. -/
def xdg_surface_get_popup (fuel : Nat) (w : World) (resource : Nat) (parent : Option Nat)
    (xdg_positioner : Option WakeFieldXdgPositioner) (created : Bool) :
    Except Fault (World × List Event) := do
  let xdg_surface ← deref (w.xdg_surfaces resource)
  match xdg_positioner with
  | none =>
    pure ({ w with leaked := w.leaked + 1 },
          [.post_error resource .XDG_WM_BASE_ERROR_INVALID_POSITIONER])
  | some positioner =>
    match parent with
    | none =>
      pure ({ w with leaked := w.leaked + 1 },
            [.post_error resource .XDG_WM_BASE_ERROR_INVALID_POPUP_PARENT])
    | some parent_ptr => do
      let parent_xdg_surface ← deref (w.xdg_surfaces parent_ptr)
      let surface_ptr ← deref xdg_surface.surface
      let surface ← deref (w.surfaces surface_ptr)
      g_assert (surface.xdg_popup = none)
      if created then do
        let xdg_popup_ptr := w.next
        let w1 := w.setSurface surface_ptr (some { surface with xdg_popup := some xdg_popup_ptr })
        let w2 ← wakefield_surface_set_role w1 surface_ptr .XDG_POPUP
        let w3 :=
          { w2.setXdgPopup xdg_popup_ptr
              (some { surface := some surface_ptr,
                      parent_surface := parent_xdg_surface.surface,
                      xdg_positioner := positioner,
                      allocation := ⟨0, 0, 0, 0⟩,
                      grab_serial := 0 }) with next := w.next + 1 }
        let w4 ← xdg_popup_compute_allocation fuel w3 xdg_popup_ptr false
        pure (w4, [.send_configure resource])
      else
        pure (w, [.post_no_memory resource])

/-! ## Positioners -/

/-- The C function `wakefield_xdg_positioner_new`. -/
def wakefield_xdg_positioner_new (w : World) : World × Nat :=
  ({ w.setXdgPositioner w.next (some WakeFieldXdgPositioner.zero) with next := w.next + 1 }, w.next)

/-- The C function `xdg_positioner_finalize`. -/
def xdg_positioner_finalize (w : World) (resource : Nat) : Except Fault (World × List Event) := do
  let _ ← deref (w.xdg_positioners resource)
  pure (w.setXdgPositioner resource none, [])

/-- The C function `xdg_positioner_set_size`. -/
def xdg_positioner_set_size (w : World) (resource : Nat) (width height : Int) :
    Except Fault (World × List Event) := do
  let xdg_positioner ← deref (w.xdg_positioners resource)
  if width ≤ 0 ∨ height ≤ 0 then
    pure (w, [.post_error resource .XDG_POSITIONER_ERROR_INVALID_INPUT])
  else
    pure (w.setXdgPositioner resource
            (some { xdg_positioner with width := width, height := height }), [])

/-- The C function `xdg_positioner_set_anchor_rect`. -/
def xdg_positioner_set_anchor_rect (w : World) (resource : Nat) (x y width height : Int) :
    Except Fault (World × List Event) := do
  let xdg_positioner ← deref (w.xdg_positioners resource)
  if width ≤ 0 ∨ height ≤ 0 then
    pure (w, [.post_error resource .XDG_POSITIONER_ERROR_INVALID_INPUT])
  else
    pure (w.setXdgPositioner resource
            (some { xdg_positioner with anchor_rect := ⟨x, y, width, height⟩ }), [])

/-- The C function `xdg_positioner_set_anchor`. -/
def xdg_positioner_set_anchor (w : World) (resource : Nat) (anchor : Nat) :
    Except Fault (World × List Event) := do
  let xdg_positioner ← deref (w.xdg_positioners resource)
  if anchor > 8 then
    pure (w, [.post_error resource .XDG_POSITIONER_ERROR_INVALID_INPUT])
  else
    pure (w.setXdgPositioner resource
            (some { xdg_positioner with anchor := xdg_positioner_anchor.ofNumber anchor }), [])

/-- The C function `xdg_positioner_set_gravity`. -/
def xdg_positioner_set_gravity (w : World) (resource : Nat) (gravity : Nat) :
    Except Fault (World × List Event) := do
  let xdg_positioner ← deref (w.xdg_positioners resource)
  if gravity > 8 then
    pure (w, [.post_error resource .XDG_POSITIONER_ERROR_INVALID_INPUT])
  else
    pure (w.setXdgPositioner resource (some { xdg_positioner with gravity := gravity }), [])

/-- The bit set `all_adjustments` of `xdg_positioner_set_constraint_adjustment`. -/
def all_adjustments : Nat :=
  XDG_POSITIONER_CONSTRAINT_ADJUSTMENT_SLIDE_X ||| XDG_POSITIONER_CONSTRAINT_ADJUSTMENT_FLIP_X |||
  XDG_POSITIONER_CONSTRAINT_ADJUSTMENT_SLIDE_Y ||| XDG_POSITIONER_CONSTRAINT_ADJUSTMENT_FLIP_Y |||
  XDG_POSITIONER_CONSTRAINT_ADJUSTMENT_RESIZE_X ||| XDG_POSITIONER_CONSTRAINT_ADJUSTMENT_RESIZE_Y

/-- The C function `xdg_positioner_set_constraint_adjustment`, on a 32-bit
unsigned argument. -/
def xdg_positioner_set_constraint_adjustment (w : World) (resource : Nat)
    (constraint_adjustment : Nat) : Except Fault (World × List Event) := do
  let xdg_positioner ← deref (w.xdg_positioners resource)
  if (constraint_adjustment &&& (4294967295 - all_adjustments)) ≠ 0 then
    pure (w, [.post_error resource .XDG_POSITIONER_ERROR_INVALID_INPUT])
  else
    pure (w.setXdgPositioner resource
            (some { xdg_positioner with constraint_adjustment := constraint_adjustment }), [])

/-- The C function `xdg_positioner_set_offset`. -/
def xdg_positioner_set_offset (w : World) (resource : Nat) (x y : Int) :
    Except Fault (World × List Event) := do
  let xdg_positioner ← deref (w.xdg_positioners resource)
  pure (w.setXdgPositioner resource (some { xdg_positioner with offset_x := x, offset_y := y }), [])

/-- The C function `xdg_positioner_set_reactive`. -/
def xdg_positioner_set_reactive (w : World) (resource : Nat) :
    Except Fault (World × List Event) := do
  let xdg_positioner ← deref (w.xdg_positioners resource)
  pure (w.setXdgPositioner resource (some { xdg_positioner with is_reactive := true }), [])

/-- The C function `xdg_positioner_set_parent_size`. -/
def xdg_positioner_set_parent_size (w : World) (resource : Nat)
    (parent_width parent_height : Int) : Except Fault (World × List Event) := do
  let xdg_positioner ← deref (w.xdg_positioners resource)
  pure (w.setXdgPositioner resource
          (some { xdg_positioner with
            has_parent_size := true, parent_width := parent_width,
            parent_height := parent_height }), [])

/-- The C function `xdg_positioner_set_parent_configure`. -/
def xdg_positioner_set_parent_configure (w : World) (resource : Nat) (serial : Nat) :
    Except Fault (World × List Event) := do
  let xdg_positioner ← deref (w.xdg_positioners resource)
  pure (w.setXdgPositioner resource
          (some { xdg_positioner with
            acked_parent_configure := true, parent_configure_serial := serial }), [])

/-! ## The engine as a transition system -/

/-- One call into the file: the client requests of the `wl_surface`,
`xdg_surface`, `xdg_toplevel`, `xdg_popup` and `xdg_positioner` interfaces
(object arguments are addresses of live objects), the two constructors called
for `wl_compositor.create_surface` and `xdg_wm_base.get_xdg_surface`, and the
functions the file exports to the host. -/
inductive Request where
  | create_surface
  | surface_destroy (surface : Nat)
  | attach (surface : Nat) (buffer : Option wl_buffer) (dx dy : Int)
  | damage (surface : Nat) (x y width height : Int)
  | frame (surface : Nat) (callback_id : Nat)
  | set_opaque_region (surface : Nat)
  | set_input_region (surface : Nat) (region : Option cairo_region_t)
  | commit (surface : Nat)
  | set_buffer_transform (surface : Nat) (transform : Int)
  | set_buffer_scale (surface : Nat) (scale : Int)
  | damage_buffer (surface : Nat)
  | offset (surface : Nat)
  | get_xdg_surface (surface : Nat)
  | xdg_surface_destroy (xdg_surface : Nat)
  | get_toplevel (xdg_surface : Nat) (created : Bool)
  | get_popup (xdg_surface : Nat) (parent : Option Nat) (positioner : Nat) (created : Bool)
  | set_window_geometry (xdg_surface : Nat) (x y width height : Int)
  | ack_configure (xdg_surface : Nat) (serial : Nat)
  | toplevel_destroy (xdg_toplevel : Nat)
  /-- Any of the toplevel requests with an empty handler. -/
  | toplevel_hint (xdg_toplevel : Nat)
  | popup_destroy (xdg_popup : Nat)
  | popup_grab (xdg_popup : Nat) (serial : Nat)
  | popup_reposition (xdg_popup : Nat) (positioner : Nat) (token : Nat)
  | create_positioner
  | positioner_destroy (positioner : Nat)
  | positioner_set_size (positioner : Nat) (width height : Int)
  | positioner_set_anchor_rect (positioner : Nat) (x y width height : Int)
  | positioner_set_anchor (positioner : Nat) (anchor : Nat)
  | positioner_set_gravity (positioner : Nat) (gravity : Nat)
  | positioner_set_constraint_adjustment (positioner : Nat) (constraint_adjustment : Nat)
  | positioner_set_offset (positioner : Nat) (x y : Int)
  | positioner_set_reactive (positioner : Nat)
  | positioner_set_parent_size (positioner : Nat) (parent_width parent_height : Int)
  | positioner_set_parent_configure (positioner : Nat) (serial : Nat)
  /-- Host: `wakefield_surface_draw` at a given time. -/
  | draw (surface : Nat) (now : Int)
  /-- Host: `wakefield_surface_set_role`. -/
  | set_role (surface : Nat) (role : WakefieldSurfaceRole)
  /-- Host: `wakefield_xdg_surface_realize`. -/
  | realize (xdg_surface : Nat)
  /-- Host: `wakefield_xdg_surface_unrealize`. -/
  | unrealize (xdg_surface : Nat)
  /-- Host: `wakefield_xdg_popup_close`. -/
  | popup_close (xdg_popup : Nat)
  /-- Host: the compositor widget is given a new allocation. -/
  | size_allocate (allocation : cairo_rectangle_int_t)

/-- Whether a request comes from the client (and not from the host). -/
def Request.fromClient : Request → Bool
  | .draw _ _ => false
  | .set_role _ _ => false
  | .realize _ => false
  | .unrealize _ => false
  | .popup_close _ => false
  | .size_allocate _ => false
  | _ => true

/-- The effect of one request. -/
def step (fuel : Nat) (w : World) : Request → Except Fault (World × List Event)
  | .create_surface => pure ((wakefield_surface_new w).1, [])
  | .surface_destroy surface => wl_surface_finalize w surface
  | .attach surface buffer dx dy => wl_surface_attach w surface buffer dx dy
  | .damage surface x y width height => wl_surface_damage w surface x y width height
  | .frame surface callback_id => wl_surface_frame w surface callback_id
  | .set_opaque_region _ => pure (w, [])
  | .set_input_region surface region => wl_surface_set_input_region w surface region
  | .commit surface => wl_surface_commit fuel w surface
  | .set_buffer_transform _ _ => pure (w, [])
  | .set_buffer_scale surface scale => wl_surface_set_buffer_scale w surface scale
  | .damage_buffer surface => wl_surface_damage_buffer w surface
  | .offset surface => wl_surface_offset w surface
  | .get_xdg_surface surface => do
    let made ← wakefield_xdg_surface_new w surface
    pure (made.1, [])
  | .xdg_surface_destroy xdg_surface => xdg_surface_finalize w xdg_surface
  | .get_toplevel xdg_surface created => xdg_surface_get_toplevel w xdg_surface created
  | .get_popup xdg_surface parent positioner created =>
    xdg_surface_get_popup fuel w xdg_surface parent (w.xdg_positioners positioner) created
  | .set_window_geometry xdg_surface x y width height =>
    xdg_surface_set_window_geometry w xdg_surface x y width height
  | .ack_configure _ _ => pure (w, [])
  | .toplevel_destroy xdg_toplevel => xdg_toplevel_finalize w xdg_toplevel
  | .toplevel_hint _ => pure (w, [])
  | .popup_destroy xdg_popup => xdg_popup_finalize w xdg_popup
  | .popup_grab xdg_popup serial => xdg_popup_grab w xdg_popup serial
  | .popup_reposition xdg_popup positioner token =>
    xdg_popup_reposition fuel w xdg_popup (w.xdg_positioners positioner) token
  | .create_positioner => pure ((wakefield_xdg_positioner_new w).1, [])
  | .positioner_destroy positioner => xdg_positioner_finalize w positioner
  | .positioner_set_size positioner width height =>
    xdg_positioner_set_size w positioner width height
  | .positioner_set_anchor_rect positioner x y width height =>
    xdg_positioner_set_anchor_rect w positioner x y width height
  | .positioner_set_anchor positioner anchor => xdg_positioner_set_anchor w positioner anchor
  | .positioner_set_gravity positioner gravity => xdg_positioner_set_gravity w positioner gravity
  | .positioner_set_constraint_adjustment positioner constraint_adjustment =>
    xdg_positioner_set_constraint_adjustment w positioner constraint_adjustment
  | .positioner_set_offset positioner x y => xdg_positioner_set_offset w positioner x y
  | .positioner_set_reactive positioner => xdg_positioner_set_reactive w positioner
  | .positioner_set_parent_size positioner parent_width parent_height =>
    xdg_positioner_set_parent_size w positioner parent_width parent_height
  | .positioner_set_parent_configure positioner serial =>
    xdg_positioner_set_parent_configure w positioner serial
  | .draw surface now => wakefield_surface_draw w surface now
  | .set_role surface role => do
    let w1 ← wakefield_surface_set_role w surface role
    pure (w1, [])
  | .realize xdg_surface => wakefield_xdg_surface_realize w xdg_surface
  | .unrealize xdg_surface => wakefield_xdg_surface_unrealize w xdg_surface
  | .popup_close xdg_popup => wakefield_xdg_popup_close w xdg_popup
  | .size_allocate allocation => pure ({ w with allocation := allocation }, [])

/-- The effect of a sequence of requests, with the events of all of them in
order; it stops at the first request that does not return. -/
def run (fuel : Nat) : World → List Request → Except Fault (World × List Event)
  | w, [] => .ok (w, [])
  | w, r :: rest => do
    let first ← step fuel w r
    let others ← run fuel first.1 rest
    pure (others.1, first.2 ++ others.2)

/-- The worlds the engine can be in: the empty world of some compositor
widget, and every world a returning request leads to from such a world. -/
inductive Reachable : World → Prop where
  | empty (allocation : cairo_rectangle_int_t) : Reachable (World.empty allocation)
  | step {w w1 : World} {events : List Event} (fuel : Nat) (r : Request) :
      Reachable w → step fuel w r = .ok (w1, events) → Reachable w1

/-! ## Concrete objects used in the examples -/

/-- A shared-memory buffer of 64 by 64 pixels. -/
def bufferA : wl_buffer := { id := 1, shm := some { width := 64, height := 64 } }

/-- A shared-memory buffer of 32 by 32 pixels. -/
def bufferB : wl_buffer := { id := 2, shm := some { width := 32, height := 32 } }

/-- The empty world of an 800 by 600 compositor widget. -/
def world0 : World := World.empty { x := 0, y := 0, width := 800, height := 600 }

/-- The world with one newly created surface, at address 0. -/
def world1 : World := (wakefield_surface_new world0).1

/-! ## Conditions under which commit returns -/

/-- Whether the two footprint divisions of `wl_surface_commit` have non-zero
divisors: the current scale when the current buffer is a shared-memory buffer
(line 483), and then the pending scale when a shared-memory buffer is pending
(line 498). -/
def commit_divisors_nonzero (s : WakefieldSurface) : Bool :=
  match s.current.buffer.bind wl_shm_buffer_get with
  | none => true
  | some _ =>
    s.current.scale != 0 &&
      (match s.pending.buffer.bind wl_shm_buffer_get with
       | none => true
       | some _ => s.pending.scale != 0)

/-! ## Frame-callback requests, commits and draws -/

/-- The three calls that touch the frame callbacks of a surface. -/
inductive FrameOp where
  | frame (callback_id : Nat)
  | commit
  | draw (now : Int)
deriving DecidableEq, Repr

/-- The request that performs a frame operation on a given surface. -/
def FrameOp.request (surface : Nat) : FrameOp → Request
  | .frame callback_id => .frame surface callback_id
  | .commit => .commit surface
  | .draw now => .draw surface now

/-- The callbacks requested in a sequence of frame operations, in order. -/
def requested : List FrameOp → List Nat
  | [] => []
  | .frame callback_id :: rest => callback_id :: requested rest
  | _ :: rest => requested rest

/-- How many times a callback is signalled done in a list of events. -/
def done_count (callback : Nat) (events : List Event) : Nat :=
  events.countP (fun e =>
    match e with
    | .callback_done c _ => c == callback
    | _ => false)

/-- The part of a surface the frame operations act on: its two callback
queues and its mapped flag. -/
structure QueueState where
  pending : wl_list
  current : wl_list
  mapped : Bool

/-- A surface that never had a buffer, a scale request or a shell surface,
with given callback queues and mapped flag. -/
def plain_surface (q : QueueState) : WakefieldSurface :=
  { new_surface with
    pending := { new_surface.pending with frame_callbacks := q.pending },
    current := { new_surface.current with frame_callbacks := q.current },
    mapped := q.mapped }

/-- The effect of one frame operation on the queues of a plain surface, and
the events it sends. -/
def FrameOp.apply (surface : Nat) : FrameOp → QueueState → QueueState × List Event
  | .frame callback_id, q => ({ q with pending := callback_id :: q.pending }, [])
  | .commit, q =>
    ({ pending := [], current := q.pending ++ q.current, mapped := true },
     (if q.mapped then [] else [Event.surface_mapped surface]) ++ [Event.committed surface])
  | .draw now, q =>
    ({ q with current := [] },
     q.current.map (fun c => Event.callback_done c (now % 4294967296)))

/-- The effect of a sequence of frame operations on the queues of a plain
surface, and the events they send. -/
def frame_run (surface : Nat) : List FrameOp → QueueState → QueueState × List Event
  | [], q => (q, [])
  | op :: rest, q =>
    ((frame_run surface rest (op.apply surface q).1).1,
     (op.apply surface q).2 ++ (frame_run surface rest (op.apply surface q).1).2)

/-! ## Later states, and what every request keeps -/

/-- The world `w1` is reached from `w` by zero or more requests that
return. -/
inductive Steps : World → World → Prop where
  | refl (w : World) : Steps w w
  | tail {w w1 w2 : World} {events : List Event} (fuel : Nat) (r : Request) :
      Steps w w1 → step fuel w1 r = .ok (w2, events) → Steps w w2

/-- What every request keeps of a surface record `s` when it leaves it as
`s1`: a role other than `NONE` stays, a popup or toplevel link that appears
comes with the matching role, and a positive current scale stays
positive. -/
def SurfaceKeeps (s s1 : WakefieldSurface) : Prop :=
  (s.role ≠ .NONE → s1.role = s.role) ∧
  (s1.xdg_popup ≠ none → s.xdg_popup ≠ none ∨ s1.role = .XDG_POPUP) ∧
  (s1.xdg_toplevel ≠ none → s.xdg_toplevel ≠ none ∨ s1.role = .XDG_TOPLEVEL) ∧
  (0 < s.current.scale → 0 < s1.current.scale)

/-- The world `w1` has no surface that `w` had not, and each surface it has
kept what `SurfaceKeeps` lists. -/
def Keeps (w w1 : World) : Prop :=
  w.next ≤ w1.next ∧
  ∀ a s1, w1.surfaces a = some s1 → ∃ s, w.surfaces a = some s ∧ SurfaceKeeps s s1

/-- As `Keeps`, allowing for one newly created surface at the next address. -/
def StepKeeps (w w1 : World) : Prop :=
  w.next ≤ w1.next ∧
  ∀ a s1, w1.surfaces a = some s1 →
    (∃ s, w.surfaces a = some s ∧ SurfaceKeeps s s1) ∨
    (a = w.next ∧ w.next < w1.next ∧ s1 = new_surface)

/-- No surface lives at or beyond the next address. -/
def Fresh (w : World) : Prop := ∀ a, w.next ≤ a → w.surfaces a = none

/-- The links of a surface agree with its role and its current scale is
positive. -/
def SurfaceSound (s : WakefieldSurface) : Prop :=
  (s.xdg_popup ≠ none → s.role = .XDG_POPUP) ∧
  (s.xdg_toplevel ≠ none → s.role = .XDG_TOPLEVEL) ∧
  0 < s.current.scale

/-- The world with one surface (address 0) and its shell surface (address
1). -/
def world2 : World :=
  match wakefield_xdg_surface_new world1 0 with
  | .ok made => made.1
  | .error _ => world1

/-- The buffers released in a list of events, in order. -/
def released (events : List Event) : List wl_buffer :=
  events.filterMap (fun e =>
    match e with
    | .buffer_release b => some b
    | _ => none)

/-! ## Positioners used in the placement examples -/

/-- A positioner with anchor top-right of the anchor rectangle (0,0,100,50),
size 40 by 20, no offset, and the adjustments slide-x and slide-y. -/
def example_positioner : WakeFieldXdgPositioner :=
  { WakeFieldXdgPositioner.zero with
    anchor_rect := ⟨0, 0, 100, 50⟩, width := 40, height := 20,
    anchor := .TOP_RIGHT,
    constraint_adjustment :=
      XDG_POSITIONER_CONSTRAINT_ADJUSTMENT_SLIDE_X ||| XDG_POSITIONER_CONSTRAINT_ADJUSTMENT_SLIDE_Y }

/-- A positioner with anchor bottom-right of the anchor rectangle
(10,10,100,50), size 300 by 400, no offset, and all six adjustments. -/
def wide_positioner : WakeFieldXdgPositioner :=
  { WakeFieldXdgPositioner.zero with
    anchor_rect := ⟨10, 10, 100, 50⟩, width := 300, height := 400,
    anchor := .BOTTOM_RIGHT,
    constraint_adjustment := all_adjustments }

/-- The world with one newly created positioner, at address 0. -/
def world_positioner : World := (wakefield_xdg_positioner_new world0).1

/-! ## Chains of popups -/

/-- `PopupChain w popup chain`: the list `chain` is `popup` followed by its
popup ancestors in `w`.  The parent surface of each popup of the list but the
last has role `XDG_POPUP` and is bound to the next popup of the list; the
parent surface of the last popup has another role. -/
inductive PopupChain (w : World) : WakefieldXdgPopup → List WakefieldXdgPopup → Prop where
  | last {popup : WakefieldXdgPopup} {parent_ptr : Nat} {parent_surface : WakefieldSurface} :
      popup.parent_surface = some parent_ptr → w.surfaces parent_ptr = some parent_surface →
      parent_surface.role ≠ .XDG_POPUP → PopupChain w popup [popup]
  | next {popup parent_popup : WakefieldXdgPopup} {parent_ptr parent_popup_ptr : Nat}
      {parent_surface : WakefieldSurface} {rest : List WakefieldXdgPopup} :
      popup.parent_surface = some parent_ptr → w.surfaces parent_ptr = some parent_surface →
      parent_surface.role = .XDG_POPUP → parent_surface.xdg_popup = some parent_popup_ptr →
      w.xdg_popups parent_popup_ptr = some parent_popup →
      PopupChain w parent_popup rest → PopupChain w popup (popup :: rest)

/-- The client requests that create a toplevel (surface 0, shell surface 1,
toplevel 2), a popup on it (surface 3, shell surface 4, positioner 5, popup 6)
and a popup on that popup (surface 7, shell surface 8, popup 9); the
positioner asks for a popup of 40 by 20 at the centre of the rectangle
(10,10,100,50). -/
def two_popups_requests : List Request :=
  [.create_surface, .get_xdg_surface 0, .get_toplevel 1 true,
   .create_surface, .get_xdg_surface 3, .create_positioner,
   .positioner_set_size 5 40 20, .positioner_set_anchor_rect 5 10 10 100 50,
   .get_popup 4 (some 1) 5 true,
   .create_surface, .get_xdg_surface 7, .get_popup 8 (some 4) 5 true]

/-- The world after `two_popups_requests`. -/
def world_two_popups : World :=
  match run 5 world0 two_popups_requests with
  | .ok r => r.1
  | .error _ => world0

/-! ## Worlds the client can bring about -/

/-- The worlds the client alone can bring about: the empty world of some
compositor widget, and every world a returning client request leads to from
such a world. -/
inductive ClientReachable : World → Prop where
  | empty (allocation : cairo_rectangle_int_t) : ClientReachable (World.empty allocation)
  | step {w w1 : World} {events : List Event} (fuel : Nat) (r : Request) :
      r.fromClient = true → ClientReachable w → step fuel w r = .ok (w1, events) →
      ClientReachable w1

/-- The client requests that give a surface (0) with a shell surface (1) a
popup (3) whose parent is that same shell surface, with a positioner (2) that
carries a parent size. -/
def self_parent_requests : List Request :=
  [.create_surface, .get_xdg_surface 0, .create_positioner,
   .positioner_set_parent_size 2 100 100, .get_popup 1 (some 1) 2 true]

/-- The world after `self_parent_requests`. -/
def world_self_parent : World :=
  match run 5 world0 self_parent_requests with
  | .ok r => r.1
  | .error _ => world0

/-- The client requests that create a surface (0) with a shell surface (1), a
second surface (2) with a shell surface (3), a positioner (4), and a popup (5)
for shell surface 3 with shell surface 1 as parent. -/
def popup_requests : List Request :=
  [.create_surface, .get_xdg_surface 0, .create_surface, .get_xdg_surface 2,
   .create_positioner, .get_popup 3 (some 1) 4 true]

/-- The world after `popup_requests`. -/
def world_popup : World :=
  match run 5 world0 popup_requests with
  | .ok r => r.1
  | .error _ => world0

/-- The client requests that create a surface (0) and bind two shell surfaces
(1 and 2) to it. -/
def double_bind_requests : List Request :=
  [.create_surface, .get_xdg_surface 0, .get_xdg_surface 0]

/-- The world after `double_bind_requests`. -/
def world_double_bind : World :=
  match run 5 world0 double_bind_requests with
  | .ok r => r.1
  | .error _ => world0

/-! ## Links that agree in both directions -/

/-- The links between a table of surfaces and a table of objects of one kind
agree in both directions: a surface whose link (read by `f`) designates an
object finds it alive with its surface link (read by `g`) designating the
surface, and the other way round. -/
def Linked {α β : Type} (S : Nat → Option α) (T : Nat → Option β)
    (f : α → Option Nat) (g : β → Option Nat) : Prop :=
  (∀ a s, S a = some s → ∀ x, f s = some x → ∃ o, T x = some o ∧ g o = some a) ∧
  (∀ x o, T x = some o → ∀ a, g o = some a → ∃ s, S a = some s ∧ f s = some x)

/-- Every surface is linked in both directions with its shell surface, its
toplevel and its popup: the state of a world in which each surface has at most
one shell surface, one toplevel and one popup referring to it, the ones it is
bound to. -/
def Paired (w : World) : Prop :=
  Linked w.surfaces w.xdg_surfaces (fun s => s.xdg_surface) (fun x => x.surface) ∧
  Linked w.surfaces w.xdg_toplevels (fun s => s.xdg_toplevel) (fun t => t.surface) ∧
  Linked w.surfaces w.xdg_popups (fun s => s.xdg_popup) (fun p => p.surface)

/-- Every back-reference (the surface link of a shell surface, toplevel or
popup, and the three bound links of a surface) is absent or designates a live
object. -/
def LinksLive (w : World) : Prop :=
  (∀ a s, w.surfaces a = some s →
    (∀ x, s.xdg_surface = some x → (w.xdg_surfaces x).isSome = true) ∧
    (∀ t, s.xdg_toplevel = some t → (w.xdg_toplevels t).isSome = true) ∧
    (∀ p, s.xdg_popup = some p → (w.xdg_popups p).isSome = true)) ∧
  (∀ x o a, w.xdg_surfaces x = some o → o.surface = some a → (w.surfaces a).isSome = true) ∧
  (∀ t o a, w.xdg_toplevels t = some o → o.surface = some a → (w.surfaces a).isSome = true) ∧
  (∀ p o a, w.xdg_popups p = some o → o.surface = some a → (w.surfaces a).isSome = true)

/-- Whether a request is the destruction of a surface, shell surface, toplevel
or popup. -/
def Request.isDestroy : Request → Bool
  | .surface_destroy _ => true
  | .xdg_surface_destroy _ => true
  | .toplevel_destroy _ => true
  | .popup_destroy _ => true
  | _ => false

/-- Whether the object a destroy request names is alive. -/
def Request.targetLive (w : World) : Request → Bool
  | .surface_destroy a => (w.surfaces a).isSome
  | .xdg_surface_destroy x => (w.xdg_surfaces x).isSome
  | .toplevel_destroy t => (w.xdg_toplevels t).isSome
  | .popup_destroy p => (w.xdg_popups p).isSome
  | _ => false

/-- The surface table `S1` is the table `S` with the record at `link`, if any,
replaced by one that relates to it as `P` says. -/
def SurfaceEdited (S S1 : Nat → Option WakefieldSurface) (link : Option Nat)
    (P : WakefieldSurface → WakefieldSurface → Prop) : Prop :=
  (∀ b, link ≠ some b → S1 b = S b) ∧
  (∀ a, link = some a → ∃ s s1, S a = some s ∧ S1 a = some s1 ∧ P s s1)

/-- Every accessor of the links returns on a live object, with an absent
result or a live object. -/
def AccessorsReturn (w : World) : Prop :=
  (∀ a s, w.surfaces a = some s →
    ∃ r, wakefield_surface_get_xdg_surface w a = .ok r ∧
      ∀ x, r = some x → (w.xdg_surfaces x).isSome = true) ∧
  (∀ x o, w.xdg_surfaces x = some o →
    (∃ r, wakefield_xdg_surface_get_surface w x = .ok r ∧
      ∀ a, r = some a → (w.surfaces a).isSome = true) ∧
    (∃ r, wakefield_xdg_surface_get_xdg_toplevel w x = .ok r ∧
      ∀ t, r = some t → (w.xdg_toplevels t).isSome = true) ∧
    (∃ r, wakefield_xdg_surface_get_xdg_popup w x = .ok r ∧
      ∀ p, r = some p → (w.xdg_popups p).isSome = true))

/-- A check of one direction of `Linked` on the addresses below `n`. -/
def link_check {α β : Type} (n : Nat) (S : Nat → Option α) (T : Nat → Option β)
    (f : α → Option Nat) (g : β → Option Nat) : Bool :=
  (List.range n).all fun a =>
    match S a with
    | none => true
    | some s =>
      match f s with
      | none => true
      | some x =>
        match T x with
        | none => false
        | some o => g o == some a

/-- A check of `Paired` on a world whose objects all live below `n`. -/
def paired_check (n : Nat) (w : World) : Bool :=
  link_check n w.surfaces w.xdg_surfaces (fun s => s.xdg_surface) (fun x => x.surface) &&
  link_check n w.xdg_surfaces w.surfaces (fun x => x.surface) (fun s => s.xdg_surface) &&
  link_check n w.surfaces w.xdg_toplevels (fun s => s.xdg_toplevel) (fun t => t.surface) &&
  link_check n w.xdg_toplevels w.surfaces (fun t => t.surface) (fun s => s.xdg_toplevel) &&
  link_check n w.surfaces w.xdg_popups (fun s => s.xdg_popup) (fun p => p.surface) &&
  link_check n w.xdg_popups w.surfaces (fun p => p.surface) (fun s => s.xdg_popup)

/-- The requests that create a surface (0), its shell surface (1) and a
positioner (2). -/
def shell_positioner_requests : List Request :=
  [.create_surface, .get_xdg_surface 0, .create_positioner]

/-- The world after `shell_positioner_requests`. -/
def world_shell_positioner : World :=
  match run 5 world0 shell_positioner_requests with
  | .ok r => r.1
  | .error _ => world0

/-- A positioner with anchor top-left of the anchor rectangle (-50,-60,10,10),
size 40 by 20, offset (5, 5), and no adjustment. -/
def negative_positioner : WakeFieldXdgPositioner :=
  { WakeFieldXdgPositioner.zero with
    anchor_rect := ⟨-50, -60, 10, 10⟩, width := 40, height := 20,
    anchor := .TOP_LEFT, offset_x := 5, offset_y := 5 }

/-- The client requests that create a toplevel (surface 0, shell surface 1,
toplevel 2) and a popup on it (surface 3, shell surface 4, positioner 5, popup
6) for a popup of 40 by 20 at the centre of the rectangle (10,10,100,50), and
then attach the 64 by 64 buffer to the popup's surface and commit it. -/
def popup_buffer_requests : List Request :=
  [.create_surface, .get_xdg_surface 0, .get_toplevel 1 true,
   .create_surface, .get_xdg_surface 3, .create_positioner,
   .positioner_set_size 5 40 20, .positioner_set_anchor_rect 5 10 10 100 50,
   .get_popup 4 (some 1) 5 true, .attach 3 (some bufferA) 0 0, .commit 3]

/-- The world after `popup_buffer_requests`. -/
def world_popup_buffer : World :=
  match run 5 world0 popup_buffer_requests with
  | .ok r => r.1
  | .error _ => world0

/-! ## Inputs of the placement -/

/-- The two flip bits of a constraint adjustment. -/
def flip_adjustments : Nat :=
  XDG_POSITIONER_CONSTRAINT_ADJUSTMENT_FLIP_X ||| XDG_POSITIONER_CONSTRAINT_ADJUSTMENT_FLIP_Y

/-- Two popup records that differ at most in the gravity, the flip-x and flip-y
bits, the reactive flag, the acknowledged parent configure (flag and serial),
the grab serial and the stored allocation. -/
def SameSolveInputs (a b : WakefieldXdgPopup) : Prop :=
  a.surface = b.surface ∧ a.parent_surface = b.parent_surface ∧
  a.xdg_positioner.anchor_rect = b.xdg_positioner.anchor_rect ∧
  a.xdg_positioner.width = b.xdg_positioner.width ∧
  a.xdg_positioner.height = b.xdg_positioner.height ∧
  a.xdg_positioner.anchor = b.xdg_positioner.anchor ∧
  a.xdg_positioner.offset_x = b.xdg_positioner.offset_x ∧
  a.xdg_positioner.offset_y = b.xdg_positioner.offset_y ∧
  a.xdg_positioner.has_parent_size = b.xdg_positioner.has_parent_size ∧
  a.xdg_positioner.parent_width = b.xdg_positioner.parent_width ∧
  a.xdg_positioner.parent_height = b.xdg_positioner.parent_height ∧
  a.xdg_positioner.constraint_adjustment ||| flip_adjustments =
    b.xdg_positioner.constraint_adjustment ||| flip_adjustments

/-- The allocation a popup holds after `xdg_popup_compute_allocation`. -/
def computed_allocation (fuel : Nat) (w : World) (xdg_popup_ptr : Nat)
    (use_surface_size : Bool) : Except Fault cairo_rectangle_int_t := do
  let w1 ← xdg_popup_compute_allocation fuel w xdg_popup_ptr use_surface_size
  wakefield_xdg_popup_get_allocation w1 xdg_popup_ptr

/-- The record of popup 6 in `world_popup_buffer`. -/
def popup6 : WakefieldXdgPopup :=
  { surface := some 3, parent_surface := some 0,
    xdg_positioner :=
      { WakeFieldXdgPositioner.zero with
        width := 40, height := 20, anchor_rect := ⟨10, 10, 100, 50⟩ },
    allocation := ⟨48, 13, 64, 64⟩, grab_serial := 0 }

/-- The record `popup6` with another gravity, both flip bits, the reactive
flag, an acknowledged parent configure, another grab serial and another stored
allocation. -/
def popup6_variant : WakefieldXdgPopup :=
  { popup6 with
    xdg_positioner :=
      { popup6.xdg_positioner with
        gravity := 3, constraint_adjustment := flip_adjustments, is_reactive := true,
        acked_parent_configure := true, parent_configure_serial := 7 },
    allocation := ⟨1, 2, 3, 4⟩, grab_serial := 9 }

/-! ## Worlds with a zero pending scale -/

/-- The client requests that give surface 0 the current buffer `bufferA`, the
pending buffer `bufferB` and the pending scale 0. -/
def zero_scale_requests : List Request :=
  [.create_surface, .attach 0 (some bufferA) 0 0, .commit 0, .set_buffer_scale 0 0,
   .attach 0 (some bufferB) 0 0]

/-- The world after `zero_scale_requests`. -/
def world_zero_scale : World :=
  match run 0 world0 zero_scale_requests with
  | .ok r => r.1
  | .error _ => world0

/-- The client requests `set_scale(2), set_scale(0)` on a new surface. -/
def scale_requests : List Request :=
  [.create_surface, .set_buffer_scale 0 2, .set_buffer_scale 0 0]

/-- The world after `scale_requests`. -/
def world_scale : World :=
  match run 0 world0 scale_requests with
  | .ok r => r.1
  | .error _ => world0

/-! ## Devices for the popup requests -/

/-- Whether a request is one of the positioner interface, or creates a
positioner. -/
def Request.onPositioner : Request → Bool
  | .create_positioner => true
  | .positioner_destroy _ => true
  | .positioner_set_size _ _ _ => true
  | .positioner_set_anchor_rect _ _ _ _ _ => true
  | .positioner_set_anchor _ _ => true
  | .positioner_set_gravity _ _ => true
  | .positioner_set_constraint_adjustment _ _ => true
  | .positioner_set_offset _ _ _ => true
  | .positioner_set_reactive _ => true
  | .positioner_set_parent_size _ _ _ => true
  | .positioner_set_parent_configure _ _ => true
  | _ => false

/-- The worlds `w` and `w1` have surfaces at the same addresses, and the
record of each in `w1` relates to the one it had in `w` as `R` says for its
address. -/
def SurfacesFrom (R : Nat → WakefieldSurface → WakefieldSurface → Prop) (w w1 : World) : Prop :=
  ∀ a, (∀ s1, w1.surfaces a = some s1 → ∃ s, w.surfaces a = some s ∧ R a s s1) ∧
    (∀ s, w.surfaces a = some s → ∃ s1, w1.surfaces a = some s1)

/-- A relation between the old and the new record of a surface that holds when
nothing changed and composes. -/
structure Frame (R : Nat → WakefieldSurface → WakefieldSurface → Prop) : Prop where
  unchanged : ∀ a s, R a s s
  compose : ∀ a s s1 s2, R a s s1 → R a s1 s2 → R a s s2

/-- The parts of a surface record a request may write: its eight fields, and
the callback list of the current state on its own. -/
inductive SurfaceField where
  | role
  | xdg_surface
  | xdg_toplevel
  | xdg_popup
  | damage
  | pending
  | current
  | current_callbacks
  | mapped
deriving DecidableEq, Repr

/-- The relation `R` holds at address `a` across any change of one part of
the record. -/
def ToleratesEdit (R : Nat → WakefieldSurface → WakefieldSurface → Prop) (a : Nat) :
    SurfaceField → Prop
  | .role => ∀ s v, R a s { s with role := v }
  | .xdg_surface => ∀ s v, R a s { s with xdg_surface := v }
  | .xdg_toplevel => ∀ s v, R a s { s with xdg_toplevel := v }
  | .xdg_popup => ∀ s v, R a s { s with xdg_popup := v }
  | .damage => ∀ s v, R a s { s with damage := v }
  | .pending => ∀ s v, R a s { s with pending := v }
  | .current => ∀ s v, R a s { s with current := v }
  | .current_callbacks =>
    ∀ s v, R a s { s with current := { s.current with frame_callbacks := v } }
  | .mapped => ∀ s v, R a s { s with mapped := v }

/-- The parts of a surface record a request may write, in the surface it names
or, for a request on a shell object, in the surface that object is linked
to. -/
def Request.edits : Request → List SurfaceField
  | .surface_destroy _ => [.mapped]
  | .attach _ _ _ _ => [.pending]
  | .damage _ _ _ _ _ => [.damage]
  | .frame _ _ => [.pending]
  | .set_input_region _ _ => [.pending]
  | .set_buffer_scale _ _ => [.pending]
  | .commit _ => [.current, .pending, .damage, .mapped]
  | .draw _ _ => [.current_callbacks]
  | .get_xdg_surface _ => [.xdg_surface]
  | .xdg_surface_destroy _ => [.mapped, .xdg_surface]
  | .get_toplevel _ _ => [.xdg_toplevel, .role]
  | .get_popup _ _ _ _ => [.xdg_popup, .role]
  | .toplevel_destroy _ => [.xdg_toplevel]
  | .popup_destroy _ => [.mapped, .xdg_popup]
  | .set_role _ _ => [.role]
  | .unrealize _ => [.mapped]
  | .popup_close _ => [.mapped]
  | _ => []

/-- The surface a request on a surface names. -/
def Request.onSurface : Request → Option Nat
  | .surface_destroy a => some a
  | .attach a _ _ _ => some a
  | .damage a _ _ _ _ => some a
  | .frame a _ => some a
  | .set_opaque_region a => some a
  | .set_input_region a _ => some a
  | .commit a => some a
  | .set_buffer_transform a _ => some a
  | .set_buffer_scale a _ => some a
  | .damage_buffer a => some a
  | .offset a => some a
  | .get_xdg_surface a => some a
  | .draw a _ => some a
  | .set_role a _ => some a
  | _ => none

/-! ## The surface links of the popups -/

/-- The surface link of every popup designates a live surface, whose popup
link designates that popup. -/
def PopupsOnSurfaces (w : World) : Prop :=
  ∀ p popup a, w.xdg_popups p = some popup → popup.surface = some a →
    ∃ s, w.surfaces a = some s ∧ s.xdg_popup = some p

/-- Every popup of `w1` is a popup of `w`, with the surface and the parent
surface it had in `w`. -/
def PopupsFrom (w w1 : World) : Prop :=
  ∀ q popup1, w1.xdg_popups q = some popup1 →
    ∃ popup, w.xdg_popups q = some popup ∧ popup1.surface = popup.surface ∧
      popup1.parent_surface = popup.parent_surface

/-! ## Re-attaching the current buffer -/

/-- The client requests that make `bufferA` the current buffer of surface 0 and
then attach `bufferA` again. -/
def reattach_requests : List Request :=
  [.create_surface, .attach 0 (some bufferA) 0 0, .commit 0, .attach 0 (some bufferA) 0 0]

/-- The world after `reattach_requests`. -/
def world_reattach : World :=
  match run 0 world0 reattach_requests with
  | .ok r => r.1
  | .error _ => world0

/-! ## A frame callback before a commit that divides by zero -/

/-- The client requests that create a surface (0), attach the shared-memory
buffer `bufferA`, commit, set the buffer scale to 0, attach the shared-memory
buffer `bufferB` and request the frame callback 7. -/
def zero_scale_frame_requests : List Request :=
  [.create_surface, .attach 0 (some bufferA) 0 0, .commit 0, .set_buffer_scale 0 0,
   .attach 0 (some bufferB) 0 0, .frame 0 7]

/-! ## A popup whose parent surface is destroyed -/

/-- The client requests of `popup_requests`, which give surface 2 a popup (5,
shell surface 3, positioner 4) with parent surface 0, followed by the
destruction of surface 2. -/
def popup_without_surface_requests : List Request :=
  popup_requests ++ [Request.surface_destroy 2]

/-- The client requests that create a surface (0) with shell surface 1, a
surface (2) with shell surface 3 and a positioner (4) of size 40 by 20 with the
parent size 200 by 200, make a popup (5) of shell surface 3 with parent shell
surface 1, and destroy surface 0. -/
def orphan_popup_requests : List Request :=
  [.create_surface, .get_xdg_surface 0, .create_surface, .get_xdg_surface 2,
   .create_positioner, .positioner_set_size 4 40 20, .positioner_set_parent_size 4 200 200,
   .get_popup 3 (some 1) 4 true, .surface_destroy 0]

/-! ## The popup placement in 32-bit arithmetic -/

/-- The value an `int32_t` or `gint` variable holds after a sum or difference
whose exact result is `z`: the representative of `z` modulo 2^32 in
`[-2^31, 2^31)`.  (Signed overflow is undefined in ISO C; on the
two's-complement targets the library is built for the result wraps.) -/
def int32 (z : Int) : Int := (z + 2147483648) % 4294967296 - 2147483648

/-- Whether an exact result is representable in an `int32_t`. -/
def in_int32 (z : Int) : Prop := -2147483648 ≤ z ∧ z ≤ 2147483647

instance (z : Int) : Decidable (in_int32 z) := by
  unfold in_int32
  infer_instance

/-- The C function `get_positioner_anchor_point`, with the `int32_t` sums of
lines 1051-1089 wrapping. -/
def get_positioner_anchor_point_int32 (xdg_positioner : WakeFieldXdgPositioner) : Int × Int :=
  let anchor_rect := xdg_positioner.anchor_rect
  match xdg_positioner.anchor with
  | .NONE =>
    (int32 (anchor_rect.x + Int.tdiv anchor_rect.width 2),
     int32 (anchor_rect.y + Int.tdiv anchor_rect.height 2))
  | .TOP => (int32 (anchor_rect.x + Int.tdiv anchor_rect.width 2), anchor_rect.y)
  | .BOTTOM =>
    (int32 (anchor_rect.x + Int.tdiv anchor_rect.width 2),
     int32 (anchor_rect.y + anchor_rect.height))
  | .LEFT => (anchor_rect.x, int32 (anchor_rect.y + Int.tdiv anchor_rect.height 2))
  | .RIGHT =>
    (int32 (anchor_rect.x + anchor_rect.width),
     int32 (anchor_rect.y + Int.tdiv anchor_rect.height 2))
  | .TOP_LEFT => (anchor_rect.x, anchor_rect.y)
  | .BOTTOM_LEFT => (anchor_rect.x, int32 (anchor_rect.y + anchor_rect.height))
  | .TOP_RIGHT => (int32 (anchor_rect.x + anchor_rect.width), anchor_rect.y)
  | .BOTTOM_RIGHT =>
    (int32 (anchor_rect.x + anchor_rect.width), int32 (anchor_rect.y + anchor_rect.height))

/-- Anchor coordinate after the two slide steps of
`xdg_popup_compute_allocation` (lines 1168-1188) along one axis, with the
`int32_t` sums and differences wrapping. -/
def slide_anchor_int32 (slide : Bool) (anchor size offset parent_size max_size : Int) : Int :=
  let anchor :=
    if int32 (anchor + size) > parent_size ∧ slide then
      max 0 (int32 (int32 (parent_size - size) + offset))
    else anchor
  if int32 (anchor + size) > max_size ∧ slide then
    max 0 (int32 (int32 (max_size - size) + offset))
  else anchor

/-- Popup size after the resize step of `xdg_popup_compute_allocation`
(lines 1190-1199) along one axis, with the `int32_t` sum and difference
wrapping. -/
def resize_popup_int32 (resize : Bool) (anchor size max_size : Int) : Int :=
  if int32 (anchor + size) > max_size ∧ resize then max 0 (int32 (max_size - anchor)) else size

/-- Lines 1164-1204 of `xdg_popup_compute_allocation` with every `int32_t`
sum and difference wrapping: the allocation for a positioner, given the nominal
popup size and its centring offsets, the parent size and the compositor
size. -/
def xdg_popup_solve_int32 (xdg_positioner : WakeFieldXdgPositioner)
    (x_offset y_offset popup_width popup_height : Int)
    (parent_width parent_height max_width max_height : Int) : cairo_rectangle_int_t :=
  let anchor := get_positioner_anchor_point_int32 xdg_positioner
  let anchor_x := int32 (anchor.1 - x_offset)
  let anchor_y := int32 (anchor.2 - y_offset)
  let slide_x :=
    has_adjustment xdg_positioner.constraint_adjustment XDG_POSITIONER_CONSTRAINT_ADJUSTMENT_SLIDE_X
  let slide_y :=
    has_adjustment xdg_positioner.constraint_adjustment XDG_POSITIONER_CONSTRAINT_ADJUSTMENT_SLIDE_Y
  let resize_x :=
    has_adjustment xdg_positioner.constraint_adjustment XDG_POSITIONER_CONSTRAINT_ADJUSTMENT_RESIZE_X
  let resize_y :=
    has_adjustment xdg_positioner.constraint_adjustment XDG_POSITIONER_CONSTRAINT_ADJUSTMENT_RESIZE_Y
  let anchor_x := slide_anchor_int32 slide_x anchor_x popup_width x_offset parent_width max_width
  let anchor_y := slide_anchor_int32 slide_y anchor_y popup_height y_offset parent_height max_height
  let popup_width := resize_popup_int32 resize_x anchor_x popup_width max_width
  let popup_height := resize_popup_int32 resize_y anchor_y popup_height max_height
  { x := max 0 (int32 (anchor_x + xdg_positioner.offset_x)),
    y := max 0 (int32 (anchor_y + xdg_positioner.offset_y)),
    width := popup_width,
    height := popup_height }

/-- Lines 1119-1137 of `xdg_popup_compute_allocation` with the `int32_t`
differences wrapping: the nominal popup size and the centring offsets
`(x_offset, y_offset, popup_width, popup_height)`. -/
def xdg_popup_nominal_size_int32 (w : World) (xdg_popup : WakefieldXdgPopup)
    (surface : WakefieldSurface) (use_surface_size : Bool) :
    Except Fault (Int × Int × Int × Int) := do
  let xdg_positioner := xdg_popup.xdg_positioner
  let enlarge ← xdg_popup_uses_surface_size w xdg_popup use_surface_size
  if enlarge then do
    let size ← wakefield_surface_get_current_size surface
    let popup_width := max xdg_positioner.width size.1
    let popup_height := max xdg_positioner.height size.2
    pure (Int.tdiv (max 0 (int32 (popup_width - xdg_positioner.width))) 2,
          Int.tdiv (max 0 (int32 (popup_height - xdg_positioner.height))) 2,
          popup_width, popup_height)
  else
    pure (0, 0, xdg_positioner.width, xdg_positioner.height)

/-- The C function `xdg_popup_compute_allocation` with every `int32_t` sum
and difference wrapping: stores the solved allocation in the popup. -/
def xdg_popup_compute_allocation_int32 (fuel : Nat) (w : World) (xdg_popup_ptr : Nat)
    (use_surface_size : Bool) : Except Fault World := do
  let xdg_popup ← deref (w.xdg_popups xdg_popup_ptr)
  let surface ← deref (xdg_popup.surface.bind w.surfaces)
  let nominal ← xdg_popup_nominal_size_int32 w xdg_popup surface use_surface_size
  let parent ← xdg_popup_parent_size fuel w xdg_popup
  let allocation :=
    xdg_popup_solve_int32 xdg_popup.xdg_positioner nominal.1 nominal.2.1 nominal.2.2.1
      nominal.2.2.2 parent.1 parent.2 w.allocation.width w.allocation.height
  pure (w.setXdgPopup xdg_popup_ptr (some { xdg_popup with allocation := allocation }))

/-- The loop of `xdg_popup_get_absolute_coordinates` (lines 455-463) with the
`gint` sums of lines 461-462 wrapping, run from a popup and the point
accumulated so far. -/
def absolute_coordinates_loop_int32 : Nat → World → WakefieldXdgPopup → Int × Int →
    Except Fault (Int × Int)
  | 0, _, _, _ => .error .fuel
  | fuel + 1, w, xdg_popup, point =>
    match xdg_popup.parent_surface with
    | none => .ok point
    | some parent_ptr => do
      let parent_surface ← deref (w.surfaces parent_ptr)
      if parent_surface.role = .XDG_POPUP then do
        let parent_popup ← deref (parent_surface.xdg_popup.bind w.xdg_popups)
        absolute_coordinates_loop_int32 fuel w parent_popup
          (int32 (point.1 + parent_popup.allocation.x),
           int32 (point.2 + parent_popup.allocation.y))
      else
        pure point

/-- The C function `xdg_popup_get_absolute_coordinates` with the `gint` sums
wrapping. -/
def xdg_popup_get_absolute_coordinates_int32 (fuel : Nat) (w : World)
    (xdg_popup_resource : Nat) : Except Fault (Int × Int) := do
  let xdg_popup ← deref (w.xdg_popups xdg_popup_resource)
  absolute_coordinates_loop_int32 fuel w xdg_popup
    (xdg_popup.allocation.x, xdg_popup.allocation.y)

/-- Whether the sums the loop of `xdg_popup_get_absolute_coordinates` forms
one after the other, from the value accumulated so far and the values still to
add, are all representable in an `int32_t`. -/
def partial_sums_in_int32 : Int → List Int → Prop
  | _, [] => True
  | sum, v :: rest => in_int32 (sum + v) ∧ partial_sums_in_int32 (sum + v) rest

instance partial_sums_in_int32.decidable :
    (sum : Int) → (values : List Int) → Decidable (partial_sums_in_int32 sum values)
  | _, [] => .isTrue trivial
  | sum, v :: rest =>
    have := partial_sums_in_int32.decidable (sum + v) rest
    inferInstanceAs (Decidable (in_int32 (sum + v) ∧ partial_sums_in_int32 (sum + v) rest))

/-- Along one axis, every sum and difference lines 1165-1202 can form is
representable in an `int32_t`: the anchor less the centring offset, the anchor
plus the size (before and after each slide), the room in the parent and in the
compositor with and without the centring offset, the room right of the anchor
and the anchor plus the positioner's offset. -/
def axis_in_int32 (slide : Bool) (anchor offset size position_offset parent_size max_size : Int) :
    Prop :=
  in_int32 (anchor - offset) ∧ in_int32 (anchor - offset + size) ∧
  in_int32 (parent_size - size) ∧ in_int32 (parent_size - size + offset) ∧
  in_int32 (max 0 (parent_size - size + offset) + size) ∧
  in_int32 (max_size - size) ∧ in_int32 (max_size - size + offset) ∧
  in_int32 (max 0 (max_size - size + offset) + size) ∧
  in_int32 (max_size - slide_anchor slide (anchor - offset) size offset parent_size max_size) ∧
  in_int32 (slide_anchor slide (anchor - offset) size offset parent_size max_size +
    position_offset)

instance (slide : Bool) (anchor offset size position_offset parent_size max_size : Int) :
    Decidable (axis_in_int32 slide anchor offset size position_offset parent_size max_size) := by
  unfold axis_in_int32
  infer_instance

/-- No sum or difference of lines 1044-1090 and 1164-1202 overflows for a
positioner, a nominal popup size with its centring offsets, a parent size and
a compositor size. -/
def solve_in_int32 (xdg_positioner : WakeFieldXdgPositioner)
    (x_offset y_offset popup_width popup_height : Int)
    (parent_width parent_height max_width max_height : Int) : Prop :=
  in_int32 xdg_positioner.anchor_rect.x ∧
  in_int32 (xdg_positioner.anchor_rect.x + xdg_positioner.anchor_rect.width) ∧
  in_int32 xdg_positioner.anchor_rect.y ∧
  in_int32 (xdg_positioner.anchor_rect.y + xdg_positioner.anchor_rect.height) ∧
  axis_in_int32
    (has_adjustment xdg_positioner.constraint_adjustment
      XDG_POSITIONER_CONSTRAINT_ADJUSTMENT_SLIDE_X)
    (get_positioner_anchor_point xdg_positioner).1 x_offset popup_width
    xdg_positioner.offset_x parent_width max_width ∧
  axis_in_int32
    (has_adjustment xdg_positioner.constraint_adjustment
      XDG_POSITIONER_CONSTRAINT_ADJUSTMENT_SLIDE_Y)
    (get_positioner_anchor_point xdg_positioner).2 y_offset popup_height
    xdg_positioner.offset_y parent_height max_height

instance (xdg_positioner : WakeFieldXdgPositioner)
    (x_offset y_offset popup_width popup_height : Int)
    (parent_width parent_height max_width max_height : Int) :
    Decidable (solve_in_int32 xdg_positioner x_offset y_offset popup_width popup_height
      parent_width parent_height max_width max_height) := by
  unfold solve_in_int32
  infer_instance

/-- The example positioner with the x offset 2147483647, the largest the wire
carries. -/
def far_offset_positioner : WakeFieldXdgPositioner :=
  { example_positioner with offset_x := 2147483647 }

/-- A positioner with no anchor, the anchor rectangle (100,0,20,10), the size
2147483647 by 20, no offset, and the adjustments slide-x and resize-x. -/
def huge_positioner : WakeFieldXdgPositioner :=
  { WakeFieldXdgPositioner.zero with
    anchor_rect := ⟨100, 0, 20, 10⟩, width := 2147483647, height := 20,
    anchor := .NONE,
    constraint_adjustment :=
      XDG_POSITIONER_CONSTRAINT_ADJUSTMENT_SLIDE_X |||
        XDG_POSITIONER_CONSTRAINT_ADJUSTMENT_RESIZE_X }

/-- The client requests of `two_popups_requests` with the positioner given the
offset (2147483000, 0) before the popups are created. -/
def far_popups_requests : List Request :=
  [.create_surface, .get_xdg_surface 0, .get_toplevel 1 true,
   .create_surface, .get_xdg_surface 3, .create_positioner,
   .positioner_set_size 5 40 20, .positioner_set_anchor_rect 5 10 10 100 50,
   .positioner_set_offset 5 2147483000 0,
   .get_popup 4 (some 1) 5 true,
   .create_surface, .get_xdg_surface 7, .get_popup 8 (some 4) 5 true]

/-- The world after `far_popups_requests`. -/
def world_far_popups : World :=
  match run 5 world0 far_popups_requests with
  | .ok r => r.1
  | .error _ => world0

/-- The client requests that make `far_offset_positioner` of a new positioner
(at address 0). -/
def far_offset_requests : List Request :=
  [.create_positioner, .positioner_set_size 0 40 20, .positioner_set_anchor_rect 0 0 0 100 50,
   .positioner_set_anchor 0 7, .positioner_set_constraint_adjustment 0 3,
   .positioner_set_offset 0 2147483647 0]

/-- The client requests that make `huge_positioner` of a new positioner (at
address 0). -/
def huge_requests : List Request :=
  [.create_positioner, .positioner_set_size 0 2147483647 20,
   .positioner_set_anchor_rect 0 100 0 20 10, .positioner_set_constraint_adjustment 0 17]

/-- A positioner with the anchor right of the anchor rectangle
(2147483000, 0, 1000, 10). -/
def far_rect_positioner : WakeFieldXdgPositioner :=
  { WakeFieldXdgPositioner.zero with anchor_rect := ⟨2147483000, 0, 1000, 10⟩, anchor := .RIGHT }

/-- The client requests that make `far_rect_positioner` of a new positioner (at
address 0). -/
def far_rect_requests : List Request :=
  [.create_positioner, .positioner_set_anchor_rect 0 2147483000 0 1000 10,
   .positioner_set_anchor 0 4]

/-! ## The anchor as a number -/

/-- The protocol number of an anchor. -/
def xdg_positioner_anchor.toNumber : xdg_positioner_anchor → Nat
  | .NONE => 0
  | .TOP => 1
  | .BOTTOM => 2
  | .LEFT => 3
  | .RIGHT => 4
  | .TOP_LEFT => 5
  | .BOTTOM_LEFT => 6
  | .TOP_RIGHT => 7
  | .BOTTOM_RIGHT => 8

/-- The `switch` of `get_positioner_anchor_point` (lines 1051-1089) on the
number held in the `anchor` field, with the `int32_t` sums wrapping: it has the
nine cases 0 to 8 and no default, so for any other number `*x` and `*y` are not
written. -/
def anchor_point_switch (anchor_rect : cairo_rectangle_int_t) : Nat → Option (Int × Int)
  | 0 =>
    some (int32 (anchor_rect.x + Int.tdiv anchor_rect.width 2),
          int32 (anchor_rect.y + Int.tdiv anchor_rect.height 2))
  | 1 => some (int32 (anchor_rect.x + Int.tdiv anchor_rect.width 2), anchor_rect.y)
  | 2 =>
    some (int32 (anchor_rect.x + Int.tdiv anchor_rect.width 2),
          int32 (anchor_rect.y + anchor_rect.height))
  | 3 => some (anchor_rect.x, int32 (anchor_rect.y + Int.tdiv anchor_rect.height 2))
  | 4 =>
    some (int32 (anchor_rect.x + anchor_rect.width),
          int32 (anchor_rect.y + Int.tdiv anchor_rect.height 2))
  | 5 => some (anchor_rect.x, anchor_rect.y)
  | 6 => some (anchor_rect.x, int32 (anchor_rect.y + anchor_rect.height))
  | 7 => some (int32 (anchor_rect.x + anchor_rect.width), anchor_rect.y)
  | 8 =>
    some (int32 (anchor_rect.x + anchor_rect.width),
          int32 (anchor_rect.y + anchor_rect.height))
  | _ => none

/-! ## Damage of a popup under a widget that is not at the origin -/

/-- The empty world of an 800 by 600 compositor widget placed at (100, 50) in
its parent window. -/
def world_offset : World := World.empty { x := 100, y := 50, width := 800, height := 600 }

/-- The client requests that create a toplevel (surface 0, shell surface 1,
toplevel 2) and a popup on it (surface 3, shell surface 4, positioner 5 with
size 40 by 20 and anchor rectangle (10, 10, 100, 50), popup 6), and then damage
the rectangle (0, 0, 10, 10) of the popup surface. -/
def damaged_popup_requests : List Request :=
  [.create_surface, .get_xdg_surface 0, .get_toplevel 1 true,
   .create_surface, .get_xdg_surface 3, .create_positioner,
   .positioner_set_size 5 40 20, .positioner_set_anchor_rect 5 10 10 100 50,
   .get_popup 4 (some 1) 5 true, .damage 3 0 0 10 10]

/-- The world after `damaged_popup_requests` in `world_offset`. -/
def world_damaged_popup : World :=
  match run 5 world_offset damaged_popup_requests with
  | .ok r => r.1
  | .error _ => world_offset

/-- The record of surface 3 in `world_damaged_popup`. -/
def damaged_popup_surface : WakefieldSurface :=
  { new_surface with
    role := .XDG_POPUP, xdg_surface := some 4, xdg_popup := some 6,
    damage := cairo_region_union_rectangle cairo_region_create ⟨0, 0, 10, 10⟩ }

/-! ## The notifications about one surface -/

/-- The notifications about surface `a` in a list of events, in order: `true`
for `surface_mapped a`, `false` for `surface_unmapped a`. -/
def surface_notes (a : Nat) (events : List Event) : List Bool :=
  events.filterMap (fun e =>
    match e with
    | .surface_mapped b => if b = a then some true else none
    | .surface_unmapped b => if b = a then some false else none
    | _ => none)

/-- The mapped flag of surface `a`; `false` when there is no such surface. -/
def mapped_flag (w : World) (a : Nat) : Bool :=
  match w.surfaces a with
  | some s => s.mapped
  | none => false

/-- Whether a list of notifications alternates, beginning with the opposite
of `m`. -/
def alternates : Bool → List Bool → Bool
  | _, [] => true
  | m, b :: rest => (b != m) && alternates b rest

/-- The notification that tells the change of the mapped flag of `a` from `w`
to `w1`: none when the flag is the same. -/
def note_of_change (w w1 : World) (a : Nat) : List Bool :=
  if mapped_flag w1 a = mapped_flag w a then [] else [mapped_flag w1 a]

/-- Requests that create surface 0 with shell surface 1, map it by a commit,
unrealize the shell surface twice (host), map the surface again and destroy
it. -/
def map_unmap_requests : List Request :=
  [.create_surface, .get_xdg_surface 0, .commit 0, .unrealize 1, .unrealize 1, .commit 0,
   .surface_destroy 0]

/-! ## Basic facts about the helpers -/

theorem bind_eq_ok {α β : Type} (e : Except Fault α) (f : α → Except Fault β) (r : β) :
    (e >>= f) = .ok r ↔ ∃ a, e = .ok a ∧ f a = .ok r := by
  cases e with
  | error x => simp [bind, Except.bind]
  | ok a => simp [bind, Except.bind]

theorem pure_eq_ok {α : Type} (a b : α) : (pure a : Except Fault α) = .ok b ↔ a = b := by
  simp [pure, Except.pure]

theorem deref_eq_ok {α : Type} (o : Option α) (a : α) : deref o = .ok a ↔ o = some a := by
  cases o <;> simp [deref]

theorem g_assert_eq_ok (c : Bool) (u : Unit) : g_assert c = .ok u ↔ c = true := by
  cases c <;> simp [g_assert]

theorem c_div_eq_ok (a b q : Int) : c_div a b = .ok q ↔ b ≠ 0 ∧ Int.tdiv a b = q := by
  unfold c_div
  split <;> simp_all

theorem surfaces_setSurface (w : World) (a b : Nat) (v : Option WakefieldSurface) :
    (w.setSurface a v).surfaces b = if b = a then v else w.surfaces b := by
  simp [World.setSurface, Function.update_apply]

theorem process_damage_surface {fuel : Nat} {w w1 : World} {resource : Nat}
    {s : WakefieldSurface} {evs : List Event}
    (hs : w.surfaces resource = some s)
    (h : wl_surface_commit_process_damage fuel w resource = .ok (w1, evs)) :
    ∃ d, w1.surfaces resource = some { s with damage := d } ∧
      ((s.xdg_surface = none ∧ evs = []) ∨
       (s.xdg_surface ≠ none ∧ evs = [.queue_draw_region d])) := by
  unfold wl_surface_commit_process_damage at h
  simp only [bind_eq_ok, deref_eq_ok, hs] at h
  obtain ⟨s0, hs0, h⟩ := h
  cases hs0
  split at h
  · rename_i hx
    simp only [pure_eq_ok, Prod.mk.injEq] at h
    obtain ⟨rfl, rfl⟩ := h
    exact ⟨s.damage, hs, Or.inl ⟨hx, rfl⟩⟩
  · rename_i x hx
    split at h
    · simp only [pure_eq_ok, Prod.mk.injEq] at h
      obtain ⟨rfl, rfl⟩ := h
      exact ⟨_, by simp [surfaces_setSurface], Or.inr ⟨by simp [hx], rfl⟩⟩
    · simp only [bind_eq_ok, pure_eq_ok, Prod.mk.injEq] at h
      obtain ⟨w2, _, p, _, x, _, rfl, rfl⟩ := h
      exact ⟨_, by simp [surfaces_setSurface], Or.inr ⟨by simp [hx], rfl⟩⟩

theorem surfaces_setSurface_same (w : World) (a : Nat) (v : Option WakefieldSurface) :
    (w.setSurface a v).surfaces a = v := by
  simp [surfaces_setSurface]

theorem commit_buffer_ok {s s1 : WakefieldSurface} {cr cr1 : Option cairo_region_t}
    {evs : List Event} (h : wl_surface_commit_buffer s cr = .ok (s1, cr1, evs)) :
    s1 = { s with
            current := { s.current with buffer := (s.pending.buffer <|> s.current.buffer) },
            pending := { s.pending with buffer := none } } ∧
    evs = (match s.pending.buffer, s.current.buffer with
           | some _, some old => [Event.buffer_release old]
           | _, _ => []) := by
  unfold wl_surface_commit_buffer at h
  split at h
  · rename_i hp
    simp only [Except.ok.injEq, Prod.mk.injEq] at h
    obtain ⟨rfl, rfl, rfl⟩ := h
    rcases s with ⟨role, xs, xt, xp, damage, ⟨pb, ps, pi, pf⟩, ⟨cb, cs, ci, cf⟩, mapped⟩
    simp_all
  · rename_i b hp
    have hs1 : s1 = { s with current := { s.current with buffer := some b },
                             pending := { s.pending with buffer := none } } ∧
        evs = (match s.current.buffer with
               | some old => [Event.buffer_release old]
               | none => []) := by
      cases cr <;> cases hshm : wl_shm_buffer_get b <;>
        simp only [hshm, bind_eq_ok, pure_eq_ok, Prod.mk.injEq, exists_eq_left] at h
      · obtain ⟨_, _, h1, _, h2⟩ := h
        exact ⟨h1.symm, h2.symm⟩
      · obtain ⟨_, _, h1, _, h2⟩ := h
        exact ⟨h1.symm, h2.symm⟩
      · obtain ⟨_, _, h1, _, h2⟩ := h
        exact ⟨h1.symm, h2.symm⟩
      · obtain ⟨_, _, _, _, _, _, h1, _, h2⟩ := h
        exact ⟨h1.symm, h2.symm⟩
    obtain ⟨rfl, rfl⟩ := hs1
    refine ⟨by simp [hp], ?_⟩
    simp only [hp]
    cases s.current.buffer <;> rfl

/-- What a returning `wl_surface_commit` leaves in the surface it ran on, and
what it sent. -/
theorem wl_surface_commit_ok {fuel : Nat} {w w1 : World} {resource : Nat}
    {s : WakefieldSurface} {evs : List Event}
    (hs : w.surfaces resource = some s)
    (h : wl_surface_commit fuel w resource = .ok (w1, evs)) :
    ∃ mid : List Event,
      ((s.xdg_surface = none ∧ mid = []) ∨
       (s.xdg_surface ≠ none ∧ ∃ d, mid = [.queue_draw_region d])) ∧
      w1.surfaces resource = some
        { s with
          current :=
            { s.current with
              buffer := (s.pending.buffer <|> s.current.buffer),
              scale := if s.pending.scale > 0 then s.pending.scale else s.current.scale,
              frame_callbacks := s.pending.frame_callbacks ++ s.current.frame_callbacks },
          pending := { buffer := none, scale := 1, input_region := none, frame_callbacks := [] },
          damage := ∅,
          mapped := true } ∧
      evs = (match s.pending.buffer, s.current.buffer with
             | some _, some old => [Event.buffer_release old]
             | _, _ => []) ++ mid ++
            (if s.mapped then [] else [Event.surface_mapped resource]) ++
            [Event.committed resource] := by
  unfold wl_surface_commit at h
  simp only [bind_eq_ok, deref_eq_ok, hs, pure_eq_ok, Prod.mk.injEq] at h
  obtain ⟨s0, hs0, cr, _, ⟨s1, cr1, rel⟩, hbuf, ⟨w2, mid⟩, hpd, s3, hs3, rfl, rfl⟩ := h
  cases hs0
  obtain ⟨rfl, rfl⟩ := commit_buffer_ok hbuf
  obtain ⟨d, hd, hmid⟩ := process_damage_surface (surfaces_setSurface_same _ _ _) hpd
  simp only at hs3 hd
  rw [hd] at hs3
  cases hs3
  refine ⟨mid, ?_, ?_, ?_⟩
  · rcases hmid with h | h
    · exact Or.inl h
    · exact Or.inr ⟨h.1, _, h.2⟩
  · simp only [surfaces_setSurface, if_true, wl_surface_commit_finish, wl_surface_commit_state,
      wl_list_insert_list, wl_list_init, cairo_region_intersect_rectangle,
      cairo_region_create_rectangle]
    cases hm : s.mapped <;> simp
  · simp only [wl_surface_commit_finish, wl_surface_commit_state]
    cases hm : s.mapped <;> simp
theorem run_nil (fuel : Nat) (w : World) : run fuel w [] = .ok (w, []) := rfl

theorem run_cons (fuel : Nat) (w : World) (r : Request) (rest : List Request) :
    run fuel w (r :: rest) =
      (step fuel w r >>= fun first =>
        run fuel first.1 rest >>= fun others => pure (others.1, first.2 ++ others.2)) := rfl

theorem run_append (fuel : Nat) (w : World) (a b : List Request) :
    run fuel w (a ++ b) =
      (run fuel w a >>= fun first =>
        run fuel first.1 b >>= fun others => pure (others.1, first.2 ++ others.2)) := by
  induction a generalizing w with
  | nil =>
    simp only [List.nil_append, run_nil]
    cases h : run fuel w b <;> simp [bind, Except.bind, pure, Except.pure, h]
  | cons r rest ih =>
    simp only [List.cons_append, run_cons, ih]
    cases h1 : step fuel w r with
    | error e => simp [bind, Except.bind]
    | ok first =>
      simp only [bind, Except.bind]
      cases h2 : run fuel first.1 rest with
      | error e => simp
      | ok mid =>
        simp only [pure, Except.pure]
        cases h3 : run fuel mid.1 b with
        | error e => simp
        | ok last => simp [List.append_assoc]

theorem run_frames (fuel : Nat) (resource : Nat) (cs : List Nat) (w : World)
    (s : WakefieldSurface) (hs : w.surfaces resource = some s) :
    run fuel w (cs.map (Request.frame resource)) =
      .ok (w.setSurface resource
            (some { s with
              pending := { s.pending with
                frame_callbacks := cs.reverse ++ s.pending.frame_callbacks } }), []) := by
  induction cs generalizing w s with
  | nil =>
    simp only [List.map_nil, run_nil, List.reverse_nil, List.nil_append]
    congr
    simp [World.setSurface, hs.symm]
  | cons c rest ih =>
    simp only [List.map_cons, run_cons, step, wl_surface_frame, hs, deref, bind, Except.bind,
      pure, Except.pure]
    rw [ih _ _ (surfaces_setSurface_same _ _ _)]
    simp [World.setSurface, wl_list_insert]

theorem commit_footprint_returns {s : WakefieldSurface} (h : commit_divisors_nonzero s = true) :
    ∃ cr, wl_surface_commit_footprint s = .ok cr ∧
      (cr = none ↔ s.current.buffer.bind wl_shm_buffer_get = none) := by
  cases hb : s.current.buffer with
  | none => simp [wl_surface_commit_footprint, hb]
  | some b =>
    cases hshm : wl_shm_buffer_get b with
    | none => simp [wl_surface_commit_footprint, hb, hshm]
    | some shm =>
      have h1 : s.current.scale ≠ 0 := by
        simp [commit_divisors_nonzero, hb, hshm] at h
        exact h.1
      simp [wl_surface_commit_footprint, hb, hshm, c_div, h1, bind, Except.bind, pure,
        Except.pure]

theorem commit_buffer_returns {s : WakefieldSurface} {cr : Option cairo_region_t}
    (h : commit_divisors_nonzero s = true)
    (hcr : cr = none ↔ s.current.buffer.bind wl_shm_buffer_get = none) :
    ∃ r, wl_surface_commit_buffer s cr = .ok r := by
  cases hp : s.pending.buffer with
  | none => simp [wl_surface_commit_buffer, hp]
  | some p =>
    cases cr with
    | none =>
      cases hshm : wl_shm_buffer_get p <;>
        simp [wl_surface_commit_buffer, hp, hshm, bind, Except.bind, pure, Except.pure]
    | some region =>
      cases hshm : wl_shm_buffer_get p with
      | none => simp [wl_surface_commit_buffer, hp, hshm, bind, Except.bind, pure, Except.pure]
      | some shm =>
        cases hc : s.current.buffer.bind wl_shm_buffer_get with
        | none => simp [hc] at hcr
        | some c =>
          have h2 : s.pending.scale ≠ 0 := by
            simp [commit_divisors_nonzero, hc, hp, hshm] at h
            exact h.2
          simp [wl_surface_commit_buffer, hp, hshm, c_div, h2, bind, Except.bind, pure,
            Except.pure]

theorem process_damage_returns (fuel : Nat) {w : World} {resource : Nat} {s : WakefieldSurface}
    (hs : w.surfaces resource = some s) (hp : s.xdg_popup = none) :
    ∃ r, wl_surface_commit_process_damage fuel w resource = .ok r := by
  cases hx : s.xdg_surface <;>
    simp [wl_surface_commit_process_damage, hs, deref, bind, Except.bind, hp, hx, pure,
      Except.pure]

/-- A commit returns when its divisors are non-zero and the surface has no
popup bound. -/
theorem wl_surface_commit_returns (fuel : Nat) {w : World} {resource : Nat}
    {s : WakefieldSurface} (hs : w.surfaces resource = some s)
    (hd : commit_divisors_nonzero s = true) (hp : s.xdg_popup = none) :
    ∃ r, wl_surface_commit fuel w resource = .ok r := by
  obtain ⟨cr, hcr, hiff⟩ := commit_footprint_returns hd
  obtain ⟨⟨s1, cr1, rel⟩, hbuf⟩ := commit_buffer_returns hd hiff
  have hs1 := (commit_buffer_ok hbuf).1
  obtain ⟨⟨w2, mid⟩, hpd⟩ := process_damage_returns fuel
    (surfaces_setSurface_same w resource (some (wl_surface_commit_state s1 cr1)))
    (by rw [hs1]; exact hp)
  obtain ⟨d, hd2, _⟩ := process_damage_surface (surfaces_setSurface_same _ _ _) hpd
  unfold wl_surface_commit
  simp only [hs, deref, bind, Except.bind, hcr, hbuf, hpd, hd2]
  exact ⟨_, rfl⟩

/-- C1 (defect): after `create_surface, attach A, commit, set_buffer_scale 0,
attach B` the surface has current buffer `A`, pending buffer `B` and pending
scale 0; the commit that follows divides the width of `B` by that scale and
does not return, so no state with current buffer `B` is reached. -/
theorem C1_commit_after_attach_faults :
    ∃ w evs s,
      run 0 world0 [.create_surface, .attach 0 (some bufferA) 0 0, .commit 0,
        .set_buffer_scale 0 0, .attach 0 (some bufferB) 0 0] = .ok (w, evs) ∧
      w.surfaces 0 = some s ∧ s.current.buffer = some bufferA ∧
      s.pending.buffer = some bufferB ∧ s.pending.scale = 0 ∧
      wl_surface_commit 0 w 0 = .error .undefined :=
  ⟨_, _, _, rfl, rfl, rfl, rfl, rfl, rfl⟩

/-- C2 (counterexample): on a new surface, `frame 1, frame 2, commit` leaves
the current queue as `[2, 1]`: the callback requested last is walked first,
not the request order `[1, 2]` after the (empty) previous queue. -/
theorem C2_counterexample :
    ∃ w evs s,
      run 0 world0 [.create_surface, .frame 0 1, .frame 0 2, .commit 0] = .ok (w, evs) ∧
      w.surfaces 0 = some s ∧ s.current.frame_callbacks = [2, 1] ∧
      s.current.frame_callbacks ≠ [] ++ [1, 2] :=
  ⟨_, _, _, rfl, rfl, rfl, by decide⟩

/-- C2 (amended): for every surface state, when the callbacks `cs` are
requested in that order and the surface is then committed, the commit, if it
returns, leaves as current queue (in the order `wakefield_surface_draw` walks
it) the callbacks that were pending, most recently requested first (`cs`
reversed, then what was pending before), followed by the previous current
queue, and leaves the pending queue empty.  The commit does return when its
divisors are non-zero and no popup is bound to the surface. -/
theorem C2_commit_callback_queue (fuel : Nat) (w : World) (resource : Nat)
    (s : WakefieldSurface) (cs : List Nat) (hs : w.surfaces resource = some s) :
    (commit_divisors_nonzero s = true → s.xdg_popup = none →
      ∃ r, run fuel w (cs.map (Request.frame resource) ++ [.commit resource]) = .ok r) ∧
    (∀ w1 evs,
      run fuel w (cs.map (Request.frame resource) ++ [.commit resource]) = .ok (w1, evs) →
      ∃ s1, w1.surfaces resource = some s1 ∧
        s1.current.frame_callbacks =
          cs.reverse ++ s.pending.frame_callbacks ++ s.current.frame_callbacks ∧
        s1.pending.frame_callbacks = []) := by
  have hrun : run fuel w (cs.map (Request.frame resource) ++ [.commit resource]) =
      (wl_surface_commit fuel
        (w.setSurface resource
          (some { s with
            pending := { s.pending with
              frame_callbacks := cs.reverse ++ s.pending.frame_callbacks } })) resource >>=
        fun r => pure (r.1, r.2)) := by
    rw [run_append, run_frames fuel resource cs w s hs]
    simp only [bind, Except.bind, run_cons, run_nil, step, pure, Except.pure, List.nil_append,
      List.append_nil]
    cases wl_surface_commit fuel _ resource <;> rfl
  constructor
  · intro hd hp
    obtain ⟨r, hr⟩ := wl_surface_commit_returns fuel
      (surfaces_setSurface_same w resource
        (some { s with
          pending := { s.pending with
            frame_callbacks := cs.reverse ++ s.pending.frame_callbacks } }))
      (by simpa [commit_divisors_nonzero] using hd) hp
    exact ⟨(r.1, r.2), by rw [hrun, hr]; rfl⟩
  · intro w1 evs h
    rw [hrun] at h
    simp only [bind_eq_ok, pure_eq_ok, Prod.mk.injEq] at h
    obtain ⟨⟨w2, e2⟩, hc, rfl, rfl⟩ := h
    obtain ⟨mid, _, hs1, _⟩ := wl_surface_commit_ok (surfaces_setSurface_same _ _ _) hc
    exact ⟨_, hs1, by simp, rfl⟩

/-- C2 (amended), witness: on the newly created surface of `world1`, with the
callbacks 1 and 2. -/
theorem C2_commit_callback_queue_witness :
    (commit_divisors_nonzero new_surface = true → new_surface.xdg_popup = none →
      ∃ r, run 0 world1 ([1, 2].map (Request.frame 0) ++ [.commit 0]) = .ok r) ∧
    (∀ w1 evs,
      run 0 world1 ([1, 2].map (Request.frame 0) ++ [.commit 0]) = .ok (w1, evs) →
      ∃ s1, w1.surfaces 0 = some s1 ∧
        s1.current.frame_callbacks =
          [1, 2].reverse ++ new_surface.pending.frame_callbacks ++
            new_surface.current.frame_callbacks ∧
        s1.pending.frame_callbacks = []) :=
  C2_commit_callback_queue 0 world1 0 new_surface [1, 2] rfl

/-! ## Frame callbacks on a plain surface -/

theorem step_plain (fuel : Nat) (w : World) (sid : Nat) (q : QueueState) (op : FrameOp)
    (hs : w.surfaces sid = some (plain_surface q)) :
    ∃ w1, step fuel w (op.request sid) = .ok (w1, (op.apply sid q).2) ∧
      w1.surfaces sid = some (plain_surface (op.apply sid q).1) := by
  cases op with
  | frame c =>
    refine ⟨w.setSurface sid _, ?_, surfaces_setSurface_same _ _ _⟩
    simp [FrameOp.request, step, wl_surface_frame, hs, deref, bind, Except.bind, pure,
      Except.pure, FrameOp.apply, plain_surface, wl_list_insert]
  | commit =>
    have hd : commit_divisors_nonzero (plain_surface q) = true := rfl
    obtain ⟨⟨w1, evs⟩, hr⟩ := wl_surface_commit_returns fuel hs hd rfl
    obtain ⟨mid, hmid, hs1, hevs⟩ := wl_surface_commit_ok hs hr
    have hmid0 : mid = [] := by
      rcases hmid with h | h
      · exact h.2
      · exact absurd rfl h.1
    subst hmid0
    refine ⟨w1, ?_, ?_⟩
    · simp only [FrameOp.request, step, hr, hevs, FrameOp.apply]
      cases hm : q.mapped <;> simp [plain_surface, new_surface, hm]
    · rw [hs1]
      simp [plain_surface, new_surface, FrameOp.apply, wl_list_init, cairo_region_create]
  | draw now =>
    refine ⟨w.setSurface sid _, ?_, surfaces_setSurface_same _ _ _⟩
    simp [FrameOp.request, step, wakefield_surface_draw, wakefield_surface_draw_paint, hs, deref,
      bind, Except.bind, pure, Except.pure, FrameOp.apply, plain_surface, new_surface,
      wl_list_init]

theorem run_plain (fuel : Nat) (sid : Nat) (ops : List FrameOp) (w : World) (q : QueueState)
    (hs : w.surfaces sid = some (plain_surface q)) :
    ∃ w1, run fuel w (ops.map (FrameOp.request sid)) = .ok (w1, (frame_run sid ops q).2) ∧
      w1.surfaces sid = some (plain_surface (frame_run sid ops q).1) := by
  induction ops generalizing w q with
  | nil => exact ⟨w, rfl, hs⟩
  | cons op rest ih =>
    obtain ⟨w1, h1, hs1⟩ := step_plain fuel w sid q op hs
    obtain ⟨w2, h2, hs2⟩ := ih w1 _ hs1
    refine ⟨w2, ?_, hs2⟩
    simp [List.map_cons, run_cons, h1, h2, bind, Except.bind, pure, Except.pure, frame_run]

theorem done_count_append (c : Nat) (a b : List Event) :
    done_count c (a ++ b) = done_count c a + done_count c b := by
  simp [done_count, List.countP_append]

theorem done_count_map_done (c : Nat) (l : List Nat) (now : Int) :
    done_count c (l.map (fun x => Event.callback_done x now)) = l.count c := by
  induction l with
  | nil => rfl
  | cons a rest ih =>
    simp only [List.map_cons, List.count_cons]
    rw [← ih]
    simp [done_count, List.countP_cons]

theorem done_count_apply (sid : Nat) (c : Nat) (op : FrameOp) (q : QueueState) :
    done_count c (op.apply sid q).2 =
      match op with
      | .draw _ => q.current.count c
      | _ => 0 := by
  cases op with
  | frame _ => rfl
  | commit => cases hm : q.mapped <;> simp [FrameOp.apply, hm, done_count]
  | draw now => exact done_count_map_done c q.current (now % 4294967296)

theorem frame_run_append (sid : Nat) (a b : List FrameOp) (q : QueueState) :
    frame_run sid (a ++ b) q =
      ((frame_run sid b (frame_run sid a q).1).1,
       (frame_run sid a q).2 ++ (frame_run sid b (frame_run sid a q).1).2) := by
  induction a generalizing q with
  | nil => simp [frame_run]
  | cons op rest ih => simp [frame_run, ih, List.append_assoc]

theorem requested_append (a b : List FrameOp) :
    requested (a ++ b) = requested a ++ requested b := by
  induction a with
  | nil => rfl
  | cons op rest ih => cases op <;> simp [requested, ih]

theorem frame_run_facts (sid : Nat) (ops : List FrameOp) (q : QueueState)
    (h : (requested ops ++ q.pending ++ q.current).Nodup) :
    ((frame_run sid ops q).1.pending ++ (frame_run sid ops q).1.current).Nodup ∧
    (∀ c, c ∈ (frame_run sid ops q).1.pending ++ (frame_run sid ops q).1.current →
      c ∈ requested ops ++ q.pending ++ q.current ∧ done_count c (frame_run sid ops q).2 = 0) ∧
    (∀ c, done_count c (frame_run sid ops q).2 ≤ 1) ∧
    (∀ c, c ∉ requested ops ++ q.pending ++ q.current →
      done_count c (frame_run sid ops q).2 = 0) := by
  induction ops generalizing q with
  | nil =>
    simp only [frame_run, requested, List.nil_append] at h ⊢
    exact ⟨h, fun c hc => ⟨hc, rfl⟩, fun c => Nat.zero_le _, fun c _ => rfl⟩
  | cons op rest ih =>
    cases op with
    | frame a =>
      have h1 : (requested rest ++ (a :: q.pending) ++ q.current).Nodup := by
        refine (List.Perm.nodup_iff ?_).mp h
        simp only [requested, List.cons_append, List.append_assoc]
        exact List.perm_middle.symm
      obtain ⟨i1, i2, i3, i4⟩ := ih { q with pending := a :: q.pending } h1
      simp only [frame_run, FrameOp.apply, List.nil_append, requested]
      refine ⟨i1, ?_, i3, ?_⟩
      · intro c hc
        obtain ⟨m, z⟩ := i2 c hc
        refine ⟨?_, z⟩
        simp only [List.mem_append, List.mem_cons] at m ⊢
        tauto
      · intro c hc
        apply i4
        simp only [List.mem_append, List.mem_cons] at hc ⊢
        tauto
    | commit =>
      have h1 : (requested rest ++ ([] : List Nat) ++ (q.pending ++ q.current)).Nodup := by
        simpa [requested, List.append_assoc] using h
      obtain ⟨i1, i2, i3, i4⟩ :=
        ih { pending := [], current := q.pending ++ q.current, mapped := true } h1
      have hz : ∀ c, done_count c (FrameOp.apply sid .commit q).2 = 0 := fun c =>
        done_count_apply sid c .commit q
      have hq : (FrameOp.apply sid .commit q).1 =
          { pending := [], current := q.pending ++ q.current, mapped := true } := rfl
      simp only [frame_run, requested, done_count_append, hz, Nat.zero_add, hq]
      refine ⟨i1, ?_, i3, ?_⟩
      · intro c hc
        obtain ⟨m, z⟩ := i2 c hc
        refine ⟨?_, z⟩
        simp only [List.mem_append, List.append_nil] at m ⊢
        simpa [List.mem_append, or_assoc] using m
      · intro c hc
        apply i4
        simpa [List.mem_append, or_assoc] using hc
    | draw now =>
      have h0 : (requested rest ++ q.pending ++ q.current).Nodup := by
        simpa [requested] using h
      have h1 : (requested rest ++ q.pending ++ ([] : List Nat)).Nodup := by
        simpa using (List.nodup_append.mp h0).1
      have hdis : ∀ c, c ∈ q.current → c ∉ requested rest ++ q.pending := fun c hc hm =>
        (List.nodup_append.mp h0).2.2 hm hc
      have hcur : q.current.Nodup := (List.nodup_append.mp h0).2.1
      obtain ⟨i1, i2, i3, i4⟩ := ih { q with current := [] } h1
      have hz : ∀ c, done_count c (FrameOp.apply sid (.draw now) q).2 = q.current.count c :=
        fun c => done_count_apply sid c (.draw now) q
      have hq : (FrameOp.apply sid (.draw now) q).1 = { q with current := [] } := rfl
      simp only [frame_run, requested, done_count_append, hz, hq]
      refine ⟨i1, ?_, ?_, ?_⟩
      · intro c hc
        obtain ⟨m, z⟩ := i2 c hc
        have m1 : c ∈ requested rest ++ q.pending := by simpa using m
        refine ⟨List.mem_append_left _ m1, ?_⟩
        rw [z, Nat.add_zero]
        exact List.count_eq_zero_of_not_mem fun hc1 => hdis c hc1 m1
      · intro c
        by_cases hc : c ∈ q.current
        · have : done_count c (frame_run sid rest { q with current := [] }).2 = 0 :=
            i4 c (by simpa using hdis c hc)
          rw [this, Nat.add_zero]
          exact List.nodup_iff_count_le_one.mp hcur c
        · rw [List.count_eq_zero_of_not_mem hc, Nat.zero_add]
          exact i3 c
      · intro c hc
        have hc1 : c ∉ q.current := fun hm => hc (List.mem_append_right _ hm)
        have hc2 : c ∉ requested rest ++ q.pending ++ ([] : List Nat) := by
          intro hm
          exact hc (List.mem_append_left _ (by simpa using hm))
        rw [List.count_eq_zero_of_not_mem hc1, i4 c hc2]

theorem frame_run_pending_stays (sid : Nat) (c : Nat) (ops : List FrameOp) (q : QueueState)
    (hno : FrameOp.commit ∉ ops) (hc : c ∈ q.pending) :
    c ∈ (frame_run sid ops q).1.pending := by
  induction ops generalizing q with
  | nil => exact hc
  | cons op rest ih =>
    have hrest : FrameOp.commit ∉ rest := fun h => hno (List.mem_cons_of_mem _ h)
    cases op with
    | frame a => exact ih _ hrest (List.mem_cons_of_mem _ hc)
    | commit => exact absurd (List.mem_cons_self _ _) hno
    | draw now => exact ih _ hrest hc

theorem frame_run_current_stays (sid : Nat) (c : Nat) (ops : List FrameOp) (q : QueueState)
    (hno : ∀ t, FrameOp.draw t ∉ ops) (hc : c ∈ q.current) :
    c ∈ (frame_run sid ops q).1.current := by
  induction ops generalizing q with
  | nil => exact hc
  | cons op rest ih =>
    have hrest : ∀ t, FrameOp.draw t ∉ rest := fun t h => hno t (List.mem_cons_of_mem _ h)
    cases op with
    | frame a => exact ih _ hrest hc
    | commit => exact ih _ hrest (List.mem_append_right _ hc)
    | draw now => exact absurd (List.mem_cons_self _ _) (hno now)

theorem draw_paint_ok {w : World} {s : WakefieldSurface} {painted : List Event}
    (h : wakefield_surface_draw_paint w s = .ok painted) :
    painted.length ≤ 1 ∧ ∀ e ∈ painted, ∃ b k x y, e = Event.paint b k x y := by
  unfold wakefield_surface_draw_paint at h
  split at h
  · cases h; simp
  · split at h
    · cases h; simp
    · split at h
      · cases h; simp
      · simp only [bind_eq_ok, pure_eq_ok] at h
        obtain ⟨_, _, rfl⟩ := h
        simp

theorem wakefield_surface_draw_ok {w w1 : World} {sid : Nat} {now : Int}
    {s : WakefieldSurface} {evs : List Event} (hs : w.surfaces sid = some s)
    (h : wakefield_surface_draw w sid now = .ok (w1, evs)) :
    w1.surfaces sid =
      some { s with current := { s.current with frame_callbacks := [] } } ∧
    ∃ painted : List Event, painted.length ≤ 1 ∧ (∀ e ∈ painted, ∃ b k x y, e = .paint b k x y) ∧
      evs = painted ++
        s.current.frame_callbacks.map (fun c => Event.callback_done c (now % 4294967296)) := by
  unfold wakefield_surface_draw at h
  simp only [bind_eq_ok, deref_eq_ok, hs, pure_eq_ok, Prod.mk.injEq] at h
  obtain ⟨s0, hs0, painted, hp, rfl, rfl⟩ := h
  cases hs0
  obtain ⟨h1, h2⟩ := draw_paint_ok hp
  exact ⟨by simp [surfaces_setSurface_same, wl_list_init], painted, h1, h2, rfl⟩

theorem count_map_done (c : Nat) (l : List Nat) (now : Int) :
    (l.map (fun x => Event.callback_done x now)).count (Event.callback_done c now) =
      l.count c := by
  induction l with
  | nil => rfl
  | cons a rest ih =>
    simp only [List.map_cons, List.count_cons, ih]
    simp

/-! ## Runs of client requests -/

/-- A run of client requests that returns leads from a client-reachable world
to a client-reachable world. -/
theorem client_reachable_run {fuel : Nat} {reqs : List Request} :
    ∀ {w w1 : World} {evs : List Event}, ClientReachable w →
      (∀ r ∈ reqs, r.fromClient = true) → run fuel w reqs = .ok (w1, evs) →
      ClientReachable w1 := by
  induction reqs with
  | nil =>
    intro w w1 evs hw _ h
    simp only [run, Except.ok.injEq, Prod.mk.injEq] at h
    exact h.1 ▸ hw
  | cons r rest ih =>
    intro w w1 evs hw hall h
    simp only [run, bind_eq_ok, pure_eq_ok, Prod.mk.injEq] at h
    obtain ⟨first, hfirst, others, hothers, rfl, _⟩ := h
    exact ih (ClientReachable.step fuel r (hall r (List.mem_cons_self _ _)) hw hfirst)
      (fun q hq => hall q (List.mem_cons_of_mem _ hq)) hothers

/-- A client-reachable world is reachable. -/
theorem ClientReachable.reachable {w : World} (h : ClientReachable w) : Reachable w := by
  induction h with
  | empty allocation => exact Reachable.empty allocation
  | step fuel r _ _ hstep ih => exact Reachable.step fuel r ih hstep

/-- On a newly created surface, over every sequence of frame-callback
requests (with distinct callbacks), commits and draws, the run returns and
every callback is signalled done at most once; a callback requested, then
committed (first commit after the request), then drawn (first draw after
that commit) is signalled exactly once, by that draw, and neither before nor
after it.  On every surface state, a returning commit moves the pending
callbacks into the current queue keeping each exactly as often as it was
there and signals none, and a returning draw signals each callback of the
current queue once, all with the time of the draw as a 32-bit unsigned number,
and empties the queue. -/
theorem frame_callbacks_signalled_once (fuel : Nat) (w : World) (ops : List FrameOp)
    (hnodup : (requested ops).Nodup) :
    (∃ w1 evs,
      run fuel (wakefield_surface_new w).1 (ops.map (FrameOp.request w.next)) = .ok (w1, evs) ∧
      ∀ c, done_count c evs ≤ 1) ∧
    (∀ (pre : List FrameOp) (c : Nat) (mid1 mid2 : List FrameOp) (now : Int)
        (post : List FrameOp),
      ops = pre ++ [FrameOp.frame c] ++ mid1 ++ [FrameOp.commit] ++ mid2 ++
        [FrameOp.draw now] ++ post →
      FrameOp.commit ∉ mid1 → (∀ t, FrameOp.draw t ∉ mid2) →
      ∃ wa ea wb eb wc ec,
        run fuel (wakefield_surface_new w).1
          ((pre ++ [FrameOp.frame c] ++ mid1 ++ [FrameOp.commit] ++ mid2).map
            (FrameOp.request w.next)) =
            .ok (wa, ea) ∧
        wakefield_surface_draw wa w.next now = .ok (wb, eb) ∧
        run fuel wb (post.map (FrameOp.request w.next)) = .ok (wc, ec) ∧
        run fuel (wakefield_surface_new w).1 (ops.map (FrameOp.request w.next)) =
          .ok (wc, ea ++ eb ++ ec) ∧
        done_count c ea = 0 ∧ eb.count (.callback_done c (now % 4294967296)) = 1 ∧
        done_count c eb = 1 ∧
        done_count c ec = 0) ∧
    (∀ (w0 w1 : World) (sid : Nat) (s : WakefieldSurface) (evs : List Event),
      w0.surfaces sid = some s → wl_surface_commit fuel w0 sid = .ok (w1, evs) →
      ∃ s1, w1.surfaces sid = some s1 ∧ s1.pending.frame_callbacks = [] ∧
        (∀ c, s1.current.frame_callbacks.count c =
          s.pending.frame_callbacks.count c + s.current.frame_callbacks.count c) ∧
        ∀ c, done_count c evs = 0) ∧
    (∀ (w0 w1 : World) (sid : Nat) (s : WakefieldSurface) (now : Int) (evs : List Event),
      w0.surfaces sid = some s → wakefield_surface_draw w0 sid now = .ok (w1, evs) →
      (∀ c, done_count c evs = s.current.frame_callbacks.count c) ∧
      (∀ c t, Event.callback_done c t ∈ evs → t = now % 4294967296) ∧
      ∃ s1, w1.surfaces sid = some s1 ∧ s1.current.frame_callbacks = []) := by
  have hs0 : (wakefield_surface_new w).1.surfaces w.next =
      some (plain_surface { pending := [], current := [], mapped := false }) := by
    simp [wakefield_surface_new, plain_surface, new_surface, wl_list_init]
  refine ⟨?_, ?_, ?_, ?_⟩
  · obtain ⟨w1, hr, _⟩ := run_plain fuel w.next ops _ _ hs0
    exact ⟨w1, _, hr, (frame_run_facts w.next ops _ (by simpa using hnodup)).2.2.1⟩
  · intro pre c mid1 mid2 now post hops hmid1 hmid2
    have hreq : requested ops =
        requested (pre ++ [.frame c] ++ mid1 ++ [.commit] ++ mid2) ++ requested post := by
      rw [hops]
      simp [requested_append, requested]
    rw [hreq] at hnodup
    obtain ⟨nA, nP, ndis⟩ := List.nodup_append.mp hnodup
    obtain ⟨wa, hA, hsa⟩ :=
      run_plain fuel w.next (pre ++ [.frame c] ++ mid1 ++ [.commit] ++ mid2) _ _ hs0
    obtain ⟨f1, f2, _, _⟩ :=
      frame_run_facts w.next (pre ++ [.frame c] ++ mid1 ++ [.commit] ++ mid2)
        { pending := [], current := [], mapped := false } (by simpa using nA)
    have hcur : c ∈ (frame_run w.next (pre ++ [.frame c] ++ mid1 ++ [.commit] ++ mid2)
        { pending := [], current := [], mapped := false }).1.current := by
      simp only [frame_run_append]
      apply frame_run_current_stays _ _ _ _ hmid2
      simp only [frame_run, FrameOp.apply]
      apply List.mem_append_left
      apply frame_run_pending_stays _ _ _ _ hmid1
      exact List.mem_cons_self _ _
    obtain ⟨hcreq, hcea⟩ := f2 c (List.mem_append_right _ hcur)
    obtain ⟨wb, hB, hsb⟩ := step_plain fuel wa w.next _ (.draw now) hsa
    obtain ⟨wc, hC, _⟩ := run_plain fuel w.next post wb _ hsb
    obtain ⟨nPq, nCq, dPC⟩ := List.nodup_append.mp f1
    have hpost : (requested post ++
        (FrameOp.apply w.next (.draw now)
          (frame_run w.next (pre ++ [.frame c] ++ mid1 ++ [.commit] ++ mid2)
            { pending := [], current := [], mapped := false }).1).1.pending ++
        (FrameOp.apply w.next (.draw now)
          (frame_run w.next (pre ++ [.frame c] ++ mid1 ++ [.commit] ++ mid2)
            { pending := [], current := [], mapped := false }).1).1.current).Nodup := by
      simp only [FrameOp.apply, List.append_nil]
      refine List.nodup_append.mpr ⟨nP, nPq, ?_⟩
      intro x hx hxp
      have := (f2 x (List.mem_append_left _ hxp)).1
      exact ndis (by simpa using this) hx
    have hcnot : c ∉ requested post ++
        (FrameOp.apply w.next (.draw now)
          (frame_run w.next (pre ++ [.frame c] ++ mid1 ++ [.commit] ++ mid2)
            { pending := [], current := [], mapped := false }).1).1.pending ++
        (FrameOp.apply w.next (.draw now)
          (frame_run w.next (pre ++ [.frame c] ++ mid1 ++ [.commit] ++ mid2)
            { pending := [], current := [], mapped := false }).1).1.current := by
      simp only [FrameOp.apply, List.append_nil, List.mem_append, not_or]
      exact ⟨fun h => ndis (by simpa using hcreq) h, fun h => dPC h hcur⟩
    have hec := (frame_run_facts w.next post _ hpost).2.2.2 c hcnot
    have hcount : List.count c (frame_run w.next (pre ++ [.frame c] ++ mid1 ++ [.commit] ++ mid2)
        { pending := [], current := [], mapped := false }).1.current = 1 :=
      List.count_eq_one_of_mem nCq hcur
    refine ⟨wa, _, wb, _, wc, _, hA, hB, hC, ?_, hcea, ?_, ?_, hec⟩
    · rw [hops, List.map_append, List.map_append, run_append, run_append, hA]
      simp only [bind, Except.bind, List.map_cons, List.map_nil, run_cons, run_nil, pure,
        Except.pure, List.append_nil]
      have hB1 : step fuel wa (FrameOp.request w.next (.draw now)) = _ := hB
      rw [hB1]
      simp only [hC]
    · simp only [FrameOp.apply]
      rw [count_map_done, hcount]
    · rw [done_count_apply]
      exact hcount
  · intro w0 w1 sid s evs hs h
    obtain ⟨mid, hmid, hs1, hevs⟩ := wl_surface_commit_ok hs h
    refine ⟨_, hs1, rfl, fun c => by simp [List.count_append], fun c => ?_⟩
    rw [hevs]
    rcases hmid with ⟨_, rfl⟩ | ⟨_, d, rfl⟩ <;>
      cases s.pending.buffer <;> cases s.current.buffer <;> cases s.mapped <;>
        simp [done_count]
  · intro w0 w1 sid s now evs hs h
    obtain ⟨hs1, painted, _, hp, rfl⟩ := wakefield_surface_draw_ok hs h
    have hpz : ∀ c, done_count c painted = 0 := by
      intro c
      simp only [done_count, List.countP_eq_zero]
      intro e he
      obtain ⟨b, k, x, y, rfl⟩ := hp e he
      simp
    refine ⟨fun c => ?_, fun c t hm => ?_, _, hs1, rfl⟩
    · rw [done_count_append, hpz, Nat.zero_add, done_count_map_done]
    · rcases List.mem_append.mp hm with h1 | h1
      · obtain ⟨b, k, x, y, h2⟩ := hp _ h1
        cases h2
      · obtain ⟨a, _, h2⟩ := List.mem_map.mp h1
        cases h2
        rfl

/-- C3 (defect): after the client requests `create_surface, attach A, commit,
set_buffer_scale 0, attach B, frame 7` the surface has callback 7 pending, the
current shared-memory buffer `A`, the pending shared-memory buffer `B` and the
pending scale 0, and no callback was signalled; the commit that follows divides
by that scale (line 498) and does not return, whatever the fuel, so callback 7
is never moved into the current queue, and no draw, before the commit or in a
run with the commit, signals it. -/
theorem C3_commit_moves_no_callback :
    zero_scale_frame_requests.all (fun r => r.fromClient) = true ∧
    ∃ w evs s,
      run 0 world0 zero_scale_frame_requests = .ok (w, evs) ∧ ClientReachable w ∧
      done_count 7 evs = 0 ∧
      w.surfaces 0 = some s ∧ s.pending.frame_callbacks = [7] ∧
      s.current.frame_callbacks = [] ∧ s.pending.scale = 0 ∧
      (∀ fuel, step fuel w (.commit 0) = .error .undefined) ∧
      (∀ fuel now, run fuel w [.commit 0, .draw 0 now] = .error .undefined) ∧
      (∀ fuel now, ∃ w1 evs1, step fuel w (.draw 0 now) = .ok (w1, evs1) ∧
        done_count 7 evs1 = 0) := by
  have hall : ∀ r ∈ zero_scale_frame_requests, r.fromClient = true := by decide
  obtain ⟨w, evs, hrun, hrest⟩ : ∃ w evs, run 0 world0 zero_scale_frame_requests = .ok (w, evs) ∧
      done_count 7 evs = 0 ∧
      ∃ s, w.surfaces 0 = some s ∧ s.pending.frame_callbacks = [7] ∧
      s.current.frame_callbacks = [] ∧ s.pending.scale = 0 ∧
      (∀ fuel, step fuel w (.commit 0) = .error .undefined) ∧
      (∀ fuel now, run fuel w [.commit 0, .draw 0 now] = .error .undefined) ∧
      (∀ fuel now, ∃ w1 evs1, step fuel w (.draw 0 now) = .ok (w1, evs1) ∧
        done_count 7 evs1 = 0) :=
    ⟨_, _, rfl, rfl, _, rfl, rfl, rfl, rfl, fun _ => rfl, fun _ _ => rfl,
      fun _ _ => ⟨_, _, rfl, rfl⟩⟩
  obtain ⟨hdone, s, hs⟩ := hrest
  exact ⟨by decide, w, evs, s, hrun, client_reachable_run (ClientReachable.empty _) hall hrun,
    hdone, hs⟩

/-- C4 (defect): after `create_surface, set_buffer_scale 2, attach A, commit,
set_buffer_scale 0, attach B` the surface has current scale 2 and pending
scale 0, a value that is not `> 0`; the commit that follows does not leave
the current scale at 2 but divides by the pending scale and does not
return. -/
theorem C4_commit_with_zero_pending_scale_faults :
    ∃ w evs s,
      run 0 world0 [.create_surface, .set_buffer_scale 0 2, .attach 0 (some bufferA) 0 0,
        .commit 0, .set_buffer_scale 0 0, .attach 0 (some bufferB) 0 0] = .ok (w, evs) ∧
      w.surfaces 0 = some s ∧ s.current.scale = 2 ∧ s.pending.scale = 0 ∧
      faultOf (wl_surface_commit 0 w 0) = some .undefined :=
  ⟨_, _, _, rfl, rfl, rfl, rfl, rfl⟩

/-- C5 (defect): on a new surface, `set_buffer_scale 2, commit` gives current
scale 2, and a second commit with no scale request in between brings the
current scale back to 1, because the first commit reset the pending scale to
1 and 1 is `> 0`. -/
theorem C5_scale_lost_by_second_commit :
    ∃ w1 e1 s1 w2 e2 s2,
      run 0 world0 [.create_surface, .set_buffer_scale 0 2, .commit 0] = .ok (w1, e1) ∧
      w1.surfaces 0 = some s1 ∧ s1.current.scale = 2 ∧ s1.pending.scale = 1 ∧
      wl_surface_commit 0 w1 0 = .ok (w2, e2) ∧
      w2.surfaces 0 = some s2 ∧ s2.current.scale = 1 :=
  ⟨_, _, _, _, _, _, rfl, rfl, rfl, rfl, rfl, rfl, rfl⟩

/-- C6 (defect): after `create_surface, attach A, commit, get_xdg_surface,
unrealize, set_buffer_scale 0, attach B` the surface is unmapped, with a
current and a pending shared-memory buffer and pending scale 0; the commit
that follows does not return, so the surface stays unmapped and neither
`surface_mapped` nor `committed` is sent. -/
theorem C6_commit_of_unmapped_surface_faults :
    ∃ w evs s,
      run 0 world0 [.create_surface, .attach 0 (some bufferA) 0 0, .commit 0,
        .get_xdg_surface 0, .unrealize 1, .set_buffer_scale 0 0,
        .attach 0 (some bufferB) 0 0] = .ok (w, evs) ∧
      w.surfaces 0 = some s ∧ s.mapped = false ∧
      faultOf (wl_surface_commit 0 w 0) = some .undefined :=
  ⟨_, _, _, rfl, rfl, rfl, rfl⟩

/-- C7 (counterexample): the newly created surface of `world1` is unmapped
and never had a buffer; its commit returns, leaves it mapped and sends
`surface_mapped`. -/
theorem C7_counterexample :
    ∃ w evs s,
      world1.surfaces 0 = some new_surface ∧ new_surface.mapped = false ∧
      new_surface.current.buffer = none ∧ new_surface.pending.buffer = none ∧
      wl_surface_commit 0 world1 0 = .ok (w, evs) ∧
      w.surfaces 0 = some s ∧ s.mapped = true ∧ Event.surface_mapped 0 ∈ evs :=
  ⟨_, _, _, rfl, rfl, rfl, rfl, rfl, rfl, rfl, by decide⟩

/-- C7 (amended): for every unmapped surface that has neither a current nor a
pending buffer, a commit that returns leaves the damage region empty, leaves
the surface mapped and sends exactly one `surface_mapped`; the commit does
return when no popup is bound to the surface. -/
theorem C7_commit_without_buffer_maps (fuel : Nat) (w : World) (resource : Nat)
    (s : WakefieldSurface) (hs : w.surfaces resource = some s) (hm : s.mapped = false)
    (hc : s.current.buffer = none) (hp : s.pending.buffer = none) :
    (s.xdg_popup = none → ∃ r, wl_surface_commit fuel w resource = .ok r) ∧
    (∀ w1 evs, wl_surface_commit fuel w resource = .ok (w1, evs) →
      ∃ s1, w1.surfaces resource = some s1 ∧ s1.damage = ∅ ∧ s1.mapped = true ∧
        evs.count (Event.surface_mapped resource) = 1) := by
  constructor
  · intro hx
    exact wl_surface_commit_returns fuel hs (by simp [commit_divisors_nonzero, hc]) hx
  · intro w1 evs h
    obtain ⟨mid, hmid, hs1, hevs⟩ := wl_surface_commit_ok hs h
    refine ⟨_, hs1, rfl, rfl, ?_⟩
    rw [hevs]
    rcases hmid with ⟨_, rfl⟩ | ⟨_, d, rfl⟩ <;> simp [hm, hc, hp]

/-- C7 (amended), witness: the newly created surface of `world1`. -/
theorem C7_commit_without_buffer_maps_witness :
    (new_surface.xdg_popup = none → ∃ r, wl_surface_commit 0 world1 0 = .ok r) ∧
    (∀ w1 evs, wl_surface_commit 0 world1 0 = .ok (w1, evs) →
      ∃ s1, w1.surfaces 0 = some s1 ∧ s1.damage = ∅ ∧ s1.mapped = true ∧
        evs.count (Event.surface_mapped 0) = 1) :=
  C7_commit_without_buffer_maps 0 world1 0 new_surface rfl rfl rfl rfl

/-! ## What every request keeps -/

theorem SurfaceKeeps.same (s : WakefieldSurface) : SurfaceKeeps s s :=
  ⟨fun _ => rfl, fun h => Or.inl h, fun h => Or.inl h, fun h => h⟩

theorem SurfaceKeeps.andThen {s s1 s2 : WakefieldSurface} (h1 : SurfaceKeeps s s1)
    (h2 : SurfaceKeeps s1 s2) : SurfaceKeeps s s2 := by
  obtain ⟨a1, b1, c1, d1⟩ := h1
  obtain ⟨a2, b2, c2, d2⟩ := h2
  refine ⟨fun h => ?_, fun h => ?_, fun h => ?_, fun h => d2 (d1 h)⟩
  · have := a1 h
    rw [a2 (by rw [this]; exact h), this]
  · rcases b2 h with h3 | h3
    · rcases b1 h3 with h4 | h4
      · exact Or.inl h4
      · exact Or.inr (by rw [a2 (by rw [h4]; decide), h4])
    · exact Or.inr h3
  · rcases c2 h with h3 | h3
    · rcases c1 h3 with h4 | h4
      · exact Or.inl h4
      · exact Or.inr (by rw [a2 (by rw [h4]; decide), h4])
    · exact Or.inr h3

theorem Keeps.refl (w : World) : Keeps w w :=
  ⟨Nat.le_refl _, fun _ s1 h => ⟨s1, h, SurfaceKeeps.same s1⟩⟩

theorem Keeps.trans {w w1 w2 : World} (h1 : Keeps w w1) (h2 : Keeps w1 w2) : Keeps w w2 := by
  refine ⟨Nat.le_trans h1.1 h2.1, fun a s2 hs2 => ?_⟩
  obtain ⟨s1, hs1, k2⟩ := h2.2 a s2 hs2
  obtain ⟨s, hs, k1⟩ := h1.2 a s1 hs1
  exact ⟨s, hs, k1.andThen k2⟩

theorem Keeps.of_eq {w w1 : World} (hs : w1.surfaces = w.surfaces) (hn : w.next ≤ w1.next) :
    Keeps w w1 :=
  ⟨hn, fun a s1 h => ⟨s1, by rw [← hs]; exact h, SurfaceKeeps.same s1⟩⟩

theorem Keeps.setSurface {w : World} {a : Nat} {s s1 : WakefieldSurface}
    (hs : w.surfaces a = some s) (hk : SurfaceKeeps s s1) :
    Keeps w (w.setSurface a (some s1)) := by
  refine ⟨Nat.le_refl _, fun b t ht => ?_⟩
  rw [surfaces_setSurface] at ht
  split at ht
  · rename_i hb
    cases ht
    exact ⟨s, by rw [hb]; exact hs, hk⟩
  · exact ⟨t, ht, SurfaceKeeps.same t⟩

theorem Keeps.removeSurface (w : World) (a : Nat) : Keeps w (w.setSurface a none) := by
  refine ⟨Nat.le_refl _, fun b t ht => ?_⟩
  rw [surfaces_setSurface] at ht
  split at ht
  · cases ht
  · exact ⟨t, ht, SurfaceKeeps.same t⟩

theorem Keeps.toStepKeeps {w w1 : World} (h : Keeps w w1) : StepKeeps w w1 :=
  ⟨h.1, fun a s1 hs1 => Or.inl (h.2 a s1 hs1)⟩

theorem keeps_unmap {w w1 : World} {p : Nat} {evs : List Event}
    (h : wl_surface_unmap w p = .ok (w1, evs)) : Keeps w w1 := by
  unfold wl_surface_unmap at h
  simp only [bind_eq_ok, deref_eq_ok] at h
  obtain ⟨s, hs, h⟩ := h
  split at h
  · simp only [pure_eq_ok, Prod.mk.injEq] at h
    obtain ⟨rfl, _⟩ := h
    exact Keeps.setSurface hs (SurfaceKeeps.same s)
  · simp only [pure_eq_ok, Prod.mk.injEq] at h
    obtain ⟨rfl, _⟩ := h
    exact Keeps.refl _

theorem keeps_unmap_if_linked {w w1 : World} {p : Option Nat} {evs : List Event}
    (h : unmap_if_linked w p = .ok (w1, evs)) : Keeps w w1 := by
  cases p with
  | none =>
    simp only [unmap_if_linked, Except.ok.injEq, Prod.mk.injEq] at h
    obtain ⟨rfl, _⟩ := h
    exact Keeps.refl _
  | some a => exact keeps_unmap h

theorem keeps_clear_xdg_surface_surface {w w1 : World} {p : Option Nat}
    (h : clear_xdg_surface_surface w p = .ok w1) : Keeps w w1 := by
  cases p with
  | none => cases h; exact Keeps.refl _
  | some a =>
    simp only [clear_xdg_surface_surface, bind_eq_ok, deref_eq_ok, pure_eq_ok] at h
    obtain ⟨x, _, rfl⟩ := h
    exact Keeps.of_eq rfl (Nat.le_refl _)

theorem keeps_clear_xdg_toplevel_surface {w w1 : World} {p : Option Nat}
    (h : clear_xdg_toplevel_surface w p = .ok w1) : Keeps w w1 := by
  cases p with
  | none => cases h; exact Keeps.refl _
  | some a =>
    simp only [clear_xdg_toplevel_surface, bind_eq_ok, deref_eq_ok, pure_eq_ok] at h
    obtain ⟨x, _, rfl⟩ := h
    exact Keeps.of_eq rfl (Nat.le_refl _)

theorem keeps_clear_xdg_popup_surface {w w1 : World} {p : Option Nat}
    (h : clear_xdg_popup_surface w p = .ok w1) : Keeps w w1 := by
  cases p with
  | none => cases h; exact Keeps.refl _
  | some a =>
    simp only [clear_xdg_popup_surface, bind_eq_ok, deref_eq_ok, pure_eq_ok] at h
    obtain ⟨x, _, rfl⟩ := h
    exact Keeps.of_eq rfl (Nat.le_refl _)

theorem keeps_clear_surface_xdg_surface {w w1 : World} {p : Option Nat}
    (h : clear_surface_xdg_surface w p = .ok w1) : Keeps w w1 := by
  cases p with
  | none => cases h; exact Keeps.refl _
  | some a =>
    simp only [clear_surface_xdg_surface, bind_eq_ok, deref_eq_ok, pure_eq_ok] at h
    obtain ⟨s, hs, rfl⟩ := h
    exact Keeps.setSurface hs ⟨fun _ => rfl, fun h => Or.inl h, fun h => Or.inl h, fun h => h⟩

theorem keeps_clear_surface_xdg_toplevel {w w1 : World} {p : Option Nat}
    (h : clear_surface_xdg_toplevel w p = .ok w1) : Keeps w w1 := by
  cases p with
  | none => cases h; exact Keeps.refl _
  | some a =>
    simp only [clear_surface_xdg_toplevel, bind_eq_ok, deref_eq_ok, pure_eq_ok] at h
    obtain ⟨s, hs, rfl⟩ := h
    exact Keeps.setSurface hs
      ⟨fun _ => rfl, fun h => Or.inl h, fun h => absurd rfl h, fun h => h⟩

theorem keeps_clear_surface_xdg_popup {w w1 : World} {p : Option Nat}
    (h : clear_surface_xdg_popup w p = .ok w1) : Keeps w w1 := by
  cases p with
  | none => cases h; exact Keeps.refl _
  | some a =>
    simp only [clear_surface_xdg_popup, bind_eq_ok, deref_eq_ok, pure_eq_ok] at h
    obtain ⟨s, hs, rfl⟩ := h
    exact Keeps.setSurface hs
      ⟨fun _ => rfl, fun h => absurd rfl h, fun h => Or.inl h, fun h => h⟩

theorem compute_allocation_surfaces {fuel : Nat} {w w1 : World} {p : Nat} {u : Bool}
    (h : xdg_popup_compute_allocation fuel w p u = .ok w1) :
    w1.surfaces = w.surfaces ∧ w1.next = w.next ∧ w1.xdg_surfaces = w.xdg_surfaces ∧
      w1.allocation = w.allocation := by
  simp only [xdg_popup_compute_allocation, bind_eq_ok, deref_eq_ok, pure_eq_ok] at h
  obtain ⟨_, _, _, _, _, _, _, _, rfl⟩ := h
  exact ⟨rfl, rfl, rfl, rfl⟩

theorem Keeps.setSurface_of_eq {w w2 : World} {a : Nat} {s s1 : WakefieldSurface}
    (hsurf : w2.surfaces = w.surfaces) (hn : w.next ≤ w2.next) (hs : w.surfaces a = some s)
    (hk : SurfaceKeeps s s1) : Keeps w (w2.setSurface a (some s1)) :=
  (Keeps.of_eq hsurf hn).trans (Keeps.setSurface (by rw [hsurf]; exact hs) hk)

theorem keeps_process_damage {fuel : Nat} {w w1 : World} {resource : Nat} {evs : List Event}
    (h : wl_surface_commit_process_damage fuel w resource = .ok (w1, evs)) : Keeps w w1 := by
  unfold wl_surface_commit_process_damage at h
  simp only [bind_eq_ok, deref_eq_ok] at h
  obtain ⟨s, hs, h⟩ := h
  have hk : ∀ d, SurfaceKeeps s { s with damage := d } := fun d =>
    ⟨fun _ => rfl, fun h => Or.inl h, fun h => Or.inl h, fun h => h⟩
  split at h
  · simp only [pure_eq_ok, Prod.mk.injEq] at h
    obtain ⟨rfl, _⟩ := h
    exact Keeps.refl _
  · split at h
    · simp only [pure_eq_ok, Prod.mk.injEq] at h
      obtain ⟨rfl, _⟩ := h
      exact Keeps.setSurface hs (hk _)
    · simp only [bind_eq_ok, pure_eq_ok, Prod.mk.injEq] at h
      obtain ⟨w2, hca, p, _, x, _, rfl, _⟩ := h
      obtain ⟨e1, e2, _, _⟩ := compute_allocation_surfaces hca
      have k1 : Keeps w w2 := Keeps.of_eq e1 (Nat.le_of_eq e2.symm)
      refine k1.trans ?_
      cases hw : x.window with
      | none => exact Keeps.setSurface (by rw [e1]; exact hs) (hk _)
      | some win =>
        dsimp only
        exact Keeps.setSurface_of_eq rfl (Nat.le_refl _) (by rw [e1]; exact hs) (hk _)

theorem keeps_commit {fuel : Nat} {w w1 : World} {resource : Nat} {evs : List Event}
    (h : wl_surface_commit fuel w resource = .ok (w1, evs)) : Keeps w w1 := by
  unfold wl_surface_commit at h
  simp only [bind_eq_ok, deref_eq_ok, pure_eq_ok, Prod.mk.injEq] at h
  obtain ⟨s, hs, cr, _, ⟨s1, cr1, rel⟩, hbuf, ⟨w2, mid⟩, hpd, s3, hs3, rfl, _⟩ := h
  have hs1 := (commit_buffer_ok hbuf).1
  have k1 : Keeps w (w.setSurface resource (some (wl_surface_commit_state s1 cr1))) :=
    Keeps.setSurface hs (by
      rw [hs1]
      refine ⟨fun _ => rfl, fun h => Or.inl h, fun h => Or.inl h, fun h => ?_⟩
      simp only [wl_surface_commit_state]
      split
      · assumption
      · exact h)
  refine (k1.trans (keeps_process_damage hpd)).trans ?_
  refine Keeps.setSurface hs3 ?_
  unfold wl_surface_commit_finish
  cases s3.mapped <;> exact ⟨fun _ => rfl, fun h => Or.inl h, fun h => Or.inl h, fun h => h⟩

theorem keeps_surface_finalize {w w1 : World} {resource : Nat} {evs : List Event}
    (h : wl_surface_finalize w resource = .ok (w1, evs)) : Keeps w w1 := by
  unfold wl_surface_finalize at h
  simp only [bind_eq_ok, deref_eq_ok, pure_eq_ok, Prod.mk.injEq] at h
  obtain ⟨⟨wu, eu⟩, hu, s, _, wa, ha, wb, hb, wc, hc, rfl, _⟩ := h
  exact (((keeps_unmap hu).trans (keeps_clear_xdg_surface_surface ha)).trans
    (keeps_clear_xdg_toplevel_surface hb)).trans
    ((keeps_clear_xdg_popup_surface hc).trans (Keeps.removeSurface _ _))

theorem keeps_unrealize {w w1 : World} {resource : Nat} {evs : List Event}
    (h : wakefield_xdg_surface_unrealize w resource = .ok (w1, evs)) : Keeps w w1 := by
  unfold wakefield_xdg_surface_unrealize at h
  simp only [bind_eq_ok, deref_eq_ok] at h
  obtain ⟨x, _, ⟨wu, eu⟩, hu, h⟩ := h
  split at h
  · simp only [pure_eq_ok, Prod.mk.injEq] at h
    obtain ⟨rfl, _⟩ := h
    exact (keeps_unmap_if_linked hu).trans (Keeps.of_eq rfl (Nat.le_refl _))
  · simp only [pure_eq_ok, Prod.mk.injEq] at h
    obtain ⟨rfl, _⟩ := h
    exact keeps_unmap_if_linked hu

theorem keeps_xdg_surface_finalize {w w1 : World} {resource : Nat} {evs : List Event}
    (h : xdg_surface_finalize w resource = .ok (w1, evs)) : Keeps w w1 := by
  unfold xdg_surface_finalize at h
  simp only [bind_eq_ok, deref_eq_ok, pure_eq_ok, Prod.mk.injEq] at h
  obtain ⟨x, _, ⟨wu, eu⟩, hu, wa, ha, rfl, _⟩ := h
  exact ((keeps_unrealize hu).trans (keeps_clear_surface_xdg_surface ha)).trans
    (Keeps.of_eq rfl (Nat.le_refl _))

theorem keeps_xdg_toplevel_finalize {w w1 : World} {resource : Nat} {evs : List Event}
    (h : xdg_toplevel_finalize w resource = .ok (w1, evs)) : Keeps w w1 := by
  unfold xdg_toplevel_finalize at h
  simp only [bind_eq_ok, deref_eq_ok, pure_eq_ok, Prod.mk.injEq] at h
  obtain ⟨x, _, wa, ha, rfl, _⟩ := h
  exact (keeps_clear_surface_xdg_toplevel ha).trans (Keeps.of_eq rfl (Nat.le_refl _))

theorem keeps_xdg_popup_finalize {w w1 : World} {resource : Nat} {evs : List Event}
    (h : xdg_popup_finalize w resource = .ok (w1, evs)) : Keeps w w1 := by
  unfold xdg_popup_finalize at h
  simp only [bind_eq_ok, deref_eq_ok, pure_eq_ok, Prod.mk.injEq] at h
  obtain ⟨x, _, ⟨wu, eu⟩, hu, wa, ha, rfl, _⟩ := h
  exact ((keeps_unmap_if_linked hu).trans (keeps_clear_surface_xdg_popup ha)).trans
    (Keeps.of_eq rfl (Nat.le_refl _))

theorem set_role_ok {w w1 : World} {a : Nat} {role : WakefieldSurfaceRole}
    (h : wakefield_surface_set_role w a role = .ok w1) :
    ∃ s, w.surfaces a = some s ∧ (s.role = .NONE ∨ s.role = role) ∧
      w1 = w.setSurface a (some { s with role := role }) := by
  unfold wakefield_surface_set_role at h
  simp only [bind_eq_ok, deref_eq_ok, pure_eq_ok, g_assert_eq_ok, Bool.or_eq_true,
    decide_eq_true_eq] at h
  obtain ⟨s, hs, _, ha, rfl⟩ := h
  exact ⟨s, hs, ha, rfl⟩

theorem keeps_set_role {w w1 : World} {a : Nat} {role : WakefieldSurfaceRole}
    (h : wakefield_surface_set_role w a role = .ok w1) : Keeps w w1 := by
  obtain ⟨s, hs, ha, rfl⟩ := set_role_ok h
  refine Keeps.setSurface hs ⟨fun hn => ?_, fun h => Or.inl h, fun h => Or.inl h, fun h => h⟩
  rcases ha with h1 | h1
  · exact absurd h1 hn
  · exact h1.symm

theorem keeps_get_toplevel {w w1 : World} {resource : Nat} {created : Bool} {evs : List Event}
    (h : xdg_surface_get_toplevel w resource created = .ok (w1, evs)) : Keeps w w1 := by
  unfold xdg_surface_get_toplevel at h
  simp only [bind_eq_ok, deref_eq_ok, g_assert_eq_ok] at h
  obtain ⟨x, _, sid, _, s, hs, _, _, h⟩ := h
  cases created with
  | false =>
    simp only [Bool.false_eq_true, if_false, pure_eq_ok, Prod.mk.injEq] at h
    obtain ⟨rfl, _⟩ := h
    exact Keeps.refl _
  | true =>
    simp only [if_true, bind_eq_ok, pure_eq_ok, Prod.mk.injEq] at h
    obtain ⟨w2, hrole, rfl, _⟩ := h
    obtain ⟨s2, hs2, ha, rfl⟩ := set_role_ok hrole
    rw [surfaces_setSurface_same] at hs2
    cases hs2
    refine ⟨Nat.le_succ _, fun b t ht => ?_⟩
    simp only [World.setXdgToplevel, World.setSurface, Function.update_idem,
      Function.update_apply] at ht
    split at ht
    · rename_i hb
      cases ht
      refine ⟨s, by rw [hb]; exact hs, fun hn => ?_, fun h => Or.inl h, fun _ => Or.inr rfl,
        fun h => h⟩
      rcases ha with h1 | h1
      · exact absurd h1 hn
      · exact h1.symm
    · exact ⟨t, ht, SurfaceKeeps.same t⟩

theorem keeps_get_popup {fuel : Nat} {w w1 : World} {resource : Nat} {parent : Option Nat}
    {positioner : Option WakeFieldXdgPositioner} {created : Bool} {evs : List Event}
    (h : xdg_surface_get_popup fuel w resource parent positioner created = .ok (w1, evs)) :
    Keeps w w1 := by
  unfold xdg_surface_get_popup at h
  simp only [bind_eq_ok, deref_eq_ok] at h
  obtain ⟨x, _, h⟩ := h
  split at h
  · simp only [pure_eq_ok, Prod.mk.injEq] at h
    obtain ⟨rfl, _⟩ := h
    exact Keeps.of_eq rfl (Nat.le_refl _)
  · split at h
    · simp only [pure_eq_ok, Prod.mk.injEq] at h
      obtain ⟨rfl, _⟩ := h
      exact Keeps.of_eq rfl (Nat.le_refl _)
    · simp only [bind_eq_ok, deref_eq_ok, g_assert_eq_ok] at h
      obtain ⟨px, _, sid, _, s, hs, _, _, h⟩ := h
      cases created with
      | false =>
        simp only [Bool.false_eq_true, if_false, pure_eq_ok, Prod.mk.injEq] at h
        obtain ⟨rfl, _⟩ := h
        exact Keeps.refl _
      | true =>
        simp only [if_true, bind_eq_ok, pure_eq_ok, Prod.mk.injEq] at h
        obtain ⟨w2, hrole, w4, hca, rfl, _⟩ := h
        obtain ⟨s2, hs2, ha, rfl⟩ := set_role_ok hrole
        rw [surfaces_setSurface_same] at hs2
        cases hs2
        obtain ⟨e1, e2, _, _⟩ := compute_allocation_surfaces hca
        refine ⟨by rw [e2]; exact Nat.le_succ _, fun b t ht => ?_⟩
        rw [e1] at ht
        simp only [World.setXdgPopup, World.setSurface, Function.update_idem,
          Function.update_apply] at ht
        split at ht
        · rename_i hb
          cases ht
          refine ⟨s, by rw [hb]; exact hs, fun hn => ?_, fun _ => Or.inr rfl,
            fun h => Or.inl h, fun h => h⟩
          rcases ha with h1 | h1
          · exact absurd h1 hn
          · exact h1.symm
        · exact ⟨t, ht, SurfaceKeeps.same t⟩

theorem keeps_xdg_surface_new {w w1 : World} {sid a : Nat}
    (h : wakefield_xdg_surface_new w sid = .ok (w1, a)) : Keeps w w1 := by
  unfold wakefield_xdg_surface_new at h
  simp only [bind_eq_ok, deref_eq_ok, pure_eq_ok, Prod.mk.injEq] at h
  obtain ⟨s, hs, rfl, _⟩ := h
  refine ⟨Nat.le_succ _, fun b t ht => ?_⟩
  simp only [World.setXdgSurface, World.setSurface, Function.update_apply] at ht
  split at ht
  · rename_i hb
    cases ht
    exact ⟨s, by rw [hb]; exact hs, fun _ => rfl, fun h => Or.inl h, fun h => Or.inl h,
      fun h => h⟩
  · exact ⟨t, ht, SurfaceKeeps.same t⟩

theorem keeps_popup_close {w w1 : World} {p : Nat} {evs : List Event}
    (h : wakefield_xdg_popup_close w p = .ok (w1, evs)) : Keeps w w1 := by
  unfold wakefield_xdg_popup_close at h
  simp only [bind_eq_ok, deref_eq_ok] at h
  obtain ⟨x, _, h⟩ := h
  split at h
  · simp only [pure_eq_ok, Prod.mk.injEq] at h
    obtain ⟨rfl, _⟩ := h
    exact Keeps.refl _
  · simp only [bind_eq_ok, deref_eq_ok] at h
    obtain ⟨s, hs, h⟩ := h
    split at h
    · simp only [pure_eq_ok, Prod.mk.injEq] at h
      obtain ⟨rfl, _⟩ := h
      exact Keeps.setSurface hs (SurfaceKeeps.same s)
    · simp only [pure_eq_ok, Prod.mk.injEq] at h
      obtain ⟨rfl, _⟩ := h
      exact Keeps.refl _

theorem keeps_popup_grab {w w1 : World} {p serial : Nat} {evs : List Event}
    (h : xdg_popup_grab w p serial = .ok (w1, evs)) : Keeps w w1 := by
  unfold xdg_popup_grab at h
  simp only [bind_eq_ok, deref_eq_ok, pure_eq_ok, Prod.mk.injEq] at h
  obtain ⟨x, _, s, _, ps, _, o, _, _, _, g, _, _, _, rfl, _⟩ := h
  exact Keeps.of_eq rfl (Nat.le_refl _)

theorem keeps_popup_reposition {fuel : Nat} {w w1 : World} {p token : Nat}
    {positioner : Option WakeFieldXdgPositioner} {evs : List Event}
    (h : xdg_popup_reposition fuel w p positioner token = .ok (w1, evs)) : Keeps w w1 := by
  unfold xdg_popup_reposition at h
  simp only [bind_eq_ok, deref_eq_ok, pure_eq_ok, Prod.mk.injEq] at h
  obtain ⟨x, _, pos, _, w2, hca, s, _, xs, _, _, _, rfl, _⟩ := h
  obtain ⟨e1, e2, _, _⟩ := compute_allocation_surfaces hca
  exact Keeps.of_eq e1 (Nat.le_of_eq e2.symm)

theorem keeps_realize {w w1 : World} {p : Nat} {evs : List Event}
    (h : wakefield_xdg_surface_realize w p = .ok (w1, evs)) : Keeps w w1 := by
  unfold wakefield_xdg_surface_realize at h
  simp only [bind_eq_ok, deref_eq_ok] at h
  obtain ⟨x, _, h⟩ := h
  split at h
  · simp only [pure_eq_ok, Prod.mk.injEq] at h
    obtain ⟨rfl, _⟩ := h
    exact Keeps.refl _
  · simp only [bind_eq_ok, deref_eq_ok, pure_eq_ok, Prod.mk.injEq] at h
    obtain ⟨s, _, size, _, rfl, _⟩ := h
    exact Keeps.of_eq rfl (Nat.le_refl _)

theorem keeps_set_window_geometry {w w1 : World} {p : Nat} {x y width height : Int}
    {evs : List Event}
    (h : xdg_surface_set_window_geometry w p x y width height = .ok (w1, evs)) :
    Keeps w w1 := by
  unfold xdg_surface_set_window_geometry at h
  simp only [bind_eq_ok, deref_eq_ok] at h
  obtain ⟨xs, _, h⟩ := h
  split at h <;>
    · simp only [pure_eq_ok, Prod.mk.injEq] at h
      obtain ⟨rfl, _⟩ := h
      exact Keeps.of_eq rfl (Nat.le_refl _)

theorem keeps_draw {w w1 : World} {sid : Nat} {now : Int} {evs : List Event}
    (h : wakefield_surface_draw w sid now = .ok (w1, evs)) : Keeps w w1 := by
  unfold wakefield_surface_draw at h
  simp only [bind_eq_ok, deref_eq_ok, pure_eq_ok, Prod.mk.injEq] at h
  obtain ⟨s, hs, _, _, rfl, _⟩ := h
  exact Keeps.setSurface hs ⟨fun _ => rfl, fun h => Or.inl h, fun h => Or.inl h, fun h => h⟩

/-- Every request that returns keeps what `StepKeeps` lists. -/
theorem step_keeps {fuel : Nat} {w w1 : World} {r : Request} {evs : List Event}
    (h : step fuel w r = .ok (w1, evs)) : StepKeeps w w1 := by
  have hk : ∀ (s : WakefieldSurface) (p : WakefieldSurfacePendingState) (d : cairo_region_t),
      SurfaceKeeps s { s with pending := p, damage := d } := fun s p d =>
    ⟨fun _ => rfl, fun h => Or.inl h, fun h => Or.inl h, fun h => h⟩
  cases r with
  | create_surface =>
    simp only [step, pure_eq_ok, Prod.mk.injEq] at h
    obtain ⟨rfl, _⟩ := h
    refine ⟨Nat.le_succ _, fun a s1 hs1 => ?_⟩
    simp only [wakefield_surface_new, Function.update_apply] at hs1
    split at hs1
    · rename_i ha
      cases hs1
      exact Or.inr ⟨ha, Nat.lt_succ_self _, rfl⟩
    · exact Or.inl ⟨s1, hs1, SurfaceKeeps.same s1⟩
  | surface_destroy surface => exact (keeps_surface_finalize h).toStepKeeps
  | attach surface buffer dx dy =>
    simp only [step, wl_surface_attach, bind_eq_ok, deref_eq_ok, pure_eq_ok, Prod.mk.injEq] at h
    obtain ⟨s, hs, rfl, _⟩ := h
    exact (Keeps.setSurface hs (hk s _ s.damage)).toStepKeeps
  | damage surface x y width height =>
    simp only [step, wl_surface_damage, bind_eq_ok, deref_eq_ok, pure_eq_ok, Prod.mk.injEq] at h
    obtain ⟨s, hs, rfl, _⟩ := h
    exact (Keeps.setSurface hs (hk s s.pending _)).toStepKeeps
  | frame surface callback_id =>
    simp only [step, wl_surface_frame, bind_eq_ok, deref_eq_ok, pure_eq_ok, Prod.mk.injEq] at h
    obtain ⟨s, hs, rfl, _⟩ := h
    exact (Keeps.setSurface hs (hk s _ s.damage)).toStepKeeps
  | set_opaque_region surface =>
    simp only [step, pure_eq_ok, Prod.mk.injEq] at h
    obtain ⟨rfl, _⟩ := h
    exact (Keeps.refl _).toStepKeeps
  | set_input_region surface region =>
    simp only [step, wl_surface_set_input_region, bind_eq_ok, deref_eq_ok, pure_eq_ok,
      Prod.mk.injEq] at h
    obtain ⟨s, hs, rfl, _⟩ := h
    exact (Keeps.setSurface hs (hk s _ s.damage)).toStepKeeps
  | commit surface => exact (keeps_commit h).toStepKeeps
  | set_buffer_transform surface transform =>
    simp only [step, pure_eq_ok, Prod.mk.injEq] at h
    obtain ⟨rfl, _⟩ := h
    exact (Keeps.refl _).toStepKeeps
  | set_buffer_scale surface scale =>
    simp only [step, wl_surface_set_buffer_scale, bind_eq_ok, deref_eq_ok, pure_eq_ok,
      Prod.mk.injEq] at h
    obtain ⟨s, hs, rfl, _⟩ := h
    exact (Keeps.setSurface hs (hk s _ s.damage)).toStepKeeps
  | damage_buffer surface =>
    simp only [step, wl_surface_damage_buffer, pure_eq_ok, Prod.mk.injEq] at h
    obtain ⟨rfl, _⟩ := h
    exact (Keeps.refl _).toStepKeeps
  | offset surface =>
    simp only [step, wl_surface_offset, pure_eq_ok, Prod.mk.injEq] at h
    obtain ⟨rfl, _⟩ := h
    exact (Keeps.refl _).toStepKeeps
  | get_xdg_surface surface =>
    simp only [step, bind_eq_ok, pure_eq_ok, Prod.mk.injEq] at h
    obtain ⟨⟨w2, a⟩, hn, rfl, _⟩ := h
    exact (keeps_xdg_surface_new hn).toStepKeeps
  | xdg_surface_destroy xdg_surface => exact (keeps_xdg_surface_finalize h).toStepKeeps
  | get_toplevel xdg_surface created => exact (keeps_get_toplevel h).toStepKeeps
  | get_popup xdg_surface parent positioner created => exact (keeps_get_popup h).toStepKeeps
  | set_window_geometry xdg_surface x y width height =>
    exact (keeps_set_window_geometry h).toStepKeeps
  | ack_configure xdg_surface serial =>
    simp only [step, pure_eq_ok, Prod.mk.injEq] at h
    obtain ⟨rfl, _⟩ := h
    exact (Keeps.refl _).toStepKeeps
  | toplevel_destroy xdg_toplevel => exact (keeps_xdg_toplevel_finalize h).toStepKeeps
  | toplevel_hint xdg_toplevel =>
    simp only [step, pure_eq_ok, Prod.mk.injEq] at h
    obtain ⟨rfl, _⟩ := h
    exact (Keeps.refl _).toStepKeeps
  | popup_destroy xdg_popup => exact (keeps_xdg_popup_finalize h).toStepKeeps
  | popup_grab xdg_popup serial => exact (keeps_popup_grab h).toStepKeeps
  | popup_reposition xdg_popup positioner token => exact (keeps_popup_reposition h).toStepKeeps
  | create_positioner =>
    simp only [step, pure_eq_ok, Prod.mk.injEq] at h
    obtain ⟨rfl, _⟩ := h
    exact (Keeps.of_eq (w := w) (by simp [wakefield_xdg_positioner_new, World.setXdgPositioner])
      (by simp [wakefield_xdg_positioner_new, World.setXdgPositioner])).toStepKeeps
  | positioner_destroy positioner =>
    simp only [step, xdg_positioner_finalize, bind_eq_ok, deref_eq_ok, pure_eq_ok,
      Prod.mk.injEq] at h
    obtain ⟨_, _, rfl, _⟩ := h
    exact (Keeps.of_eq rfl (Nat.le_refl _)).toStepKeeps
  | positioner_set_size positioner width height =>
    simp only [step, xdg_positioner_set_size, bind_eq_ok, deref_eq_ok] at h
    obtain ⟨_, _, h⟩ := h
    split at h <;>
      · simp only [pure_eq_ok, Prod.mk.injEq] at h
        obtain ⟨rfl, _⟩ := h
        exact (Keeps.of_eq rfl (Nat.le_refl _)).toStepKeeps
  | positioner_set_anchor_rect positioner x y width height =>
    simp only [step, xdg_positioner_set_anchor_rect, bind_eq_ok, deref_eq_ok] at h
    obtain ⟨_, _, h⟩ := h
    split at h <;>
      · simp only [pure_eq_ok, Prod.mk.injEq] at h
        obtain ⟨rfl, _⟩ := h
        exact (Keeps.of_eq rfl (Nat.le_refl _)).toStepKeeps
  | positioner_set_anchor positioner anchor =>
    simp only [step, xdg_positioner_set_anchor, bind_eq_ok, deref_eq_ok] at h
    obtain ⟨_, _, h⟩ := h
    split at h <;>
      · simp only [pure_eq_ok, Prod.mk.injEq] at h
        obtain ⟨rfl, _⟩ := h
        exact (Keeps.of_eq rfl (Nat.le_refl _)).toStepKeeps
  | positioner_set_gravity positioner gravity =>
    simp only [step, xdg_positioner_set_gravity, bind_eq_ok, deref_eq_ok] at h
    obtain ⟨_, _, h⟩ := h
    split at h <;>
      · simp only [pure_eq_ok, Prod.mk.injEq] at h
        obtain ⟨rfl, _⟩ := h
        exact (Keeps.of_eq rfl (Nat.le_refl _)).toStepKeeps
  | positioner_set_constraint_adjustment positioner constraint_adjustment =>
    simp only [step, xdg_positioner_set_constraint_adjustment, bind_eq_ok, deref_eq_ok] at h
    obtain ⟨_, _, h⟩ := h
    split at h <;>
      · simp only [pure_eq_ok, Prod.mk.injEq] at h
        obtain ⟨rfl, _⟩ := h
        exact (Keeps.of_eq rfl (Nat.le_refl _)).toStepKeeps
  | positioner_set_offset positioner x y =>
    simp only [step, xdg_positioner_set_offset, bind_eq_ok, deref_eq_ok, pure_eq_ok,
      Prod.mk.injEq] at h
    obtain ⟨_, _, rfl, _⟩ := h
    exact (Keeps.of_eq rfl (Nat.le_refl _)).toStepKeeps
  | positioner_set_reactive positioner =>
    simp only [step, xdg_positioner_set_reactive, bind_eq_ok, deref_eq_ok, pure_eq_ok,
      Prod.mk.injEq] at h
    obtain ⟨_, _, rfl, _⟩ := h
    exact (Keeps.of_eq rfl (Nat.le_refl _)).toStepKeeps
  | positioner_set_parent_size positioner parent_width parent_height =>
    simp only [step, xdg_positioner_set_parent_size, bind_eq_ok, deref_eq_ok, pure_eq_ok,
      Prod.mk.injEq] at h
    obtain ⟨_, _, rfl, _⟩ := h
    exact (Keeps.of_eq rfl (Nat.le_refl _)).toStepKeeps
  | positioner_set_parent_configure positioner serial =>
    simp only [step, xdg_positioner_set_parent_configure, bind_eq_ok, deref_eq_ok, pure_eq_ok,
      Prod.mk.injEq] at h
    obtain ⟨_, _, rfl, _⟩ := h
    exact (Keeps.of_eq rfl (Nat.le_refl _)).toStepKeeps
  | draw surface now => exact (keeps_draw h).toStepKeeps
  | set_role surface role =>
    simp only [step, bind_eq_ok, pure_eq_ok, Prod.mk.injEq] at h
    obtain ⟨w2, hr, rfl, _⟩ := h
    exact (keeps_set_role hr).toStepKeeps
  | realize xdg_surface => exact (keeps_realize h).toStepKeeps
  | unrealize xdg_surface => exact (keeps_unrealize h).toStepKeeps
  | popup_close xdg_popup => exact (keeps_popup_close h).toStepKeeps
  | size_allocate allocation =>
    simp only [step, pure_eq_ok, Prod.mk.injEq] at h
    obtain ⟨rfl, _⟩ := h
    exact (Keeps.of_eq rfl (Nat.le_refl _)).toStepKeeps

theorem StepKeeps.fresh {w w1 : World} (h : StepKeeps w w1) (hf : Fresh w) : Fresh w1 := by
  intro a ha
  cases hs : w1.surfaces a with
  | none => rfl
  | some s1 =>
    rcases h.2 a s1 hs with ⟨s, hs0, _⟩ | ⟨rfl, hlt, _⟩
    · rw [hf a (Nat.le_trans h.1 ha)] at hs0
      cases hs0
    · exact absurd ha (Nat.not_le.mpr hlt)

theorem new_surface_sound : SurfaceSound new_surface :=
  ⟨fun h => absurd rfl h, fun h => absurd rfl h, by decide⟩

theorem SurfaceKeeps.sound {s s1 : WakefieldSurface} (h : SurfaceKeeps s s1)
    (hs : SurfaceSound s) : SurfaceSound s1 := by
  obtain ⟨a, b, c, d⟩ := h
  obtain ⟨p, t, k⟩ := hs
  refine ⟨fun h1 => ?_, fun h1 => ?_, d k⟩
  · rcases b h1 with h2 | h2
    · have := p h2
      rw [a (by rw [this]; decide), this]
    · exact h2
  · rcases c h1 with h2 | h2
    · have := t h2
      rw [a (by rw [this]; decide), this]
    · exact h2

/-- In every reachable world no surface lives at or beyond the next address,
and every surface has the role its links call for and a positive current
scale. -/
theorem reachable_sound {w : World} (h : Reachable w) :
    Fresh w ∧ ∀ a s, w.surfaces a = some s → SurfaceSound s := by
  induction h with
  | empty allocation => exact ⟨fun _ _ => rfl, fun a s hs => by cases hs⟩
  | step fuel r _ hstep ih =>
    have hk := step_keeps hstep
    refine ⟨hk.fresh ih.1, fun a s1 hs1 => ?_⟩
    rcases hk.2 a s1 hs1 with ⟨s, hs, k⟩ | ⟨_, _, rfl⟩
    · exact k.sound (ih.2 a s hs)
    · exact new_surface_sound

/-- Along later states the next address does not decrease, and a surface that
is still there has kept what `SurfaceKeeps` lists. -/
theorem steps_keep {w w1 : World} (hf : Fresh w) (h : Steps w w1) :
    Fresh w1 ∧ w.next ≤ w1.next ∧
      ∀ a s s1, w.surfaces a = some s → w1.surfaces a = some s1 → SurfaceKeeps s s1 := by
  induction h with
  | refl =>
    refine ⟨hf, Nat.le_refl _, fun a s s1 hs hs1 => ?_⟩
    rw [hs] at hs1
    cases hs1
    exact SurfaceKeeps.same s
  | tail fuel r _ hstep ih =>
    obtain ⟨f1, n1, k1⟩ := ih
    have hk := step_keeps hstep
    refine ⟨hk.fresh f1, Nat.le_trans n1 hk.1, fun a s s2 hs hs2 => ?_⟩
    rcases hk.2 a s2 hs2 with ⟨s1, hs1, k⟩ | ⟨rfl, _, _⟩
    · exact (k1 a s s1 hs hs1).andThen k
    · rw [hf _ n1] at hs
      cases hs

theorem reachable_steps {w w1 : World} (hr : Reachable w) (h : Steps w w1) : Reachable w1 := by
  induction h with
  | refl => exact hr
  | tail fuel r _ hstep ih => exact Reachable.step fuel r ih hstep

/-- C8: on a live surface, `wakefield_surface_set_role` returns if and only
if the role is `NONE` or already the requested one; it then stores the
requested role and changes nothing else (nothing at all when the role was
already the requested one); otherwise it fails its assertion.  Hence in every
reachable world a surface whose role is not `NONE` has that same role in
every later state in which it still exists. -/
theorem C8_set_role (w : World) (surface_resource : Nat) (s : WakefieldSurface)
    (role : WakefieldSurfaceRole) (hs : w.surfaces surface_resource = some s) :
    (returned (wakefield_surface_set_role w surface_resource role) = true ↔
      (s.role = .NONE ∨ s.role = role)) ∧
    (∀ w1, wakefield_surface_set_role w surface_resource role = .ok w1 →
      w1 = w.setSurface surface_resource (some { s with role := role }) ∧
      (s.role = role → w1 = w)) ∧
    (¬ (s.role = .NONE ∨ s.role = role) →
      wakefield_surface_set_role w surface_resource role = .error .assertion) ∧
    (Reachable w → s.role ≠ .NONE →
      ∀ w1 s1, Steps w w1 → w1.surfaces surface_resource = some s1 → s1.role = s.role) := by
  have hval : wakefield_surface_set_role w surface_resource role =
      if s.role = .NONE ∨ s.role = role then
        .ok (w.setSurface surface_resource (some { s with role := role }))
      else .error .assertion := by
    unfold wakefield_surface_set_role
    simp only [hs, deref, bind, Except.bind, g_assert, pure, Except.pure]
    by_cases h1 : s.role = .NONE <;> by_cases h2 : s.role = role <;> simp [h1, h2]
  refine ⟨?_, ?_, ?_, ?_⟩
  · rw [hval]
    split <;> simp_all [returned]
  · intro w1 h1
    rw [hval] at h1
    split at h1
    · cases h1
      refine ⟨rfl, fun hr => ?_⟩
      subst hr
      cases w
      simp only [World.setSurface, World.mk.injEq, and_true, true_and]
      exact Function.update_eq_self_iff.mpr hs.symm
    · cases h1
  · intro hn
    rw [hval, if_neg hn]
  · intro hr hn w1 s1 hsteps hs1
    exact ((steps_keep (reachable_sound hr).1 hsteps).2.2 _ s s1 hs hs1).1 hn

/-- C8, witness: the newly created surface of `world1` and the role
`XDG_TOPLEVEL`. -/
theorem C8_set_role_witness :
    (returned (wakefield_surface_set_role world1 0 .XDG_TOPLEVEL) = true ↔
      (new_surface.role = .NONE ∨ new_surface.role = .XDG_TOPLEVEL)) ∧
    (∀ w1, wakefield_surface_set_role world1 0 .XDG_TOPLEVEL = .ok w1 →
      w1 = world1.setSurface 0 (some { new_surface with role := .XDG_TOPLEVEL }) ∧
      (new_surface.role = .XDG_TOPLEVEL → w1 = world1)) ∧
    (¬ (new_surface.role = .NONE ∨ new_surface.role = .XDG_TOPLEVEL) →
      wakefield_surface_set_role world1 0 .XDG_TOPLEVEL = .error .assertion) ∧
    (Reachable world1 → new_surface.role ≠ .NONE →
      ∀ w1 s1, Steps world1 w1 → w1.surfaces 0 = some s1 → s1.role = new_surface.role) :=
  C8_set_role world1 0 new_surface .XDG_TOPLEVEL rfl

/-- C9: on a live shell surface, `xdg_surface_get_popup` called without a
positioner record posts `XDG_WM_BASE_ERROR_INVALID_POSITIONER`, and called
with a positioner but a null parent posts the different error
`XDG_WM_BASE_ERROR_INVALID_POPUP_PARENT`; in both cases that is the only event
(no configure) and no table of the world changes: no popup exists that did
not before and every surface, its bound popup and its role included, is as it
was.  Only the count of lost blocks grows, by the record allocated on
entry. -/
theorem C9_get_popup_missing_argument (fuel : Nat) (w : World) (resource : Nat)
    (x : WakefieldXdgSurface) (hx : w.xdg_surfaces resource = some x) (parent : Option Nat)
    (positioner : WakeFieldXdgPositioner) (created : Bool) :
    xdg_surface_get_popup fuel w resource parent none created =
      .ok ({ w with leaked := w.leaked + 1 },
           [.post_error resource .XDG_WM_BASE_ERROR_INVALID_POSITIONER]) ∧
    xdg_surface_get_popup fuel w resource none (some positioner) created =
      .ok ({ w with leaked := w.leaked + 1 },
           [.post_error resource .XDG_WM_BASE_ERROR_INVALID_POPUP_PARENT]) ∧
    ProtocolError.XDG_WM_BASE_ERROR_INVALID_POSITIONER ≠
      ProtocolError.XDG_WM_BASE_ERROR_INVALID_POPUP_PARENT ∧
    ({ w with leaked := w.leaked + 1 } : World).surfaces = w.surfaces ∧
    ({ w with leaked := w.leaked + 1 } : World).xdg_popups = w.xdg_popups ∧
    ({ w with leaked := w.leaked + 1 } : World).xdg_surfaces = w.xdg_surfaces ∧
    ({ w with leaked := w.leaked + 1 } : World).xdg_toplevels = w.xdg_toplevels ∧
    ({ w with leaked := w.leaked + 1 } : World).xdg_positioners = w.xdg_positioners := by
  refine ⟨?_, ?_, by decide, rfl, rfl, rfl, rfl, rfl⟩
  · simp [xdg_surface_get_popup, hx, deref, bind, Except.bind, pure, Except.pure]
  · simp [xdg_surface_get_popup, hx, deref, bind, Except.bind, pure, Except.pure]

/-- C9, witness: the shell surface 1 of `world2`, with no parent given. -/
theorem C9_get_popup_missing_argument_witness :
    world2.xdg_surfaces 1 = some { surface := some 0, window := none } ∧
    xdg_surface_get_popup 0 world2 1 none none true =
      .ok ({ world2 with leaked := world2.leaked + 1 },
           [.post_error 1 .XDG_WM_BASE_ERROR_INVALID_POSITIONER]) :=
  ⟨rfl, (C9_get_popup_missing_argument 0 world2 1 { surface := some 0, window := none } rfl
    none WakeFieldXdgPositioner.zero true).1⟩

/-- After `create_surface, get_xdg_surface 0, surface_destroy 0` the shell
surface 1 is alive without surface, and `xdg_surface_get_toplevel` on it follows
the absent link (lines 890-893) and does not return: it neither fails an
assertion nor creates a toplevel. -/
theorem get_toplevel_without_surface :
    ∃ w evs xs,
      run 0 world0 [.create_surface, .get_xdg_surface 0, .surface_destroy 0] = .ok (w, evs) ∧
      w.xdg_surfaces 1 = some xs ∧ xs.surface = none ∧
      ∀ created, xdg_surface_get_toplevel w 1 created = .error .undefined :=
  ⟨_, _, _, rfl, rfl, rfl, fun _ => rfl⟩

/-! ## What a returning commit does -/

theorem run_attaches (fuel : Nat) (sid : Nat) (l : List (Option wl_buffer × Int × Int))
    (w : World) (s : WakefieldSurface) (hs : w.surfaces sid = some s) :
    ∃ p, run fuel w (l.map (fun a => Request.attach sid a.1 a.2.1 a.2.2)) =
      .ok (w.setSurface sid (some { s with pending := { s.pending with buffer := p } }), []) := by
  induction l generalizing w s with
  | nil =>
    refine ⟨s.pending.buffer, ?_⟩
    simp only [List.map_nil, run_nil]
    congr
    simp [World.setSurface, hs.symm]
  | cons a rest ih =>
    obtain ⟨p, hp⟩ := ih (w.setSurface sid
      (some { s with pending := { s.pending with buffer := a.1 } })) _
      (surfaces_setSurface_same _ _ _)
    refine ⟨p, ?_⟩
    simp only [List.map_cons, run_cons, step, wl_surface_attach, hs, deref, bind, Except.bind,
      pure, Except.pure, hp]
    simp [World.setSurface]

theorem run_damages (fuel : Nat) (sid : Nat) (l : List cairo_rectangle_int_t)
    (w : World) (s : WakefieldSurface) (hs : w.surfaces sid = some s) :
    ∃ d, run fuel w (l.map (fun r => Request.damage sid r.x r.y r.width r.height)) =
      .ok (w.setSurface sid (some { s with damage := d }), []) := by
  induction l generalizing w s with
  | nil =>
    refine ⟨s.damage, ?_⟩
    simp only [List.map_nil, run_nil]
    congr
    simp [World.setSurface, hs.symm]
  | cons a rest ih =>
    obtain ⟨d, hd⟩ := ih (w.setSurface sid
      (some { s with damage := cairo_region_union_rectangle s.damage ⟨a.x, a.y, a.width, a.height⟩ }))
      _ (surfaces_setSurface_same _ _ _)
    refine ⟨d, ?_⟩
    simp only [List.map_cons, run_cons, step, wl_surface_damage, hs, deref, bind, Except.bind,
      pure, Except.pure, hd]
    simp [World.setSurface]

/-- What a returning run of attach requests ending with `attach b`, then
damage requests, then a commit leaves and sends. -/
theorem attach_damage_commit_ok (fuel : Nat) (w w1 : World) (sid : Nat) (s : WakefieldSurface)
    (earlier : List (Option wl_buffer × Int × Int)) (b : wl_buffer) (dx dy : Int)
    (damages : List cairo_rectangle_int_t) (evs : List Event)
    (hs : w.surfaces sid = some s)
    (h : run fuel w
      (earlier.map (fun a => Request.attach sid a.1 a.2.1 a.2.2) ++
        [Request.attach sid (some b) dx dy] ++
        damages.map (fun r => Request.damage sid r.x r.y r.width r.height) ++
        [Request.commit sid]) = .ok (w1, evs)) :
    ∃ s1, w1.surfaces sid = some s1 ∧ s1.current.buffer = some b ∧ s1.pending.buffer = none ∧
      released evs = s.current.buffer.toList := by
  obtain ⟨p, hp⟩ := run_attaches fuel sid earlier w s hs
  obtain ⟨d, hd⟩ := run_damages fuel sid damages
    ((w.setSurface sid (some { s with pending := { s.pending with buffer := p } })).setSurface sid
      (some { s with pending := { s.pending with buffer := some b } }))
    { s with pending := { s.pending with buffer := some b } } (surfaces_setSurface_same _ _ _)
  rw [run_append, run_append, run_append, hp] at h
  simp only [bind, Except.bind, run_cons, run_nil, step, wl_surface_attach,
    surfaces_setSurface_same, deref, pure, Except.pure, hd, List.nil_append,
    List.append_nil] at h
  cases hc : wl_surface_commit fuel
      ((((w.setSurface sid (some { s with pending := { s.pending with buffer := p } })).setSurface
        sid (some { s with pending := { s.pending with buffer := some b } })).setSurface sid
        (some { s with pending := { s.pending with buffer := some b }, damage := d }))) sid with
  | error e => rw [hc] at h; cases h
  | ok r =>
    rw [hc] at h
    cases h
    obtain ⟨mid, hmid, hs1, hevs⟩ := wl_surface_commit_ok (surfaces_setSurface_same _ _ _) hc
    refine ⟨_, hs1, rfl, rfl, ?_⟩
    rw [hevs]
    rcases hmid with ⟨_, rfl⟩ | ⟨_, q, rfl⟩ <;>
      cases s.current.buffer <;> cases s.mapped <;> simp [released]

/-- The current scale a returning commit leaves: the pending scale when that
is positive, the previous current scale otherwise. -/
theorem commit_scale_ok {fuel : Nat} {w w1 : World} {sid : Nat} {s : WakefieldSurface}
    {evs : List Event} (hs : w.surfaces sid = some s)
    (h : wl_surface_commit fuel w sid = .ok (w1, evs)) :
    ∃ s1, w1.surfaces sid = some s1 ∧
      s1.current.scale = if s.pending.scale > 0 then s.pending.scale else s.current.scale := by
  obtain ⟨mid, _, hs1, _⟩ := wl_surface_commit_ok hs h
  exact ⟨_, hs1, rfl⟩

/-- In every reachable world the current scale of every surface is at least
1. -/
theorem reachable_scale_pos {w : World} (hr : Reachable w) {a : Nat} {s : WakefieldSurface}
    (hs : w.surfaces a = some s) : 1 ≤ s.current.scale :=
  ((reachable_sound hr).2 a s hs).2.2

/-- A returning commit leaves the surface mapped, sends `surface_mapped` once
if the surface was not mapped and not at all if it was, and sends `committed`
last. -/
theorem commit_mapped_ok {fuel : Nat} {w w1 : World} {sid : Nat} {s : WakefieldSurface}
    {evs : List Event} (hs : w.surfaces sid = some s)
    (h : wl_surface_commit fuel w sid = .ok (w1, evs)) :
    ∃ s1, w1.surfaces sid = some s1 ∧ s1.mapped = true ∧
      evs.count (Event.surface_mapped sid) = (if s.mapped then 0 else 1) ∧
      evs.count (Event.committed sid) = 1 ∧
      evs.getLast? = some (Event.committed sid) := by
  obtain ⟨mid, hmid, hs1, hevs⟩ := wl_surface_commit_ok hs h
  refine ⟨_, hs1, rfl, ?_, ?_, ?_⟩ <;>
    · rw [hevs]
      rcases hmid with ⟨_, rfl⟩ | ⟨_, q, rfl⟩ <;>
        cases s.pending.buffer <;> cases s.current.buffer <;> cases s.mapped <;> simp

/-! ## 32-bit arithmetic -/

/-- A representable result is the value the variable holds. -/
theorem int32_eq {z : Int} (h : in_int32 z) : int32 z = z := by
  unfold in_int32 at h
  unfold int32
  omega

/-- What an `int32_t` variable holds is representable. -/
theorem in_int32_int32 (z : Int) : in_int32 (int32 z) := by
  unfold in_int32 int32
  omega

/-- Half of an integer, truncated as in C, lies between 0 and the integer. -/
theorem tdiv_two_between (w : Int) :
    (0 ≤ w → 0 ≤ Int.tdiv w 2 ∧ Int.tdiv w 2 ≤ w) ∧
    (w ≤ 0 → w ≤ Int.tdiv w 2 ∧ Int.tdiv w 2 ≤ 0) := by
  constructor
  · intro hw
    rw [Int.tdiv_eq_ediv hw (by decide)]
    omega
  · intro hw
    have h1 : Int.tdiv w 2 = -Int.tdiv (-w) 2 := by
      rw [Int.neg_tdiv, neg_neg]
    have h2 : (0 : Int) ≤ -w := by omega
    rw [h1, Int.tdiv_eq_ediv h2 (by decide)]
    omega

/-- A coordinate plus half an extent is representable when the coordinate and
the coordinate plus the extent are. -/
theorem in_int32_half {x w : Int} (hx : in_int32 x) (hxw : in_int32 (x + w)) :
    in_int32 (x + Int.tdiv w 2) := by
  have h := tdiv_two_between w
  unfold in_int32 at *
  rcases le_total 0 w with hw | hw
  · have := h.1 hw
    omega
  · have := h.2 hw
    omega

/-- The anchor point of a rectangle whose corners are representable is the
exact one. -/
theorem anchor_point_int32_eq (positioner : WakeFieldXdgPositioner)
    (hx : in_int32 positioner.anchor_rect.x)
    (hxw : in_int32 (positioner.anchor_rect.x + positioner.anchor_rect.width))
    (hy : in_int32 positioner.anchor_rect.y)
    (hyh : in_int32 (positioner.anchor_rect.y + positioner.anchor_rect.height)) :
    get_positioner_anchor_point_int32 positioner = get_positioner_anchor_point positioner := by
  have h1 := int32_eq (in_int32_half hx hxw)
  have h2 := int32_eq (in_int32_half hy hyh)
  have h3 := int32_eq hxw
  have h4 := int32_eq hyh
  unfold get_positioner_anchor_point_int32 get_positioner_anchor_point
  cases positioner.anchor <;> simp only [h1, h2, h3, h4]

/-- Without overflow no slide happens when the popup fits in the parent and in
the compositor. -/
theorem slide_anchor_int32_fits (slide : Bool) (anchor size offset parent_size max_size : Int)
    (h : in_int32 (anchor + size)) (h1 : anchor + size ≤ parent_size)
    (h2 : anchor + size ≤ max_size) :
    slide_anchor_int32 slide anchor size offset parent_size max_size = anchor := by
  have e1 : ¬ (anchor + size > parent_size ∧ slide = true) := fun h => absurd h.1 (not_lt.mpr h1)
  have e2 : ¬ (anchor + size > max_size ∧ slide = true) := fun h => absurd h.1 (not_lt.mpr h2)
  simp only [slide_anchor_int32, int32_eq h, if_neg e1, if_neg e2]

/-- Without overflow no resize happens when the popup fits in the
compositor. -/
theorem resize_popup_int32_fits (resize : Bool) (anchor size max_size : Int)
    (h : in_int32 (anchor + size)) (h1 : anchor + size ≤ max_size) :
    resize_popup_int32 resize anchor size max_size = size := by
  have e1 : ¬ (anchor + size > max_size ∧ resize = true) := fun h => absurd h.1 (not_lt.mpr h1)
  simp only [resize_popup_int32, int32_eq h, if_neg e1]

/-- The two slide steps without centring offset in 32-bit arithmetic are the
exact ones when the size and the parent size are 32-bit values and the sum
of anchor and size and the two room values are representable. -/
theorem slide_anchor_int32_eq (slide : Bool) (anchor size parent_size max_size : Int)
    (hs : in_int32 size) (hp : in_int32 parent_size)
    (h : in_int32 (anchor + size)) (hps : in_int32 (parent_size - size))
    (hms : in_int32 (max_size - size)) :
    slide_anchor_int32 slide anchor size 0 parent_size max_size =
      slide_anchor slide anchor size 0 parent_size max_size := by
  have e1 : int32 (max 0 (parent_size - size) + size) = max 0 (parent_size - size) + size := by
    apply int32_eq
    unfold in_int32 at *
    omega
  have e0 := int32_eq h
  have e2 := int32_eq hps
  have e3 := int32_eq hms
  unfold slide_anchor_int32 slide_anchor
  simp only [add_zero]
  by_cases c : anchor + size > parent_size ∧ slide = true
  · simp only [e0, e2, e3, if_pos c, e1]
  · simp only [e0, e2, e3, if_neg c]

/-- The resize step in 32-bit arithmetic is the exact one when the sum of
anchor and size and the room left of the anchor are representable. -/
theorem resize_popup_int32_eq (resize : Bool) (anchor size max_size : Int)
    (h : in_int32 (anchor + size)) (hr : in_int32 (max_size - anchor)) :
    resize_popup_int32 resize anchor size max_size = resize_popup resize anchor size max_size := by
  simp only [resize_popup_int32, resize_popup, int32_eq h, int32_eq hr]

/-- With `use_surface_size` false, `xdg_popup_compute_allocation` in 32-bit
arithmetic on a live popup with a live surface returns as soon as the parent
size is found, and stores the allocation solved without centring offsets for
the positioner's size. -/
theorem compute_allocation_int32_false_ok {fuel : Nat} {w : World} {p : Nat}
    {popup : WakefieldXdgPopup} {surface : WakefieldSurface} {parent : Int × Int}
    (hp : w.xdg_popups p = some popup) (hs : popup.surface.bind w.surfaces = some surface)
    (hparent : xdg_popup_parent_size fuel w popup = .ok parent) :
    xdg_popup_compute_allocation_int32 fuel w p false =
      .ok (w.setXdgPopup p (some { popup with
        allocation := xdg_popup_solve_int32 popup.xdg_positioner 0 0 popup.xdg_positioner.width
          popup.xdg_positioner.height parent.1 parent.2 w.allocation.width
          w.allocation.height })) := by
  simp [xdg_popup_compute_allocation_int32, hp, hs, hparent, xdg_popup_nominal_size_int32,
    xdg_popup_uses_surface_size, deref, bind, Except.bind, pure, Except.pure]

/-- Along x, the anchor point of a rectangle whose left and right edges are
representable is the exact one. -/
theorem anchor_point_int32_x (positioner : WakeFieldXdgPositioner)
    (hx : in_int32 positioner.anchor_rect.x)
    (hxw : in_int32 (positioner.anchor_rect.x + positioner.anchor_rect.width)) :
    (get_positioner_anchor_point_int32 positioner).1 =
      (get_positioner_anchor_point positioner).1 := by
  have h1 := int32_eq (in_int32_half hx hxw)
  have h3 := int32_eq hxw
  unfold get_positioner_anchor_point_int32 get_positioner_anchor_point
  cases positioner.anchor <;> simp only [h1, h3]

/-- Along y, the anchor point of a rectangle whose top and bottom edges are
representable is the exact one. -/
theorem anchor_point_int32_y (positioner : WakeFieldXdgPositioner)
    (hy : in_int32 positioner.anchor_rect.y)
    (hyh : in_int32 (positioner.anchor_rect.y + positioner.anchor_rect.height)) :
    (get_positioner_anchor_point_int32 positioner).2 =
      (get_positioner_anchor_point positioner).2 := by
  have h2 := int32_eq (in_int32_half hy hyh)
  have h4 := int32_eq hyh
  unfold get_positioner_anchor_point_int32 get_positioner_anchor_point
  cases positioner.anchor <;> simp only [h2, h4]

/-- The anchor point of a rectangle whose origin is a pair of 32-bit values is
a pair of 32-bit values. -/
theorem anchor_point_in_int32 (positioner : WakeFieldXdgPositioner)
    (hx : in_int32 positioner.anchor_rect.x) (hy : in_int32 positioner.anchor_rect.y) :
    in_int32 (get_positioner_anchor_point_int32 positioner).1 ∧
    in_int32 (get_positioner_anchor_point_int32 positioner).2 := by
  unfold get_positioner_anchor_point_int32
  cases positioner.anchor <;>
    exact ⟨by first | exact hx | exact in_int32_int32 _,
           by first | exact hy | exact in_int32_int32 _⟩

/-! ## Popup placement (C12, C13, C14) -/

/-- With `use_surface_size` false, `xdg_popup_compute_allocation` on a live
popup with a live surface returns as soon as the parent size is found, and
stores the allocation solved without centring offsets for the positioner's
size. -/
theorem compute_allocation_false_ok {fuel : Nat} {w : World} {p : Nat}
    {popup : WakefieldXdgPopup} {surface : WakefieldSurface} {parent : Int × Int}
    (hp : w.xdg_popups p = some popup) (hs : popup.surface.bind w.surfaces = some surface)
    (hparent : xdg_popup_parent_size fuel w popup = .ok parent) :
    xdg_popup_compute_allocation fuel w p false =
      .ok (w.setXdgPopup p (some { popup with
        allocation := xdg_popup_solve popup.xdg_positioner 0 0 popup.xdg_positioner.width
          popup.xdg_positioner.height parent.1 parent.2 w.allocation.width
          w.allocation.height })) := by
  simp [xdg_popup_compute_allocation, hp, hs, hparent, xdg_popup_nominal_size,
    xdg_popup_uses_surface_size, deref, bind, Except.bind, pure, Except.pure]

/-- No slide happens when the popup fits in the parent and in the compositor. -/
theorem slide_anchor_fits (slide : Bool) (anchor size offset parent_size max_size : Int)
    (h1 : anchor + size ≤ parent_size) (h2 : anchor + size ≤ max_size) :
    slide_anchor slide anchor size offset parent_size max_size = anchor := by
  have e1 : ¬ (anchor + size > parent_size ∧ slide = true) := fun h => absurd h.1 (not_lt.mpr h1)
  have e2 : ¬ (anchor + size > max_size ∧ slide = true) := fun h => absurd h.1 (not_lt.mpr h2)
  simp only [slide_anchor, if_neg e1, if_neg e2]

/-- No resize happens when the popup fits in the compositor. -/
theorem resize_popup_fits (resize : Bool) (anchor size max_size : Int)
    (h : anchor + size ≤ max_size) : resize_popup resize anchor size max_size = size :=
  if_neg (fun h1 => absurd h1.1 (not_lt.mpr h))

/-- The two slide steps without centring offset, from a non-negative anchor:
the least of the anchor and the two clamped room values. -/
theorem slide_anchor_min (anchor size parent_size max_size : Int) (h : 0 ≤ anchor) :
    slide_anchor true anchor size 0 parent_size max_size =
      min anchor (min (max 0 (parent_size - size)) (max 0 (max_size - size))) := by
  unfold slide_anchor
  simp only [and_true, add_zero]
  split_ifs <;> omega

/-- Slide followed by resize keeps a non-negative anchor with a non-negative
size inside a compositor of non-negative size. -/
theorem slide_resize_bounds (anchor size parent_size max_size : Int) (ha : 0 ≤ anchor)
    (hs : 0 ≤ size) (hm : 0 ≤ max_size) :
    0 ≤ slide_anchor true anchor size 0 parent_size max_size ∧
    0 ≤ resize_popup true (slide_anchor true anchor size 0 parent_size max_size) size max_size ∧
    resize_popup true (slide_anchor true anchor size 0 parent_size max_size) size max_size ≤ size ∧
    slide_anchor true anchor size 0 parent_size max_size +
      resize_popup true (slide_anchor true anchor size 0 parent_size max_size) size max_size
      ≤ max_size := by
  unfold slide_anchor resize_popup
  simp only [and_true, add_zero]
  split_ifs <;> omega

/-- The anchor point of a rectangle with non-negative x and width has a
non-negative x. -/
theorem anchor_point_nonneg (positioner : WakeFieldXdgPositioner)
    (hx : 0 ≤ positioner.anchor_rect.x) (hw : 0 ≤ positioner.anchor_rect.width) :
    0 ≤ (get_positioner_anchor_point positioner).1 := by
  have h2 : 0 ≤ Int.tdiv positioner.anchor_rect.width 2 := Int.tdiv_nonneg hw (by decide)
  unfold get_positioner_anchor_point
  cases positioner.anchor <;> simp only <;> omega

/-- The anchor point of a rectangle with non-negative y and height has a
non-negative y. -/
theorem anchor_point_nonneg_y (positioner : WakeFieldXdgPositioner)
    (hy : 0 ≤ positioner.anchor_rect.y) (hh : 0 ≤ positioner.anchor_rect.height) :
    0 ≤ (get_positioner_anchor_point positioner).2 := by
  have h2 : 0 ≤ Int.tdiv positioner.anchor_rect.height 2 := Int.tdiv_nonneg hh (by decide)
  unfold get_positioner_anchor_point
  cases positioner.anchor <;> simp only <;> omega

/-- Along one axis without overflow, the slide and resize steps and the final
sum in 32-bit arithmetic are the exact ones. -/
theorem axis_int32_eq {slide : Bool} {anchor offset size position_offset parent_size
    max_size : Int}
    (h : axis_in_int32 slide anchor offset size position_offset parent_size max_size)
    (resize : Bool) :
    slide_anchor_int32 slide (int32 (anchor - offset)) size offset parent_size max_size =
      slide_anchor slide (anchor - offset) size offset parent_size max_size ∧
    resize_popup_int32 resize
        (slide_anchor slide (anchor - offset) size offset parent_size max_size) size max_size =
      resize_popup resize
        (slide_anchor slide (anchor - offset) size offset parent_size max_size) size max_size ∧
    int32 (slide_anchor slide (anchor - offset) size offset parent_size max_size +
        position_offset) =
      slide_anchor slide (anchor - offset) size offset parent_size max_size + position_offset := by
  obtain ⟨h0, h1, h2, h3, h4, h5, h6, h7, h8, h9⟩ := h
  have e0 := int32_eq h0
  have e1 := int32_eq h1
  have e2 := int32_eq h2
  have e3 := int32_eq h3
  have e4 := int32_eq h4
  have e5 := int32_eq h5
  have e6 := int32_eq h6
  have hsum : in_int32
      (slide_anchor slide (anchor - offset) size offset parent_size max_size + size) := by
    unfold slide_anchor
    simp only []
    split_ifs <;> assumption
  refine ⟨?_, resize_popup_int32_eq resize _ size max_size hsum h8, int32_eq h9⟩
  unfold slide_anchor_int32 slide_anchor
  rw [e0]
  by_cases c : anchor - offset + size > parent_size ∧ slide = true
  · simp only [e1, e2, e3, e4, e5, e6, if_pos c]
  · simp only [e1, e2, e3, e5, e6, if_neg c]

/-- Without overflow the allocation computed in 32-bit arithmetic is the one
computed in exact arithmetic. -/
theorem solve_int32_eq (xdg_positioner : WakeFieldXdgPositioner)
    (x_offset y_offset popup_width popup_height : Int)
    (parent_width parent_height max_width max_height : Int)
    (h : solve_in_int32 xdg_positioner x_offset y_offset popup_width popup_height parent_width
      parent_height max_width max_height) :
    xdg_popup_solve_int32 xdg_positioner x_offset y_offset popup_width popup_height parent_width
        parent_height max_width max_height =
      xdg_popup_solve xdg_positioner x_offset y_offset popup_width popup_height parent_width
        parent_height max_width max_height := by
  obtain ⟨hx, hxw, hy, hyh, hax, hay⟩ := h
  have ex := fun resize => axis_int32_eq hax resize
  have ey := fun resize => axis_int32_eq hay resize
  simp only [xdg_popup_solve_int32, xdg_popup_solve,
    anchor_point_int32_eq xdg_positioner hx hxw hy hyh, (ex true).1, (ey true).1, (ex _).2.1,
    (ey _).2.1, (ex true).2.2, (ey true).2.2]

/-- On the positioner of the specification's example with a parent of 120 by
200 and a compositor of 200 by 200 nothing overflows, and the allocation is
(80, 0, 40, 20) in 32-bit as in exact arithmetic. -/
theorem solve_int32_example :
    solve_in_int32 example_positioner 0 0 40 20 120 200 200 200 ∧
    xdg_popup_solve_int32 example_positioner 0 0 40 20 120 200 200 200 =
      xdg_popup_solve example_positioner 0 0 40 20 120 200 200 200 ∧
    xdg_popup_solve example_positioner 0 0 40 20 120 200 200 200 =
      { x := 80, y := 0, width := 40, height := 20 } :=
  ⟨by decide, solve_int32_eq example_positioner 0 0 40 20 120 200 200 200 (by decide),
    by decide⟩

/-- With `use_surface_size` false and no overflow,
`xdg_popup_compute_allocation` in 32-bit arithmetic on a live popup with a live
surface whose parent size is found does what it does in exact arithmetic. -/
theorem compute_allocation_int32_eq {fuel : Nat} {w : World} {p : Nat}
    {popup : WakefieldXdgPopup} {surface : WakefieldSurface} {parent : Int × Int}
    (hp : w.xdg_popups p = some popup) (hs : popup.surface.bind w.surfaces = some surface)
    (hparent : xdg_popup_parent_size fuel w popup = .ok parent)
    (h : solve_in_int32 popup.xdg_positioner 0 0 popup.xdg_positioner.width
      popup.xdg_positioner.height parent.1 parent.2 w.allocation.width w.allocation.height) :
    xdg_popup_compute_allocation_int32 fuel w p false =
      xdg_popup_compute_allocation fuel w p false := by
  rw [compute_allocation_int32_false_ok hp hs hparent, compute_allocation_false_ok hp hs hparent,
    solve_int32_eq _ _ _ _ _ _ _ _ _ h]

/-- Slide followed by resize in 32-bit arithmetic keeps a non-negative anchor
with a non-negative size inside a compositor of non-negative size, when size
and bounds are 32-bit values and neither the sum of anchor and size nor the
room in the parent overflows. -/
theorem slide_resize_int32_bounds (anchor size parent_size max_size : Int) (ha : 0 ≤ anchor)
    (hs : 0 ≤ size) (hm : 0 ≤ max_size) (his : in_int32 size) (hip : in_int32 parent_size)
    (him : in_int32 max_size) (h : in_int32 (anchor + size))
    (hps : in_int32 (parent_size - size)) :
    0 ≤ slide_anchor_int32 true anchor size 0 parent_size max_size ∧
    in_int32 (slide_anchor_int32 true anchor size 0 parent_size max_size) ∧
    0 ≤ resize_popup_int32 true (slide_anchor_int32 true anchor size 0 parent_size max_size)
      size max_size ∧
    resize_popup_int32 true (slide_anchor_int32 true anchor size 0 parent_size max_size)
      size max_size ≤ size ∧
    slide_anchor_int32 true anchor size 0 parent_size max_size +
      resize_popup_int32 true (slide_anchor_int32 true anchor size 0 parent_size max_size)
        size max_size ≤ max_size := by
  have hms : in_int32 (max_size - size) := by
    unfold in_int32 at *
    omega
  have hb := slide_resize_bounds anchor size parent_size max_size ha hs hm
  have hrange : in_int32 (slide_anchor true anchor size 0 parent_size max_size + size) ∧
      in_int32 (max_size - slide_anchor true anchor size 0 parent_size max_size) ∧
      in_int32 (slide_anchor true anchor size 0 parent_size max_size) := by
    unfold in_int32 at *
    unfold slide_anchor
    simp only [and_true, add_zero]
    split_ifs <;> omega
  rw [slide_anchor_int32_eq true anchor size parent_size max_size his hip h hps hms,
    resize_popup_int32_eq true _ size max_size hrange.1 hrange.2.1]
  exact ⟨hb.1, hrange.2.2, hb.2.1, hb.2.2.1, hb.2.2.2⟩

/-- C12 (counterexample): the setters make `far_offset_positioner` (the
example positioner with the x offset 2147483647) of a new positioner; its
anchor point is (100, 0), and the popup of 40 by 20 placed there fits the
parent and the compositor of 200 by 200; `max 0 (ax + offset_x)` is 2147483747,
but the sum at line 1201 wraps to a negative value and the allocation the
function computes is (0, 0, 40, 20). -/
theorem C12_counterexample :
    far_offset_requests.all (fun r => r.fromClient) = true ∧
    (∃ w, run 0 world0 far_offset_requests = .ok (w, []) ∧
      w.xdg_positioners 0 = some far_offset_positioner) ∧
    get_positioner_anchor_point_int32 far_offset_positioner = (100, 0) ∧
    (100 : Int) + far_offset_positioner.width ≤ 200 ∧
    (0 : Int) + far_offset_positioner.height ≤ 200 ∧
    max 0 ((100 : Int) + far_offset_positioner.offset_x) = 2147483747 ∧
    int32 (100 + far_offset_positioner.offset_x) = -2147483549 ∧
    xdg_popup_solve_int32 far_offset_positioner 0 0 far_offset_positioner.width
      far_offset_positioner.height 200 200 200 200 = { x := 0, y := 0, width := 40, height := 20 } :=
  ⟨by decide, ⟨_, rfl, rfl⟩, by decide, by decide, by decide, by decide, by decide, by decide⟩

/-- C12 (amended): with `use_surface_size` false (no centring offsets, the
popup has the positioner's size), for a positioner whose anchor rectangle has
an origin of 32-bit values and whose anchor point is `(ax, ay)`: if the sums
`ax + width`, `ay + height`, `ax + offset_x` and `ay + offset_y` are
representable in 32 bits and the popup placed at the anchor point fits in the
parent width and height and in the compositor's width and height, then the
allocation is the anchor point moved by the positioner's offset and clamped at
0, with the positioner's size, whatever the constraint-adjustment bits; and
this is the allocation `xdg_popup_compute_allocation` stores in a popup that
carries the positioner and whose parent size is the given one. -/
theorem C12_allocation_when_fitting (positioner : WakeFieldXdgPositioner)
    (parent_width parent_height max_width max_height : Int)
    (hx : in_int32 positioner.anchor_rect.x) (hy : in_int32 positioner.anchor_rect.y)
    (hw : in_int32 ((get_positioner_anchor_point_int32 positioner).1 + positioner.width))
    (hh : in_int32 ((get_positioner_anchor_point_int32 positioner).2 + positioner.height))
    (hox : in_int32 ((get_positioner_anchor_point_int32 positioner).1 + positioner.offset_x))
    (hoy : in_int32 ((get_positioner_anchor_point_int32 positioner).2 + positioner.offset_y))
    (hpw : (get_positioner_anchor_point_int32 positioner).1 + positioner.width ≤ parent_width)
    (hmw : (get_positioner_anchor_point_int32 positioner).1 + positioner.width ≤ max_width)
    (hph : (get_positioner_anchor_point_int32 positioner).2 + positioner.height ≤ parent_height)
    (hmh : (get_positioner_anchor_point_int32 positioner).2 + positioner.height ≤ max_height) :
    xdg_popup_solve_int32 positioner 0 0 positioner.width positioner.height
        parent_width parent_height max_width max_height =
      { x := max 0 ((get_positioner_anchor_point_int32 positioner).1 + positioner.offset_x),
        y := max 0 ((get_positioner_anchor_point_int32 positioner).2 + positioner.offset_y),
        width := positioner.width,
        height := positioner.height } ∧
    ∀ (fuel : Nat) (w : World) (p : Nat) (popup : WakefieldXdgPopup) (surface : WakefieldSurface),
      w.xdg_popups p = some popup → popup.xdg_positioner = positioner →
      popup.surface.bind w.surfaces = some surface →
      xdg_popup_parent_size fuel w popup = .ok (parent_width, parent_height) →
      w.allocation.width = max_width → w.allocation.height = max_height →
      xdg_popup_compute_allocation_int32 fuel w p false =
        .ok (w.setXdgPopup p (some { popup with
          allocation :=
            { x := max 0 ((get_positioner_anchor_point_int32 positioner).1 + positioner.offset_x),
              y := max 0 ((get_positioner_anchor_point_int32 positioner).2 + positioner.offset_y),
              width := positioner.width,
              height := positioner.height } })) := by
  have ha := anchor_point_in_int32 positioner hx hy
  have key : xdg_popup_solve_int32 positioner 0 0 positioner.width positioner.height
        parent_width parent_height max_width max_height =
      { x := max 0 ((get_positioner_anchor_point_int32 positioner).1 + positioner.offset_x),
        y := max 0 ((get_positioner_anchor_point_int32 positioner).2 + positioner.offset_y),
        width := positioner.width,
        height := positioner.height } := by
    simp only [xdg_popup_solve_int32, sub_zero, int32_eq ha.1, int32_eq ha.2]
    rw [slide_anchor_int32_fits _ _ _ _ _ _ hw hpw hmw,
      slide_anchor_int32_fits _ _ _ _ _ _ hh hph hmh,
      resize_popup_int32_fits _ _ _ _ hw hmw, resize_popup_int32_fits _ _ _ _ hh hmh,
      int32_eq hox, int32_eq hoy]
  refine ⟨key, ?_⟩
  intro fuel w p popup surface hp hpos hs hparent hw hh
  rw [compute_allocation_int32_false_ok hp hs hparent, hpos, hw, hh, key]

/-- C12 (amended), on the positioner of the specification's example (anchor
top-right, anchor rectangle (0,0,100,50), size 40 by 20, no offset, slide-x and
slide-y) with a parent of 200 by 200 and a compositor of 200 by 200: the anchor
point is (100, 0) and the allocation is (100, 0, 40, 20). -/
theorem C12_allocation_when_fitting_witness :
    get_positioner_anchor_point_int32 example_positioner = (100, 0) ∧
    xdg_popup_solve_int32 example_positioner 0 0 example_positioner.width
      example_positioner.height 200 200 200 200 = { x := 100, y := 0, width := 40, height := 20 } :=
  ⟨by decide,
   (C12_allocation_when_fitting example_positioner 200 200 200 200
      (by decide) (by decide) (by decide) (by decide) (by decide) (by decide)
      (by decide) (by decide) (by decide) (by decide)).1.trans (by decide)⟩

/-- C13 (counterexample): the setters make `huge_positioner` (anchor point
(110, 5), width 2147483647, slide-x) of a new positioner; with a parent and a
compositor of 200 by 200 the formula gives the x coordinate 0, but the sum
`anchor_x + popup_width` of lines 1169 and 1180 wraps to a negative value, no
slide happens, and the allocation the function computes has x = 110. -/
theorem C13_counterexample :
    huge_requests.all (fun r => r.fromClient) = true ∧
    (∃ w, run 0 world0 huge_requests = .ok (w, []) ∧
      w.xdg_positioners 0 = some huge_positioner) ∧
    has_adjustment huge_positioner.constraint_adjustment
      XDG_POSITIONER_CONSTRAINT_ADJUSTMENT_SLIDE_X = true ∧
    get_positioner_anchor_point_int32 huge_positioner = (110, 5) ∧
    max 0 (min (110 : Int) (min (max 0 (200 - huge_positioner.width))
      (max 0 (200 - huge_positioner.width))) + huge_positioner.offset_x) = 0 ∧
    int32 (110 + huge_positioner.width) = -2147483539 ∧
    (xdg_popup_solve_int32 huge_positioner 0 0 huge_positioner.width huge_positioner.height
      200 200 200 200).x = 110 :=
  ⟨by decide, ⟨_, rfl, rfl⟩, by decide, by decide, by decide, by decide, by decide⟩

/-- C13 (amended): with `use_surface_size` false, a positioner with slide-x
whose anchor rectangle has a 32-bit x and whose anchor point has a non-negative
x `ax` gets, when the width `w` and the parent width `P` are 32-bit values and
`ax + w`, `P - w`, `V - w` and `min ax (max 0 (P - w)) (max 0 (V - w)) +
offset_x` are representable in 32 bits, the allocation x
`max 0 (min ax (max 0 (P - w)) (max 0 (V - w)) + offset_x)`, for such a parent
width `P` and compositor width `V`; likewise for y with slide-y; and these are
the coordinates `xdg_popup_compute_allocation` stores. -/
theorem C13_slide_int32 (positioner : WakeFieldXdgPositioner)
    (parent_width parent_height max_width max_height : Int) :
    (has_adjustment positioner.constraint_adjustment
        XDG_POSITIONER_CONSTRAINT_ADJUSTMENT_SLIDE_X = true →
      0 ≤ (get_positioner_anchor_point_int32 positioner).1 →
      in_int32 positioner.anchor_rect.x → in_int32 positioner.width → in_int32 parent_width →
      in_int32 ((get_positioner_anchor_point_int32 positioner).1 + positioner.width) →
      in_int32 (parent_width - positioner.width) → in_int32 (max_width - positioner.width) →
      in_int32 (min (get_positioner_anchor_point_int32 positioner).1
            (min (max 0 (parent_width - positioner.width))
              (max 0 (max_width - positioner.width))) + positioner.offset_x) →
      (xdg_popup_solve_int32 positioner 0 0 positioner.width positioner.height
          parent_width parent_height max_width max_height).x =
        max 0 (min (get_positioner_anchor_point_int32 positioner).1
            (min (max 0 (parent_width - positioner.width))
              (max 0 (max_width - positioner.width))) + positioner.offset_x)) ∧
    (has_adjustment positioner.constraint_adjustment
        XDG_POSITIONER_CONSTRAINT_ADJUSTMENT_SLIDE_Y = true →
      0 ≤ (get_positioner_anchor_point_int32 positioner).2 →
      in_int32 positioner.anchor_rect.y → in_int32 positioner.height → in_int32 parent_height →
      in_int32 ((get_positioner_anchor_point_int32 positioner).2 + positioner.height) →
      in_int32 (parent_height - positioner.height) →
      in_int32 (max_height - positioner.height) →
      in_int32 (min (get_positioner_anchor_point_int32 positioner).2
            (min (max 0 (parent_height - positioner.height))
              (max 0 (max_height - positioner.height))) + positioner.offset_y) →
      (xdg_popup_solve_int32 positioner 0 0 positioner.width positioner.height
          parent_width parent_height max_width max_height).y =
        max 0 (min (get_positioner_anchor_point_int32 positioner).2
            (min (max 0 (parent_height - positioner.height))
              (max 0 (max_height - positioner.height))) + positioner.offset_y)) ∧
    ∀ (fuel : Nat) (w : World) (p : Nat) (popup : WakefieldXdgPopup) (surface : WakefieldSurface),
      w.xdg_popups p = some popup → popup.xdg_positioner = positioner →
      popup.surface.bind w.surfaces = some surface →
      xdg_popup_parent_size fuel w popup = .ok (parent_width, parent_height) →
      w.allocation.width = max_width → w.allocation.height = max_height →
      xdg_popup_compute_allocation_int32 fuel w p false =
        .ok (w.setXdgPopup p (some { popup with
          allocation := xdg_popup_solve_int32 positioner 0 0 positioner.width positioner.height
            parent_width parent_height max_width max_height })) := by
  refine ⟨?_, ?_, ?_⟩
  · intro hslide hax hx hw hp hsum hps hms hoff
    have ha : in_int32 (get_positioner_anchor_point_int32 positioner).1 := by
      unfold get_positioner_anchor_point_int32
      cases positioner.anchor <;> first | exact hx | exact in_int32_int32 _
    simp only [xdg_popup_solve_int32, sub_zero, hslide, int32_eq ha]
    rw [slide_anchor_int32_eq _ _ _ _ _ hw hp hsum hps hms, slide_anchor_min _ _ _ _ hax,
      int32_eq hoff]
  · intro hslide hay hy hh hp hsum hps hms hoff
    have ha : in_int32 (get_positioner_anchor_point_int32 positioner).2 := by
      unfold get_positioner_anchor_point_int32
      cases positioner.anchor <;> first | exact hy | exact in_int32_int32 _
    simp only [xdg_popup_solve_int32, sub_zero, hslide, int32_eq ha]
    rw [slide_anchor_int32_eq _ _ _ _ _ hh hp hsum hps hms, slide_anchor_min _ _ _ _ hay,
      int32_eq hoff]
  · intro fuel w p popup surface hp hpos hs hparent hw hh
    rw [compute_allocation_int32_false_ok hp hs hparent, hpos, hw, hh]

/-- C13 (amended), on the positioner of the specification's example with a
parent of 120 by 200 and a compositor of 200 by 200: the allocation is
(80, 0, 40, 20). -/
theorem C13_slide_int32_witness :
    (xdg_popup_solve_int32 example_positioner 0 0 example_positioner.width
      example_positioner.height 120 200 200 200).x = 80 ∧
    (xdg_popup_solve_int32 example_positioner 0 0 example_positioner.width
      example_positioner.height 120 200 200 200).y = 0 ∧
    xdg_popup_solve_int32 example_positioner 0 0 example_positioner.width
      example_positioner.height 120 200 200 200 = { x := 80, y := 0, width := 40, height := 20 } :=
  ⟨((C13_slide_int32 example_positioner 120 200 200 200).1 (by decide) (by decide) (by decide)
      (by decide) (by decide) (by decide) (by decide) (by decide) (by decide)).trans (by decide),
   ((C13_slide_int32 example_positioner 120 200 200 200).2.1 (by decide) (by decide) (by decide)
      (by decide) (by decide) (by decide) (by decide) (by decide) (by decide)).trans (by decide),
   by decide⟩

/-- C14 (counterexample): the setters make `huge_positioner` (anchor
rectangle (100,0,20,10), width 2147483647, slide-x and resize-x, no offset) of a
new positioner; with a parent of 200 by 200 and a compositor of 200 by 200 the
sum `anchor_x + popup_width` wraps to a negative value in the three tests of
lines 1169, 1180 and 1191, neither slide nor resize happens, and the allocation
the function computes is (110, 5, 2147483647, 20), which ends far right of the
compositor. -/
theorem C14_counterexample :
    huge_requests.all (fun r => r.fromClient) = true ∧
    (∃ w, run 0 world0 huge_requests = .ok (w, []) ∧
      w.xdg_positioners 0 = some huge_positioner) ∧
    has_adjustment huge_positioner.constraint_adjustment
      XDG_POSITIONER_CONSTRAINT_ADJUSTMENT_SLIDE_X = true ∧
    has_adjustment huge_positioner.constraint_adjustment
      XDG_POSITIONER_CONSTRAINT_ADJUSTMENT_RESIZE_X = true ∧
    huge_positioner.offset_x = 0 ∧ 0 ≤ huge_positioner.anchor_rect.x ∧
    0 ≤ huge_positioner.anchor_rect.width ∧ 0 ≤ huge_positioner.width ∧
    xdg_popup_solve_int32 huge_positioner 0 0 huge_positioner.width huge_positioner.height
      200 200 200 200 = { x := 110, y := 5, width := 2147483647, height := 20 } ∧
    ¬ ((xdg_popup_solve_int32 huge_positioner 0 0 huge_positioner.width huge_positioner.height
        200 200 200 200).x +
      (xdg_popup_solve_int32 huge_positioner 0 0 huge_positioner.width huge_positioner.height
        200 200 200 200).width ≤ 200) :=
  ⟨by decide, ⟨_, rfl, rfl⟩, by decide, by decide, by decide, by decide, by decide, by decide,
    by decide, by decide⟩

/-- C14 (amended): with `use_surface_size` false, a positioner with slide-x and
resize-x, no x offset, an anchor rectangle of non-negative x and width, a
non-negative requested width `w` and a compositor of non-negative width `V`
gets, when the rectangle's x, `w`, `V` and the parent width `P` are 32-bit
values and the rectangle's right edge, `ax + w` and `P - w` are representable
in 32 bits, an allocation with `0 ≤ x`, `0 ≤ width ≤ w` and `x + width ≤ V`;
likewise vertically; and this allocation is the one
`xdg_popup_compute_allocation` stores. -/
theorem C14_slide_and_resize_int32 (positioner : WakeFieldXdgPositioner)
    (parent_width parent_height max_width max_height : Int) :
    (has_adjustment positioner.constraint_adjustment
        XDG_POSITIONER_CONSTRAINT_ADJUSTMENT_SLIDE_X = true →
      has_adjustment positioner.constraint_adjustment
        XDG_POSITIONER_CONSTRAINT_ADJUSTMENT_RESIZE_X = true →
      positioner.offset_x = 0 →
      0 ≤ positioner.anchor_rect.x → 0 ≤ positioner.anchor_rect.width →
      0 ≤ positioner.width → 0 ≤ max_width →
      in_int32 positioner.anchor_rect.x →
      in_int32 (positioner.anchor_rect.x + positioner.anchor_rect.width) →
      in_int32 positioner.width → in_int32 parent_width → in_int32 max_width →
      in_int32 ((get_positioner_anchor_point_int32 positioner).1 + positioner.width) →
      in_int32 (parent_width - positioner.width) →
      0 ≤ (xdg_popup_solve_int32 positioner 0 0 positioner.width positioner.height
          parent_width parent_height max_width max_height).x ∧
      0 ≤ (xdg_popup_solve_int32 positioner 0 0 positioner.width positioner.height
          parent_width parent_height max_width max_height).width ∧
      (xdg_popup_solve_int32 positioner 0 0 positioner.width positioner.height
          parent_width parent_height max_width max_height).width ≤ positioner.width ∧
      (xdg_popup_solve_int32 positioner 0 0 positioner.width positioner.height
          parent_width parent_height max_width max_height).x +
        (xdg_popup_solve_int32 positioner 0 0 positioner.width positioner.height
          parent_width parent_height max_width max_height).width ≤ max_width) ∧
    (has_adjustment positioner.constraint_adjustment
        XDG_POSITIONER_CONSTRAINT_ADJUSTMENT_SLIDE_Y = true →
      has_adjustment positioner.constraint_adjustment
        XDG_POSITIONER_CONSTRAINT_ADJUSTMENT_RESIZE_Y = true →
      positioner.offset_y = 0 →
      0 ≤ positioner.anchor_rect.y → 0 ≤ positioner.anchor_rect.height →
      0 ≤ positioner.height → 0 ≤ max_height →
      in_int32 positioner.anchor_rect.y →
      in_int32 (positioner.anchor_rect.y + positioner.anchor_rect.height) →
      in_int32 positioner.height → in_int32 parent_height → in_int32 max_height →
      in_int32 ((get_positioner_anchor_point_int32 positioner).2 + positioner.height) →
      in_int32 (parent_height - positioner.height) →
      0 ≤ (xdg_popup_solve_int32 positioner 0 0 positioner.width positioner.height
          parent_width parent_height max_width max_height).y ∧
      0 ≤ (xdg_popup_solve_int32 positioner 0 0 positioner.width positioner.height
          parent_width parent_height max_width max_height).height ∧
      (xdg_popup_solve_int32 positioner 0 0 positioner.width positioner.height
          parent_width parent_height max_width max_height).height ≤ positioner.height ∧
      (xdg_popup_solve_int32 positioner 0 0 positioner.width positioner.height
          parent_width parent_height max_width max_height).y +
        (xdg_popup_solve_int32 positioner 0 0 positioner.width positioner.height
          parent_width parent_height max_width max_height).height ≤ max_height) ∧
    ∀ (fuel : Nat) (w : World) (p : Nat) (popup : WakefieldXdgPopup) (surface : WakefieldSurface),
      w.xdg_popups p = some popup → popup.xdg_positioner = positioner →
      popup.surface.bind w.surfaces = some surface →
      xdg_popup_parent_size fuel w popup = .ok (parent_width, parent_height) →
      w.allocation.width = max_width → w.allocation.height = max_height →
      xdg_popup_compute_allocation_int32 fuel w p false =
        .ok (w.setXdgPopup p (some { popup with
          allocation := xdg_popup_solve_int32 positioner 0 0 positioner.width positioner.height
            parent_width parent_height max_width max_height })) := by
  refine ⟨?_, ?_, ?_⟩
  · intro hslide hresize hoff hx hw hsize hmax hix hixw his hip him hsum hps
    have he := anchor_point_int32_x positioner hix hixw
    have hax : 0 ≤ (get_positioner_anchor_point_int32 positioner).1 := by
      rw [he]
      exact anchor_point_nonneg positioner hx hw
    have ha : in_int32 (get_positioner_anchor_point_int32 positioner).1 := by
      unfold get_positioner_anchor_point_int32
      cases positioner.anchor <;> first | exact hix | exact in_int32_int32 _
    have hb := slide_resize_int32_bounds _ _ parent_width _ hax hsize hmax his hip him hsum hps
    simp only [xdg_popup_solve_int32, sub_zero, hslide, hresize, hoff, add_zero, int32_eq ha,
      int32_eq hb.2.1]
    refine ⟨le_max_left _ _, hb.2.2.1, hb.2.2.2.1, ?_⟩
    rw [max_eq_right hb.1]
    exact hb.2.2.2.2
  · intro hslide hresize hoff hy hh hsize hmax hiy hiyh his hip him hsum hps
    have he := anchor_point_int32_y positioner hiy hiyh
    have hay : 0 ≤ (get_positioner_anchor_point_int32 positioner).2 := by
      rw [he]
      exact anchor_point_nonneg_y positioner hy hh
    have ha : in_int32 (get_positioner_anchor_point_int32 positioner).2 := by
      unfold get_positioner_anchor_point_int32
      cases positioner.anchor <;> first | exact hiy | exact in_int32_int32 _
    have hb := slide_resize_int32_bounds _ _ parent_height _ hay hsize hmax his hip him hsum hps
    simp only [xdg_popup_solve_int32, sub_zero, hslide, hresize, hoff, add_zero, int32_eq ha,
      int32_eq hb.2.1]
    refine ⟨le_max_left _ _, hb.2.2.1, hb.2.2.2.1, ?_⟩
    rw [max_eq_right hb.1]
    exact hb.2.2.2.2
  · intro fuel w p popup surface hp hpos hs hparent hw hh
    rw [compute_allocation_int32_false_ok hp hs hparent, hpos, hw, hh]

/-- C14 (amended), on a positioner with anchor bottom-right of the rectangle
(10,10,100,50), size 300 by 400, all six adjustment bits, a parent of 50 by 50
and a compositor of 200 by 200: the allocation is (0, 0, 200, 200). -/
theorem C14_slide_and_resize_int32_witness :
    xdg_popup_solve_int32 wide_positioner 0 0 wide_positioner.width wide_positioner.height
      50 50 200 200 = { x := 0, y := 0, width := 200, height := 200 } ∧
    (0 ≤ (xdg_popup_solve_int32 wide_positioner 0 0 wide_positioner.width wide_positioner.height
          50 50 200 200).x ∧
      0 ≤ (xdg_popup_solve_int32 wide_positioner 0 0 wide_positioner.width
          wide_positioner.height 50 50 200 200).width ∧
      (xdg_popup_solve_int32 wide_positioner 0 0 wide_positioner.width wide_positioner.height
          50 50 200 200).width ≤ wide_positioner.width ∧
      (xdg_popup_solve_int32 wide_positioner 0 0 wide_positioner.width wide_positioner.height
          50 50 200 200).x +
        (xdg_popup_solve_int32 wide_positioner 0 0 wide_positioner.width wide_positioner.height
          50 50 200 200).width ≤ 200) :=
  ⟨by decide,
   (C14_slide_and_resize_int32 wide_positioner 50 50 200 200).1 (by decide) (by decide)
     (by decide) (by decide) (by decide) (by decide) (by decide) (by decide) (by decide)
     (by decide) (by decide) (by decide) (by decide) (by decide)⟩

/-! ## Positioner setters (C20) -/

/-- The six adjustment bits together are the value 63. -/
theorem all_adjustments_eq : all_adjustments = 63 := by decide

/-- The test `(constraint_adjustment & ~all_adjustments) != 0` on a 32-bit
value holds exactly when the value has a bit that `all_adjustments` lacks. -/
theorem outside_bit_iff (ca : Nat) (h : ca < 4294967296) :
    (ca &&& (4294967295 - all_adjustments)) ≠ 0 ↔
      ∃ i, ca.testBit i = true ∧ all_adjustments.testBit i = false := by
  rw [all_adjustments_eq]
  have hm : ∀ i, i < 32 → (Nat.testBit (4294967295 - 63) i = true ↔ Nat.testBit 63 i = false) := by
    decide
  constructor
  · intro hne
    obtain ⟨i, hi⟩ := Nat.ne_zero_implies_bit_true hne
    rw [Nat.testBit_and, Bool.and_eq_true] at hi
    refine ⟨i, hi.1, ?_⟩
    by_cases hlt : i < 32
    · exact (hm i hlt).1 hi.2
    · have hpow : (2 : Nat) ^ 32 ≤ 2 ^ i := Nat.pow_le_pow_right (by decide) (by omega)
      exact Nat.testBit_lt_two_pow (by omega)
  · rintro ⟨i, hi, hout⟩ hzero
    have hlt : i < 32 := by
      by_contra hge
      have hpow : (2 : Nat) ^ 32 ≤ 2 ^ i := Nat.pow_le_pow_right (by decide) (by omega)
      have : ca.testBit i = false := Nat.testBit_lt_two_pow (by omega)
      rw [this] at hi
      exact Bool.noConfusion hi
    have hbit : (ca &&& (4294967295 - 63)).testBit i = true := by
      rw [Nat.testBit_and, hi, (hm i hlt).2 hout]
      rfl
    rw [hzero, Nat.zero_testBit] at hbit
    exact Bool.noConfusion hbit

/-- C20: on a live positioner, `set_size` and `set_anchor_rect` post
invalid-input exactly when the width or the height is not positive,
`set_anchor` and `set_gravity` exactly when the value exceeds 8, and
`set_constraint_adjustment` (on a 32-bit argument) exactly when the argument
has a bit that none of slide-x, flip-x, slide-y, flip-y, resize-x, resize-y
has; a setter that posts the error leaves the world as it was, and one that
does not posts nothing and changes only the fields it names. -/
theorem C20_positioner_setters (w : World) (resource : Nat) (p : WakeFieldXdgPositioner)
    (hp : w.xdg_positioners resource = some p) :
    (∀ width height : Int,
      (width ≤ 0 ∨ height ≤ 0 →
        xdg_positioner_set_size w resource width height =
          .ok (w, [Event.post_error resource .XDG_POSITIONER_ERROR_INVALID_INPUT])) ∧
      (¬ (width ≤ 0 ∨ height ≤ 0) →
        xdg_positioner_set_size w resource width height =
          .ok (w.setXdgPositioner resource (some { p with width := width, height := height }),
               []))) ∧
    (∀ x y width height : Int,
      (width ≤ 0 ∨ height ≤ 0 →
        xdg_positioner_set_anchor_rect w resource x y width height =
          .ok (w, [Event.post_error resource .XDG_POSITIONER_ERROR_INVALID_INPUT])) ∧
      (¬ (width ≤ 0 ∨ height ≤ 0) →
        xdg_positioner_set_anchor_rect w resource x y width height =
          .ok (w.setXdgPositioner resource
                 (some { p with anchor_rect := ⟨x, y, width, height⟩ }), []))) ∧
    (∀ anchor : Nat,
      (anchor > 8 →
        xdg_positioner_set_anchor w resource anchor =
          .ok (w, [Event.post_error resource .XDG_POSITIONER_ERROR_INVALID_INPUT])) ∧
      (¬ anchor > 8 →
        xdg_positioner_set_anchor w resource anchor =
          .ok (w.setXdgPositioner resource
                 (some { p with anchor := xdg_positioner_anchor.ofNumber anchor }), []))) ∧
    (∀ gravity : Nat,
      (gravity > 8 →
        xdg_positioner_set_gravity w resource gravity =
          .ok (w, [Event.post_error resource .XDG_POSITIONER_ERROR_INVALID_INPUT])) ∧
      (¬ gravity > 8 →
        xdg_positioner_set_gravity w resource gravity =
          .ok (w.setXdgPositioner resource (some { p with gravity := gravity }), []))) ∧
    (∀ constraint_adjustment : Nat, constraint_adjustment < 4294967296 →
      ((∃ i, constraint_adjustment.testBit i = true ∧ all_adjustments.testBit i = false) →
        xdg_positioner_set_constraint_adjustment w resource constraint_adjustment =
          .ok (w, [Event.post_error resource .XDG_POSITIONER_ERROR_INVALID_INPUT])) ∧
      (¬ (∃ i, constraint_adjustment.testBit i = true ∧ all_adjustments.testBit i = false) →
        xdg_positioner_set_constraint_adjustment w resource constraint_adjustment =
          .ok (w.setXdgPositioner resource
                 (some { p with constraint_adjustment := constraint_adjustment }), []))) := by
  refine ⟨?_, ?_, ?_, ?_, ?_⟩
  · intro width height
    constructor <;> intro h <;>
      simp [xdg_positioner_set_size, hp, deref, bind, Except.bind, pure, Except.pure, h]
  · intro x y width height
    constructor <;> intro h <;>
      simp [xdg_positioner_set_anchor_rect, hp, deref, bind, Except.bind, pure, Except.pure, h]
  · intro anchor
    constructor <;> intro h <;>
      simp [xdg_positioner_set_anchor, hp, deref, bind, Except.bind, pure, Except.pure, h]
  · intro gravity
    constructor <;> intro h <;>
      simp [xdg_positioner_set_gravity, hp, deref, bind, Except.bind, pure, Except.pure, h]
  · intro ca hca
    constructor <;> intro h
    · have h1 := (outside_bit_iff ca hca).2 h
      simp only [xdg_positioner_set_constraint_adjustment, hp, deref, bind, Except.bind, pure,
        Except.pure, if_pos h1]
    · have h1 : ¬ (ca &&& (4294967295 - all_adjustments)) ≠ 0 :=
        fun hne => h ((outside_bit_iff ca hca).1 hne)
      simp only [xdg_positioner_set_constraint_adjustment, hp, deref, bind, Except.bind, pure,
        Except.pure, if_neg h1]

/-- C20, on the world with one new positioner (address 0): a size of 0 by 5,
the anchor 9 and the adjustment 64 are refused and leave the world as it was;
the anchor 7 is stored as top-right. -/
theorem C20_positioner_setters_witness :
    xdg_positioner_set_size world_positioner 0 0 5 =
      .ok (world_positioner, [Event.post_error 0 .XDG_POSITIONER_ERROR_INVALID_INPUT]) ∧
    xdg_positioner_set_anchor world_positioner 0 9 =
      .ok (world_positioner, [Event.post_error 0 .XDG_POSITIONER_ERROR_INVALID_INPUT]) ∧
    xdg_positioner_set_constraint_adjustment world_positioner 0 64 =
      .ok (world_positioner, [Event.post_error 0 .XDG_POSITIONER_ERROR_INVALID_INPUT]) ∧
    xdg_positioner_set_anchor world_positioner 0 7 =
      .ok (world_positioner.setXdgPositioner 0
             (some { WakeFieldXdgPositioner.zero with anchor := .TOP_RIGHT }), []) :=
  ⟨((C20_positioner_setters world_positioner 0 WakeFieldXdgPositioner.zero rfl).1 0 5).1
      (Or.inl (le_refl 0)),
   ((C20_positioner_setters world_positioner 0 WakeFieldXdgPositioner.zero rfl).2.2.1 9).1
      (by decide),
   ((C20_positioner_setters world_positioner 0 WakeFieldXdgPositioner.zero rfl).2.2.2.2 64
      (by decide)).1 ⟨6, by decide, by decide⟩,
   ((C20_positioner_setters world_positioner 0 WakeFieldXdgPositioner.zero rfl).2.2.1 7).2
      (by decide)⟩

/-! ## Absolute coordinates of a popup (C18) -/

/-- A popup chain starts with the popup it is the chain of. -/
theorem PopupChain.head {w : World} {popup : WakefieldXdgPopup}
    {chain : List WakefieldXdgPopup} (hc : PopupChain w popup chain) :
    ∃ rest, chain = popup :: rest := by
  cases hc
  · exact ⟨[], rfl⟩
  · exact ⟨_, rfl⟩

/-- The loop of `xdg_popup_get_absolute_coordinates` on a popup with a chain
of popup ancestors, with fuel for each popup of the chain: it returns the
point it starts from plus the allocation origins of the ancestors. -/
theorem absolute_coordinates_loop_chain {w : World} {popup : WakefieldXdgPopup}
    {chain : List WakefieldXdgPopup} (hc : PopupChain w popup chain) :
    ∀ (fuel : Nat) (point : Int × Int), chain.length ≤ fuel →
      absolute_coordinates_loop fuel w popup point =
        .ok (point.1 + (chain.tail.map (fun p => p.allocation.x)).sum,
             point.2 + (chain.tail.map (fun p => p.allocation.y)).sum) := by
  induction hc with
  | last hparent hsurface hrole =>
    intro fuel point hfuel
    obtain ⟨n, rfl⟩ : ∃ n, fuel = n + 1 := ⟨fuel - 1, by simp at hfuel; omega⟩
    simp [absolute_coordinates_loop, hparent, hsurface, hrole, deref, bind, Except.bind, pure,
      Except.pure]
  | @next popup parent_popup parent_ptr parent_popup_ptr parent_surface rest hparent hsurface
      hrole hbound hpopup hrest ih =>
    intro fuel point hfuel
    obtain ⟨n, rfl⟩ : ∃ n, fuel = n + 1 := ⟨fuel - 1, by simp at hfuel; omega⟩
    obtain ⟨tl, rfl⟩ := hrest.head
    have hn := ih n (point.1 + parent_popup.allocation.x, point.2 + parent_popup.allocation.y)
      (by simpa using hfuel)
    simp only [absolute_coordinates_loop, hparent, hsurface, hrole, hbound, hpopup, deref, bind,
      Except.bind, pure, Except.pure, if_true, Option.bind, hn, List.tail_cons, List.map_cons,
      List.sum_cons, add_assoc]

/-- The loop of `xdg_popup_get_absolute_coordinates` in 32-bit arithmetic on a
popup with a chain of popup ancestors, with fuel for each popup of the chain
and no sum overflowing: it returns the point it starts from plus the allocation
origins of the ancestors. -/
theorem absolute_coordinates_loop_int32_chain {w : World} {popup : WakefieldXdgPopup}
    {chain : List WakefieldXdgPopup} (hc : PopupChain w popup chain) :
    ∀ (fuel : Nat) (point : Int × Int), chain.length ≤ fuel →
      partial_sums_in_int32 point.1 (chain.tail.map (fun p => p.allocation.x)) →
      partial_sums_in_int32 point.2 (chain.tail.map (fun p => p.allocation.y)) →
      absolute_coordinates_loop_int32 fuel w popup point =
        .ok (point.1 + (chain.tail.map (fun p => p.allocation.x)).sum,
             point.2 + (chain.tail.map (fun p => p.allocation.y)).sum) := by
  induction hc with
  | last hparent hsurface hrole =>
    intro fuel point hfuel _ _
    obtain ⟨n, rfl⟩ : ∃ n, fuel = n + 1 := ⟨fuel - 1, by simp at hfuel; omega⟩
    simp [absolute_coordinates_loop_int32, hparent, hsurface, hrole, deref, bind, Except.bind,
      pure, Except.pure]
  | @next popup parent_popup parent_ptr parent_popup_ptr parent_surface rest hparent hsurface
      hrole hbound hpopup hrest ih =>
    intro fuel point hfuel hx hy
    obtain ⟨n, rfl⟩ : ∃ n, fuel = n + 1 := ⟨fuel - 1, by simp at hfuel; omega⟩
    obtain ⟨tl, rfl⟩ := hrest.head
    simp only [List.tail_cons, List.map_cons, partial_sums_in_int32] at hx hy
    have hn := ih n (point.1 + parent_popup.allocation.x, point.2 + parent_popup.allocation.y)
      (by simpa using hfuel) hx.2 hy.2
    simp only [absolute_coordinates_loop_int32, hparent, hsurface, hrole, hbound, hpopup, deref,
      bind, Except.bind, pure, Except.pure, if_true, Option.bind, int32_eq hx.1, int32_eq hy.1,
      hn, List.tail_cons, List.map_cons, List.sum_cons, add_assoc]

/-- C18 (counterexample): after client requests that create a toplevel, a
popup (6) on it and a popup (9) on that popup, both from a positioner with the
x offset 2147483000, each popup is allocated at (2147483060, 35), as the 32-bit
placement computes it too; the ancestry of popup 9 is the chain of popups 9 and
6, ending at the toplevel's surface, and the sum of the allocation origins is
(4294966120, 70); the sum of line 461 wraps and the function returns
(-1176, 70). -/
theorem C18_counterexample :
    far_popups_requests.all (fun r => r.fromClient) = true ∧
    ClientReachable world_far_popups ∧
    ∃ p9 p6 : WakefieldXdgPopup,
      world_far_popups.xdg_popups 9 = some p9 ∧ world_far_popups.xdg_popups 6 = some p6 ∧
      PopupChain world_far_popups p9 [p9, p6] ∧
      p9.allocation = { x := 2147483060, y := 35, width := 40, height := 20 } ∧
      p6.allocation = { x := 2147483060, y := 35, width := 40, height := 20 } ∧
      (∃ q, xdg_popup_compute_allocation_int32 5 world_far_popups 9 false = .ok q ∧
        q.xdg_popups 9 = some p9) ∧
      (([p9, p6].map (fun q => q.allocation.x)).sum,
        ([p9, p6].map (fun q => q.allocation.y)).sum) = (4294966120, 70) ∧
      ¬ in_int32 4294966120 ∧
      xdg_popup_get_absolute_coordinates_int32 2 world_far_popups 9 = .ok (-1176, 70) := by
  have hall : ∀ r ∈ far_popups_requests, r.fromClient = true := by decide
  obtain ⟨evs, hrun⟩ : ∃ evs, run 5 world0 far_popups_requests = .ok (world_far_popups, evs) :=
    ⟨_, rfl⟩
  exact ⟨by decide, client_reachable_run (ClientReachable.empty _) hall hrun, _, _, rfl, rfl,
    PopupChain.next rfl rfl rfl rfl rfl (PopupChain.last rfl rfl (by decide)), rfl, rfl,
    ⟨_, rfl, rfl⟩, rfl, by decide, rfl⟩

/-- C18 (amended): for a popup whose ancestry is a finite chain of popups
ending at a parent surface whose role is not `XDG_POPUP`,
`xdg_popup_get_absolute_coordinates` with fuel for each popup of the chain
returns, when none of the sums it forms one after the other overflows 32 bits,
the sum of the allocation origins of the popups of the chain; with a parent
surface of role `XDG_TOPLEVEL` it returns the popup's own allocation origin. -/
theorem C18_absolute_coordinates_int32 (w : World) (p : Nat) (popup : WakefieldXdgPopup)
    (chain : List WakefieldXdgPopup) (hp : w.xdg_popups p = some popup)
    (hc : PopupChain w popup chain) :
    (∀ fuel, chain.length ≤ fuel →
      partial_sums_in_int32 popup.allocation.x (chain.tail.map (fun q => q.allocation.x)) →
      partial_sums_in_int32 popup.allocation.y (chain.tail.map (fun q => q.allocation.y)) →
      xdg_popup_get_absolute_coordinates_int32 fuel w p =
        .ok ((chain.map (fun q => q.allocation.x)).sum,
             (chain.map (fun q => q.allocation.y)).sum)) ∧
    (∀ parent_ptr parent_surface, popup.parent_surface = some parent_ptr →
      w.surfaces parent_ptr = some parent_surface → parent_surface.role = .XDG_TOPLEVEL →
      ∀ fuel, 1 ≤ fuel →
        xdg_popup_get_absolute_coordinates_int32 fuel w p =
          .ok (popup.allocation.x, popup.allocation.y)) := by
  constructor
  · intro fuel hfuel hx hy
    have h := absolute_coordinates_loop_int32_chain hc fuel
      (popup.allocation.x, popup.allocation.y) hfuel hx hy
    simp only [xdg_popup_get_absolute_coordinates_int32, hp, deref, bind, Except.bind, h]
    cases hc <;> simp
  · intro parent_ptr parent_surface hparent hsurface hrole fuel hfuel
    have hlast : PopupChain w popup [popup] :=
      PopupChain.last hparent hsurface (by rw [hrole]; decide)
    have h := absolute_coordinates_loop_int32_chain hlast fuel
      (popup.allocation.x, popup.allocation.y) (by simpa using hfuel) trivial trivial
    simp only [xdg_popup_get_absolute_coordinates_int32, hp, deref, bind, Except.bind, h]
    simp

/-- C18 (amended), on the world with a popup (9) on a popup (6) on a toplevel,
both allocated at (60, 35): the absolute coordinates of popup 9 are (120, 70)
and those of popup 6 are (60, 35). -/
theorem C18_absolute_coordinates_int32_witness :
    xdg_popup_get_absolute_coordinates_int32 2 world_two_popups 9 = .ok (120, 70) ∧
    xdg_popup_get_absolute_coordinates_int32 2 world_two_popups 6 = .ok (60, 35) :=
  ⟨((C18_absolute_coordinates_int32 world_two_popups 9 _ _ rfl
      (PopupChain.next rfl rfl rfl rfl rfl (PopupChain.last rfl rfl (by decide)))).1 2
      (by decide) (by decide) (by decide)).trans rfl,
   ((C18_absolute_coordinates_int32 world_two_popups 6 _ _ rfl
      (PopupChain.last rfl rfl (by decide))).2 0 _ rfl rfl rfl 2 (by decide)).trans rfl⟩

/-! ## Ancestor walks (C19) -/

/-- The loop of `xdg_popup_get_absolute_coordinates` runs out of any fuel on a
popup whose parent surface is a popup surface bound to that same popup. -/
theorem absolute_coordinates_loop_cycle {w : World} {popup : WakefieldXdgPopup}
    {a q : Nat} {s : WakefieldSurface} (h1 : popup.parent_surface = some a)
    (h2 : w.surfaces a = some s) (h3 : s.role = .XDG_POPUP)
    (h4 : s.xdg_popup = some q) (h5 : w.xdg_popups q = some popup) :
    ∀ (fuel : Nat) (point : Int × Int),
      absolute_coordinates_loop fuel w popup point = .error .fuel := by
  intro fuel
  induction fuel with
  | zero => intro point; rfl
  | succ n ih =>
    intro point
    simp only [absolute_coordinates_loop, h1, h2, h3, h4, h5, deref, bind, Except.bind,
      Option.bind, if_true, ih]

/-- The function `get_parent_toplevel` runs out of any fuel on a popup surface
whose popup has that same surface as parent. -/
theorem get_parent_toplevel_cycle {w : World} {popup : WakefieldXdgPopup}
    {a q : Nat} {s : WakefieldSurface} (h1 : popup.parent_surface = some a)
    (h2 : w.surfaces a = some s) (h3 : s.role = .XDG_POPUP)
    (h4 : s.xdg_popup = some q) (h5 : w.xdg_popups q = some popup) :
    ∀ fuel : Nat, get_parent_toplevel fuel w (some a) = .error .fuel := by
  intro fuel
  induction fuel with
  | zero => rfl
  | succ n ih =>
    simp [get_parent_toplevel, h1, h2, h3, h4, h5, deref, bind, Except.bind, ih]

/-- The popup branch of commit runs out of any fuel on a surface whose popup
has that same surface as parent, when the positioner carries a parent
size. -/
theorem process_damage_cycle {w : World} {a q x : Nat} {s : WakefieldSurface}
    {popup : WakefieldXdgPopup} (hs : w.surfaces a = some s)
    (hx : s.xdg_surface = some x) (hq : s.xdg_popup = some q) (hrole : s.role = .XDG_POPUP)
    (hp : w.xdg_popups q = some popup) (hsurf : popup.surface = some a)
    (hpar : popup.parent_surface = some a)
    (hsize : popup.xdg_positioner.has_parent_size = true) :
    ∀ fuel : Nat, wl_surface_commit_process_damage fuel w a = .error .fuel := by
  intro fuel
  have hc : xdg_popup_compute_allocation fuel w q true =
      .ok (w.setXdgPopup q (some { popup with
        allocation := xdg_popup_solve popup.xdg_positioner 0 0 popup.xdg_positioner.width
          popup.xdg_positioner.height popup.xdg_positioner.parent_width
          popup.xdg_positioner.parent_height w.allocation.width w.allocation.height })) := by
    simp only [xdg_popup_compute_allocation, hp, hsurf, hs, hpar, hrole, hsize,
      xdg_popup_nominal_size, xdg_popup_uses_surface_size, xdg_popup_parent_size, deref, bind,
      Except.bind, pure, Except.pure, Option.bind, if_true]
    rfl
  have hget : ∀ popup1 : WakefieldXdgPopup,
      (w.setXdgPopup q (some popup1)).xdg_popups q = some popup1 := by
    intro popup1
    simp [World.setXdgPopup]
  have hloop : ∀ (alloc : cairo_rectangle_int_t) (pt : Int × Int),
      absolute_coordinates_loop fuel
        (w.setXdgPopup q (some { popup with allocation := alloc }))
        { popup with allocation := alloc } pt = .error .fuel :=
    fun alloc pt =>
      @absolute_coordinates_loop_cycle
        (w.setXdgPopup q (some { popup with allocation := alloc }))
        { popup with allocation := alloc } a q s hpar hs hrole hq (hget _) fuel pt
  simp only [wl_surface_commit_process_damage, hs, hx, hq, hc, deref, bind, Except.bind,
    xdg_popup_get_absolute_coordinates, hget, hloop]

/-- Commit runs out of any fuel on a surface without buffers whose popup has
that same surface as parent, when the positioner carries a parent size. -/
theorem commit_cycle {w : World} {a q x : Nat} {s : WakefieldSurface}
    {popup : WakefieldXdgPopup} (hs : w.surfaces a = some s)
    (hcur : s.current.buffer = none) (hpend : s.pending.buffer = none)
    (hx : s.xdg_surface = some x) (hq : s.xdg_popup = some q) (hrole : s.role = .XDG_POPUP)
    (hp : w.xdg_popups q = some popup) (hsurf : popup.surface = some a)
    (hpar : popup.parent_surface = some a)
    (hsize : popup.xdg_positioner.has_parent_size = true) :
    ∀ fuel : Nat, wl_surface_commit fuel w a = .error .fuel := by
  intro fuel
  have h := @process_damage_cycle
    (w.setSurface a (some (wl_surface_commit_state s none))) a q x
    (wl_surface_commit_state s none) popup (surfaces_setSurface_same _ _ _) hx hq hrole hp hsurf
    hpar hsize fuel
  simp only [wl_surface_commit, hs, wl_surface_commit_footprint, wl_surface_commit_buffer, hcur,
    hpend, deref, bind, Except.bind, h]

/-- The request `get_popup` on a shell surface with that same shell surface as
parent and a positioner without parent size runs out of every fuel: the popup
it creates is its own ancestor and `get_parent_toplevel` does not return. -/
theorem get_popup_self_parent {w : World} {x a : Nat} {xs : WakefieldXdgSurface}
    {s : WakefieldSurface} {positioner : WakeFieldXdgPositioner}
    (hx : w.xdg_surfaces x = some xs) (hl : xs.surface = some a) (hs : w.surfaces a = some s)
    (hnone : s.xdg_popup = none) (hrole : s.role = .NONE)
    (hsize : positioner.has_parent_size = false) :
    ∀ fuel : Nat,
      xdg_surface_get_popup fuel w x (some x) (some positioner) true = .error .fuel := by
  intro fuel
  have hcycle : ∀ (w3 : World) (popup : WakefieldXdgPopup) (s3 : WakefieldSurface),
      popup.parent_surface = some a → w3.surfaces a = some s3 → s3.role = .XDG_POPUP →
      s3.xdg_popup = some w.next → w3.xdg_popups w.next = some popup →
      get_parent_toplevel fuel w3 (some a) = .error .fuel :=
    fun w3 popup s3 h1 h2 h3 h4 h5 => get_parent_toplevel_cycle h1 h2 h3 h4 h5 fuel
  simp only [xdg_surface_get_popup, hx, hl, hs, hnone, hrole, wakefield_surface_set_role,
    g_assert, surfaces_setSurface_same, deref, bind, Except.bind, pure, Except.pure,
    decide_True, Bool.true_or, if_true, xdg_popup_compute_allocation, xdg_popup_nominal_size,
    xdg_popup_uses_surface_size, xdg_popup_parent_size, hsize]
  simp [World.setXdgPopup, World.setSurface, Option.bind]
  rw [hcycle _ ⟨some a, some a, positioner, ⟨0, 0, 0, 0⟩, 0⟩
    { s with xdg_popup := some w.next, role := .XDG_POPUP } rfl (by simp) rfl rfl (by simp)]
  simp [hsize]

/-- C19: the client requests create_surface, get_xdg_surface, create_positioner,
set_parent_size and get_popup with the surface's own shell surface as parent
all return, and lead to a world in which popup 3 has its own surface (of role
`XDG_POPUP`, bound to popup 3) as parent surface.  Following parent-surface
links from popup 3 never reaches a surface of another role: it has no finite
popup chain, and `xdg_popup_get_absolute_coordinates` on it,
`get_parent_toplevel` on its surface and the commit of its surface run out of
every fuel.  Without the set_parent_size request, the get_popup request itself
runs out of every fuel. -/
theorem C19_popup_is_its_own_ancestor :
    run 5 world0 self_parent_requests = .ok (world_self_parent, [Event.send_configure 1]) ∧
    (∀ r ∈ self_parent_requests, r.fromClient = true) ∧
    ClientReachable world_self_parent ∧
    (∃ popup s, world_self_parent.xdg_popups 3 = some popup ∧ popup.surface = some 0 ∧
      popup.parent_surface = some 0 ∧ world_self_parent.surfaces 0 = some s ∧
      s.role = .XDG_POPUP ∧ s.xdg_popup = some 3 ∧
      ∀ chain, ¬ PopupChain world_self_parent popup chain) ∧
    (∀ fuel, xdg_popup_get_absolute_coordinates fuel world_self_parent 3 = .error .fuel) ∧
    (∀ fuel, get_parent_toplevel fuel world_self_parent (some 0) = .error .fuel) ∧
    (∀ fuel, wl_surface_commit fuel world_self_parent 0 = .error .fuel) ∧
    ClientReachable world_shell_positioner ∧
    (∀ fuel, step fuel world_shell_positioner (.get_popup 1 (some 1) 2 true) =
      .error .fuel) := by
  have hall : ∀ r ∈ self_parent_requests, r.fromClient = true := by decide
  have hrun : run 5 world0 self_parent_requests =
      .ok (world_self_parent, [Event.send_configure 1]) := rfl
  have hall1 : ∀ r ∈ shell_positioner_requests, r.fromClient = true := by decide
  have hrun1 : run 5 world0 shell_positioner_requests = .ok (world_shell_positioner, []) := rfl
  have hloop := @absolute_coordinates_loop_cycle world_self_parent _ 0 3 _
    (rfl : (_ : WakefieldXdgPopup).parent_surface = some 0)
    (rfl : world_self_parent.surfaces 0 = some _) rfl rfl rfl
  refine ⟨hrun, hall, client_reachable_run (ClientReachable.empty _) hall hrun,
    ⟨_, _, rfl, rfl, rfl, rfl, rfl, rfl, ?_⟩, ?_, ?_, ?_,
    client_reachable_run (ClientReachable.empty _) hall1 hrun1, ?_⟩
  · intro chain hchain
    have h := absolute_coordinates_loop_chain hchain chain.length (0, 0) (le_refl _)
    rw [hloop] at h
    cases h
  · intro fuel
    have h := hloop fuel
    simp only [xdg_popup_get_absolute_coordinates, deref, bind, Except.bind]
    exact h _
  · exact @get_parent_toplevel_cycle world_self_parent _ 0 3 _
      (rfl : (_ : WakefieldXdgPopup).parent_surface = some 0)
      (rfl : world_self_parent.surfaces 0 = some _) rfl rfl rfl
  · exact @commit_cycle world_self_parent 0 3 1 _ _
      (rfl : world_self_parent.surfaces 0 = some _) rfl rfl rfl rfl rfl
      (rfl : world_self_parent.xdg_popups 3 = some _) rfl rfl rfl
  · exact @get_popup_self_parent world_shell_positioner 1 0 _ _ WakeFieldXdgPositioner.zero
      (rfl : world_shell_positioner.xdg_surfaces 1 = some _) rfl
      (rfl : world_shell_positioner.surfaces 0 = some _) rfl rfl rfl

/-! ## Shell surfaces of one surface, and links after a destruction (C11, C16, C17) -/

/-- C11: `wakefield_xdg_surface_new` returns on every live surface, whatever
its role and links, and creates a shell surface linked to it; after the client
requests create_surface, get_xdg_surface(0), get_xdg_surface(0), which all
return without a protocol error, the two live shell surfaces 1 and 2 both
refer to surface 0 (of role `NONE`), whose own link designates the second. -/
theorem C11_second_shell_surface :
    (∀ (w : World) (surface_resource : Nat) (s : WakefieldSurface),
      w.surfaces surface_resource = some s →
      ∃ w1 x, wakefield_xdg_surface_new w surface_resource = .ok (w1, w.next) ∧
        w1.xdg_surfaces w.next = some x ∧ x.surface = some surface_resource) ∧
    run 5 world0 double_bind_requests = .ok (world_double_bind, []) ∧
    (∀ r ∈ double_bind_requests, r.fromClient = true) ∧
    ClientReachable world_double_bind ∧
    ∃ s first second, world_double_bind.surfaces 0 = some s ∧ s.role = .NONE ∧
      s.xdg_surface = some 2 ∧
      world_double_bind.xdg_surfaces 1 = some first ∧ first.surface = some 0 ∧
      world_double_bind.xdg_surfaces 2 = some second ∧ second.surface = some 0 := by
  have hall : ∀ r ∈ double_bind_requests, r.fromClient = true := by decide
  have hrun : run 5 world0 double_bind_requests = .ok (world_double_bind, []) := rfl
  refine ⟨?_, hrun, hall, client_reachable_run (ClientReachable.empty _) hall hrun,
    ⟨_, _, _, rfl, rfl, rfl, rfl, rfl, rfl, rfl⟩⟩
  intro w surface_resource s hs
  refine ⟨{ (w.setXdgSurface w.next (some ⟨some surface_resource, none⟩)).setSurface
      surface_resource (some { s with xdg_surface := some w.next }) with next := w.next + 1 },
    ⟨some surface_resource, none⟩, ?_, ?_, rfl⟩
  · simp only [wakefield_xdg_surface_new, hs, deref, bind, Except.bind, pure, Except.pure]
  · simp [World.setSurface, World.setXdgSurface]

/-- Popup requests are client requests, and the world they lead to is
client-reachable. -/
theorem popup_requests_reachable :
    (∀ r ∈ popup_requests, r.fromClient = true) ∧
    run 5 world0 popup_requests = .ok (world_popup, [Event.send_configure 3]) ∧
    ClientReachable world_popup := by
  have hall : ∀ r ∈ popup_requests, r.fromClient = true := by decide
  have hrun : run 5 world0 popup_requests = .ok (world_popup, [Event.send_configure 3]) := rfl
  exact ⟨hall, hrun, client_reachable_run (ClientReachable.empty _) hall hrun⟩

/-- C16: after the client requests that give surface 2 a popup (5) with surface
0 as parent surface, destroying surface 0 returns and leaves popup 5 alive with
its parent-surface link still designating surface 0; the commit of surface 2
and a grab of popup 5 then read the destroyed surface.  After two shell
surfaces are bound to surface 0, destroying surface 0 leaves the first (1)
alive with its surface link still designating surface 0, and destroying that
shell surface then reads the destroyed surface. -/
theorem C16_links_to_destroyed_surface :
    (∃ w popup, step 5 world_popup (.surface_destroy 0) = .ok (w, []) ∧ ClientReachable w ∧
      w.surfaces 0 = none ∧ w.xdg_popups 5 = some popup ∧ popup.parent_surface = some 0 ∧
      (∀ fuel, step fuel w (.commit 2) = .error .undefined) ∧
      (∀ fuel, step fuel w (.popup_grab 5 0) = .error .undefined)) ∧
    (∃ w xdg_surface, step 5 world_double_bind (.surface_destroy 0) = .ok (w, []) ∧
      ClientReachable w ∧ w.surfaces 0 = none ∧
      w.xdg_surfaces 1 = some xdg_surface ∧ xdg_surface.surface = some 0 ∧
      (∀ fuel, step fuel w (.xdg_surface_destroy 1) = .error .undefined)) := by
  have hall : ∀ r ∈ double_bind_requests, r.fromClient = true := by decide
  have hrun : run 5 world0 double_bind_requests = .ok (world_double_bind, []) := rfl
  have hdouble : ClientReachable world_double_bind :=
    client_reachable_run (ClientReachable.empty _) hall hrun
  exact ⟨⟨_, _, rfl,
      ClientReachable.step 5 (.surface_destroy 0) rfl popup_requests_reachable.2.2 rfl,
      rfl, rfl, rfl, fun _ => rfl, fun _ => rfl⟩,
    ⟨_, _, rfl, ClientReachable.step 5 (.surface_destroy 0) rfl hdouble rfl, rfl, rfl, rfl,
      fun _ => rfl⟩⟩

/-- C17: from the client-reachable world with popup 5 (surface 2, parent
surface 0), destroying surface 2 leaves the popup with an absent surface link,
which reposition and grab then follow; destroying shell surface 1 leaves the
parent surface without shell surface, which grab then follows; destroying
surface 0 leaves the parent-surface link designating no live surface, which
the commit of surface 2 then follows; and after a toplevel parent lost its
toplevel, the commit of a popup surface follows the absent toplevel link in
`get_parent_toplevel`. -/
theorem C17_popup_requests_follow_absent_links :
    (∃ w popup, step 5 world_popup (.surface_destroy 2) = .ok (w, []) ∧ ClientReachable w ∧
      w.xdg_popups 5 = some popup ∧ popup.surface = none ∧
      (∀ fuel, step fuel w (.popup_reposition 5 4 0) = .error .undefined) ∧
      (∀ fuel, step fuel w (.popup_grab 5 0) = .error .undefined)) ∧
    (∃ w s, step 5 world_popup (.xdg_surface_destroy 1) = .ok (w, []) ∧ ClientReachable w ∧
      w.surfaces 0 = some s ∧ s.xdg_surface = none ∧
      (∀ fuel, step fuel w (.popup_grab 5 0) = .error .undefined)) ∧
    (∃ w popup, step 5 world_popup (.surface_destroy 0) = .ok (w, []) ∧ ClientReachable w ∧
      w.xdg_popups 5 = some popup ∧ popup.parent_surface = some 0 ∧ w.surfaces 0 = none ∧
      (∀ fuel, step fuel w (.commit 2) = .error .undefined)) ∧
    (∃ w s, step 5 world_two_popups (.toplevel_destroy 2) = .ok (w, []) ∧ ClientReachable w ∧
      w.surfaces 0 = some s ∧ s.role = .XDG_TOPLEVEL ∧ s.xdg_toplevel = none ∧
      step 5 w (.commit 3) = .error .undefined ∧
      get_parent_toplevel 5 w (some 3) = .error .undefined) := by
  have hall : ∀ r ∈ two_popups_requests, r.fromClient = true := by decide
  obtain ⟨evs, hrun⟩ : ∃ evs, run 5 world0 two_popups_requests = .ok (world_two_popups, evs) :=
    ⟨_, rfl⟩
  have htwo : ClientReachable world_two_popups :=
    client_reachable_run (ClientReachable.empty _) hall hrun
  exact ⟨⟨_, _, rfl,
      ClientReachable.step 5 (.surface_destroy 2) rfl popup_requests_reachable.2.2 rfl,
      rfl, rfl, fun _ => rfl, fun _ => rfl⟩,
    ⟨_, _, rfl,
      ClientReachable.step 5 (.xdg_surface_destroy 1) rfl popup_requests_reachable.2.2 rfl,
      rfl, rfl, fun _ => rfl⟩,
    ⟨_, _, rfl,
      ClientReachable.step 5 (.surface_destroy 0) rfl popup_requests_reachable.2.2 rfl,
      rfl, rfl, rfl, fun _ => rfl⟩,
    ⟨_, _, rfl, ClientReachable.step 5 (.toplevel_destroy 2) rfl htwo rfl, rfl, rfl, rfl, rfl,
      rfl⟩⟩

/-! ## Destruction in any order (C15) -/

/-- Linked tables stay linked when read the other way round. -/
theorem Linked.swap {α β : Type} {S : Nat → Option α} {T : Nat → Option β}
    {f : α → Option Nat} {g : β → Option Nat} (h : Linked S T f g) : Linked T S g f :=
  ⟨h.2, h.1⟩

/-- Linked tables stay linked when the records change without their links
changing. -/
theorem Linked.congr {α β : Type} {S S1 : Nat → Option α} {T T1 : Nat → Option β}
    {f : α → Option Nat} {g : β → Option Nat} (h : Linked S T f g)
    (hS : ∀ b s1, S1 b = some s1 → ∃ s, S b = some s ∧ f s1 = f s)
    (hS1 : ∀ b s, S b = some s → ∃ s1, S1 b = some s1 ∧ f s1 = f s)
    (hT : ∀ y o1, T1 y = some o1 → ∃ o, T y = some o ∧ g o1 = g o)
    (hT1 : ∀ y o, T y = some o → ∃ o1, T1 y = some o1 ∧ g o1 = g o) :
    Linked S1 T1 f g := by
  constructor
  · intro a s1 hs1 x hx
    obtain ⟨s, hs, hf⟩ := hS a s1 hs1
    obtain ⟨o, ho, hg⟩ := h.1 a s hs x (hf ▸ hx)
    obtain ⟨o1, ho1, hg1⟩ := hT1 x o ho
    exact ⟨o1, ho1, hg1.trans hg⟩
  · intro x o1 ho1 a ha
    obtain ⟨o, ho, hg⟩ := hT x o1 ho1
    obtain ⟨s, hs, hf⟩ := h.2 x o ho a (hg ▸ ha)
    obtain ⟨s1, hs1, hf1⟩ := hS1 a s hs
    exact ⟨s1, hs1, hf1.trans hf⟩

/-- Linked tables stay linked when a record is removed from the first table
and the object it designates, if any, loses its link back. -/
theorem Linked.remove {α β : Type} {S S1 : Nat → Option α} {T T1 : Nat → Option β}
    {f : α → Option Nat} {g : β → Option Nat} (h : Linked S T f g) {a : Nat} {s : α}
    (hs : S a = some s) (hS : ∀ b, b ≠ a → S1 b = S b) (hSa : S1 a = none)
    (hT : ∀ y, f s ≠ some y → T1 y = T y)
    (hTx : ∀ x o1, f s = some x → T1 x = some o1 → g o1 = none) :
    Linked S1 T1 f g := by
  constructor
  · intro a1 s1 hs1 x1 hx1
    have ha1 : a1 ≠ a := by
      rintro rfl
      rw [hSa] at hs1
      cases hs1
    rw [hS a1 ha1] at hs1
    obtain ⟨o, ho, hg⟩ := h.1 a1 s1 hs1 x1 hx1
    have hne : f s ≠ some x1 := by
      intro hfs
      obtain ⟨o2, ho2, hg2⟩ := h.1 a s hs x1 hfs
      rw [ho] at ho2
      cases ho2
      rw [hg] at hg2
      exact ha1 (Option.some.inj hg2)
    exact ⟨o, (hT x1 hne).trans ho, hg⟩
  · intro x1 o1 ho1 a1 ha1
    have hne : f s ≠ some x1 := by
      intro hfs
      rw [hTx x1 o1 hfs ho1] at ha1
      cases ha1
    rw [hT x1 hne] at ho1
    obtain ⟨s1, hs1, hf1⟩ := h.2 x1 o1 ho1 a1 ha1
    have hne1 : a1 ≠ a := by
      rintro rfl
      rw [hs] at hs1
      cases hs1
      exact hne hf1
    exact ⟨s1, (hS a1 hne1).trans hs1, hf1⟩

/-- In a paired world every back-reference is absent or designates a live
object. -/
theorem Paired.linksLive {w : World} (h : Paired w) : LinksLive w := by
  obtain ⟨hx, ht, hp⟩ := h
  refine ⟨fun a s hs => ⟨fun x hl => ?_, fun t hl => ?_, fun p hl => ?_⟩,
    fun x o a ho hl => ?_, fun t o a ho hl => ?_, fun p o a ho hl => ?_⟩
  · obtain ⟨o, ho, _⟩ := hx.1 a s hs x hl
    simp [ho]
  · obtain ⟨o, ho, _⟩ := ht.1 a s hs t hl
    simp [ho]
  · obtain ⟨o, ho, _⟩ := hp.1 a s hs p hl
    simp [ho]
  · obtain ⟨s, hs, _⟩ := hx.2 x o ho a hl
    simp [hs]
  · obtain ⟨s, hs, _⟩ := ht.2 t o ho a hl
    simp [hs]
  · obtain ⟨s, hs, _⟩ := hp.2 p o ho a hl
    simp [hs]

/-- The function `wl_surface_unmap` returns on a live surface and clears its
mapped flag. -/
theorem unmap_eq {w : World} {a : Nat} {s : WakefieldSurface} (hs : w.surfaces a = some s) :
    wl_surface_unmap w a =
      .ok (w.setSurface a (some { s with mapped := false }),
           if s.mapped then [Event.surface_unmapped a] else []) := by
  cases hm : s.mapped
  · have hsame : ({ s with mapped := false } : WakefieldSurface) = s := by
      cases s
      simp only at hm
      subst hm
      rfl
    have hw : w.setSurface a (some s) = w := by
      unfold World.setSurface
      rw [← hs, Function.update_eq_self]
    simp [wl_surface_unmap, hs, hm, hsame, hw, deref, bind, Except.bind, pure, Except.pure]
  · simp [wl_surface_unmap, hs, hm, deref, bind, Except.bind, pure, Except.pure]

/-- The statement `if (p) p->surface = NULL` on a shell-surface pointer that is
null or live returns and changes that shell surface only. -/
theorem clear_xdg_surface_effect {w : World} {link : Option Nat}
    (hlive : ∀ x, link = some x → ∃ o, w.xdg_surfaces x = some o) :
    ∃ w1, clear_xdg_surface_surface w link = .ok w1 ∧ w1.surfaces = w.surfaces ∧
      w1.xdg_toplevels = w.xdg_toplevels ∧ w1.xdg_popups = w.xdg_popups ∧
      (∀ y, link ≠ some y → w1.xdg_surfaces y = w.xdg_surfaces y) ∧
      (∀ x, link = some x → ∃ o1, w1.xdg_surfaces x = some o1 ∧ o1.surface = none) := by
  cases link with
  | none => exact ⟨w, rfl, rfl, rfl, rfl, fun _ _ => rfl, fun x h => by cases h⟩
  | some x =>
    obtain ⟨o, ho⟩ := hlive x rfl
    refine ⟨w.setXdgSurface x (some { o with surface := none }), ?_, rfl, rfl, rfl, ?_, ?_⟩
    · simp [clear_xdg_surface_surface, ho, deref, bind, Except.bind, pure, Except.pure]
    · intro y hy
      have hne : y ≠ x := fun h => hy (h ▸ rfl)
      simp [World.setXdgSurface, Function.update_apply, hne]
    · intro y hy
      cases hy
      exact ⟨{ o with surface := none }, by simp [World.setXdgSurface], rfl⟩

/-- The statement `if (p) p->surface = NULL` on a toplevel pointer that is null
or live returns and changes that toplevel only. -/
theorem clear_xdg_toplevel_effect {w : World} {link : Option Nat}
    (hlive : ∀ x, link = some x → ∃ o, w.xdg_toplevels x = some o) :
    ∃ w1, clear_xdg_toplevel_surface w link = .ok w1 ∧ w1.surfaces = w.surfaces ∧
      w1.xdg_surfaces = w.xdg_surfaces ∧ w1.xdg_popups = w.xdg_popups ∧
      (∀ y, link ≠ some y → w1.xdg_toplevels y = w.xdg_toplevels y) ∧
      (∀ x, link = some x → ∃ o1, w1.xdg_toplevels x = some o1 ∧ o1.surface = none) := by
  cases link with
  | none => exact ⟨w, rfl, rfl, rfl, rfl, fun _ _ => rfl, fun x h => by cases h⟩
  | some x =>
    obtain ⟨o, ho⟩ := hlive x rfl
    refine ⟨w.setXdgToplevel x (some { o with surface := none }), ?_, rfl, rfl, rfl, ?_, ?_⟩
    · simp [clear_xdg_toplevel_surface, ho, deref, bind, Except.bind, pure, Except.pure]
    · intro y hy
      have hne : y ≠ x := fun h => hy (h ▸ rfl)
      simp [World.setXdgToplevel, Function.update_apply, hne]
    · intro y hy
      cases hy
      exact ⟨{ o with surface := none }, by simp [World.setXdgToplevel], rfl⟩

/-- The statement `if (p) p->surface = NULL` on a popup pointer that is null or
live returns and changes that popup only. -/
theorem clear_xdg_popup_effect {w : World} {link : Option Nat}
    (hlive : ∀ x, link = some x → ∃ o, w.xdg_popups x = some o) :
    ∃ w1, clear_xdg_popup_surface w link = .ok w1 ∧ w1.surfaces = w.surfaces ∧
      w1.xdg_surfaces = w.xdg_surfaces ∧ w1.xdg_toplevels = w.xdg_toplevels ∧
      (∀ y, link ≠ some y → w1.xdg_popups y = w.xdg_popups y) ∧
      (∀ x, link = some x → ∃ o1, w1.xdg_popups x = some o1 ∧ o1.surface = none) := by
  cases link with
  | none => exact ⟨w, rfl, rfl, rfl, rfl, fun _ _ => rfl, fun x h => by cases h⟩
  | some x =>
    obtain ⟨o, ho⟩ := hlive x rfl
    refine ⟨w.setXdgPopup x (some { o with surface := none }), ?_, rfl, rfl, rfl, ?_, ?_⟩
    · simp [clear_xdg_popup_surface, ho, deref, bind, Except.bind, pure, Except.pure]
    · intro y hy
      have hne : y ≠ x := fun h => hy (h ▸ rfl)
      simp [World.setXdgPopup, Function.update_apply, hne]
    · intro y hy
      cases hy
      exact ⟨{ o with surface := none }, by simp [World.setXdgPopup], rfl⟩

/-- In a paired world the destructor of a live surface returns; it removes the
surface, clears the surface link of the objects the surface was bound to and
leaves every other record as it was. -/
theorem surface_finalize_effect {w : World} {a : Nat} {s : WakefieldSurface}
    (hw : Paired w) (hs : w.surfaces a = some s) :
    ∃ w1 evs, wl_surface_finalize w a = .ok (w1, evs) ∧
      (∀ b, b ≠ a → w1.surfaces b = w.surfaces b) ∧ w1.surfaces a = none ∧
      (∀ y, s.xdg_surface ≠ some y → w1.xdg_surfaces y = w.xdg_surfaces y) ∧
      (∀ x, s.xdg_surface = some x → ∃ o1, w1.xdg_surfaces x = some o1 ∧ o1.surface = none) ∧
      (∀ y, s.xdg_toplevel ≠ some y → w1.xdg_toplevels y = w.xdg_toplevels y) ∧
      (∀ x, s.xdg_toplevel = some x → ∃ o1, w1.xdg_toplevels x = some o1 ∧ o1.surface = none) ∧
      (∀ y, s.xdg_popup ≠ some y → w1.xdg_popups y = w.xdg_popups y) ∧
      (∀ x, s.xdg_popup = some x → ∃ o1, w1.xdg_popups x = some o1 ∧ o1.surface = none) := by
  obtain ⟨hx, ht, hp⟩ := hw
  obtain ⟨w1, h1, h1s, h1t, h1p, h1a, h1b⟩ :=
    @clear_xdg_surface_effect (w.setSurface a (some { s with mapped := false })) s.xdg_surface
      (fun x hl => (hx.1 a s hs x hl).imp fun _ h => h.1)
  obtain ⟨w2, h2, h2s, h2x, h2p, h2a, h2b⟩ :=
    @clear_xdg_toplevel_effect w1 s.xdg_toplevel
      (fun x hl => by
        rw [h1t]
        exact (ht.1 a s hs x hl).imp fun _ h => h.1)
  obtain ⟨w3, h3, h3s, h3x, h3t, h3a, h3b⟩ :=
    @clear_xdg_popup_effect w2 s.xdg_popup
      (fun x hl => by
        rw [h2p, h1p]
        exact (hp.1 a s hs x hl).imp fun _ h => h.1)
  refine ⟨w3.setSurface a none, (if s.mapped then [Event.surface_unmapped a] else []),
    ?_, ?_, ?_, ?_, ?_, ?_, ?_, ?_, ?_⟩
  · simp only [wl_surface_finalize, unmap_eq hs, surfaces_setSurface_same, deref, bind,
      Except.bind, pure, Except.pure, h1, h2, h3]
  · intro b hb
    simp [World.setSurface, Function.update_apply, hb, h3s, h2s, h1s]
  · simp [World.setSurface]
  · intro y hy
    show w3.xdg_surfaces y = _
    rw [h3x, h2x, h1a y hy]
    rfl
  · intro x hl
    show ∃ o1, w3.xdg_surfaces x = some o1 ∧ _
    rw [h3x, h2x]
    exact h1b x hl
  · intro y hy
    show w3.xdg_toplevels y = _
    rw [h3t, h2a y hy, h1t]
    rfl
  · intro x hl
    show ∃ o1, w3.xdg_toplevels x = some o1 ∧ _
    rw [h3t]
    exact h2b x hl
  · intro y hy
    show w3.xdg_popups y = _
    rw [h3a y hy, h2p, h1p]
    rfl
  · intro x hl
    exact h3b x hl

/-- Linked tables stay linked when a surface record is replaced by one with the
same link. -/
theorem Linked.edited {β : Type} {S S1 : Nat → Option WakefieldSurface} {T : Nat → Option β}
    {f : WakefieldSurface → Option Nat} {g : β → Option Nat} {link : Option Nat}
    {P : WakefieldSurface → WakefieldSurface → Prop} (h : Linked S T f g)
    (he : SurfaceEdited S S1 link P) (hP : ∀ s s1, P s s1 → f s1 = f s) :
    Linked S1 T f g := by
  refine h.congr ?_ ?_ (fun y o ho => ⟨o, ho, rfl⟩) (fun y o ho => ⟨o, ho, rfl⟩)
  · intro b s1 hs1
    by_cases hl : link = some b
    · obtain ⟨s, s2, hs, hs2, hp⟩ := he.2 b hl
      rw [hs1] at hs2
      cases hs2
      exact ⟨s, hs, hP s s1 hp⟩
    · rw [he.1 b hl] at hs1
      exact ⟨s1, hs1, rfl⟩
  · intro b s hs
    by_cases hl : link = some b
    · obtain ⟨s0, s1, hs0, hs1, hp⟩ := he.2 b hl
      rw [hs] at hs0
      cases hs0
      exact ⟨s1, hs1, hP s s1 hp⟩
    · exact ⟨s, (he.1 b hl).trans hs, rfl⟩

/-- Linked tables stay linked when an object is removed and the surface it
designates, if any, loses its link to it. -/
theorem Linked.removed {β : Type} {S S1 : Nat → Option WakefieldSurface} {T T1 : Nat → Option β}
    {f : WakefieldSurface → Option Nat} {g : β → Option Nat}
    {P : WakefieldSurface → WakefieldSurface → Prop} (h : Linked S T f g) {x : Nat} {o : β}
    (ho : T x = some o) (hT : ∀ y, y ≠ x → T1 y = T y) (hTx : T1 x = none)
    (he : SurfaceEdited S S1 (g o) P) (hP : ∀ s s1, P s s1 → f s1 = none) :
    Linked S1 T1 f g := by
  refine (h.swap.remove ho hT hTx he.1 ?_).swap
  intro a s1 hl hs1
  obtain ⟨s, s2, _, hs2, hp⟩ := he.2 a hl
  rw [hs1] at hs2
  cases hs2
  exact hP s s1 hp

/-- In a paired world the destructor of a live popup returns; it removes the
popup, clears the popup link of its surface, if any, and leaves every other
link as it was. -/
theorem popup_finalize_effect {w : World} {p : Nat} {popup : WakefieldXdgPopup}
    (hw : Paired w) (hp : w.xdg_popups p = some popup) :
    ∃ w1 evs, xdg_popup_finalize w p = .ok (w1, evs) ∧
      (∀ y, y ≠ p → w1.xdg_popups y = w.xdg_popups y) ∧ w1.xdg_popups p = none ∧
      w1.xdg_surfaces = w.xdg_surfaces ∧ w1.xdg_toplevels = w.xdg_toplevels ∧
      SurfaceEdited w.surfaces w1.surfaces popup.surface
        (fun s s1 => s1.xdg_popup = none ∧ s1.xdg_surface = s.xdg_surface ∧
          s1.xdg_toplevel = s.xdg_toplevel) := by
  cases hl : popup.surface with
  | none =>
    simp only [xdg_popup_finalize, hp, hl, unmap_if_linked, clear_surface_xdg_popup, deref, bind,
      Except.bind, pure, Except.pure]
    refine ⟨_, _, rfl, ?_, ?_, rfl, rfl, fun b _ => rfl, fun a h => by cases h⟩
    · intro y hy
      simp [World.setXdgPopup, Function.update_apply, hy]
    · simp [World.setXdgPopup]
  | some a =>
    obtain ⟨s, hs, _⟩ := hw.2.2.2 p popup hp a hl
    simp only [xdg_popup_finalize, hp, hl, unmap_if_linked, unmap_eq hs, clear_surface_xdg_popup,
      surfaces_setSurface_same, deref, bind, Except.bind, pure, Except.pure]
    refine ⟨_, _, rfl, ?_, ?_, rfl, rfl, ?_, ?_⟩
    · intro y hy
      simp [World.setXdgPopup, World.setSurface, Function.update_apply, hy]
    · simp [World.setXdgPopup]
    · intro b hb
      have hne : b ≠ a := fun h => hb (h ▸ rfl)
      simp [World.setXdgPopup, World.setSurface, Function.update_apply, hne]
    · intro b hb
      cases hb
      exact ⟨s, { s with mapped := false, xdg_popup := none }, hs,
        by simp [World.setXdgPopup, World.setSurface], rfl, rfl, rfl⟩

/-- In a paired world the destructor of a live toplevel returns; it removes the
toplevel, clears the toplevel link of its surface, if any, and leaves every
other link as it was. -/
theorem toplevel_finalize_effect {w : World} {t : Nat} {toplevel : WakefieldXdgToplevel}
    (hw : Paired w) (ht : w.xdg_toplevels t = some toplevel) :
    ∃ w1 evs, xdg_toplevel_finalize w t = .ok (w1, evs) ∧
      (∀ y, y ≠ t → w1.xdg_toplevels y = w.xdg_toplevels y) ∧ w1.xdg_toplevels t = none ∧
      w1.xdg_surfaces = w.xdg_surfaces ∧ w1.xdg_popups = w.xdg_popups ∧
      SurfaceEdited w.surfaces w1.surfaces toplevel.surface
        (fun s s1 => s1.xdg_toplevel = none ∧ s1.xdg_surface = s.xdg_surface ∧
          s1.xdg_popup = s.xdg_popup) := by
  cases hl : toplevel.surface with
  | none =>
    simp only [xdg_toplevel_finalize, ht, hl, clear_surface_xdg_toplevel, deref, bind,
      Except.bind, pure, Except.pure]
    refine ⟨_, _, rfl, ?_, ?_, rfl, rfl, fun b _ => rfl, fun a h => by cases h⟩
    · intro y hy
      simp [World.setXdgToplevel, Function.update_apply, hy]
    · simp [World.setXdgToplevel]
  | some a =>
    obtain ⟨s, hs, _⟩ := hw.2.1.2 t toplevel ht a hl
    simp only [xdg_toplevel_finalize, ht, hl, hs, clear_surface_xdg_toplevel, deref, bind,
      Except.bind, pure, Except.pure]
    refine ⟨_, _, rfl, ?_, ?_, rfl, rfl, ?_, ?_⟩
    · intro y hy
      simp [World.setXdgToplevel, World.setSurface, Function.update_apply, hy]
    · simp [World.setXdgToplevel]
    · intro b hb
      have hne : b ≠ a := fun h => hb (h ▸ rfl)
      simp [World.setXdgToplevel, World.setSurface, Function.update_apply, hne]
    · intro b hb
      cases hb
      exact ⟨s, { s with xdg_toplevel := none }, hs,
        by simp [World.setXdgToplevel, World.setSurface], rfl, rfl, rfl⟩

/-- Storing a shell surface leaves the surfaces as they were. -/
theorem surfaces_setXdgSurface (w : World) (x : Nat) (v : Option WakefieldXdgSurface) :
    (w.setXdgSurface x v).surfaces = w.surfaces := rfl

/-- In a paired world the destructor of a live shell surface returns; it
removes the shell surface, clears the shell-surface link of its surface, if
any, and leaves every other link as it was. -/
theorem xdg_surface_finalize_effect {w : World} {x : Nat} {xdg_surface : WakefieldXdgSurface}
    (hw : Paired w) (hx : w.xdg_surfaces x = some xdg_surface) :
    ∃ w1 evs, xdg_surface_finalize w x = .ok (w1, evs) ∧
      (∀ y, y ≠ x → w1.xdg_surfaces y = w.xdg_surfaces y) ∧ w1.xdg_surfaces x = none ∧
      w1.xdg_toplevels = w.xdg_toplevels ∧ w1.xdg_popups = w.xdg_popups ∧
      SurfaceEdited w.surfaces w1.surfaces xdg_surface.surface
        (fun s s1 => s1.xdg_surface = none ∧ s1.xdg_toplevel = s.xdg_toplevel ∧
          s1.xdg_popup = s.xdg_popup) := by
  cases hl : xdg_surface.surface with
  | none =>
    cases hwin : xdg_surface.window <;>
    · simp only [xdg_surface_finalize, wakefield_xdg_surface_unrealize, hx, hl, hwin,
        unmap_if_linked, clear_surface_xdg_surface, deref, bind, Except.bind, pure, Except.pure]
      refine ⟨_, _, rfl, ?_, ?_, rfl, rfl, fun b _ => rfl, fun a h => by cases h⟩
      · intro y hy
        simp [World.setXdgSurface, Function.update_apply, hy]
      · simp [World.setXdgSurface]
  | some a =>
    obtain ⟨s, hs, _⟩ := hw.1.2 x xdg_surface hx a hl
    cases hwin : xdg_surface.window <;>
    · simp only [xdg_surface_finalize, wakefield_xdg_surface_unrealize, hx, hl, hwin,
        unmap_if_linked, unmap_eq hs, clear_surface_xdg_surface, surfaces_setXdgSurface,
        surfaces_setSurface_same, deref, bind, Except.bind, pure, Except.pure]
      refine ⟨_, _, rfl, ?_, ?_, rfl, rfl, ?_, ?_⟩
      · intro y hy
        simp [World.setXdgSurface, World.setSurface, Function.update_apply, hy]
      · simp [World.setXdgSurface]
      · intro b hb
        have hne : b ≠ a := fun h => hb (h ▸ rfl)
        simp [World.setXdgSurface, World.setSurface, Function.update_apply, hne]
      · intro b hb
        cases hb
        exact ⟨s, { s with mapped := false, xdg_surface := none }, hs,
          by simp [World.setXdgSurface, World.setSurface], rfl, rfl, rfl⟩

/-- In a paired world the destruction of a live surface, shell surface,
toplevel or popup returns and leaves a paired world, in which the object is
gone and every other object is as alive as it was. -/
theorem destroy_keeps_paired {w : World} (hw : Paired w) (fuel : Nat) (r : Request)
    (hr : r.isDestroy = true) (hlive : r.targetLive w = true) :
    ∃ w1 evs, step fuel w r = .ok (w1, evs) ∧ Paired w1 ∧ r.targetLive w1 = false ∧
      ∀ q : Request, q ≠ r → q.targetLive w1 = q.targetLive w := by
  cases r <;> simp only [Request.isDestroy] at hr <;> try cases hr
  case surface_destroy a =>
    obtain ⟨s, hs⟩ := Option.isSome_iff_exists.1 hlive
    obtain ⟨w1, evs, h, hS, hSa, hX, hXx, hT, hTx, hP, hPx⟩ := surface_finalize_effect hw hs
    refine ⟨w1, evs, h, ⟨?_, ?_, ?_⟩, ?_, ?_⟩
    · exact hw.1.remove hs hS hSa hX (fun x o1 hl ho1 => by
        obtain ⟨o2, ho2, hnone⟩ := hXx x hl
        rw [ho1] at ho2
        cases ho2
        exact hnone)
    · exact hw.2.1.remove hs hS hSa hT (fun x o1 hl ho1 => by
        obtain ⟨o2, ho2, hnone⟩ := hTx x hl
        rw [ho1] at ho2
        cases ho2
        exact hnone)
    · exact hw.2.2.remove hs hS hSa hP (fun x o1 hl ho1 => by
        obtain ⟨o2, ho2, hnone⟩ := hPx x hl
        rw [ho1] at ho2
        cases ho2
        exact hnone)
    · simp [Request.targetLive, hSa]
    · intro q hq
      cases q <;> simp only [Request.targetLive]
      case surface_destroy b =>
        have hne : b ≠ a := fun h => hq (h ▸ rfl)
        rw [hS b hne]
      case xdg_surface_destroy y =>
        by_cases hl : s.xdg_surface = some y
        · obtain ⟨o1, ho1, _⟩ := hXx y hl
          obtain ⟨o, ho, _⟩ := hw.1.1 a s hs y hl
          simp [ho1, ho]
        · rw [hX y hl]
      case toplevel_destroy y =>
        by_cases hl : s.xdg_toplevel = some y
        · obtain ⟨o1, ho1, _⟩ := hTx y hl
          obtain ⟨o, ho, _⟩ := hw.2.1.1 a s hs y hl
          simp [ho1, ho]
        · rw [hT y hl]
      case popup_destroy y =>
        by_cases hl : s.xdg_popup = some y
        · obtain ⟨o1, ho1, _⟩ := hPx y hl
          obtain ⟨o, ho, _⟩ := hw.2.2.1 a s hs y hl
          simp [ho1, ho]
        · rw [hP y hl]
  case xdg_surface_destroy x =>
    obtain ⟨o, ho⟩ := Option.isSome_iff_exists.1 hlive
    obtain ⟨w1, evs, h, hX, hXx, hT, hP, he⟩ := xdg_surface_finalize_effect hw ho
    refine ⟨w1, evs, h, ⟨?_, ?_, ?_⟩, ?_, ?_⟩
    · exact hw.1.removed ho hX hXx he (fun s s1 hp => hp.1)
    · rw [hT]
      exact hw.2.1.edited he (fun s s1 hp => hp.2.1)
    · rw [hP]
      exact hw.2.2.edited he (fun s s1 hp => hp.2.2)
    · simp [Request.targetLive, hXx]
    · intro q hq
      cases q <;> simp only [Request.targetLive]
      case surface_destroy b =>
        by_cases hl : o.surface = some b
        · obtain ⟨s, s1, hs, hs1, _⟩ := he.2 b hl
          simp [hs, hs1]
        · rw [he.1 b hl]
      case xdg_surface_destroy y =>
        have hne : y ≠ x := fun h => hq (h ▸ rfl)
        rw [hX y hne]
      case toplevel_destroy y => rw [hT]
      case popup_destroy y => rw [hP]
  case toplevel_destroy t =>
    obtain ⟨o, ho⟩ := Option.isSome_iff_exists.1 hlive
    obtain ⟨w1, evs, h, hT, hTt, hX, hP, he⟩ := toplevel_finalize_effect hw ho
    refine ⟨w1, evs, h, ⟨?_, ?_, ?_⟩, ?_, ?_⟩
    · rw [hX]
      exact hw.1.edited he (fun s s1 hp => hp.2.1)
    · exact hw.2.1.removed ho hT hTt he (fun s s1 hp => hp.1)
    · rw [hP]
      exact hw.2.2.edited he (fun s s1 hp => hp.2.2)
    · simp [Request.targetLive, hTt]
    · intro q hq
      cases q <;> simp only [Request.targetLive]
      case surface_destroy b =>
        by_cases hl : o.surface = some b
        · obtain ⟨s, s1, hs, hs1, _⟩ := he.2 b hl
          simp [hs, hs1]
        · rw [he.1 b hl]
      case xdg_surface_destroy y => rw [hX]
      case toplevel_destroy y =>
        have hne : y ≠ t := fun h => hq (h ▸ rfl)
        rw [hT y hne]
      case popup_destroy y => rw [hP]
  case popup_destroy p =>
    obtain ⟨o, ho⟩ := Option.isSome_iff_exists.1 hlive
    obtain ⟨w1, evs, h, hP, hPp, hX, hT, he⟩ := popup_finalize_effect hw ho
    refine ⟨w1, evs, h, ⟨?_, ?_, ?_⟩, ?_, ?_⟩
    · rw [hX]
      exact hw.1.edited he (fun s s1 hp => hp.2.1)
    · rw [hT]
      exact hw.2.1.edited he (fun s s1 hp => hp.2.2)
    · exact hw.2.2.removed ho hP hPp he (fun s s1 hp => hp.1)
    · simp [Request.targetLive, hPp]
    · intro q hq
      cases q <;> simp only [Request.targetLive]
      case surface_destroy b =>
        by_cases hl : o.surface = some b
        · obtain ⟨s, s1, hs, hs1, _⟩ := he.2 b hl
          simp [hs, hs1]
        · rw [he.1 b hl]
      case xdg_surface_destroy y => rw [hX]
      case toplevel_destroy y => rw [hT]
      case popup_destroy y =>
        have hne : y ≠ p := fun h => hq (h ▸ rfl)
        rw [hP y hne]

/-- A successful `link_check` gives one direction of `Linked` when the first
table has nothing at or beyond `n`. -/
theorem link_check_sound {α β : Type} {n : Nat} {S : Nat → Option α} {T : Nat → Option β}
    {f : α → Option Nat} {g : β → Option Nat} (hS : ∀ a, n ≤ a → S a = none)
    (h : link_check n S T f g = true) :
    ∀ a s, S a = some s → ∀ x, f s = some x → ∃ o, T x = some o ∧ g o = some a := by
  intro a s hs x hx
  have ha : a < n := by
    by_contra hge
    rw [hS a (Nat.le_of_not_lt hge)] at hs
    cases hs
  have hcheck := List.all_eq_true.1 h a (List.mem_range.2 ha)
  simp only [hs, hx] at hcheck
  cases ho : T x with
  | none => simp [ho] at hcheck
  | some o =>
    simp only [ho, beq_iff_eq] at hcheck
    exact ⟨o, rfl, hcheck⟩

/-- A successful `paired_check` shows a world paired when its four tables have
nothing at or beyond `n`. -/
theorem paired_check_sound {n : Nat} {w : World} (hS : ∀ a, n ≤ a → w.surfaces a = none)
    (hX : ∀ a, n ≤ a → w.xdg_surfaces a = none) (hT : ∀ a, n ≤ a → w.xdg_toplevels a = none)
    (hP : ∀ a, n ≤ a → w.xdg_popups a = none) (h : paired_check n w = true) : Paired w := by
  simp only [paired_check, Bool.and_eq_true] at h
  obtain ⟨⟨⟨⟨⟨h1, h2⟩, h3⟩, h4⟩, h5⟩, h6⟩ := h
  exact ⟨⟨link_check_sound hS h1, link_check_sound hX h2⟩,
    ⟨link_check_sound hS h3, link_check_sound hT h4⟩,
    ⟨link_check_sound hS h5, link_check_sound hP h6⟩⟩

/-- The world with a popup is paired. -/
theorem world_popup_paired : Paired world_popup := by
  refine paired_check_sound (n := 6) ?_ ?_ ?_ ?_ rfl <;>
    · intro a ha
      obtain ⟨k, rfl⟩ := Nat.exists_eq_add_of_le' ha
      rfl

/-- In a world whose back-references are absent or live, the accessors
return. -/
theorem LinksLive.accessors {w : World} (h : LinksLive w) : AccessorsReturn w := by
  obtain ⟨hs, hx, _, _⟩ := h
  constructor
  · intro a s hsa
    cases hl : s.xdg_surface with
    | none =>
      exact ⟨none, by simp [wakefield_surface_get_xdg_surface, hsa, hl, deref, bind, Except.bind,
        pure, Except.pure], fun x hx => by cases hx⟩
    | some x =>
      have hlive := (hs a s hsa).1 x hl
      obtain ⟨o, ho⟩ := Option.isSome_iff_exists.1 hlive
      exact ⟨some x, by simp [wakefield_surface_get_xdg_surface, hsa, hl, ho, deref, bind,
        Except.bind, pure, Except.pure], fun y hy => by cases hy; exact hlive⟩
  · intro x o hxo
    refine ⟨⟨o.surface, by simp [wakefield_xdg_surface_get_surface, hxo, deref, bind,
      Except.bind, pure, Except.pure], fun a ha => hx x o a hxo ha⟩, ?_, ?_⟩
    · cases hl : o.surface with
      | none =>
        exact ⟨none, by simp [wakefield_xdg_surface_get_xdg_toplevel,
          wakefield_xdg_surface_get_surface, hxo, hl, deref, bind, Except.bind, pure,
          Except.pure], fun t ht => by cases ht⟩
      | some a =>
        obtain ⟨s, hsa⟩ := Option.isSome_iff_exists.1 (hx x o a hxo hl)
        cases hlt : s.xdg_toplevel with
        | none =>
          exact ⟨none, by simp [wakefield_xdg_surface_get_xdg_toplevel,
            wakefield_xdg_surface_get_surface, hxo, hl, hsa, hlt, deref, bind, Except.bind, pure,
            Except.pure], fun t ht => by cases ht⟩
        | some t =>
          have hlive := (hs a s hsa).2.1 t hlt
          obtain ⟨ot, hot⟩ := Option.isSome_iff_exists.1 hlive
          exact ⟨some t, by simp [wakefield_xdg_surface_get_xdg_toplevel,
            wakefield_xdg_surface_get_surface, hxo, hl, hsa, hlt, hot, deref, bind, Except.bind,
            pure, Except.pure], fun y hy => by cases hy; exact hlive⟩
    · cases hl : o.surface with
      | none =>
        exact ⟨none, by simp [wakefield_xdg_surface_get_xdg_popup,
          wakefield_xdg_surface_get_surface, hxo, hl, deref, bind, Except.bind, pure,
          Except.pure], fun t ht => by cases ht⟩
      | some a =>
        obtain ⟨s, hsa⟩ := Option.isSome_iff_exists.1 (hx x o a hxo hl)
        cases hlt : s.xdg_popup with
        | none =>
          exact ⟨none, by simp [wakefield_xdg_surface_get_xdg_popup,
            wakefield_xdg_surface_get_surface, hxo, hl, hsa, hlt, deref, bind, Except.bind, pure,
            Except.pure], fun t ht => by cases ht⟩
        | some t =>
          have hlive := (hs a s hsa).2.2 t hlt
          obtain ⟨ot, hot⟩ := Option.isSome_iff_exists.1 hlive
          exact ⟨some t, by simp [wakefield_xdg_surface_get_xdg_popup,
            wakefield_xdg_surface_get_surface, hxo, hl, hsa, hlt, hot, deref, bind, Except.bind,
            pure, Except.pure], fun y hy => by cases hy; exact hlive⟩

/-- In a paired world, destroying distinct live objects one after the other
returns and leaves a paired world in which they are gone. -/
theorem destroys_keep_paired (fuel : Nat) :
    ∀ (reqs : List Request) (w : World), Paired w → reqs.Nodup →
      (∀ r ∈ reqs, r.isDestroy = true ∧ r.targetLive w = true) →
      ∃ w1 evs, run fuel w reqs = .ok (w1, evs) ∧ Paired w1 ∧
        (∀ r ∈ reqs, r.targetLive w1 = false) ∧
        (∀ q : Request, q ∉ reqs → q.targetLive w1 = q.targetLive w) := by
  intro reqs
  induction reqs with
  | nil =>
    intro w hw _ _
    exact ⟨w, [], rfl, hw, fun r hr => absurd hr (List.not_mem_nil r), fun _ _ => rfl⟩
  | cons r rest ih =>
    intro w hw hnodup hreqs
    obtain ⟨hnot, hrest⟩ := List.nodup_cons.1 hnodup
    obtain ⟨hd, hl⟩ := hreqs r (List.mem_cons_self _ _)
    obtain ⟨w1, evs, hstep, hw1, hgone, hothers⟩ := destroy_keeps_paired hw fuel r hd hl
    obtain ⟨w2, evs2, hrun, hw2, hgone2, hothers2⟩ := ih w1 hw1 hrest (fun q hq =>
      ⟨(hreqs q (List.mem_cons_of_mem _ hq)).1, by
        rw [hothers q (fun h => hnot (h ▸ hq))]
        exact (hreqs q (List.mem_cons_of_mem _ hq)).2⟩)
    refine ⟨w2, evs ++ evs2, ?_, hw2, ?_, ?_⟩
    · simp only [run, hstep, hrun, bind, Except.bind, pure, Except.pure]
    · intro q hq
      rcases List.mem_cons.1 hq with rfl | hq
      · rw [hothers2 q hnot]
        exact hgone
      · exact hgone2 q hq
    · intro q hq
      have hq1 : q ≠ r := fun h => hq (h ▸ List.mem_cons_self _ _)
      have hq2 : q ∉ rest := fun h => hq (List.mem_cons_of_mem _ h)
      rw [hothers2 q hq2, hothers q hq1]

/-- In a paired world the destructor of a live surface returns and leaves no
shell surface, toplevel or popup whose surface link designates the destroyed
surface. -/
theorem surface_destroy_clears_links {w : World} {a : Nat} (hw : Paired w)
    (hlive : (w.surfaces a).isSome = true) :
    ∃ w1 evs, wl_surface_finalize w a = .ok (w1, evs) ∧ w1.surfaces a = none ∧
      (∀ x o, w1.xdg_surfaces x = some o → o.surface ≠ some a) ∧
      (∀ t o, w1.xdg_toplevels t = some o → o.surface ≠ some a) ∧
      (∀ p o, w1.xdg_popups p = some o → o.surface ≠ some a) := by
  obtain ⟨w1, evs, hstep, hw1, hgone, _⟩ :=
    destroy_keeps_paired hw 0 (.surface_destroy a) rfl hlive
  have hnone : w1.surfaces a = none := by
    simpa [Request.targetLive] using hgone
  refine ⟨w1, evs, hstep, hnone, ?_, ?_, ?_⟩
  · intro x o ho hl
    obtain ⟨s, hs, _⟩ := hw1.1.2 x o ho a hl
    rw [hnone] at hs
    cases hs
  · intro x o ho hl
    obtain ⟨s, hs, _⟩ := hw1.2.1.2 x o ho a hl
    rw [hnone] at hs
    cases hs
  · intro x o ho hl
    obtain ⟨s, hs, _⟩ := hw1.2.2.2 x o ho a hl
    rw [hnone] at hs
    cases hs

/-- C15: in a world where every surface is linked in both directions with its
shell surface, its toplevel and its popup (as is a surface with one bound shell
surface and one bound popup or toplevel), destroying distinct live surfaces,
shell surfaces, toplevels and popups in any order returns at each step; after
each step every back-reference is absent or designates a live object, every
accessor returns an absent result or a live object, and the destroyed objects
are gone. -/
theorem C15_destruction_orders (w : World) (hw : Paired w) (fuel : Nat) (reqs : List Request)
    (hnodup : reqs.Nodup) (hreqs : ∀ r ∈ reqs, r.isDestroy = true ∧ r.targetLive w = true)
    (n : Nat) :
    ∃ w1 evs, run fuel w (reqs.take n) = .ok (w1, evs) ∧ Paired w1 ∧ LinksLive w1 ∧
      AccessorsReturn w1 ∧ ∀ r ∈ reqs.take n, r.targetLive w1 = false := by
  obtain ⟨w1, evs, hrun, hw1, hgone, _⟩ :=
    destroys_keep_paired fuel (reqs.take n) w hw (hnodup.sublist (List.take_sublist n reqs))
      (fun r hr => hreqs r (List.mem_of_mem_take hr))
  exact ⟨w1, evs, hrun, hw1, hw1.linksLive, hw1.linksLive.accessors, hgone⟩

/-- C15, on the world with surface 2, its shell surface 3 and its popup 5:
destroying the surface, then the shell surface, then the popup returns and
leaves a paired world, and so does destroying the popup, then the shell
surface, and destroying the shell surface, then the surface. -/
theorem C15_destruction_orders_witness :
    (∃ w1 evs, run 5 world_popup
        ([Request.surface_destroy 2, Request.xdg_surface_destroy 3,
          Request.popup_destroy 5].take 3) = .ok (w1, evs) ∧ Paired w1 ∧ LinksLive w1 ∧
      AccessorsReturn w1 ∧
      ∀ r ∈ [Request.surface_destroy 2, Request.xdg_surface_destroy 3,
          Request.popup_destroy 5].take 3, r.targetLive w1 = false) ∧
    (∃ w1 evs, run 5 world_popup
        ([Request.popup_destroy 5, Request.xdg_surface_destroy 3,
          Request.surface_destroy 2].take 2) = .ok (w1, evs) ∧ Paired w1 ∧ LinksLive w1 ∧
      AccessorsReturn w1 ∧
      ∀ r ∈ [Request.popup_destroy 5, Request.xdg_surface_destroy 3,
          Request.surface_destroy 2].take 2, r.targetLive w1 = false) ∧
    (∃ w1 evs, run 5 world_popup
        ([Request.xdg_surface_destroy 3, Request.surface_destroy 2,
          Request.popup_destroy 5].take 2) = .ok (w1, evs) ∧ Paired w1 ∧ LinksLive w1 ∧
      AccessorsReturn w1 ∧
      ∀ r ∈ [Request.xdg_surface_destroy 3, Request.surface_destroy 2,
          Request.popup_destroy 5].take 2, r.targetLive w1 = false) :=
  ⟨C15_destruction_orders world_popup world_popup_paired 5 _ (by simp) (by decide) 3,
   C15_destruction_orders world_popup world_popup_paired 5 _ (by simp) (by decide) 2,
   C15_destruction_orders world_popup world_popup_paired 5 _ (by simp) (by decide) 2⟩

/-! ## The allocation is floored at the origin (C28) -/

/-- What a returning `xdg_popup_compute_allocation` read and stored. -/
theorem compute_allocation_ok {fuel : Nat} {w w1 : World} {p : Nat} {u : Bool}
    (h : xdg_popup_compute_allocation fuel w p u = .ok w1) :
    ∃ popup surface nominal parent, w.xdg_popups p = some popup ∧
      popup.surface.bind w.surfaces = some surface ∧
      xdg_popup_nominal_size w popup surface u = .ok nominal ∧
      xdg_popup_parent_size fuel w popup = .ok parent ∧
      w1 = w.setXdgPopup p (some { popup with
        allocation := xdg_popup_solve popup.xdg_positioner nominal.1 nominal.2.1 nominal.2.2.1
          nominal.2.2.2 parent.1 parent.2 w.allocation.width w.allocation.height }) := by
  simp only [xdg_popup_compute_allocation, bind_eq_ok, deref_eq_ok, pure_eq_ok] at h
  obtain ⟨popup, hp, surface, hs, nominal, hn, parent, hpar, rfl⟩ := h
  exact ⟨popup, surface, nominal, parent, hp, hs, hn, hpar, rfl⟩

/-- The nominal size is the positioner's size without offsets, or, when the
surface size is used under a toplevel parent, the larger of the positioner's
size and the surface's current size, with half the excess as offsets. -/
theorem nominal_size_ok {w : World} {popup : WakefieldXdgPopup} {surface : WakefieldSurface}
    {u : Bool} {nominal : Int × Int × Int × Int}
    (h : xdg_popup_nominal_size w popup surface u = .ok nominal) :
    nominal = (0, 0, popup.xdg_positioner.width, popup.xdg_positioner.height) ∨
    ∃ size : Int × Int, wakefield_surface_get_current_size surface = .ok size ∧
      nominal =
        (Int.tdiv (max 0 (max popup.xdg_positioner.width size.1 - popup.xdg_positioner.width)) 2,
         Int.tdiv (max 0 (max popup.xdg_positioner.height size.2 - popup.xdg_positioner.height)) 2,
         max popup.xdg_positioner.width size.1, max popup.xdg_positioner.height size.2) := by
  simp only [xdg_popup_nominal_size, bind_eq_ok] at h
  obtain ⟨enlarge, _, h⟩ := h
  cases enlarge
  · simp only [Bool.false_eq_true, if_false, pure_eq_ok] at h
    exact Or.inl h.symm
  · simp only [if_true, bind_eq_ok, pure_eq_ok] at h
    obtain ⟨size, hsize, h⟩ := h
    exact Or.inr ⟨size, hsize, h.symm⟩

/-- The resize step keeps a non-negative size non-negative. -/
theorem resize_popup_nonneg (resize : Bool) (anchor size max_size : Int) (h : 0 ≤ size) :
    0 ≤ resize_popup resize anchor size max_size := by
  unfold resize_popup
  split_ifs
  · exact le_max_left _ _
  · exact h

/-- C28: for every positioner, nominal size, centring offsets, parent size and
compositor size the solved allocation has
`x = max 0 (final anchor x + offset_x) ≥ 0` and
`y = max 0 (final anchor y + offset_y) ≥ 0`, the final anchor being the anchor
point less the centring offset after the slide steps, and its width and height
are non-negative when the nominal width and height are; every allocation
`xdg_popup_compute_allocation` stores has a non-negative origin, and a
non-negative width and height when the positioner's are. -/
theorem C28_allocation_floor (positioner : WakeFieldXdgPositioner)
    (x_offset y_offset popup_width popup_height : Int)
    (parent_width parent_height max_width max_height : Int) :
    (xdg_popup_solve positioner x_offset y_offset popup_width popup_height parent_width
        parent_height max_width max_height).x =
      max 0 (slide_anchor
        (has_adjustment positioner.constraint_adjustment
          XDG_POSITIONER_CONSTRAINT_ADJUSTMENT_SLIDE_X)
        ((get_positioner_anchor_point positioner).1 - x_offset) popup_width x_offset
        parent_width max_width + positioner.offset_x) ∧
    (xdg_popup_solve positioner x_offset y_offset popup_width popup_height parent_width
        parent_height max_width max_height).y =
      max 0 (slide_anchor
        (has_adjustment positioner.constraint_adjustment
          XDG_POSITIONER_CONSTRAINT_ADJUSTMENT_SLIDE_Y)
        ((get_positioner_anchor_point positioner).2 - y_offset) popup_height y_offset
        parent_height max_height + positioner.offset_y) ∧
    0 ≤ (xdg_popup_solve positioner x_offset y_offset popup_width popup_height parent_width
        parent_height max_width max_height).x ∧
    0 ≤ (xdg_popup_solve positioner x_offset y_offset popup_width popup_height parent_width
        parent_height max_width max_height).y ∧
    (0 ≤ popup_width →
      0 ≤ (xdg_popup_solve positioner x_offset y_offset popup_width popup_height parent_width
        parent_height max_width max_height).width) ∧
    (0 ≤ popup_height →
      0 ≤ (xdg_popup_solve positioner x_offset y_offset popup_width popup_height parent_width
        parent_height max_width max_height).height) ∧
    ∀ (fuel : Nat) (w w1 : World) (p : Nat) (use_surface_size : Bool),
      xdg_popup_compute_allocation fuel w p use_surface_size = .ok w1 →
      ∃ popup popup1, w.xdg_popups p = some popup ∧ w1.xdg_popups p = some popup1 ∧
        0 ≤ popup1.allocation.x ∧ 0 ≤ popup1.allocation.y ∧
        (0 ≤ popup.xdg_positioner.width → 0 ≤ popup1.allocation.width) ∧
        (0 ≤ popup.xdg_positioner.height → 0 ≤ popup1.allocation.height) := by
  refine ⟨rfl, rfl, le_max_left _ _, le_max_left _ _,
    fun h => resize_popup_nonneg _ _ _ _ h, fun h => resize_popup_nonneg _ _ _ _ h, ?_⟩
  intro fuel w w1 p u h
  obtain ⟨popup, surface, nominal, parent, hp, _, hn, _, rfl⟩ := compute_allocation_ok h
  refine ⟨popup, { popup with
      allocation := xdg_popup_solve popup.xdg_positioner nominal.1 nominal.2.1 nominal.2.2.1
        nominal.2.2.2 parent.1 parent.2 w.allocation.width w.allocation.height },
    hp, by simp [World.setXdgPopup], le_max_left _ _, le_max_left _ _, ?_, ?_⟩
  · intro hw
    apply resize_popup_nonneg
    rcases nominal_size_ok hn with rfl | ⟨size, _, rfl⟩
    · exact hw
    · exact le_trans hw (le_max_left _ _)
  · intro hh
    apply resize_popup_nonneg
    rcases nominal_size_ok hn with rfl | ⟨size, _, rfl⟩
    · exact hh
    · exact le_trans hh (le_max_left _ _)

/-- C28, on a positioner with anchor top-left of the rectangle (-50,-60,10,10),
size 40 by 20 and offset (5, 5), with no adjustment: the allocation is
(0, 0, 40, 20). -/
theorem C28_allocation_floor_witness :
    xdg_popup_solve negative_positioner 0 0 40 20 200 200 200 200 =
      { x := 0, y := 0, width := 40, height := 20 } ∧
    0 ≤ (xdg_popup_solve negative_positioner 0 0 40 20 200 200 200 200).width ∧
    0 ≤ (xdg_popup_solve negative_positioner 0 0 40 20 200 200 200 200).height :=
  ⟨by decide,
   (C28_allocation_floor negative_positioner 0 0 40 20 200 200 200 200).2.2.2.2.1 (by decide),
   (C28_allocation_floor negative_positioner 0 0 40 20 200 200 200 200).2.2.2.2.2.1
     (by decide)⟩

/-! ## The surface size in the placement (C27) -/

/-- The current size of a surface is found whenever its current scale is not
zero. -/
theorem current_size_returns {surface : WakefieldSurface} (h : surface.current.scale ≠ 0) :
    ∃ size, wakefield_surface_get_current_size surface = .ok size := by
  unfold wakefield_surface_get_current_size
  cases surface.current.buffer with
  | none => exact ⟨_, rfl⟩
  | some buffer =>
    cases hshm : wl_shm_buffer_get buffer with
    | none => exact ⟨(0, 0), by simp [hshm]⟩
    | some shm =>
      simp [hshm, c_div, h, bind, Except.bind, pure, Except.pure]

/-- For a live popup with a live surface and a live parent surface,
`xdg_popup_compute_allocation` with `use_surface_size` true equals the one with
`use_surface_size` false when the parent surface's role is not `XDG_TOPLEVEL`,
and when the surface's current size (which is found when the current scale is
not zero, as in every reachable world) is at most the positioner's size in
both dimensions.  When the parent's role is `XDG_TOPLEVEL`, the nominal size is
the larger of the positioner's size and the surface's current size in each
dimension, the offsets are half of nominal less requested size and are not
negative, and the stored allocation is solved with these, the offsets being
subtracted from the anchor point. -/
theorem use_surface_size_ok (fuel : Nat) (w : World) (p : Nat) (popup : WakefieldXdgPopup)
    (surface parent_surface : WakefieldSurface) (hp : w.xdg_popups p = some popup)
    (hs : popup.surface.bind w.surfaces = some surface)
    (hparent : popup.parent_surface.bind w.surfaces = some parent_surface) :
    (parent_surface.role ≠ .XDG_TOPLEVEL →
      xdg_popup_compute_allocation fuel w p true = xdg_popup_compute_allocation fuel w p false) ∧
    (surface.current.scale ≠ 0 →
      ∃ size, wakefield_surface_get_current_size surface = .ok size) ∧
    (∀ size, wakefield_surface_get_current_size surface = .ok size →
      size.1 ≤ popup.xdg_positioner.width → size.2 ≤ popup.xdg_positioner.height →
      xdg_popup_compute_allocation fuel w p true = xdg_popup_compute_allocation fuel w p false) ∧
    (parent_surface.role = .XDG_TOPLEVEL →
      ∀ size, wakefield_surface_get_current_size surface = .ok size →
      xdg_popup_nominal_size w popup surface true =
        .ok (Int.tdiv (max popup.xdg_positioner.width size.1 - popup.xdg_positioner.width) 2,
             Int.tdiv (max popup.xdg_positioner.height size.2 - popup.xdg_positioner.height) 2,
             max popup.xdg_positioner.width size.1, max popup.xdg_positioner.height size.2) ∧
      0 ≤ Int.tdiv (max popup.xdg_positioner.width size.1 - popup.xdg_positioner.width) 2 ∧
      0 ≤ Int.tdiv (max popup.xdg_positioner.height size.2 - popup.xdg_positioner.height) 2 ∧
      ∀ parent, xdg_popup_parent_size fuel w popup = .ok parent →
        xdg_popup_compute_allocation fuel w p true =
          .ok (w.setXdgPopup p (some { popup with
            allocation := xdg_popup_solve popup.xdg_positioner
              (Int.tdiv (max popup.xdg_positioner.width size.1 - popup.xdg_positioner.width) 2)
              (Int.tdiv (max popup.xdg_positioner.height size.2 - popup.xdg_positioner.height) 2)
              (max popup.xdg_positioner.width size.1) (max popup.xdg_positioner.height size.2)
              parent.1 parent.2 w.allocation.width w.allocation.height })) ∧
        (has_adjustment popup.xdg_positioner.constraint_adjustment
            XDG_POSITIONER_CONSTRAINT_ADJUSTMENT_SLIDE_X = false →
          (xdg_popup_solve popup.xdg_positioner
              (Int.tdiv (max popup.xdg_positioner.width size.1 - popup.xdg_positioner.width) 2)
              (Int.tdiv (max popup.xdg_positioner.height size.2 - popup.xdg_positioner.height) 2)
              (max popup.xdg_positioner.width size.1) (max popup.xdg_positioner.height size.2)
              parent.1 parent.2 w.allocation.width w.allocation.height).x =
            max 0 ((get_positioner_anchor_point popup.xdg_positioner).1 -
              Int.tdiv (max popup.xdg_positioner.width size.1 - popup.xdg_positioner.width) 2 +
              popup.xdg_positioner.offset_x))) := by
  have hnom_false : xdg_popup_nominal_size w popup surface false =
      .ok (0, 0, popup.xdg_positioner.width, popup.xdg_positioner.height) := by
    simp [xdg_popup_nominal_size, xdg_popup_uses_surface_size, bind, Except.bind, pure,
      Except.pure]
  have heq : xdg_popup_nominal_size w popup surface true =
      xdg_popup_nominal_size w popup surface false →
      xdg_popup_compute_allocation fuel w p true =
        xdg_popup_compute_allocation fuel w p false := by
    intro h
    simp only [xdg_popup_compute_allocation, hp, hs, deref, bind, Except.bind, h]
  have hmax : ∀ a b : Int, max 0 (max a b - a) = max a b - a := fun a b =>
    max_eq_right (sub_nonneg.2 (le_max_left a b))
  have hnom_true : parent_surface.role = .XDG_TOPLEVEL →
      ∀ size, wakefield_surface_get_current_size surface = .ok size →
      xdg_popup_nominal_size w popup surface true =
        .ok (Int.tdiv (max popup.xdg_positioner.width size.1 - popup.xdg_positioner.width) 2,
             Int.tdiv (max popup.xdg_positioner.height size.2 - popup.xdg_positioner.height) 2,
             max popup.xdg_positioner.width size.1, max popup.xdg_positioner.height size.2) := by
    intro hrole size hsize
    simp [xdg_popup_nominal_size, xdg_popup_uses_surface_size, hparent, hrole, hsize, hmax,
      deref, bind, Except.bind, pure, Except.pure]
  refine ⟨?_, current_size_returns, ?_, ?_⟩
  · intro hrole
    apply heq
    simp [xdg_popup_nominal_size, xdg_popup_uses_surface_size, hparent, hrole, deref, bind,
      Except.bind, pure, Except.pure]
  · intro size hsize hw hh
    apply heq
    by_cases hrole : parent_surface.role = .XDG_TOPLEVEL
    · rw [hnom_true hrole size hsize, hnom_false, max_eq_left hw, max_eq_left hh]
      simp
    · simp [xdg_popup_nominal_size, xdg_popup_uses_surface_size, hparent, hrole, deref, bind,
        Except.bind, pure, Except.pure]
  · intro hrole size hsize
    refine ⟨hnom_true hrole size hsize,
      Int.tdiv_nonneg (sub_nonneg.2 (le_max_left _ _)) (by decide),
      Int.tdiv_nonneg (sub_nonneg.2 (le_max_left _ _)) (by decide), ?_⟩
    intro parent hpar
    constructor
    · simp only [xdg_popup_compute_allocation, hp, hs, hnom_true hrole size hsize, hpar, deref,
        bind, Except.bind, pure, Except.pure]
    · intro hslide
      simp [xdg_popup_solve, slide_anchor, hslide]

/-- C27 (defect): after the client requests that give surface 2 a popup (5)
with parent surface 0 from a positioner of size 40 by 20 with the parent size
200 by 200, and destroy surface 0, the popup is alive with a live surface whose
current size (0, 0) is no larger than the requested size, and its
parent-surface link still designates the destroyed surface;
`xdg_popup_compute_allocation` with `use_surface_size` true reads the role of
that surface (line 1120) and does not return, whatever the fuel, while with
`use_surface_size` false it returns; so the commit of surface 2, which computes
the allocation with true, does not return and a reposition of popup 5, which
computes it with false, does. -/
theorem C27_allocation_reads_destroyed_parent :
    orphan_popup_requests.all (fun r => r.fromClient) = true ∧
    ∃ w evs popup surface,
      run 5 world0 orphan_popup_requests = .ok (w, evs) ∧ ClientReachable w ∧
      w.xdg_popups 5 = some popup ∧ popup.surface = some 2 ∧ w.surfaces 2 = some surface ∧
      popup.parent_surface = some 0 ∧ w.surfaces 0 = none ∧
      popup.xdg_positioner.has_parent_size = true ∧
      wakefield_surface_get_current_size surface = .ok (0, 0) ∧
      (0 : Int) ≤ popup.xdg_positioner.width ∧ (0 : Int) ≤ popup.xdg_positioner.height ∧
      (∀ fuel, xdg_popup_compute_allocation fuel w 5 true = .error .undefined) ∧
      (∀ fuel, ∃ w1, xdg_popup_compute_allocation fuel w 5 false = .ok w1) ∧
      (∀ fuel, step fuel w (.commit 2) = .error .undefined) ∧
      (∀ fuel token, ∃ w1, step fuel w (.popup_reposition 5 4 token) =
        .ok (w1, [Event.repositioned 5 token, Event.send_configure 3])) := by
  have hall : ∀ r ∈ orphan_popup_requests, r.fromClient = true := by decide
  obtain ⟨w, evs, hrun, hrest⟩ : ∃ w evs,
      run 5 world0 orphan_popup_requests = .ok (w, evs) ∧
      ∃ popup surface,
        w.xdg_popups 5 = some popup ∧ popup.surface = some 2 ∧ w.surfaces 2 = some surface ∧
        popup.parent_surface = some 0 ∧ w.surfaces 0 = none ∧
        popup.xdg_positioner.has_parent_size = true ∧
        wakefield_surface_get_current_size surface = .ok (0, 0) ∧
        (0 : Int) ≤ popup.xdg_positioner.width ∧ (0 : Int) ≤ popup.xdg_positioner.height ∧
        (∀ fuel, xdg_popup_compute_allocation fuel w 5 true = .error .undefined) ∧
        (∀ fuel, ∃ w1, xdg_popup_compute_allocation fuel w 5 false = .ok w1) ∧
        (∀ fuel, step fuel w (.commit 2) = .error .undefined) ∧
        (∀ fuel token, ∃ w1, step fuel w (.popup_reposition 5 4 token) =
          .ok (w1, [Event.repositioned 5 token, Event.send_configure 3])) :=
    ⟨_, _, rfl, _, _, rfl, rfl, rfl, rfl, rfl, rfl, rfl, by decide, by decide, fun _ => rfl,
      fun _ => ⟨_, rfl⟩, fun _ => rfl, fun _ _ => ⟨_, rfl⟩⟩
  obtain ⟨popup, surface, h⟩ := hrest
  exact ⟨by decide, w, evs, popup, surface, hrun,
    client_reachable_run (ClientReachable.empty _) hall hrun, h⟩

/-! ## The placement depends on its inputs only (C21) -/

/-- A bit that is no flip bit is read alike from two constraint adjustments that
agree up to their flip bits. -/
theorem has_adjustment_congr {a b bit : Nat}
    (h : a ||| flip_adjustments = b ||| flip_adjustments) (hbit : bit &&& flip_adjustments = 0) :
    has_adjustment a bit = has_adjustment b bit := by
  have key : ∀ c : Nat, c &&& bit = (c ||| flip_adjustments) &&& bit := by
    intro c
    rw [Nat.and_comm (c ||| flip_adjustments) bit, Nat.and_or_distrib_left, hbit,
      Nat.or_zero, Nat.and_comm]
  unfold has_adjustment
  rw [key a, key b, h]

/-- The solver gives the same allocation for two popup records that agree on
the inputs of the solve. -/
theorem solve_congr {a b : WakefieldXdgPopup} (h : SameSolveInputs a b)
    (x_offset y_offset popup_width popup_height parent_width parent_height max_width
      max_height : Int) :
    xdg_popup_solve a.xdg_positioner x_offset y_offset popup_width popup_height parent_width
        parent_height max_width max_height =
      xdg_popup_solve b.xdg_positioner x_offset y_offset popup_width popup_height parent_width
        parent_height max_width max_height := by
  obtain ⟨_, _, hrect, _, _, hanchor, hox, hoy, _, _, _, hca⟩ := h
  have hpoint : get_positioner_anchor_point a.xdg_positioner =
      get_positioner_anchor_point b.xdg_positioner := by
    simp only [get_positioner_anchor_point, hrect, hanchor]
  simp only [xdg_popup_solve, hpoint, hox, hoy,
    has_adjustment_congr hca (by decide :
      XDG_POSITIONER_CONSTRAINT_ADJUSTMENT_SLIDE_X &&& flip_adjustments = 0),
    has_adjustment_congr hca (by decide :
      XDG_POSITIONER_CONSTRAINT_ADJUSTMENT_SLIDE_Y &&& flip_adjustments = 0),
    has_adjustment_congr hca (by decide :
      XDG_POSITIONER_CONSTRAINT_ADJUSTMENT_RESIZE_X &&& flip_adjustments = 0),
    has_adjustment_congr hca (by decide :
      XDG_POSITIONER_CONSTRAINT_ADJUSTMENT_RESIZE_Y &&& flip_adjustments = 0)]

/-- Reading the popup table after a popup is stored. -/
theorem xdg_popups_setXdgPopup (w : World) (p q : Nat) (v : Option WakefieldXdgPopup) :
    (w.setXdgPopup p v).xdg_popups q = if q = p then v else w.xdg_popups q := by
  simp [World.setXdgPopup, Function.update_apply]

/-- The walk of `get_parent_toplevel` is the same after a popup record is
replaced by one with the same parent surface. -/
theorem get_parent_toplevel_congr {w : World} {p : Nat} {a b : WakefieldXdgPopup}
    (hp : w.xdg_popups p = some a) (h : a.parent_surface = b.parent_surface) :
    ∀ (fuel : Nat) (surface_ptr : Option Nat),
      get_parent_toplevel fuel (w.setXdgPopup p (some b)) surface_ptr =
        get_parent_toplevel fuel w surface_ptr := by
  intro fuel
  induction fuel with
  | zero => intro _; rfl
  | succ n ih =>
    intro surface_ptr
    have hsurf : (w.setXdgPopup p (some b)).surfaces = w.surfaces := rfl
    have htop : (w.setXdgPopup p (some b)).xdg_toplevels = w.xdg_toplevels := rfl
    simp only [get_parent_toplevel, hsurf, htop]
    cases hs : surface_ptr.bind w.surfaces with
    | none => simp [deref, bind, Except.bind]
    | some surface =>
      simp only [deref, bind, Except.bind]
      split_ifs
      · rfl
      · rfl
      · cases hq : surface.xdg_popup with
        | none => simp [Option.bind]
        | some q =>
          by_cases hqp : q = p
          · subst hqp
            simp only [Option.bind, xdg_popups_setXdgPopup, if_true, hp, ih, h]
          · simp only [Option.bind, xdg_popups_setXdgPopup, if_neg hqp, ih]

/-- Storing a popup leaves the surfaces as they were. -/
theorem surfaces_setXdgPopup (w : World) (p : Nat) (v : Option WakefieldXdgPopup) :
    (w.setXdgPopup p v).surfaces = w.surfaces := rfl

/-- The allocation computed for a popup does not change when the popup record
is replaced by one that agrees with it on the inputs of the solve. -/
theorem computed_allocation_congr {w : World} {p : Nat} {a b : WakefieldXdgPopup}
    (hp : w.xdg_popups p = some a) (h : SameSolveInputs a b) (fuel : Nat) (u : Bool) :
    computed_allocation fuel (w.setXdgPopup p (some b)) p u = computed_allocation fuel w p u := by
  have hsolve := solve_congr h
  obtain ⟨hsurface, hparent, _, hwidth, hheight, _, _, _, hhas, hpw, hph, _⟩ := h
  have hnom : ∀ s, xdg_popup_nominal_size (w.setXdgPopup p (some b)) b s u =
      xdg_popup_nominal_size w a s u := by
    intro s
    cases u <;>
      simp only [xdg_popup_nominal_size, xdg_popup_uses_surface_size, surfaces_setXdgPopup,
        hparent, hwidth, hheight]
  have hpar : xdg_popup_parent_size fuel (w.setXdgPopup p (some b)) b =
      xdg_popup_parent_size fuel w a := by
    have hx : (w.setXdgPopup p (some b)).xdg_surfaces = w.xdg_surfaces := rfl
    simp only [xdg_popup_parent_size, get_parent_toplevel_congr hp hparent, hhas, hpw, hph,
      hsurface, surfaces_setXdgPopup, hx]
  have halloc : (w.setXdgPopup p (some b)).allocation = w.allocation := rfl
  simp only [computed_allocation, xdg_popup_compute_allocation, wakefield_xdg_popup_get_allocation,
    xdg_popups_setXdgPopup, if_true, hp, deref, bind, Except.bind, surfaces_setXdgPopup,
    ← hsurface, hnom, hpar, halloc]
  cases a.surface.bind w.surfaces with
  | none => rfl
  | some s =>
    simp only
    cases xdg_popup_nominal_size w a s u with
    | error e => rfl
    | ok nominal =>
      simp only
      cases xdg_popup_parent_size fuel w a with
      | error e => rfl
      | ok parent =>
        simp only [pure, Except.pure, xdg_popups_setXdgPopup, if_true, hsolve]

/-- Computing the allocation of a popup a second time changes nothing. -/
theorem compute_allocation_twice {fuel : Nat} {w w1 : World} {p : Nat} {u : Bool}
    (h : xdg_popup_compute_allocation fuel w p u = .ok w1) :
    xdg_popup_compute_allocation fuel w1 p u = .ok w1 := by
  obtain ⟨a, surface, nominal, parent, hp, hs, hn, hpar, rfl⟩ := compute_allocation_ok h
  have hnom : ∀ (b : WakefieldXdgPopup) (alloc : cairo_rectangle_int_t),
      xdg_popup_nominal_size (w.setXdgPopup p (some b)) { a with allocation := alloc } surface u =
        xdg_popup_nominal_size w a surface u := by
    intro b alloc
    cases u <;>
      simp only [xdg_popup_nominal_size, xdg_popup_uses_surface_size, surfaces_setXdgPopup]
  have hparent : ∀ alloc : cairo_rectangle_int_t,
      xdg_popup_parent_size fuel (w.setXdgPopup p (some { a with allocation := alloc }))
        { a with allocation := alloc } = xdg_popup_parent_size fuel w a := by
    intro alloc
    have hx : ∀ b, (w.setXdgPopup p (some b)).xdg_surfaces = w.xdg_surfaces := fun _ => rfl
    simp only [xdg_popup_parent_size,
      get_parent_toplevel_congr (b := { a with allocation := alloc }) hp rfl,
      surfaces_setXdgPopup, hx]
  have halloc : ∀ b, (w.setXdgPopup p (some b)).allocation = w.allocation := fun _ => rfl
  simp only [xdg_popup_compute_allocation, xdg_popups_setXdgPopup, if_true, deref, bind,
    Except.bind, surfaces_setXdgPopup, hs, hnom, hn, hparent, hpar, halloc, pure, Except.pure]
  simp only [World.setXdgPopup, Function.update_idem]

/-- C21: the solver gives the same allocation for two popup records that
differ at most in the gravity, the flip bits, the reactive flag, the
acknowledged parent configure, the grab serial and the stored allocation; so
does `xdg_popup_compute_allocation` when the record of the popup is replaced
by such a record (same allocation, or the same fault), for either value of
`use_surface_size`; and computing the allocation again right after a
computation that returned leaves the world as it is. -/
theorem C21_solve_inputs (w : World) (p : Nat) (popup other : WakefieldXdgPopup)
    (hp : w.xdg_popups p = some popup) (h : SameSolveInputs popup other) (fuel : Nat)
    (use_surface_size : Bool) :
    (∀ x_offset y_offset popup_width popup_height parent_width parent_height max_width
        max_height : Int,
      xdg_popup_solve other.xdg_positioner x_offset y_offset popup_width popup_height
          parent_width parent_height max_width max_height =
        xdg_popup_solve popup.xdg_positioner x_offset y_offset popup_width popup_height
          parent_width parent_height max_width max_height) ∧
    computed_allocation fuel (w.setXdgPopup p (some other)) p use_surface_size =
      computed_allocation fuel w p use_surface_size ∧
    (∀ w1, xdg_popup_compute_allocation fuel w p use_surface_size = .ok w1 →
      xdg_popup_compute_allocation fuel w1 p use_surface_size = .ok w1) :=
  ⟨fun a b c d e f g i => (solve_congr h a b c d e f g i).symm,
   computed_allocation_congr hp h fuel use_surface_size,
   fun _ hc => compute_allocation_twice hc⟩

/-- C21, on popup 6 of `world_popup_buffer`: with the variant record the
computed allocation is (48, 13, 64, 64), as with the record itself. -/
theorem C21_solve_inputs_witness :
    computed_allocation 5 (world_popup_buffer.setXdgPopup 6 (some popup6_variant)) 6 true =
      .ok { x := 48, y := 13, width := 64, height := 64 } ∧
    computed_allocation 5 world_popup_buffer 6 true =
      .ok { x := 48, y := 13, width := 64, height := 64 } :=
  ⟨(C21_solve_inputs world_popup_buffer 6 popup6 popup6_variant rfl
      ⟨rfl, rfl, rfl, rfl, rfl, rfl, rfl, rfl, rfl, rfl, rfl, rfl⟩ 5 true).2.1.trans rfl, rfl⟩

/-! ## The pending scale and the totality of commit (C22, C23, C30) -/

/-- C22 (counterexample): after `set_scale(2), set_scale(0)` on a new surface
the pending scale is 0, a value that is not `> 0`, in a world the client
reached; the commit that follows returns and leaves the current scale at 1,
the scale the surface had, not at 2. -/
theorem C22_counterexample :
    run 0 world0 scale_requests = .ok (world_scale, []) ∧
    ClientReachable world_scale ∧
    ∃ s w1 evs s1, world_scale.surfaces 0 = some s ∧ s.pending.scale = 0 ∧
      s.current.scale = 1 ∧
      step 0 world_scale (.commit 0) = .ok (w1, evs) ∧ w1.surfaces 0 = some s1 ∧
      s1.current.scale = 1 := by
  have hall : ∀ r ∈ scale_requests, r.fromClient = true := by decide
  have hrun : run 0 world0 scale_requests = .ok (world_scale, []) := rfl
  exact ⟨hrun, client_reachable_run (ClientReachable.empty _) hall hrun,
    ⟨_, _, _, _, rfl, rfl, rfl, rfl, rfl, rfl⟩⟩

/-- C22 (amended): on a live surface `wl_surface_set_buffer_scale` returns and
stores its argument as pending scale, whatever its sign, changing nothing
else; a commit that follows and returns makes it the current scale if it is
`> 0` and leaves the current scale as it was otherwise, and such a commit
returns when its divisors are not zero and no popup is bound; in every
reachable world the current scale is `> 0`. -/
theorem C22_set_buffer_scale (w : World) (resource : Nat) (s : WakefieldSurface)
    (hs : w.surfaces resource = some s) (scale : Int) :
    wl_surface_set_buffer_scale w resource scale =
      .ok (w.setSurface resource (some { s with pending := { s.pending with scale := scale } }),
           []) ∧
    (∀ fuel w1 evs,
      wl_surface_commit fuel
        (w.setSurface resource (some { s with pending := { s.pending with scale := scale } }))
        resource = .ok (w1, evs) →
      ∃ s1, w1.surfaces resource = some s1 ∧
        s1.current.scale = if scale > 0 then scale else s.current.scale) ∧
    (commit_divisors_nonzero { s with pending := { s.pending with scale := scale } } = true →
      s.xdg_popup = none →
      ∀ fuel, ∃ r,
        wl_surface_commit fuel
          (w.setSurface resource (some { s with pending := { s.pending with scale := scale } }))
          resource = .ok r) ∧
    (Reachable w → 0 < s.current.scale) := by
  refine ⟨?_, ?_, ?_, ?_⟩
  · simp [wl_surface_set_buffer_scale, hs, deref, bind, Except.bind, pure, Except.pure]
  · intro fuel w1 evs h
    exact commit_scale_ok (surfaces_setSurface_same _ _ _) h
  · intro hd hp fuel
    exact wl_surface_commit_returns fuel (surfaces_setSurface_same _ _ _) hd hp
  · intro hr
    exact reachable_scale_pos hr hs

/-- C22 (amended), on the new surface of `world1` and the scale 0: the scale
is stored, and the commit returns with current scale 1. -/
theorem C22_set_buffer_scale_witness :
    wl_surface_set_buffer_scale world1 0 0 =
      .ok (world1.setSurface 0
        (some { new_surface with pending := { new_surface.pending with scale := 0 } }), []) ∧
    ∃ r, wl_surface_commit 0
      (world1.setSurface 0
        (some { new_surface with pending := { new_surface.pending with scale := 0 } })) 0 =
        .ok r :=
  ⟨(C22_set_buffer_scale world1 0 new_surface rfl 0).1,
   (C22_set_buffer_scale world1 0 new_surface rfl 0).2.2.1 rfl rfl 0⟩

/-- A returning commit leaves the pending state of its surface as a new
surface has it, and the damage empty. -/
theorem commit_resets_pending {fuel : Nat} {w w1 : World} {sid : Nat} {s : WakefieldSurface}
    {evs : List Event} (hs : w.surfaces sid = some s)
    (h : wl_surface_commit fuel w sid = .ok (w1, evs)) :
    ∃ s1, w1.surfaces sid = some s1 ∧ s1.pending = new_surface.pending ∧
      s1.pending.buffer = none ∧ s1.pending.scale = 1 ∧ s1.pending.frame_callbacks = [] ∧
      s1.pending.input_region = none ∧ s1.damage = ∅ := by
  obtain ⟨mid, _, hs1, _⟩ := wl_surface_commit_ok hs h
  exact ⟨_, hs1, rfl, rfl, rfl, rfl, rfl, rfl⟩

/-- The requests of `zero_scale_requests` are client requests and lead to
`world_zero_scale`. -/
theorem zero_scale_reachable :
    run 0 world0 zero_scale_requests =
      .ok (world_zero_scale, [Event.surface_mapped 0, Event.committed 0]) ∧
    ClientReachable world_zero_scale := by
  have hall : ∀ r ∈ zero_scale_requests, r.fromClient = true := by decide
  have hrun : run 0 world0 zero_scale_requests =
      .ok (world_zero_scale, [Event.surface_mapped 0, Event.committed 0]) := rfl
  exact ⟨hrun, client_reachable_run (ClientReachable.empty _) hall hrun⟩

/-- C23 (defect): in the client-reachable world after `attach A, commit,
set_scale(0), attach B` on a new surface, the pending state holds buffer `B`
and scale 0 and the commit does not return, for any fuel: no state with the
default pending state follows. -/
theorem C23_commit_leaves_pending_state :
    ClientReachable world_zero_scale ∧
    ∃ s, world_zero_scale.surfaces 0 = some s ∧ s.pending.buffer = some bufferB ∧
      s.pending.scale = 0 ∧ s.pending ≠ new_surface.pending ∧
      ∀ fuel, step fuel world_zero_scale (.commit 0) = .error .undefined :=
  ⟨zero_scale_reachable.2, _, rfl, rfl, rfl, by decide, fun _ => rfl⟩

/-- C30 (defect): in the client-reachable world after `attach A, commit,
set_scale(0), attach B` on a new surface, both the current and the pending
buffer are shared-memory buffers, the current scale is 1 and the pending scale
is 0: the second footprint division of commit has a zero divisor and commit
does not return, for any fuel. -/
theorem C30_commit_divides_by_zero :
    ClientReachable world_zero_scale ∧
    ∃ s, world_zero_scale.surfaces 0 = some s ∧
      s.current.buffer.bind wl_shm_buffer_get = some { width := 64, height := 64 } ∧
      s.pending.buffer.bind wl_shm_buffer_get = some { width := 32, height := 32 } ∧
      s.current.scale = 1 ∧ s.pending.scale = 0 ∧ commit_divisors_nonzero s = false ∧
      c_div 32 s.pending.scale = .error .undefined ∧
      ∀ fuel, wl_surface_commit fuel world_zero_scale 0 = .error .undefined :=
  ⟨zero_scale_reachable.2, _, rfl, rfl, rfl, rfl, rfl, rfl, rfl, fun _ => rfl⟩

/-! ## Creating and repositioning a popup (C24, C25) -/

/-- A request on a positioner changes no surface, shell surface, toplevel or
popup. -/
theorem positioner_request_frame {fuel : Nat} {w w1 : World} {r : Request} {evs : List Event}
    (hr : r.onPositioner = true) (h : step fuel w r = .ok (w1, evs)) :
    w1.xdg_popups = w.xdg_popups ∧ w1.surfaces = w.surfaces ∧
      w1.xdg_surfaces = w.xdg_surfaces ∧ w1.xdg_toplevels = w.xdg_toplevels := by
  cases r <;> simp only [Request.onPositioner] at hr <;> try cases hr
  case create_positioner =>
    simp only [step, pure_eq_ok, Prod.mk.injEq] at h
    obtain ⟨rfl, _⟩ := h
    exact ⟨rfl, rfl, rfl, rfl⟩
  case positioner_destroy p =>
    simp only [step, xdg_positioner_finalize, bind_eq_ok, deref_eq_ok, pure_eq_ok,
      Prod.mk.injEq] at h
    obtain ⟨_, _, rfl, _⟩ := h
    exact ⟨rfl, rfl, rfl, rfl⟩
  case positioner_set_size p width height =>
    simp only [step, xdg_positioner_set_size, bind_eq_ok, deref_eq_ok] at h
    obtain ⟨_, _, h⟩ := h
    split at h <;>
      · simp only [pure_eq_ok, Prod.mk.injEq] at h
        obtain ⟨rfl, _⟩ := h
        exact ⟨rfl, rfl, rfl, rfl⟩
  case positioner_set_anchor_rect p x y width height =>
    simp only [step, xdg_positioner_set_anchor_rect, bind_eq_ok, deref_eq_ok] at h
    obtain ⟨_, _, h⟩ := h
    split at h <;>
      · simp only [pure_eq_ok, Prod.mk.injEq] at h
        obtain ⟨rfl, _⟩ := h
        exact ⟨rfl, rfl, rfl, rfl⟩
  case positioner_set_anchor p anchor =>
    simp only [step, xdg_positioner_set_anchor, bind_eq_ok, deref_eq_ok] at h
    obtain ⟨_, _, h⟩ := h
    split at h <;>
      · simp only [pure_eq_ok, Prod.mk.injEq] at h
        obtain ⟨rfl, _⟩ := h
        exact ⟨rfl, rfl, rfl, rfl⟩
  case positioner_set_gravity p gravity =>
    simp only [step, xdg_positioner_set_gravity, bind_eq_ok, deref_eq_ok] at h
    obtain ⟨_, _, h⟩ := h
    split at h <;>
      · simp only [pure_eq_ok, Prod.mk.injEq] at h
        obtain ⟨rfl, _⟩ := h
        exact ⟨rfl, rfl, rfl, rfl⟩
  case positioner_set_constraint_adjustment p ca =>
    simp only [step, xdg_positioner_set_constraint_adjustment, bind_eq_ok, deref_eq_ok] at h
    obtain ⟨_, _, h⟩ := h
    split at h <;>
      · simp only [pure_eq_ok, Prod.mk.injEq] at h
        obtain ⟨rfl, _⟩ := h
        exact ⟨rfl, rfl, rfl, rfl⟩
  case positioner_set_offset p x y =>
    simp only [step, xdg_positioner_set_offset, bind_eq_ok, deref_eq_ok, pure_eq_ok,
      Prod.mk.injEq] at h
    obtain ⟨_, _, rfl, _⟩ := h
    exact ⟨rfl, rfl, rfl, rfl⟩
  case positioner_set_reactive p =>
    simp only [step, xdg_positioner_set_reactive, bind_eq_ok, deref_eq_ok, pure_eq_ok,
      Prod.mk.injEq] at h
    obtain ⟨_, _, rfl, _⟩ := h
    exact ⟨rfl, rfl, rfl, rfl⟩
  case positioner_set_parent_size p pw ph =>
    simp only [step, xdg_positioner_set_parent_size, bind_eq_ok, deref_eq_ok, pure_eq_ok,
      Prod.mk.injEq] at h
    obtain ⟨_, _, rfl, _⟩ := h
    exact ⟨rfl, rfl, rfl, rfl⟩
  case positioner_set_parent_configure p serial =>
    simp only [step, xdg_positioner_set_parent_configure, bind_eq_ok, deref_eq_ok, pure_eq_ok,
      Prod.mk.injEq] at h
    obtain ⟨_, _, rfl, _⟩ := h
    exact ⟨rfl, rfl, rfl, rfl⟩

/-- The computation of the allocation of a popup does not read the allocation
the popup holds. -/
theorem compute_allocation_forgets {w : World} {p : Nat} (a : WakefieldXdgPopup)
    (alloc : cairo_rectangle_int_t) (fuel : Nat) (u : Bool) :
    xdg_popup_compute_allocation fuel (w.setXdgPopup p (some { a with allocation := alloc })) p u =
      xdg_popup_compute_allocation fuel (w.setXdgPopup p (some a)) p u := by
  have hpa : (w.setXdgPopup p (some a)).xdg_popups p = some a := by
    simp [xdg_popups_setXdgPopup]
  have hw : (w.setXdgPopup p (some a)).setXdgPopup p (some { a with allocation := alloc }) =
      w.setXdgPopup p (some { a with allocation := alloc }) := by
    simp only [World.setXdgPopup, Function.update_idem]
  have hnom : ∀ s, xdg_popup_nominal_size (w.setXdgPopup p (some { a with allocation := alloc }))
      { a with allocation := alloc } s u =
        xdg_popup_nominal_size (w.setXdgPopup p (some a)) a s u := by
    intro s
    rfl
  have hparent : xdg_popup_parent_size fuel (w.setXdgPopup p (some { a with allocation := alloc }))
      { a with allocation := alloc } = xdg_popup_parent_size fuel (w.setXdgPopup p (some a)) a := by
    have hx : ∀ b, (w.setXdgPopup p (some b)).xdg_surfaces = w.xdg_surfaces := fun _ => rfl
    have hg := get_parent_toplevel_congr (b := { a with allocation := alloc }) hpa rfl fuel
    rw [hw] at hg
    simp only [xdg_popup_parent_size, hg, surfaces_setXdgPopup, hx]
  have halloc : ∀ b, (w.setXdgPopup p (some b)).allocation = w.allocation := fun _ => rfl
  simp only [xdg_popup_compute_allocation, xdg_popups_setXdgPopup, if_true, deref, bind,
    Except.bind, surfaces_setXdgPopup, hnom, hparent, halloc, pure, Except.pure]
  simp only [World.setXdgPopup, Function.update_idem]

/-- On a live popup whose surface and the shell surface of that surface are
alive, `xdg_popup_reposition` with a positioner record returns exactly
when the parent size is found for the new record, which it is when the
positioner carries one.  It then sends `repositioned` with the given token and
then one configure for the shell surface, and changes the popup only: its
positioner becomes the given record and its allocation the one solved from
that record without surface size, the links and the grab serial stay, and the
surfaces (role, mapped flag and buffers included) are as they were.  The
outcome does not depend on the positioner and the allocation the popup held
before. -/
theorem reposition_ok (fuel : Nat) (w : World) (p a x : Nat) (popup : WakefieldXdgPopup)
    (s : WakefieldSurface) (xs : WakefieldXdgSurface) (positioner : WakeFieldXdgPositioner)
    (token : Nat) (hp : w.xdg_popups p = some popup) (ha : popup.surface = some a)
    (hs : w.surfaces a = some s) (hx : s.xdg_surface = some x)
    (hxs : w.xdg_surfaces x = some xs) :
    (∀ parent,
      xdg_popup_parent_size fuel
        (w.setXdgPopup p (some { popup with xdg_positioner := positioner }))
        { popup with xdg_positioner := positioner } = .ok parent →
      ∃ w1, xdg_popup_reposition fuel w p (some positioner) token =
          .ok (w1, [Event.repositioned p token, Event.send_configure x]) ∧
        w1.xdg_popups p = some { popup with
          xdg_positioner := positioner,
          allocation := xdg_popup_solve positioner 0 0 positioner.width positioner.height
            parent.1 parent.2 w.allocation.width w.allocation.height } ∧
        (∀ q, q ≠ p → w1.xdg_popups q = w.xdg_popups q) ∧
        w1.surfaces = w.surfaces ∧ w1.xdg_surfaces = w.xdg_surfaces ∧
        w1.xdg_toplevels = w.xdg_toplevels) ∧
    (positioner.has_parent_size = true →
      xdg_popup_parent_size fuel
        (w.setXdgPopup p (some { popup with xdg_positioner := positioner }))
        { popup with xdg_positioner := positioner } =
          .ok (positioner.parent_width, positioner.parent_height)) ∧
    (∀ w1 evs, xdg_popup_reposition fuel w p (some positioner) token = .ok (w1, evs) →
      ∃ parent, xdg_popup_parent_size fuel
        (w.setXdgPopup p (some { popup with xdg_positioner := positioner }))
        { popup with xdg_positioner := positioner } = .ok parent) ∧
    (∀ (old : WakeFieldXdgPositioner) (alloc : cairo_rectangle_int_t),
      xdg_popup_reposition fuel
          (w.setXdgPopup p (some { popup with xdg_positioner := old, allocation := alloc })) p
          (some positioner) token =
        xdg_popup_reposition fuel w p (some positioner) token) := by
  have hp1 : (w.setXdgPopup p (some { popup with xdg_positioner := positioner })).xdg_popups p =
      some { popup with xdg_positioner := positioner } := by
    simp [xdg_popups_setXdgPopup]
  have hs1 : ({ popup with xdg_positioner := positioner } : WakefieldXdgPopup).surface.bind
      (w.setXdgPopup p (some { popup with xdg_positioner := positioner })).surfaces = some s := by
    simp [surfaces_setXdgPopup, ha, hs]
  refine ⟨?_, ?_, ?_, ?_⟩
  · intro parent hparent
    have hc := compute_allocation_false_ok hp1 hs1 hparent
    refine ⟨(w.setXdgPopup p (some { popup with xdg_positioner := positioner })).setXdgPopup p
      (some { popup with
        xdg_positioner := positioner,
        allocation := xdg_popup_solve positioner 0 0 positioner.width positioner.height
          parent.1 parent.2 w.allocation.width w.allocation.height }), ?_, ?_, ?_, rfl, rfl, rfl⟩
    · have hxs1 : ∀ (b c : Option WakefieldXdgPopup),
          ((w.setXdgPopup p b).setXdgPopup p c).xdg_surfaces x = some xs := fun _ _ => hxs
      simp only [xdg_popup_reposition, hp, deref, bind, Except.bind, hc]
      simp only [ha, Option.bind, surfaces_setXdgPopup, hs, hx, pure, Except.pure, hxs1]
      rfl
    · simp [World.setXdgPopup]
    · intro q hq
      simp [World.setXdgPopup, Function.update_apply, hq]
  · intro hsize
    simp [xdg_popup_parent_size, hsize, pure, Except.pure]
  · intro w1 evs h
    simp only [xdg_popup_reposition, hp, deref, bind, Except.bind] at h
    cases hc : xdg_popup_compute_allocation fuel
        (w.setXdgPopup p (some { popup with xdg_positioner := positioner })) p false with
    | error e => simp [hc] at h
    | ok w2 =>
      obtain ⟨q, _, _, parent, hq, _, _, hpar, _⟩ := compute_allocation_ok hc
      rw [hp1] at hq
      cases hq
      exact ⟨parent, hpar⟩
  · intro old alloc
    have hw : ∀ b : WakefieldXdgPopup,
        (w.setXdgPopup p (some { popup with xdg_positioner := old, allocation := alloc })).setXdgPopup
          p (some b) = w.setXdgPopup p (some b) := by
      intro b
      simp only [World.setXdgPopup, Function.update_idem]
    simp only [xdg_popup_reposition, xdg_popups_setXdgPopup, if_true, hp, deref, bind,
      Except.bind, hw]
    rw [compute_allocation_forgets { popup with xdg_positioner := positioner } alloc fuel false]

/-- C25 (defect): after the client requests that give surface 2 a popup (5,
shell surface 3, positioner 4) and destroy surface 2, the popup, its shell
surface and the positioner are alive and the popup has no surface; a reposition
of the popup with that positioner and any token then follows the absent surface
link in `xdg_popup_compute_allocation` (line 1108) and does not return, whatever
the fuel: no `repositioned` and no configure is sent and the positioner record
of the popup is not replaced. -/
theorem C25_reposition_follows_absent_surface :
    popup_without_surface_requests.all (fun r => r.fromClient) = true ∧
    ∃ w evs popup xs positioner,
      run 5 world0 (popup_without_surface_requests) = .ok (w, evs) ∧
      ClientReachable w ∧
      w.xdg_popups 5 = some popup ∧ popup.surface = none ∧ w.xdg_surfaces 3 = some xs ∧
      w.xdg_positioners 4 = some positioner ∧
      (∀ fuel, xdg_popup_compute_allocation fuel
        (w.setXdgPopup 5 (some { popup with xdg_positioner := positioner })) 5 false =
          .error .undefined) ∧
      (∀ fuel token, xdg_popup_reposition fuel w 5 (some positioner) token = .error .undefined) ∧
      (∀ fuel token, step fuel w (.popup_reposition 5 4 token) = .error .undefined) := by
  have hall : ∀ r ∈ popup_without_surface_requests, r.fromClient = true := by decide
  obtain ⟨w, evs, hrun, hrest⟩ : ∃ w evs,
      run 5 world0 (popup_without_surface_requests) = .ok (w, evs) ∧
      ∃ popup xs positioner,
        w.xdg_popups 5 = some popup ∧ popup.surface = none ∧ w.xdg_surfaces 3 = some xs ∧
        w.xdg_positioners 4 = some positioner ∧
        (∀ fuel, xdg_popup_compute_allocation fuel
          (w.setXdgPopup 5 (some { popup with xdg_positioner := positioner })) 5 false =
            .error .undefined) ∧
        (∀ fuel token, xdg_popup_reposition fuel w 5 (some positioner) token =
          .error .undefined) ∧
        (∀ fuel token, step fuel w (.popup_reposition 5 4 token) = .error .undefined) :=
    ⟨_, _, rfl, _, _, _, rfl, rfl, rfl, rfl, fun _ => rfl, fun _ _ => rfl, fun _ _ => rfl⟩
  obtain ⟨popup, xs, positioner, h⟩ := hrest
  exact ⟨by decide, w, evs, popup, xs, positioner, hrun,
    client_reachable_run (ClientReachable.empty _) hall hrun, h⟩


/-! ## The frame of every request (C29) -/

theorem SurfacesFrom.stay {R : Nat → WakefieldSurface → WakefieldSurface → Prop}
    (hF : Frame R) (w : World) : SurfacesFrom R w w :=
  fun a => ⟨fun s1 h => ⟨s1, h, hF.unchanged a s1⟩, fun s h => ⟨s, h⟩⟩

theorem SurfacesFrom.chain {R : Nat → WakefieldSurface → WakefieldSurface → Prop}
    (hF : Frame R) {w w1 w2 : World} (h1 : SurfacesFrom R w w1) (h2 : SurfacesFrom R w1 w2) :
    SurfacesFrom R w w2 := by
  intro a
  refine ⟨fun s2 hs2 => ?_, fun s hs => ?_⟩
  · obtain ⟨s1, hs1, k2⟩ := (h2 a).1 s2 hs2
    obtain ⟨s, hs, k1⟩ := (h1 a).1 s1 hs1
    exact ⟨s, hs, hF.compose a s s1 s2 k1 k2⟩
  · obtain ⟨s1, hs1⟩ := (h1 a).2 s hs
    exact (h2 a).2 s1 hs1

theorem SurfacesFrom.of_surfaces {R : Nat → WakefieldSurface → WakefieldSurface → Prop}
    (hF : Frame R) {w w1 : World} (hs : w1.surfaces = w.surfaces) : SurfacesFrom R w w1 :=
  fun a => ⟨fun s1 h => ⟨s1, by rw [← hs]; exact h, hF.unchanged a s1⟩,
    fun s h => ⟨s, by rw [hs]; exact h⟩⟩

theorem SurfacesFrom.edit {R : Nat → WakefieldSurface → WakefieldSurface → Prop}
    (hF : Frame R) {w : World} {a : Nat} {s s1 : WakefieldSurface}
    (hs : w.surfaces a = some s) (hk : R a s s1) :
    SurfacesFrom R w (w.setSurface a (some s1)) := by
  intro b
  refine ⟨fun t ht => ?_, fun t ht => ?_⟩
  · rw [surfaces_setSurface] at ht
    split at ht
    · rename_i hb
      cases ht
      subst hb
      exact ⟨s, hs, hk⟩
    · exact ⟨t, ht, hF.unchanged b t⟩
  · rw [surfaces_setSurface]
    split
    · exact ⟨s1, rfl⟩
    · exact ⟨t, ht⟩

theorem SurfacesFrom.edit_after {R : Nat → WakefieldSurface → WakefieldSurface → Prop}
    (hF : Frame R) {w w2 : World} {a : Nat} {s s1 : WakefieldSurface}
    (hsurf : w2.surfaces = w.surfaces) (hs : w.surfaces a = some s) (hk : R a s s1) :
    SurfacesFrom R w (w2.setSurface a (some s1)) :=
  (SurfacesFrom.of_surfaces hF hsurf).chain hF
    (SurfacesFrom.edit hF (by rw [hsurf]; exact hs) hk)

theorem from_unmap {R : Nat → WakefieldSurface → WakefieldSurface → Prop} (hF : Frame R)
    {w w1 : World} {p : Nat} {evs : List Event}
    (hm : ToleratesEdit R p .mapped)
    (h : wl_surface_unmap w p = .ok (w1, evs)) : SurfacesFrom R w w1 := by
  unfold wl_surface_unmap at h
  simp only [bind_eq_ok, deref_eq_ok] at h
  obtain ⟨s, hs, h⟩ := h
  split at h
  · simp only [pure_eq_ok, Prod.mk.injEq] at h
    obtain ⟨rfl, _⟩ := h
    exact SurfacesFrom.edit hF hs (hm s false)
  · simp only [pure_eq_ok, Prod.mk.injEq] at h
    obtain ⟨rfl, _⟩ := h
    exact SurfacesFrom.stay hF _

theorem from_unmap_if_linked {R : Nat → WakefieldSurface → WakefieldSurface → Prop}
    (hF : Frame R) {w w1 : World} {p : Option Nat} {evs : List Event}
    (hm : ∀ a, ToleratesEdit R a .mapped)
    (h : unmap_if_linked w p = .ok (w1, evs)) : SurfacesFrom R w w1 := by
  cases p with
  | none =>
    simp only [unmap_if_linked, Except.ok.injEq, Prod.mk.injEq] at h
    obtain ⟨rfl, _⟩ := h
    exact SurfacesFrom.stay hF _
  | some a => exact from_unmap hF (hm a) h

theorem clear_xdg_surface_surface_surfaces {w w1 : World} {p : Option Nat}
    (h : clear_xdg_surface_surface w p = .ok w1) : w1.surfaces = w.surfaces := by
  cases p with
  | none => cases h; rfl
  | some a =>
    simp only [clear_xdg_surface_surface, bind_eq_ok, deref_eq_ok, pure_eq_ok] at h
    obtain ⟨x, _, rfl⟩ := h
    rfl

theorem clear_xdg_toplevel_surface_surfaces {w w1 : World} {p : Option Nat}
    (h : clear_xdg_toplevel_surface w p = .ok w1) : w1.surfaces = w.surfaces := by
  cases p with
  | none => cases h; rfl
  | some a =>
    simp only [clear_xdg_toplevel_surface, bind_eq_ok, deref_eq_ok, pure_eq_ok] at h
    obtain ⟨x, _, rfl⟩ := h
    rfl

theorem clear_xdg_popup_surface_surfaces {w w1 : World} {p : Option Nat}
    (h : clear_xdg_popup_surface w p = .ok w1) : w1.surfaces = w.surfaces := by
  cases p with
  | none => cases h; rfl
  | some a =>
    simp only [clear_xdg_popup_surface, bind_eq_ok, deref_eq_ok, pure_eq_ok] at h
    obtain ⟨x, _, rfl⟩ := h
    rfl

theorem from_clear_surface_xdg_surface {R : Nat → WakefieldSurface → WakefieldSurface → Prop}
    (hF : Frame R) {w w1 : World} {p : Option Nat}
    (he : ∀ a, ToleratesEdit R a .xdg_surface)
    (h : clear_surface_xdg_surface w p = .ok w1) : SurfacesFrom R w w1 := by
  cases p with
  | none => cases h; exact SurfacesFrom.stay hF _
  | some a =>
    simp only [clear_surface_xdg_surface, bind_eq_ok, deref_eq_ok, pure_eq_ok] at h
    obtain ⟨s, hs, rfl⟩ := h
    exact SurfacesFrom.edit hF hs (he a s none)

theorem from_clear_surface_xdg_toplevel {R : Nat → WakefieldSurface → WakefieldSurface → Prop}
    (hF : Frame R) {w w1 : World} {p : Option Nat}
    (he : ∀ a, ToleratesEdit R a .xdg_toplevel)
    (h : clear_surface_xdg_toplevel w p = .ok w1) : SurfacesFrom R w w1 := by
  cases p with
  | none => cases h; exact SurfacesFrom.stay hF _
  | some a =>
    simp only [clear_surface_xdg_toplevel, bind_eq_ok, deref_eq_ok, pure_eq_ok] at h
    obtain ⟨s, hs, rfl⟩ := h
    exact SurfacesFrom.edit hF hs (he a s none)

theorem from_clear_surface_xdg_popup {R : Nat → WakefieldSurface → WakefieldSurface → Prop}
    (hF : Frame R) {w w1 : World} {p : Option Nat}
    (he : ∀ a, ToleratesEdit R a .xdg_popup)
    (h : clear_surface_xdg_popup w p = .ok w1) : SurfacesFrom R w w1 := by
  cases p with
  | none => cases h; exact SurfacesFrom.stay hF _
  | some a =>
    simp only [clear_surface_xdg_popup, bind_eq_ok, deref_eq_ok, pure_eq_ok] at h
    obtain ⟨s, hs, rfl⟩ := h
    exact SurfacesFrom.edit hF hs (he a s none)

theorem from_process_damage {R : Nat → WakefieldSurface → WakefieldSurface → Prop}
    (hF : Frame R) {fuel : Nat} {w w1 : World} {resource : Nat} {evs : List Event}
    (hd : ToleratesEdit R resource .damage)
    (h : wl_surface_commit_process_damage fuel w resource = .ok (w1, evs)) :
    SurfacesFrom R w w1 := by
  unfold wl_surface_commit_process_damage at h
  simp only [bind_eq_ok, deref_eq_ok] at h
  obtain ⟨s, hs, h⟩ := h
  split at h
  · simp only [pure_eq_ok, Prod.mk.injEq] at h
    obtain ⟨rfl, _⟩ := h
    exact SurfacesFrom.stay hF _
  · split at h
    · simp only [pure_eq_ok, Prod.mk.injEq] at h
      obtain ⟨rfl, _⟩ := h
      exact SurfacesFrom.edit hF hs (hd s _)
    · simp only [bind_eq_ok, pure_eq_ok, Prod.mk.injEq] at h
      obtain ⟨w2, hca, p, _, x, _, rfl, _⟩ := h
      obtain ⟨e1, e2, _, _⟩ := compute_allocation_surfaces hca
      refine (SurfacesFrom.of_surfaces hF e1).chain hF ?_
      cases hw : x.window with
      | none => exact SurfacesFrom.edit hF (by rw [e1]; exact hs) (hd s _)
      | some win =>
        dsimp only
        exact SurfacesFrom.edit_after hF rfl (by rw [e1]; exact hs) (hd s _)

theorem Frame.four_edits {R : Nat → WakefieldSurface → WakefieldSurface → Prop} (hF : Frame R)
    {a : Nat} (hc : ToleratesEdit R a .current) (hp : ToleratesEdit R a .pending)
    (hd : ToleratesEdit R a .damage) (hm : ToleratesEdit R a .mapped) (s : WakefieldSurface)
    (c p : WakefieldSurfacePendingState) (d : cairo_region_t)
    (m : Bool) :
    R a s { s with current := c, pending := p, damage := d, mapped := m } :=
  hF.compose a s { s with current := c, pending := p, damage := d } _
    (hF.compose a s { s with current := c, pending := p } _
      (hF.compose a s { s with current := c } _ (hc s c) (hp { s with current := c } p))
      (hd { s with current := c, pending := p } d))
    (hm { s with current := c, pending := p, damage := d } m)

theorem from_commit {R : Nat → WakefieldSurface → WakefieldSurface → Prop}
    (hF : Frame R) {fuel : Nat} {w w1 : World} {resource : Nat} {evs : List Event}
    (hc : ToleratesEdit R resource .current) (hp : ToleratesEdit R resource .pending)
    (hd : ToleratesEdit R resource .damage) (hm : ToleratesEdit R resource .mapped)
    (h : wl_surface_commit fuel w resource = .ok (w1, evs)) : SurfacesFrom R w w1 := by
  unfold wl_surface_commit at h
  simp only [bind_eq_ok, deref_eq_ok, pure_eq_ok, Prod.mk.injEq] at h
  obtain ⟨s, hs, cr, _, ⟨s1, cr1, rel⟩, hbuf, ⟨w2, mid⟩, hpd, s3, hs3, rfl, _⟩ := h
  have hs1 := (commit_buffer_ok hbuf).1
  have k1 : SurfacesFrom R w (w.setSurface resource (some (wl_surface_commit_state s1 cr1))) :=
    SurfacesFrom.edit hF hs (by
      rw [hs1]
      exact Frame.four_edits hF hc hp hd hm s _ _ _ _)
  refine (k1.chain hF (from_process_damage hF hd hpd)).chain hF ?_
  refine SurfacesFrom.edit hF hs3 ?_
  unfold wl_surface_commit_finish
  cases hmap : s3.mapped
  · exact Frame.four_edits hF hc hp hd hm s3 _ _ _ _
  · exact Frame.four_edits hF hc hp hd hm s3 _ _ _ _

theorem from_surface_finalize {R : Nat → WakefieldSurface → WakefieldSurface → Prop}
    (hF : Frame R) {w w1 : World} {resource : Nat} {evs : List Event}
    (hm : ToleratesEdit R resource .mapped)
    (h : wl_surface_finalize w resource = .ok (w1, evs)) :
    ∃ w2, SurfacesFrom R w w2 ∧ w1.surfaces = (w2.setSurface resource none).surfaces := by
  unfold wl_surface_finalize at h
  simp only [bind_eq_ok, deref_eq_ok, pure_eq_ok, Prod.mk.injEq] at h
  obtain ⟨⟨wu, eu⟩, hu, s, _, wa, ha, wb, hb, wc, hc, rfl, _⟩ := h
  have e : wc.surfaces = wu.surfaces := by
    rw [clear_xdg_popup_surface_surfaces hc, clear_xdg_toplevel_surface_surfaces hb,
      clear_xdg_surface_surface_surfaces ha]
  exact ⟨wc, (from_unmap hF hm hu).chain hF (SurfacesFrom.of_surfaces hF e), rfl⟩

theorem from_unrealize {R : Nat → WakefieldSurface → WakefieldSurface → Prop}
    (hF : Frame R) {w w1 : World} {resource : Nat} {evs : List Event}
    (hm : ∀ a, ToleratesEdit R a .mapped)
    (h : wakefield_xdg_surface_unrealize w resource = .ok (w1, evs)) :
    SurfacesFrom R w w1 := by
  unfold wakefield_xdg_surface_unrealize at h
  simp only [bind_eq_ok, deref_eq_ok] at h
  obtain ⟨x, _, ⟨wu, eu⟩, hu, h⟩ := h
  split at h
  · simp only [pure_eq_ok, Prod.mk.injEq] at h
    obtain ⟨rfl, _⟩ := h
    exact (from_unmap_if_linked hF hm hu).chain hF (SurfacesFrom.of_surfaces hF rfl)
  · simp only [pure_eq_ok, Prod.mk.injEq] at h
    obtain ⟨rfl, _⟩ := h
    exact from_unmap_if_linked hF hm hu

theorem from_xdg_surface_finalize {R : Nat → WakefieldSurface → WakefieldSurface → Prop}
    (hF : Frame R) {w w1 : World} {resource : Nat} {evs : List Event}
    (hm : ∀ a, ToleratesEdit R a .mapped) (he : ∀ a, ToleratesEdit R a .xdg_surface)
    (h : xdg_surface_finalize w resource = .ok (w1, evs)) : SurfacesFrom R w w1 := by
  unfold xdg_surface_finalize at h
  simp only [bind_eq_ok, deref_eq_ok, pure_eq_ok, Prod.mk.injEq] at h
  obtain ⟨x, _, ⟨wu, eu⟩, hu, wa, ha, rfl, _⟩ := h
  exact ((from_unrealize hF hm hu).chain hF (from_clear_surface_xdg_surface hF he ha)).chain
    hF (SurfacesFrom.of_surfaces hF rfl)

theorem from_xdg_toplevel_finalize {R : Nat → WakefieldSurface → WakefieldSurface → Prop}
    (hF : Frame R) {w w1 : World} {resource : Nat} {evs : List Event}
    (he : ∀ a, ToleratesEdit R a .xdg_toplevel)
    (h : xdg_toplevel_finalize w resource = .ok (w1, evs)) : SurfacesFrom R w w1 := by
  unfold xdg_toplevel_finalize at h
  simp only [bind_eq_ok, deref_eq_ok, pure_eq_ok, Prod.mk.injEq] at h
  obtain ⟨x, _, wa, ha, rfl, _⟩ := h
  exact (from_clear_surface_xdg_toplevel hF he ha).chain hF (SurfacesFrom.of_surfaces hF rfl)

theorem from_xdg_popup_finalize {R : Nat → WakefieldSurface → WakefieldSurface → Prop}
    (hF : Frame R) {w w1 : World} {resource : Nat} {evs : List Event}
    (hm : ∀ a, ToleratesEdit R a .mapped) (he : ∀ a, ToleratesEdit R a .xdg_popup)
    (h : xdg_popup_finalize w resource = .ok (w1, evs)) : SurfacesFrom R w w1 := by
  unfold xdg_popup_finalize at h
  simp only [bind_eq_ok, deref_eq_ok, pure_eq_ok, Prod.mk.injEq] at h
  obtain ⟨x, _, ⟨wu, eu⟩, hu, wa, ha, rfl, _⟩ := h
  exact ((from_unmap_if_linked hF hm hu).chain hF
    (from_clear_surface_xdg_popup hF he ha)).chain hF (SurfacesFrom.of_surfaces hF rfl)

theorem from_set_role {R : Nat → WakefieldSurface → WakefieldSurface → Prop}
    (hF : Frame R) {w w1 : World} {a : Nat} {role : WakefieldSurfaceRole}
    (he : ToleratesEdit R a .role)
    (h : wakefield_surface_set_role w a role = .ok w1) : SurfacesFrom R w w1 := by
  obtain ⟨s, hs, _, rfl⟩ := set_role_ok h
  exact SurfacesFrom.edit hF hs (he s role)

theorem from_get_toplevel {R : Nat → WakefieldSurface → WakefieldSurface → Prop}
    (hF : Frame R) {w w1 : World} {resource : Nat} {created : Bool} {evs : List Event}
    (he : ∀ a, ToleratesEdit R a .xdg_toplevel) (hr : ∀ a, ToleratesEdit R a .role)
    (h : xdg_surface_get_toplevel w resource created = .ok (w1, evs)) :
    SurfacesFrom R w w1 := by
  unfold xdg_surface_get_toplevel at h
  simp only [bind_eq_ok, deref_eq_ok, g_assert_eq_ok] at h
  obtain ⟨x, _, sid, _, s, hs, _, _, h⟩ := h
  cases created with
  | false =>
    simp only [Bool.false_eq_true, if_false, pure_eq_ok, Prod.mk.injEq] at h
    obtain ⟨rfl, _⟩ := h
    exact SurfacesFrom.stay hF _
  | true =>
    simp only [if_true, bind_eq_ok, pure_eq_ok, Prod.mk.injEq] at h
    obtain ⟨w2, hrole, rfl, _⟩ := h
    exact (SurfacesFrom.edit hF hs (he sid s (some w.next))).chain hF
      ((from_set_role hF (hr sid) hrole).chain hF (SurfacesFrom.of_surfaces hF rfl))

theorem from_get_popup {R : Nat → WakefieldSurface → WakefieldSurface → Prop}
    (hF : Frame R) {fuel : Nat} {w w1 : World} {resource : Nat} {parent : Option Nat}
    {positioner : Option WakeFieldXdgPositioner} {created : Bool} {evs : List Event}
    (he : ∀ a, ToleratesEdit R a .xdg_popup) (hr : ∀ a, ToleratesEdit R a .role)
    (h : xdg_surface_get_popup fuel w resource parent positioner created = .ok (w1, evs)) :
    SurfacesFrom R w w1 := by
  unfold xdg_surface_get_popup at h
  simp only [bind_eq_ok, deref_eq_ok] at h
  obtain ⟨x, _, h⟩ := h
  split at h
  · simp only [pure_eq_ok, Prod.mk.injEq] at h
    obtain ⟨rfl, _⟩ := h
    exact SurfacesFrom.of_surfaces hF rfl
  · split at h
    · simp only [pure_eq_ok, Prod.mk.injEq] at h
      obtain ⟨rfl, _⟩ := h
      exact SurfacesFrom.of_surfaces hF rfl
    · simp only [bind_eq_ok, deref_eq_ok, g_assert_eq_ok] at h
      obtain ⟨px, _, sid, _, s, hs, _, _, h⟩ := h
      cases created with
      | false =>
        simp only [Bool.false_eq_true, if_false, pure_eq_ok, Prod.mk.injEq] at h
        obtain ⟨rfl, _⟩ := h
        exact SurfacesFrom.stay hF _
      | true =>
        simp only [if_true, bind_eq_ok, pure_eq_ok, Prod.mk.injEq] at h
        obtain ⟨w2, hrole, w4, hca, rfl, _⟩ := h
        exact (SurfacesFrom.edit hF hs (he sid s (some w.next))).chain hF
          ((from_set_role hF (hr sid) hrole).chain hF
            (SurfacesFrom.of_surfaces hF (compute_allocation_surfaces hca).1))

theorem from_xdg_surface_new {R : Nat → WakefieldSurface → WakefieldSurface → Prop}
    (hF : Frame R) {w w1 : World} {sid a : Nat}
    (he : ToleratesEdit R sid .xdg_surface)
    (h : wakefield_xdg_surface_new w sid = .ok (w1, a)) : SurfacesFrom R w w1 := by
  unfold wakefield_xdg_surface_new at h
  simp only [bind_eq_ok, deref_eq_ok, pure_eq_ok, Prod.mk.injEq] at h
  obtain ⟨s, hs, rfl, _⟩ := h
  exact (SurfacesFrom.edit hF hs (he s (some w.next))).chain hF (SurfacesFrom.of_surfaces hF rfl)

theorem from_popup_close {R : Nat → WakefieldSurface → WakefieldSurface → Prop}
    (hF : Frame R) {w w1 : World} {p : Nat} {evs : List Event}
    (hm : ∀ a, ToleratesEdit R a .mapped)
    (h : wakefield_xdg_popup_close w p = .ok (w1, evs)) : SurfacesFrom R w w1 := by
  unfold wakefield_xdg_popup_close at h
  simp only [bind_eq_ok, deref_eq_ok] at h
  obtain ⟨x, _, h⟩ := h
  split at h
  · simp only [pure_eq_ok, Prod.mk.injEq] at h
    obtain ⟨rfl, _⟩ := h
    exact SurfacesFrom.stay hF _
  · simp only [bind_eq_ok, deref_eq_ok] at h
    obtain ⟨s, hs, h⟩ := h
    split at h
    · simp only [pure_eq_ok, Prod.mk.injEq] at h
      obtain ⟨rfl, _⟩ := h
      exact SurfacesFrom.edit hF hs (hm _ s false)
    · simp only [pure_eq_ok, Prod.mk.injEq] at h
      obtain ⟨rfl, _⟩ := h
      exact SurfacesFrom.stay hF _

theorem from_draw {R : Nat → WakefieldSurface → WakefieldSurface → Prop}
    (hF : Frame R) {w w1 : World} {sid : Nat} {now : Int} {evs : List Event}
    (he : ToleratesEdit R sid .current_callbacks)
    (h : wakefield_surface_draw w sid now = .ok (w1, evs)) : SurfacesFrom R w w1 := by
  unfold wakefield_surface_draw at h
  simp only [bind_eq_ok, deref_eq_ok, pure_eq_ok, Prod.mk.injEq] at h
  obtain ⟨s, hs, _, _, rfl, _⟩ := h
  exact SurfacesFrom.edit hF hs (he s wl_list_init)

/-- The frame of a request: the world after it has the surfaces of the world
before, but for the one the request created or destroyed, and the record of
each changed only in the parts `Request.edits` lists: any relation between the
old and the new record that holds without a change, composes, and holds across
a change of each listed part (at the surface the request names, when it names
one) holds between them. -/
theorem step_frame {R : Nat → WakefieldSurface → WakefieldSurface → Prop} (hF : Frame R)
    {fuel : Nat} {w w1 : World} {r : Request} {evs : List Event}
    (hedit : ∀ f, f ∈ r.edits → ∀ a, (r.onSurface = none ∨ r.onSurface = some a) →
      ToleratesEdit R a f)
    (h : step fuel w r = .ok (w1, evs)) :
    ∀ a, (∀ s1, w1.surfaces a = some s1 →
        (∃ s, w.surfaces a = some s ∧ R a s s1) ∨
        (r = .create_surface ∧ a = w.next ∧ s1 = new_surface)) ∧
      (∀ s, w.surfaces a = some s →
        (∃ s1, w1.surfaces a = some s1) ∨ r = .surface_destroy a) := by
  have same : ∀ {w2 : World}, SurfacesFrom R w w2 → ∀ a,
      (∀ s1, w2.surfaces a = some s1 →
        (∃ s, w.surfaces a = some s ∧ R a s s1) ∨
        (r = .create_surface ∧ a = w.next ∧ s1 = new_surface)) ∧
      (∀ s, w.surfaces a = some s →
        (∃ s1, w2.surfaces a = some s1) ∨ r = .surface_destroy a) :=
    fun hk a => ⟨fun s1 hs1 => Or.inl ((hk a).1 s1 hs1), fun s hs => Or.inl ((hk a).2 s hs)⟩
  cases r with
  | create_surface =>
    simp only [step, pure_eq_ok, Prod.mk.injEq] at h
    obtain ⟨rfl, _⟩ := h
    intro a
    refine ⟨fun s1 hs1 => ?_, fun s hs => Or.inl ?_⟩
    · simp only [wakefield_surface_new, Function.update_apply] at hs1
      split at hs1
      · rename_i ha
        cases hs1
        exact Or.inr ⟨rfl, ha, rfl⟩
      · exact Or.inl ⟨s1, hs1, hF.unchanged a s1⟩
    · simp only [wakefield_surface_new, Function.update_apply]
      split
      · exact ⟨_, rfl⟩
      · exact ⟨s, hs⟩
  | surface_destroy surface =>
    obtain ⟨w2, hk, hsurf⟩ := from_surface_finalize hF
      (hedit .mapped (by simp [Request.edits]) surface (Or.inr rfl)) h
    intro a
    refine ⟨fun s1 hs1 => ?_, fun s hs => ?_⟩
    · rw [hsurf, surfaces_setSurface] at hs1
      split at hs1
      · cases hs1
      · exact Or.inl ((hk a).1 s1 hs1)
    · by_cases ha : a = surface
      · exact Or.inr (by rw [ha])
      · rw [hsurf, surfaces_setSurface, if_neg ha]
        exact Or.inl ((hk a).2 s hs)
  | attach surface buffer dx dy =>
    simp only [step, wl_surface_attach, bind_eq_ok, deref_eq_ok, pure_eq_ok, Prod.mk.injEq] at h
    obtain ⟨s, hs, rfl, _⟩ := h
    exact same (SurfacesFrom.edit hF hs
      (hedit .pending (by simp [Request.edits]) surface (Or.inr rfl) s _))
  | damage surface x y width height =>
    simp only [step, wl_surface_damage, bind_eq_ok, deref_eq_ok, pure_eq_ok, Prod.mk.injEq] at h
    obtain ⟨s, hs, rfl, _⟩ := h
    exact same (SurfacesFrom.edit hF hs
      (hedit .damage (by simp [Request.edits]) surface (Or.inr rfl) s _))
  | frame surface callback_id =>
    simp only [step, wl_surface_frame, bind_eq_ok, deref_eq_ok, pure_eq_ok, Prod.mk.injEq] at h
    obtain ⟨s, hs, rfl, _⟩ := h
    exact same (SurfacesFrom.edit hF hs
      (hedit .pending (by simp [Request.edits]) surface (Or.inr rfl) s _))
  | set_opaque_region surface =>
    simp only [step, pure_eq_ok, Prod.mk.injEq] at h
    obtain ⟨rfl, _⟩ := h
    exact same (SurfacesFrom.stay hF _)
  | set_input_region surface region =>
    simp only [step, wl_surface_set_input_region, bind_eq_ok, deref_eq_ok, pure_eq_ok,
      Prod.mk.injEq] at h
    obtain ⟨s, hs, rfl, _⟩ := h
    exact same (SurfacesFrom.edit hF hs
      (hedit .pending (by simp [Request.edits]) surface (Or.inr rfl) s _))
  | commit surface =>
    exact same (from_commit hF
      (hedit .current (by simp [Request.edits]) surface (Or.inr rfl))
      (hedit .pending (by simp [Request.edits]) surface (Or.inr rfl))
      (hedit .damage (by simp [Request.edits]) surface (Or.inr rfl))
      (hedit .mapped (by simp [Request.edits]) surface (Or.inr rfl)) h)
  | set_buffer_transform surface transform =>
    simp only [step, pure_eq_ok, Prod.mk.injEq] at h
    obtain ⟨rfl, _⟩ := h
    exact same (SurfacesFrom.stay hF _)
  | set_buffer_scale surface scale =>
    simp only [step, wl_surface_set_buffer_scale, bind_eq_ok, deref_eq_ok, pure_eq_ok,
      Prod.mk.injEq] at h
    obtain ⟨s, hs, rfl, _⟩ := h
    exact same (SurfacesFrom.edit hF hs
      (hedit .pending (by simp [Request.edits]) surface (Or.inr rfl) s _))
  | damage_buffer surface =>
    simp only [step, wl_surface_damage_buffer, pure_eq_ok, Prod.mk.injEq] at h
    obtain ⟨rfl, _⟩ := h
    exact same (SurfacesFrom.stay hF _)
  | offset surface =>
    simp only [step, wl_surface_offset, pure_eq_ok, Prod.mk.injEq] at h
    obtain ⟨rfl, _⟩ := h
    exact same (SurfacesFrom.stay hF _)
  | get_xdg_surface surface =>
    simp only [step, bind_eq_ok, pure_eq_ok, Prod.mk.injEq] at h
    obtain ⟨⟨w2, a⟩, hn, rfl, _⟩ := h
    exact same (from_xdg_surface_new hF
      (hedit .xdg_surface (by simp [Request.edits]) surface (Or.inr rfl)) hn)
  | xdg_surface_destroy xdg_surface =>
    exact same (from_xdg_surface_finalize hF
      (fun a => hedit .mapped (by simp [Request.edits]) a (Or.inl rfl))
      (fun a => hedit .xdg_surface (by simp [Request.edits]) a (Or.inl rfl)) h)
  | get_toplevel xdg_surface created =>
    exact same (from_get_toplevel hF
      (fun a => hedit .xdg_toplevel (by simp [Request.edits]) a (Or.inl rfl))
      (fun a => hedit .role (by simp [Request.edits]) a (Or.inl rfl)) h)
  | get_popup xdg_surface parent positioner created =>
    exact same (from_get_popup hF
      (fun a => hedit .xdg_popup (by simp [Request.edits]) a (Or.inl rfl))
      (fun a => hedit .role (by simp [Request.edits]) a (Or.inl rfl)) h)
  | set_window_geometry xdg_surface x y width height =>
    simp only [step, xdg_surface_set_window_geometry, bind_eq_ok, deref_eq_ok] at h
    obtain ⟨xs, _, h⟩ := h
    split at h <;>
      · simp only [pure_eq_ok, Prod.mk.injEq] at h
        obtain ⟨rfl, _⟩ := h
        exact same (SurfacesFrom.of_surfaces hF rfl)
  | ack_configure xdg_surface serial =>
    simp only [step, pure_eq_ok, Prod.mk.injEq] at h
    obtain ⟨rfl, _⟩ := h
    exact same (SurfacesFrom.stay hF _)
  | toplevel_destroy xdg_toplevel =>
    exact same (from_xdg_toplevel_finalize hF
      (fun a => hedit .xdg_toplevel (by simp [Request.edits]) a (Or.inl rfl)) h)
  | toplevel_hint xdg_toplevel =>
    simp only [step, pure_eq_ok, Prod.mk.injEq] at h
    obtain ⟨rfl, _⟩ := h
    exact same (SurfacesFrom.stay hF _)
  | popup_destroy xdg_popup =>
    exact same (from_xdg_popup_finalize hF
      (fun a => hedit .mapped (by simp [Request.edits]) a (Or.inl rfl))
      (fun a => hedit .xdg_popup (by simp [Request.edits]) a (Or.inl rfl)) h)
  | popup_grab xdg_popup serial =>
    simp only [step, xdg_popup_grab, bind_eq_ok, deref_eq_ok, pure_eq_ok, Prod.mk.injEq] at h
    obtain ⟨x, _, s, _, ps, _, o, _, _, _, g, _, _, _, rfl, _⟩ := h
    exact same (SurfacesFrom.of_surfaces hF rfl)
  | popup_reposition xdg_popup positioner token =>
    simp only [step, xdg_popup_reposition, bind_eq_ok, deref_eq_ok, pure_eq_ok,
      Prod.mk.injEq] at h
    obtain ⟨x, _, pos, _, w2, hca, s, _, xs, _, _, _, rfl, _⟩ := h
    exact same (SurfacesFrom.of_surfaces hF (compute_allocation_surfaces hca).1)
  | create_positioner =>
    simp only [step, pure_eq_ok, Prod.mk.injEq] at h
    obtain ⟨rfl, _⟩ := h
    exact same (SurfacesFrom.of_surfaces hF rfl)
  | positioner_destroy positioner =>
    refine same (SurfacesFrom.of_surfaces hF (positioner_request_frame ?_ h).2.1)
    rfl
  | positioner_set_size positioner width height =>
    refine same (SurfacesFrom.of_surfaces hF (positioner_request_frame ?_ h).2.1)
    rfl
  | positioner_set_anchor_rect positioner x y width height =>
    refine same (SurfacesFrom.of_surfaces hF (positioner_request_frame ?_ h).2.1)
    rfl
  | positioner_set_anchor positioner anchor =>
    refine same (SurfacesFrom.of_surfaces hF (positioner_request_frame ?_ h).2.1)
    rfl
  | positioner_set_gravity positioner gravity =>
    refine same (SurfacesFrom.of_surfaces hF (positioner_request_frame ?_ h).2.1)
    rfl
  | positioner_set_constraint_adjustment positioner constraint_adjustment =>
    refine same (SurfacesFrom.of_surfaces hF (positioner_request_frame ?_ h).2.1)
    rfl
  | positioner_set_offset positioner x y =>
    refine same (SurfacesFrom.of_surfaces hF (positioner_request_frame ?_ h).2.1)
    rfl
  | positioner_set_reactive positioner =>
    refine same (SurfacesFrom.of_surfaces hF (positioner_request_frame ?_ h).2.1)
    rfl
  | positioner_set_parent_size positioner parent_width parent_height =>
    refine same (SurfacesFrom.of_surfaces hF (positioner_request_frame ?_ h).2.1)
    rfl
  | positioner_set_parent_configure positioner serial =>
    refine same (SurfacesFrom.of_surfaces hF (positioner_request_frame ?_ h).2.1)
    rfl
  | draw surface now =>
    exact same (from_draw hF
      (hedit .current_callbacks (by simp [Request.edits]) surface (Or.inr rfl)) h)
  | set_role surface role =>
    simp only [step, bind_eq_ok, pure_eq_ok, Prod.mk.injEq] at h
    obtain ⟨w2, hrole, rfl, _⟩ := h
    exact same (from_set_role hF
      (hedit .role (by simp [Request.edits]) surface (Or.inr rfl)) hrole)
  | realize xdg_surface =>
    simp only [step, wakefield_xdg_surface_realize, bind_eq_ok, deref_eq_ok] at h
    obtain ⟨x, _, h⟩ := h
    split at h
    · simp only [pure_eq_ok, Prod.mk.injEq] at h
      obtain ⟨rfl, _⟩ := h
      exact same (SurfacesFrom.stay hF _)
    · simp only [bind_eq_ok, deref_eq_ok, pure_eq_ok, Prod.mk.injEq] at h
      obtain ⟨s, _, size, _, rfl, _⟩ := h
      exact same (SurfacesFrom.of_surfaces hF rfl)
  | unrealize xdg_surface =>
    exact same (from_unrealize hF
      (fun a => hedit .mapped (by simp [Request.edits]) a (Or.inl rfl)) h)
  | popup_close xdg_popup =>
    exact same (from_popup_close hF
      (fun a => hedit .mapped (by simp [Request.edits]) a (Or.inl rfl)) h)
  | size_allocate allocation =>
    simp only [step, pure_eq_ok, Prod.mk.injEq] at h
    obtain ⟨rfl, _⟩ := h
    exact same (SurfacesFrom.of_surfaces hF rfl)

/-- C29: on a live surface `a` of a reachable world, attach, set_buffer_scale,
frame and set_input_region return with no event and with a world that differs
only in the pending state of `a` (so the current buffer, scale and callback
queue, the role, the mapped flag, the shell links and the damage of `a` are
as before), and damage returns with a world that differs only in the damage
region of `a`; and whatever request other than `commit a` returns, a surface
`a` that is still there has its current buffer, current scale and current
input region as before, and its whole current state (callback queue included)
as before unless the request is a draw of `a`. -/
theorem C29_current_changes_at_commit (fuel : Nat) (w : World) (a : Nat) (s : WakefieldSurface)
    (hreach : Reachable w) (hs : w.surfaces a = some s) :
    (∀ buffer dx dy, step fuel w (.attach a buffer dx dy) =
      .ok (w.setSurface a (some { s with pending := { s.pending with buffer := buffer } }),
           [])) ∧
    (∀ scale, step fuel w (.set_buffer_scale a scale) =
      .ok (w.setSurface a (some { s with pending := { s.pending with scale := scale } }),
           [])) ∧
    (∀ callback_id, step fuel w (.frame a callback_id) =
      .ok (w.setSurface a (some { s with pending := { s.pending with
             frame_callbacks := wl_list_insert s.pending.frame_callbacks callback_id } }),
           [])) ∧
    (∀ region, step fuel w (.set_input_region a region) =
      .ok (w.setSurface a (some { s with pending := { s.pending with input_region := region } }),
           [])) ∧
    (∀ x y width height, step fuel w (.damage a x y width height) =
      .ok (w.setSurface a (some { s with
             damage := cairo_region_union_rectangle s.damage ⟨x, y, width, height⟩ }), [])) ∧
    (∀ r w1 evs s1, step fuel w r = .ok (w1, evs) → w1.surfaces a = some s1 →
      r ≠ .commit a →
      s1.current.buffer = s.current.buffer ∧ s1.current.scale = s.current.scale ∧
      s1.current.input_region = s.current.input_region ∧
      ((∀ now, r ≠ .draw a now) → s1.current = s.current)) := by
  refine ⟨?_, ?_, ?_, ?_, ?_, ?_⟩
  · intro buffer dx dy
    simp [step, wl_surface_attach, hs, deref, bind, Except.bind, pure, Except.pure]
  · intro scale
    simp [step, wl_surface_set_buffer_scale, hs, deref, bind, Except.bind, pure, Except.pure]
  · intro callback_id
    simp [step, wl_surface_frame, hs, deref, bind, Except.bind, pure, Except.pure]
  · intro region
    simp [step, wl_surface_set_input_region, hs, deref, bind, Except.bind, pure, Except.pure]
  · intro x y width height
    simp [step, wl_surface_damage, hs, deref, bind, Except.bind, pure, Except.pure]
  · intro r w1 evs s1 hstep hs1 hr
    have hF : Frame (fun b (t t1 : WakefieldSurface) => b = a →
        t1.current.buffer = t.current.buffer ∧ t1.current.scale = t.current.scale ∧
        t1.current.input_region = t.current.input_region ∧
        ((∀ now, r ≠ .draw a now) → t1.current = t.current)) :=
      ⟨fun _ _ _ => ⟨rfl, rfl, rfl, fun _ => rfl⟩, fun b t t1 t2 h1 h2 hb => by
        obtain ⟨p1, p2, p3, p4⟩ := h1 hb
        obtain ⟨q1, q2, q3, q4⟩ := h2 hb
        exact ⟨q1.trans p1, q2.trans p2, q3.trans p3, fun hd => (q4 hd).trans (p4 hd)⟩⟩
    have hframe := step_frame hF (fun f hf b hb => by
      cases f
      case current =>
        cases r <;> simp only [Request.edits, List.mem_cons, List.mem_singleton, List.mem_nil_iff,
          reduceCtorEq, or_false, or_self, false_or] at hf
        case commit c =>
          simp only [Request.onSurface, reduceCtorEq, Option.some.injEq, false_or] at hb
          subst hb
          intro t v hc
          exact absurd (by rw [hc]) hr
      case current_callbacks =>
        cases r <;> simp only [Request.edits, List.mem_cons, List.mem_singleton, List.mem_nil_iff,
          reduceCtorEq, or_false, or_self, false_or] at hf
        case draw c now =>
          simp only [Request.onSurface, reduceCtorEq, Option.some.injEq, false_or] at hb
          subst hb
          intro t v hc
          exact ⟨rfl, rfl, rfl, fun hd => absurd (by rw [hc]) (hd now)⟩
      all_goals
        intro t v _
        exact ⟨rfl, rfl, rfl, fun _ => rfl⟩) hstep
    rcases (hframe a).1 s1 hs1 with ⟨t, ht, hR⟩ | ⟨_, hnext, _⟩
    · rw [hs] at ht
      cases ht
      exact hR rfl
    · have := (reachable_sound hreach).1 a (Nat.le_of_eq hnext.symm)
      rw [hs] at this
      cases this

/-- C29, on the new surface of `world1`: a scale request returns with only
the pending scale changed, and the current state after a frame request is the
one of a new surface. -/
theorem C29_current_changes_at_commit_witness :
    step 0 world1 (.set_buffer_scale 0 2) =
      .ok (world1.setSurface 0
        (some { new_surface with pending := { new_surface.pending with scale := 2 } }), []) ∧
    ∀ w1 evs s1, step 0 world1 (.frame 0 7) = .ok (w1, evs) → w1.surfaces 0 = some s1 →
      s1.current = new_surface.current :=
  ⟨(C29_current_changes_at_commit 0 world1 0 new_surface
      (Reachable.step 0 .create_surface (Reachable.empty _) rfl) rfl).2.1 2,
   fun w1 evs s1 h hs1 =>
    ((C29_current_changes_at_commit 0 world1 0 new_surface
      (Reachable.step 0 .create_surface (Reachable.empty _) rfl) rfl).2.2.2.2.2
        (.frame 0 7) w1 evs s1 h hs1 (fun e => by cases e)).2.2.2
          (fun now e => by cases e)⟩

/-! ## Closing a popup (C26) -/

theorem PopupsFrom.rest (w : World) : PopupsFrom w w :=
  fun _ popup1 h => ⟨popup1, h, rfl, rfl⟩

theorem PopupsFrom.next {w w1 w2 : World} (h1 : PopupsFrom w w1) (h2 : PopupsFrom w1 w2) :
    PopupsFrom w w2 := by
  intro q popup2 hq
  obtain ⟨popup1, hq1, e1, e2⟩ := h2 q popup2 hq
  obtain ⟨popup, hq0, e3, e4⟩ := h1 q popup1 hq1
  exact ⟨popup, hq0, e1.trans e3, e2.trans e4⟩

theorem PopupsFrom.of_popups {w w1 : World} (h : w1.xdg_popups = w.xdg_popups) :
    PopupsFrom w w1 :=
  fun _ popup1 hq => ⟨popup1, by rw [← h]; exact hq, rfl, rfl⟩

theorem PopupsFrom.store {w : World} {p : Nat} {a b : WakefieldXdgPopup}
    (hp : w.xdg_popups p = some a) (h1 : b.surface = a.surface)
    (h2 : b.parent_surface = a.parent_surface) :
    PopupsFrom w (w.setXdgPopup p (some b)) := by
  intro q popup1 hq
  rw [xdg_popups_setXdgPopup] at hq
  split at hq
  · rename_i hqp
    cases hq
    subst hqp
    exact ⟨a, hp, h1, h2⟩
  · exact ⟨popup1, hq, rfl, rfl⟩

theorem PopupsFrom.free (w : World) (p : Nat) : PopupsFrom w (w.setXdgPopup p none) := by
  intro q popup1 hq
  rw [xdg_popups_setXdgPopup] at hq
  split at hq
  · cases hq
  · exact ⟨popup1, hq, rfl, rfl⟩

theorem compute_allocation_popups {fuel : Nat} {w w1 : World} {p : Nat} {u : Bool}
    (h : xdg_popup_compute_allocation fuel w p u = .ok w1) : PopupsFrom w w1 := by
  obtain ⟨popup, _, _, _, hp, _, _, _, rfl⟩ := compute_allocation_ok h
  exact PopupsFrom.store hp rfl rfl

theorem unmap_popups {w w1 : World} {p : Nat} {evs : List Event}
    (h : wl_surface_unmap w p = .ok (w1, evs)) : w1.xdg_popups = w.xdg_popups := by
  unfold wl_surface_unmap at h
  simp only [bind_eq_ok, deref_eq_ok] at h
  obtain ⟨s, hs, h⟩ := h
  split at h <;>
    · simp only [pure_eq_ok, Prod.mk.injEq] at h
      obtain ⟨rfl, _⟩ := h
      rfl

theorem unmap_if_linked_popups {w w1 : World} {p : Option Nat} {evs : List Event}
    (h : unmap_if_linked w p = .ok (w1, evs)) : w1.xdg_popups = w.xdg_popups := by
  cases p with
  | none =>
    simp only [unmap_if_linked, Except.ok.injEq, Prod.mk.injEq] at h
    obtain ⟨rfl, _⟩ := h
    rfl
  | some a => exact unmap_popups h

theorem clear_surface_xdg_surface_popups {w w1 : World} {p : Option Nat}
    (h : clear_surface_xdg_surface w p = .ok w1) : w1.xdg_popups = w.xdg_popups := by
  cases p with
  | none => cases h; rfl
  | some a =>
    simp only [clear_surface_xdg_surface, bind_eq_ok, deref_eq_ok, pure_eq_ok] at h
    obtain ⟨s, _, rfl⟩ := h
    rfl

theorem clear_surface_xdg_toplevel_popups {w w1 : World} {p : Option Nat}
    (h : clear_surface_xdg_toplevel w p = .ok w1) : w1.xdg_popups = w.xdg_popups := by
  cases p with
  | none => cases h; rfl
  | some a =>
    simp only [clear_surface_xdg_toplevel, bind_eq_ok, deref_eq_ok, pure_eq_ok] at h
    obtain ⟨s, _, rfl⟩ := h
    rfl

theorem clear_surface_xdg_popup_popups {w w1 : World} {p : Option Nat}
    (h : clear_surface_xdg_popup w p = .ok w1) : w1.xdg_popups = w.xdg_popups := by
  cases p with
  | none => cases h; rfl
  | some a =>
    simp only [clear_surface_xdg_popup, bind_eq_ok, deref_eq_ok, pure_eq_ok] at h
    obtain ⟨s, _, rfl⟩ := h
    rfl

theorem process_damage_popups {fuel : Nat} {w w1 : World} {resource : Nat} {evs : List Event}
    (h : wl_surface_commit_process_damage fuel w resource = .ok (w1, evs)) :
    PopupsFrom w w1 := by
  unfold wl_surface_commit_process_damage at h
  simp only [bind_eq_ok, deref_eq_ok] at h
  obtain ⟨s, hs, h⟩ := h
  split at h
  · simp only [pure_eq_ok, Prod.mk.injEq] at h
    obtain ⟨rfl, _⟩ := h
    exact PopupsFrom.rest _
  · split at h
    · simp only [pure_eq_ok, Prod.mk.injEq] at h
      obtain ⟨rfl, _⟩ := h
      exact PopupsFrom.of_popups rfl
    · simp only [bind_eq_ok, pure_eq_ok, Prod.mk.injEq] at h
      obtain ⟨w2, hca, p, _, x, _, rfl, _⟩ := h
      refine (compute_allocation_popups hca).next ?_
      cases hw : x.window with
      | none => exact PopupsFrom.of_popups rfl
      | some win => exact PopupsFrom.of_popups rfl

theorem commit_popups {fuel : Nat} {w w1 : World} {resource : Nat} {evs : List Event}
    (h : wl_surface_commit fuel w resource = .ok (w1, evs)) : PopupsFrom w w1 := by
  unfold wl_surface_commit at h
  simp only [bind_eq_ok, deref_eq_ok, pure_eq_ok, Prod.mk.injEq] at h
  obtain ⟨s, hs, cr, _, ⟨s1, cr1, rel⟩, hbuf, ⟨w2, mid⟩, hpd, s3, hs3, rfl, _⟩ := h
  exact ((PopupsFrom.of_popups rfl).next (process_damage_popups hpd)).next
    (PopupsFrom.of_popups rfl)

theorem unrealize_popups {w w1 : World} {resource : Nat} {evs : List Event}
    (h : wakefield_xdg_surface_unrealize w resource = .ok (w1, evs)) :
    w1.xdg_popups = w.xdg_popups := by
  unfold wakefield_xdg_surface_unrealize at h
  simp only [bind_eq_ok, deref_eq_ok] at h
  obtain ⟨x, _, ⟨wu, eu⟩, hu, h⟩ := h
  have e := unmap_if_linked_popups hu
  split at h <;>
    · simp only [pure_eq_ok, Prod.mk.injEq] at h
      obtain ⟨rfl, _⟩ := h
      exact e

/-- Every request that returns, other than `get_popup` and the destruction of
a surface, leaves each remaining popup with the surface and the parent surface
it had. -/
theorem step_popups {fuel : Nat} {w w1 : World} {r : Request} {evs : List Event}
    (h : step fuel w r = .ok (w1, evs))
    (hpopup : ∀ x parent positioner created, r ≠ .get_popup x parent positioner created)
    (hdestroy : ∀ a, r ≠ .surface_destroy a) : PopupsFrom w w1 := by
  cases r with
  | create_surface =>
    simp only [step, pure_eq_ok, Prod.mk.injEq] at h
    obtain ⟨rfl, _⟩ := h
    exact PopupsFrom.of_popups rfl
  | surface_destroy surface => exact absurd rfl (hdestroy surface)
  | attach surface buffer dx dy =>
    simp only [step, wl_surface_attach, bind_eq_ok, deref_eq_ok, pure_eq_ok, Prod.mk.injEq] at h
    obtain ⟨s, hs, rfl, _⟩ := h
    exact PopupsFrom.of_popups rfl
  | damage surface x y width height =>
    simp only [step, wl_surface_damage, bind_eq_ok, deref_eq_ok, pure_eq_ok, Prod.mk.injEq] at h
    obtain ⟨s, hs, rfl, _⟩ := h
    exact PopupsFrom.of_popups rfl
  | frame surface callback_id =>
    simp only [step, wl_surface_frame, bind_eq_ok, deref_eq_ok, pure_eq_ok, Prod.mk.injEq] at h
    obtain ⟨s, hs, rfl, _⟩ := h
    exact PopupsFrom.of_popups rfl
  | set_opaque_region surface =>
    simp only [step, pure_eq_ok, Prod.mk.injEq] at h
    obtain ⟨rfl, _⟩ := h
    exact PopupsFrom.rest _
  | set_input_region surface region =>
    simp only [step, wl_surface_set_input_region, bind_eq_ok, deref_eq_ok, pure_eq_ok,
      Prod.mk.injEq] at h
    obtain ⟨s, hs, rfl, _⟩ := h
    exact PopupsFrom.of_popups rfl
  | commit surface => exact commit_popups h
  | set_buffer_transform surface transform =>
    simp only [step, pure_eq_ok, Prod.mk.injEq] at h
    obtain ⟨rfl, _⟩ := h
    exact PopupsFrom.rest _
  | set_buffer_scale surface scale =>
    simp only [step, wl_surface_set_buffer_scale, bind_eq_ok, deref_eq_ok, pure_eq_ok,
      Prod.mk.injEq] at h
    obtain ⟨s, hs, rfl, _⟩ := h
    exact PopupsFrom.of_popups rfl
  | damage_buffer surface =>
    simp only [step, wl_surface_damage_buffer, pure_eq_ok, Prod.mk.injEq] at h
    obtain ⟨rfl, _⟩ := h
    exact PopupsFrom.rest _
  | offset surface =>
    simp only [step, wl_surface_offset, pure_eq_ok, Prod.mk.injEq] at h
    obtain ⟨rfl, _⟩ := h
    exact PopupsFrom.rest _
  | get_xdg_surface surface =>
    simp only [step, wakefield_xdg_surface_new, bind_eq_ok, deref_eq_ok, pure_eq_ok,
      Prod.mk.injEq] at h
    obtain ⟨⟨w2, a⟩, ⟨s, _, rfl, _⟩, rfl, _⟩ := h
    exact PopupsFrom.of_popups rfl
  | xdg_surface_destroy xdg_surface =>
    simp only [step, xdg_surface_finalize, bind_eq_ok, deref_eq_ok, pure_eq_ok,
      Prod.mk.injEq] at h
    obtain ⟨x, _, ⟨wu, eu⟩, hu, wa, ha, rfl, _⟩ := h
    exact PopupsFrom.of_popups
      ((clear_surface_xdg_surface_popups ha).trans (unrealize_popups hu))
  | get_toplevel xdg_surface created =>
    simp only [step, xdg_surface_get_toplevel, bind_eq_ok, deref_eq_ok, g_assert_eq_ok] at h
    obtain ⟨x, _, sid, _, s, hs, _, _, h⟩ := h
    cases created with
    | false =>
      simp only [Bool.false_eq_true, if_false, pure_eq_ok, Prod.mk.injEq] at h
      obtain ⟨rfl, _⟩ := h
      exact PopupsFrom.rest _
    | true =>
      simp only [if_true, bind_eq_ok, pure_eq_ok, Prod.mk.injEq] at h
      obtain ⟨w2, hrole, rfl, _⟩ := h
      obtain ⟨s2, _, _, rfl⟩ := set_role_ok hrole
      exact PopupsFrom.of_popups rfl
  | get_popup xdg_surface parent positioner created =>
    exact absurd rfl (hpopup xdg_surface parent positioner created)
  | set_window_geometry xdg_surface x y width height =>
    simp only [step, xdg_surface_set_window_geometry, bind_eq_ok, deref_eq_ok] at h
    obtain ⟨xs, _, h⟩ := h
    split at h <;>
      · simp only [pure_eq_ok, Prod.mk.injEq] at h
        obtain ⟨rfl, _⟩ := h
        exact PopupsFrom.of_popups rfl
  | ack_configure xdg_surface serial =>
    simp only [step, pure_eq_ok, Prod.mk.injEq] at h
    obtain ⟨rfl, _⟩ := h
    exact PopupsFrom.rest _
  | toplevel_destroy xdg_toplevel =>
    simp only [step, xdg_toplevel_finalize, bind_eq_ok, deref_eq_ok, pure_eq_ok,
      Prod.mk.injEq] at h
    obtain ⟨x, _, wa, ha, rfl, _⟩ := h
    have e := clear_surface_xdg_toplevel_popups ha
    exact PopupsFrom.of_popups e
  | toplevel_hint xdg_toplevel =>
    simp only [step, pure_eq_ok, Prod.mk.injEq] at h
    obtain ⟨rfl, _⟩ := h
    exact PopupsFrom.rest _
  | popup_destroy xdg_popup =>
    simp only [step, xdg_popup_finalize, bind_eq_ok, deref_eq_ok, pure_eq_ok,
      Prod.mk.injEq] at h
    obtain ⟨x, _, ⟨wu, eu⟩, hu, wa, ha, rfl, _⟩ := h
    exact (PopupsFrom.of_popups
      ((clear_surface_xdg_popup_popups ha).trans (unmap_if_linked_popups hu))).next
        (PopupsFrom.free _ _)
  | popup_grab xdg_popup serial =>
    simp only [step, xdg_popup_grab, bind_eq_ok, deref_eq_ok, pure_eq_ok, Prod.mk.injEq] at h
    obtain ⟨x, hx, s, _, ps, _, o, _, _, _, g, _, _, _, rfl, _⟩ := h
    exact PopupsFrom.store hx rfl rfl
  | popup_reposition xdg_popup positioner token =>
    simp only [step, xdg_popup_reposition, bind_eq_ok, deref_eq_ok, pure_eq_ok,
      Prod.mk.injEq] at h
    obtain ⟨x, hx, pos, _, w2, hca, s, _, xs, _, _, _, rfl, _⟩ := h
    exact (@PopupsFrom.store w xdg_popup x { x with xdg_positioner := pos } hx rfl rfl).next
      (compute_allocation_popups hca)
  | create_positioner =>
    refine PopupsFrom.of_popups (positioner_request_frame ?_ h).1
    rfl
  | positioner_destroy positioner =>
    refine PopupsFrom.of_popups (positioner_request_frame ?_ h).1
    rfl
  | positioner_set_size positioner width height =>
    refine PopupsFrom.of_popups (positioner_request_frame ?_ h).1
    rfl
  | positioner_set_anchor_rect positioner x y width height =>
    refine PopupsFrom.of_popups (positioner_request_frame ?_ h).1
    rfl
  | positioner_set_anchor positioner anchor =>
    refine PopupsFrom.of_popups (positioner_request_frame ?_ h).1
    rfl
  | positioner_set_gravity positioner gravity =>
    refine PopupsFrom.of_popups (positioner_request_frame ?_ h).1
    rfl
  | positioner_set_constraint_adjustment positioner constraint_adjustment =>
    refine PopupsFrom.of_popups (positioner_request_frame ?_ h).1
    rfl
  | positioner_set_offset positioner x y =>
    refine PopupsFrom.of_popups (positioner_request_frame ?_ h).1
    rfl
  | positioner_set_reactive positioner =>
    refine PopupsFrom.of_popups (positioner_request_frame ?_ h).1
    rfl
  | positioner_set_parent_size positioner parent_width parent_height =>
    refine PopupsFrom.of_popups (positioner_request_frame ?_ h).1
    rfl
  | positioner_set_parent_configure positioner serial =>
    refine PopupsFrom.of_popups (positioner_request_frame ?_ h).1
    rfl
  | draw surface now =>
    simp only [step, wakefield_surface_draw, bind_eq_ok, deref_eq_ok, pure_eq_ok,
      Prod.mk.injEq] at h
    obtain ⟨s, hs, _, _, rfl, _⟩ := h
    exact PopupsFrom.of_popups rfl
  | set_role surface role =>
    simp only [step, bind_eq_ok, pure_eq_ok, Prod.mk.injEq] at h
    obtain ⟨w2, hrole, rfl, _⟩ := h
    obtain ⟨s2, _, _, rfl⟩ := set_role_ok hrole
    exact PopupsFrom.of_popups rfl
  | realize xdg_surface =>
    simp only [step, wakefield_xdg_surface_realize, bind_eq_ok, deref_eq_ok] at h
    obtain ⟨x, _, h⟩ := h
    split at h
    · simp only [pure_eq_ok, Prod.mk.injEq] at h
      obtain ⟨rfl, _⟩ := h
      exact PopupsFrom.rest _
    · simp only [bind_eq_ok, deref_eq_ok, pure_eq_ok, Prod.mk.injEq] at h
      obtain ⟨s, _, size, _, rfl, _⟩ := h
      exact PopupsFrom.of_popups rfl
  | unrealize xdg_surface => exact PopupsFrom.of_popups (unrealize_popups h)
  | popup_close xdg_popup =>
    simp only [step, wakefield_xdg_popup_close, bind_eq_ok, deref_eq_ok] at h
    obtain ⟨x, _, h⟩ := h
    split at h
    · simp only [pure_eq_ok, Prod.mk.injEq] at h
      obtain ⟨rfl, _⟩ := h
      exact PopupsFrom.rest _
    · simp only [bind_eq_ok, deref_eq_ok] at h
      obtain ⟨s, hs, h⟩ := h
      split at h <;>
        · simp only [pure_eq_ok, Prod.mk.injEq] at h
          obtain ⟨rfl, _⟩ := h
          exact PopupsFrom.of_popups rfl
  | size_allocate allocation =>
    simp only [step, pure_eq_ok, Prod.mk.injEq] at h
    obtain ⟨rfl, _⟩ := h
    exact PopupsFrom.of_popups rfl

theorem popups_on_surfaces_frame {w w1 : World} (hJ : PopupsOnSurfaces w)
    (hpop : PopupsFrom w w1)
    (hsurf : ∀ a s, w.surfaces a = some s →
      ∃ s1, w1.surfaces a = some s1 ∧ s1.xdg_popup = s.xdg_popup) :
    PopupsOnSurfaces w1 := by
  intro p popup1 a hp ha
  obtain ⟨popup, hp0, e, _⟩ := hpop p popup1 hp
  obtain ⟨s, hs, hl⟩ := hJ p popup a hp0 (by rw [← e]; exact ha)
  obtain ⟨s1, hs1, e1⟩ := hsurf a s hs
  exact ⟨s1, hs1, by rw [e1]; exact hl⟩

theorem unmap_other {w w1 : World} {a : Nat} {evs : List Event}
    (h : wl_surface_unmap w a = .ok (w1, evs)) :
    ∀ b, b ≠ a → w1.surfaces b = w.surfaces b := by
  unfold wl_surface_unmap at h
  simp only [bind_eq_ok, deref_eq_ok] at h
  obtain ⟨s, hs, h⟩ := h
  intro b hb
  split at h <;>
    · simp only [pure_eq_ok, Prod.mk.injEq] at h
      obtain ⟨rfl, _⟩ := h
      first
        | rfl
        | rw [surfaces_setSurface, if_neg hb]

theorem unmap_link {w w1 : World} {a : Nat} {evs : List Event}
    (h : wl_surface_unmap w a = .ok (w1, evs)) :
    ∃ s s1, w.surfaces a = some s ∧ w1.surfaces a = some s1 ∧ s1.xdg_popup = s.xdg_popup ∧
      s1.xdg_surface = s.xdg_surface ∧ s1.xdg_toplevel = s.xdg_toplevel := by
  unfold wl_surface_unmap at h
  simp only [bind_eq_ok, deref_eq_ok] at h
  obtain ⟨s, hs, h⟩ := h
  split at h
  · simp only [pure_eq_ok, Prod.mk.injEq] at h
    obtain ⟨rfl, _⟩ := h
    exact ⟨s, _, hs, surfaces_setSurface_same _ _ _, rfl, rfl, rfl⟩
  · simp only [pure_eq_ok, Prod.mk.injEq] at h
    obtain ⟨rfl, _⟩ := h
    exact ⟨s, s, hs, hs, rfl, rfl, rfl⟩

theorem clear_xdg_surface_surface_popups {w w1 : World} {p : Option Nat}
    (h : clear_xdg_surface_surface w p = .ok w1) : w1.xdg_popups = w.xdg_popups := by
  cases p with
  | none => cases h; rfl
  | some a =>
    simp only [clear_xdg_surface_surface, bind_eq_ok, deref_eq_ok, pure_eq_ok] at h
    obtain ⟨x, _, rfl⟩ := h
    rfl

theorem clear_xdg_toplevel_surface_popups {w w1 : World} {p : Option Nat}
    (h : clear_xdg_toplevel_surface w p = .ok w1) : w1.xdg_popups = w.xdg_popups := by
  cases p with
  | none => cases h; rfl
  | some a =>
    simp only [clear_xdg_toplevel_surface, bind_eq_ok, deref_eq_ok, pure_eq_ok] at h
    obtain ⟨x, _, rfl⟩ := h
    rfl

theorem clear_xdg_popup_surface_ok {w w1 : World} {link : Option Nat}
    (h : clear_xdg_popup_surface w link = .ok w1) :
    ∀ q popup1, w1.xdg_popups q = some popup1 →
      (link = some q ∧ popup1.surface = none) ∨
      (link ≠ some q ∧ w.xdg_popups q = some popup1) := by
  intro q popup1 hq
  cases link with
  | none =>
    cases h
    exact Or.inr ⟨fun e => (by cases e), hq⟩
  | some p =>
    simp only [clear_xdg_popup_surface, bind_eq_ok, deref_eq_ok, pure_eq_ok] at h
    obtain ⟨x, _, rfl⟩ := h
    rw [xdg_popups_setXdgPopup] at hq
    split at hq
    · rename_i hqp
      cases hq
      exact Or.inl ⟨by rw [hqp], rfl⟩
    · rename_i hqp
      exact Or.inr ⟨fun e => hqp (Option.some.inj e).symm, hq⟩

theorem clear_surface_xdg_popup_other {w w1 : World} {a : Nat}
    (h : clear_surface_xdg_popup w (some a) = .ok w1) :
    ∀ b, b ≠ a → w1.surfaces b = w.surfaces b := by
  simp only [clear_surface_xdg_popup, bind_eq_ok, deref_eq_ok, pure_eq_ok] at h
  obtain ⟨s, _, rfl⟩ := h
  intro b hb
  rw [surfaces_setSurface, if_neg hb]

/-- Every request that returns keeps the surface link of each popup on a live
surface whose popup link is that popup. -/
theorem step_popups_on_surfaces {fuel : Nat} {w w1 : World} {r : Request} {evs : List Event}
    (hfresh : Fresh w) (hJ : PopupsOnSurfaces w) (h : step fuel w r = .ok (w1, evs)) :
    PopupsOnSurfaces w1 := by
  have general : (∀ x parent positioner created, r ≠ .get_popup x parent positioner created) →
      (∀ a, r ≠ .surface_destroy a) → (∀ p, r ≠ .popup_destroy p) → PopupsOnSurfaces w1 := by
    intro h1 h2 h3
    have hF : Frame (fun _ (s s1 : WakefieldSurface) => s1.xdg_popup = s.xdg_popup) :=
      ⟨fun _ _ => rfl, fun _ _ _ _ e1 e2 => e2.trans e1⟩
    have hframe := step_frame hF (fun f hf b hb => by
      cases f
      case xdg_popup =>
        cases r <;> simp only [Request.edits, List.mem_cons, List.mem_singleton,
          List.mem_nil_iff, reduceCtorEq, or_false, or_self, false_or] at hf
        case get_popup x parent positioner created =>
          exact absurd rfl (h1 x parent positioner created)
        case popup_destroy p => exact absurd rfl (h3 p)
      all_goals
        intro t v
        rfl) h
    refine popups_on_surfaces_frame hJ (step_popups h h1 h2) (fun a s hs => ?_)
    rcases (hframe a).2 s hs with ⟨s1, hs1⟩ | hd
    · rcases (hframe a).1 s1 hs1 with ⟨t, ht, hR⟩ | ⟨_, hnext, _⟩
      · rw [hs] at ht
        cases ht
        exact ⟨s1, hs1, hR⟩
      · have := hfresh a (Nat.le_of_eq hnext.symm)
        rw [hs] at this
        cases this
    · exact absurd hd (h2 a)
  cases r with
  | get_popup resource parent positioner created =>
    simp only [step] at h
    unfold xdg_surface_get_popup at h
    simp only [bind_eq_ok, deref_eq_ok] at h
    obtain ⟨x, _, h⟩ := h
    split at h
    · simp only [pure_eq_ok, Prod.mk.injEq] at h
      obtain ⟨rfl, _⟩ := h
      exact hJ
    · split at h
      · simp only [pure_eq_ok, Prod.mk.injEq] at h
        obtain ⟨rfl, _⟩ := h
        exact hJ
      · simp only [bind_eq_ok, deref_eq_ok, g_assert_eq_ok] at h
        obtain ⟨px, _, sid, _, s, hs, _, hnone, h⟩ := h
        cases created with
        | false =>
          simp only [Bool.false_eq_true, if_false, pure_eq_ok, Prod.mk.injEq] at h
          obtain ⟨rfl, _⟩ := h
          exact hJ
        | true =>
          simp only [if_true, bind_eq_ok, pure_eq_ok, Prod.mk.injEq] at h
          obtain ⟨w2, hrole, w4, hca, rfl, _⟩ := h
          obtain ⟨s2, hs2, _, rfl⟩ := set_role_ok hrole
          rw [surfaces_setSurface_same] at hs2
          cases hs2
          obtain ⟨popup, _, _, _, hp, _, _, _, rfl⟩ := compute_allocation_ok hca
          intro q popup1 b hq hb
          simp only [World.setXdgPopup, World.setSurface, Function.update_idem,
            Function.update_apply] at hq hp ⊢
          simp only [if_true, Option.some.injEq] at hp
          by_cases hqn : q = w.next
          · rw [if_pos hqn] at hq
            cases hq
            subst hp
            simp only [Option.some.injEq] at hb
            subst hb
            exact ⟨_, by rw [if_pos rfl], by rw [hqn]⟩
          · rw [if_neg hqn] at hq
            obtain ⟨sb, hsb, hl⟩ := hJ q popup1 b hq hb
            have hbs : b ≠ sid := by
              intro e
              rw [e, hs] at hsb
              cases hsb
              simp only [decide_eq_true_eq] at hnone
              rw [hnone] at hl
              cases hl
            exact ⟨sb, by rw [if_neg hbs]; exact hsb, hl⟩
  | surface_destroy a =>
    simp only [step] at h
    unfold wl_surface_finalize at h
    simp only [bind_eq_ok, deref_eq_ok, pure_eq_ok, Prod.mk.injEq] at h
    obtain ⟨⟨wu, eu⟩, hu, s, hsu, wa, ha, wb, hb, wc, hc, rfl, _⟩ := h
    obtain ⟨s0, su, hs0, hsu1, hlink, _, _⟩ := unmap_link hu
    have hsame : su = s := by
      have := hsu1.symm.trans hsu
      exact Option.some.inj this
    subst hsame
    intro q popup1 b hq hqb
    have hq1 : wc.xdg_popups q = some popup1 := hq
    rcases clear_xdg_popup_surface_ok hc q popup1 hq1 with ⟨_, hnone⟩ | ⟨hne, hq2⟩
    · rw [hnone] at hqb
      cases hqb
    · rw [clear_xdg_toplevel_surface_popups hb, clear_xdg_surface_surface_popups ha,
        unmap_popups hu] at hq2
      obtain ⟨sb, hsb, hl⟩ := hJ q popup1 b hq2 hqb
      have hba : b ≠ a := by
        intro e
        rw [e, hs0] at hsb
        cases hsb
        exact hne (hlink.trans hl)
      refine ⟨sb, ?_, hl⟩
      rw [surfaces_setSurface, if_neg hba, clear_xdg_popup_surface_surfaces hc,
        clear_xdg_toplevel_surface_surfaces hb, clear_xdg_surface_surface_surfaces ha,
        unmap_other hu b hba]
      exact hsb
  | popup_destroy p =>
    simp only [step] at h
    unfold xdg_popup_finalize at h
    simp only [bind_eq_ok, deref_eq_ok, pure_eq_ok, Prod.mk.injEq] at h
    obtain ⟨x, hx, ⟨wu, eu⟩, hu, wa, ha, rfl, _⟩ := h
    intro q popup1 b hq hqb
    rw [xdg_popups_setXdgPopup] at hq
    split at hq
    · cases hq
    · rename_i hqp
      rw [clear_surface_xdg_popup_popups ha, unmap_if_linked_popups hu] at hq
      obtain ⟨sb, hsb, hl⟩ := hJ q popup1 b hq hqb
      refine ⟨sb, ?_, hl⟩
      rw [surfaces_setXdgPopup]
      cases hl0 : x.surface with
      | none =>
        rw [hl0] at hu ha
        cases ha
        simp only [unmap_if_linked, Except.ok.injEq, Prod.mk.injEq] at hu
        obtain ⟨rfl, _⟩ := hu
        exact hsb
      | some a =>
        rw [hl0] at hu ha
        obtain ⟨sa, hsa, hla⟩ := hJ p x a hx hl0
        have hba : b ≠ a := by
          intro e
          rw [e, hsa] at hsb
          cases hsb
          rw [hla] at hl
          exact hqp (Option.some.inj hl).symm
        rw [clear_surface_xdg_popup_other ha b hba, unmap_other hu b hba]
        exact hsb
  | _ =>
    exact general (fun _ _ _ _ e => by cases e) (fun _ e => by cases e) (fun _ e => by cases e)

/-- In every reachable world the surface link of every popup designates a live
surface whose popup link designates that popup. -/
theorem reachable_popups_on_surfaces {w : World} (h : Reachable w) : PopupsOnSurfaces w := by
  induction h with
  | empty allocation =>
    intro p popup a hp _
    cases hp
  | step fuel r hreach hstep ih =>
    exact step_popups_on_surfaces (reachable_sound hreach).1 ih hstep

/-- C26: in every reachable world `wakefield_xdg_popup_close` returns on a live
popup `p`.  Its events hold `popup_done p` once and no other `popup_done`; they
hold `surface_unmapped b` exactly when `b` is the surface of the popup and is
mapped, and then once; the surface of the popup, if it has one, is not mapped
afterwards.  A second close right after it returns too, changes nothing and
sends `popup_done p` alone, so that the two calls send `popup_done p` twice and
each `surface_unmapped` at most once. -/
theorem C26_popup_close (w : World) (p : Nat) (popup : WakefieldXdgPopup)
    (hreach : Reachable w) (hp : w.xdg_popups p = some popup) :
    ∃ w1 evs, wakefield_xdg_popup_close w p = .ok (w1, evs) ∧
      evs.count (Event.popup_done p) = 1 ∧ (∀ q, Event.popup_done q ∈ evs → q = p) ∧
      (∀ b, Event.surface_unmapped b ∈ evs ↔
        (popup.surface = some b ∧ ∃ s, w.surfaces b = some s ∧ s.mapped = true)) ∧
      (∀ a, popup.surface = some a → ∃ s1, w1.surfaces a = some s1 ∧ s1.mapped = false) ∧
      wakefield_xdg_popup_close w1 p = .ok (w1, [Event.popup_done p]) ∧
      (∀ fuel, run fuel w [.popup_close p, .popup_close p] =
        .ok (w1, evs ++ [Event.popup_done p])) ∧
      (evs ++ [Event.popup_done p]).count (Event.popup_done p) = 2 ∧
      (∀ b, (evs ++ [Event.popup_done p]).count (Event.surface_unmapped b) ≤ 1) := by
  have hrun : ∀ (w1 : World) (evs : List Event),
      wakefield_xdg_popup_close w p = .ok (w1, evs) →
      wakefield_xdg_popup_close w1 p = .ok (w1, [Event.popup_done p]) →
      ∀ fuel, run fuel w [.popup_close p, .popup_close p] =
        .ok (w1, evs ++ [Event.popup_done p]) := by
    intro w1 evs h1 h2 fuel
    simp [run, step, h1, h2, bind, Except.bind, pure, Except.pure]
  cases hl : popup.surface with
  | none =>
    have h1 : wakefield_xdg_popup_close w p = .ok (w, [Event.popup_done p]) := by
      simp [wakefield_xdg_popup_close, hp, hl, deref, bind, Except.bind, pure, Except.pure]
    refine ⟨w, _, h1, by simp, by simp, ?_, ?_, h1, hrun _ _ h1 h1, by simp, ?_⟩
    · intro b
      simp
    · intro a ha
      cases ha
    · intro b
      simp
  | some a =>
    obtain ⟨s, hs, _⟩ := reachable_popups_on_surfaces hreach p popup a hp hl
    cases hm : s.mapped with
    | false =>
      have h1 : wakefield_xdg_popup_close w p = .ok (w, [Event.popup_done p]) := by
        simp [wakefield_xdg_popup_close, hp, hl, hs, hm, deref, bind, Except.bind, pure,
          Except.pure]
      refine ⟨w, _, h1, by simp, by simp, ?_, ?_, h1, hrun _ _ h1 h1, by simp, ?_⟩
      · intro b
        simp only [List.mem_singleton, reduceCtorEq, Option.some.injEq, false_iff, not_and,
          not_exists]
        intro hb t ht
        subst hb
        rw [hs] at ht
        cases ht
        simp [hm]
      · intro b hb
        cases hb
        exact ⟨s, hs, hm⟩
      · intro b
        simp
    | true =>
      have h1 : wakefield_xdg_popup_close w p =
          .ok (w.setSurface a (some { s with mapped := false }),
               [Event.surface_unmapped a, Event.popup_done p]) := by
        simp [wakefield_xdg_popup_close, hp, hl, hs, hm, deref, bind, Except.bind, pure,
          Except.pure]
      have h2 : wakefield_xdg_popup_close (w.setSurface a (some { s with mapped := false })) p =
          .ok (w.setSurface a (some { s with mapped := false }), [Event.popup_done p]) := by
        have hp1 : (w.setSurface a (some { s with mapped := false })).xdg_popups p = some popup :=
          hp
        simp [wakefield_xdg_popup_close, hp1, hl, surfaces_setSurface_same, deref, bind,
          Except.bind, pure, Except.pure]
      refine ⟨_, _, h1, by simp, by simp, ?_, ?_, h2, hrun _ _ h1 h2, by simp, ?_⟩
      · intro b
        simp only [List.mem_cons, Event.surface_unmapped.injEq, List.mem_singleton, reduceCtorEq,
          or_false, Option.some.injEq, List.mem_nil_iff]
        constructor
        · intro hb
          subst hb
          exact ⟨rfl, s, hs, hm⟩
        · intro hb
          exact hb.1.symm
      · intro b hb
        cases hb
        exact ⟨_, surfaces_setSurface_same _ _ _, rfl⟩
      · intro b
        by_cases hb : a = b <;> simp [List.count_cons, hb]

/-- C26, on popup 6 of `world_popup_buffer`, whose surface 3 is mapped: the
first close unmaps it and sends `popup_done`, the second sends `popup_done`
alone. -/
theorem C26_popup_close_witness :
    ∃ w1 evs, wakefield_xdg_popup_close world_popup_buffer 6 = .ok (w1, evs) ∧
      evs.count (Event.popup_done 6) = 1 ∧
      wakefield_xdg_popup_close w1 6 = .ok (w1, [Event.popup_done 6]) := by
  have hall : ∀ r ∈ popup_buffer_requests, r.fromClient = true := by decide
  obtain ⟨evs0, hrun⟩ : ∃ evs0, run 5 world0 popup_buffer_requests =
      .ok (world_popup_buffer, evs0) := ⟨_, rfl⟩
  obtain ⟨w1, evs, h1, h2, _, _, _, h3, _⟩ :=
    C26_popup_close world_popup_buffer 6 popup6
      (client_reachable_run (ClientReachable.empty _) hall hrun).reachable rfl
  exact ⟨w1, evs, h1, h2, h3⟩

/-! ## Roles and bound objects (C33) -/

/-- C33: in every reachable world (client and host requests that returned) a
surface with a toplevel bound has role `XDG_TOPLEVEL` and a surface with a
popup bound has role `XDG_POPUP`; so no surface has both bound, and a surface
of role `NONE` has neither. -/
theorem C33_bound_objects_and_role (w : World) (a : Nat) (s : WakefieldSurface)
    (hreach : Reachable w) (hs : w.surfaces a = some s) :
    (s.xdg_toplevel ≠ none → s.role = .XDG_TOPLEVEL) ∧
    (s.xdg_popup ≠ none → s.role = .XDG_POPUP) ∧
    ¬ (s.xdg_toplevel ≠ none ∧ s.xdg_popup ≠ none) ∧
    (s.role = .NONE → s.xdg_toplevel = none ∧ s.xdg_popup = none) := by
  obtain ⟨hpopup, htoplevel, _⟩ := (reachable_sound hreach).2 a s hs
  refine ⟨htoplevel, hpopup, ?_, ?_⟩
  · rintro ⟨h1, h2⟩
    have e1 := htoplevel h1
    have e2 := hpopup h2
    rw [e1] at e2
    cases e2
  · intro hrole
    constructor
    · by_contra h1
      have e1 := htoplevel h1
      rw [hrole] at e1
      cases e1
    · by_contra h2
      have e2 := hpopup h2
      rw [hrole] at e2
      cases e2

/-- C33, on surface 2 of `world_popup`, which has popup 5 bound: its role is
`XDG_POPUP` and it has no toplevel. -/
theorem C33_bound_objects_and_role_witness :
    ∃ s, world_popup.surfaces 2 = some s ∧ s.xdg_popup = some 5 ∧ s.role = .XDG_POPUP ∧
      ¬ (s.xdg_toplevel ≠ none ∧ s.xdg_popup ≠ none) :=
  ⟨_, rfl, rfl,
    (C33_bound_objects_and_role world_popup 2 _ popup_requests_reachable.2.2.reachable rfl).2.1
      (by decide),
    (C33_bound_objects_and_role world_popup 2 _ popup_requests_reachable.2.2.reachable rfl).2.2.1⟩

/-! ## The anchor point (C34) -/

/-- The number of an anchor is at most 8 and gives the anchor back. -/
theorem anchor_number (anchor : xdg_positioner_anchor) :
    anchor.toNumber ≤ 8 ∧ xdg_positioner_anchor.ofNumber anchor.toNumber = anchor := by
  cases anchor <;> exact ⟨by decide, rfl⟩

/-- A number up to 8 is the number of the anchor it denotes. -/
theorem anchor_of_number (n : Nat) (h : n ≤ 8) :
    (xdg_positioner_anchor.ofNumber n).toNumber = n := by
  interval_cases n <;> rfl

/-- The switch on the number of its anchor is what
`get_positioner_anchor_point` gives for a positioner. -/
theorem anchor_point_switch_eq (positioner : WakeFieldXdgPositioner) :
    anchor_point_switch positioner.anchor_rect positioner.anchor.toNumber =
      some (get_positioner_anchor_point_int32 positioner) := by
  unfold get_positioner_anchor_point_int32
  cases positioner.anchor <;> rfl

/-- C34 (counterexample): the setters accept the anchor rectangle
`(2147483000, 0, 1000, 10)` and the anchor right; `x + w` is 2147484000, which
no `int32_t` holds, and the anchor point the function writes is
`(-2147483296, 5)`, left of the rectangle. -/
theorem C34_counterexample :
    far_rect_requests.all (fun r => r.fromClient) = true ∧
    (∃ w, run 0 world0 far_rect_requests = .ok (w, []) ∧
      w.xdg_positioners 0 = some far_rect_positioner) ∧
    0 ≤ far_rect_positioner.anchor_rect.width ∧ 0 ≤ far_rect_positioner.anchor_rect.height ∧
    far_rect_positioner.anchor_rect.x + far_rect_positioner.anchor_rect.width = 2147484000 ∧
    get_positioner_anchor_point_int32 far_rect_positioner = (-2147483296, 5) ∧
    ¬ (far_rect_positioner.anchor_rect.x ≤
        (get_positioner_anchor_point_int32 far_rect_positioner).1) :=
  ⟨by decide, ⟨_, rfl, rfl⟩, by decide, by decide, by decide, by decide, by decide⟩

/-- C34 (amended): for every anchor rectangle `(x, y, w, h)` of 32-bit values
whose sums `x + w` and `y + h` are representable in 32 bits, the anchor point
is, with division truncating as in C, the one the table gives for each of the
nine anchors; for `w, h ≥ 0` it lies in `[x, x + w] × [y, y + h]`.  The switch
of the function writes the point for the numbers 0 to 8 and only for them,
which are the numbers of the nine anchors; `xdg_positioner_set_anchor` stores a
number up to 8 and refuses any other without changing the positioner, so the
point is defined for every positioner. -/
theorem C34_anchor_point_int32 (positioner : WakeFieldXdgPositioner) (x y w h : Int)
    (hx : in_int32 x) (hxw : in_int32 (x + w)) (hy : in_int32 y) (hyh : in_int32 (y + h)) :
    get_positioner_anchor_point_int32
      { positioner with anchor_rect := ⟨x, y, w, h⟩, anchor := .NONE } =
        (x + Int.tdiv w 2, y + Int.tdiv h 2) ∧
    get_positioner_anchor_point_int32
      { positioner with anchor_rect := ⟨x, y, w, h⟩, anchor := .TOP } =
        (x + Int.tdiv w 2, y) ∧
    get_positioner_anchor_point_int32
      { positioner with anchor_rect := ⟨x, y, w, h⟩, anchor := .BOTTOM } =
        (x + Int.tdiv w 2, y + h) ∧
    get_positioner_anchor_point_int32
      { positioner with anchor_rect := ⟨x, y, w, h⟩, anchor := .LEFT } =
        (x, y + Int.tdiv h 2) ∧
    get_positioner_anchor_point_int32
      { positioner with anchor_rect := ⟨x, y, w, h⟩, anchor := .RIGHT } =
        (x + w, y + Int.tdiv h 2) ∧
    get_positioner_anchor_point_int32
      { positioner with anchor_rect := ⟨x, y, w, h⟩, anchor := .TOP_LEFT } = (x, y) ∧
    get_positioner_anchor_point_int32
      { positioner with anchor_rect := ⟨x, y, w, h⟩, anchor := .BOTTOM_LEFT } = (x, y + h) ∧
    get_positioner_anchor_point_int32
      { positioner with anchor_rect := ⟨x, y, w, h⟩, anchor := .TOP_RIGHT } = (x + w, y) ∧
    get_positioner_anchor_point_int32
      { positioner with anchor_rect := ⟨x, y, w, h⟩, anchor := .BOTTOM_RIGHT } =
        (x + w, y + h) ∧
    (0 ≤ w → 0 ≤ h → ∀ anchor,
      x ≤ (get_positioner_anchor_point_int32
        { positioner with anchor_rect := ⟨x, y, w, h⟩, anchor := anchor }).1 ∧
      (get_positioner_anchor_point_int32
        { positioner with anchor_rect := ⟨x, y, w, h⟩, anchor := anchor }).1 ≤ x + w ∧
      y ≤ (get_positioner_anchor_point_int32
        { positioner with anchor_rect := ⟨x, y, w, h⟩, anchor := anchor }).2 ∧
      (get_positioner_anchor_point_int32
        { positioner with anchor_rect := ⟨x, y, w, h⟩, anchor := anchor }).2 ≤ y + h) ∧
    (∀ n, (anchor_point_switch ⟨x, y, w, h⟩ n).isSome = true ↔ n ≤ 8) ∧
    positioner.anchor.toNumber ≤ 8 ∧
    anchor_point_switch positioner.anchor_rect positioner.anchor.toNumber =
      some (get_positioner_anchor_point_int32 positioner) ∧
    (∀ (world : World) (resource n : Nat),
      world.xdg_positioners resource = some positioner →
      (n ≤ 8 →
        xdg_positioner_set_anchor world resource n =
          .ok (world.setXdgPositioner resource
            (some { positioner with anchor := xdg_positioner_anchor.ofNumber n }), []) ∧
        (xdg_positioner_anchor.ofNumber n).toNumber = n) ∧
      (8 < n →
        xdg_positioner_set_anchor world resource n =
          .ok (world, [.post_error resource .XDG_POSITIONER_ERROR_INVALID_INPUT]))) := by
  have e : ∀ anchor, get_positioner_anchor_point_int32
        { positioner with anchor_rect := ⟨x, y, w, h⟩, anchor := anchor } =
      get_positioner_anchor_point
        { positioner with anchor_rect := ⟨x, y, w, h⟩, anchor := anchor } :=
    fun anchor => anchor_point_int32_eq _ hx hxw hy hyh
  refine ⟨(e _).trans rfl, (e _).trans rfl, (e _).trans rfl, (e _).trans rfl, (e _).trans rfl,
    (e _).trans rfl, (e _).trans rfl, (e _).trans rfl, (e _).trans rfl, ?_, ?_,
    (anchor_number _).1, anchor_point_switch_eq positioner, ?_⟩
  · intro hw hh anchor
    have h1 := (tdiv_two_between w).1 hw
    have h2 := (tdiv_two_between h).1 hh
    rw [e anchor]
    unfold get_positioner_anchor_point
    cases anchor <;> simp only <;> omega
  · intro n
    constructor
    · intro hn
      by_contra hlt
      have h9 : ∃ m, n = m + 9 := ⟨n - 9, by omega⟩
      obtain ⟨m, rfl⟩ := h9
      simp [anchor_point_switch] at hn
    · intro hn
      interval_cases n <;> rfl
  · intro world resource n hp
    constructor
    · intro hn
      refine ⟨?_, anchor_of_number n hn⟩
      have hn1 : ¬ n > 8 := by omega
      simp [xdg_positioner_set_anchor, hp, hn1, deref, bind, Except.bind, pure, Except.pure]
    · intro hn
      simp [xdg_positioner_set_anchor, hp, hn, deref, bind, Except.bind, pure, Except.pure]

/-- C34 (amended), on the anchor rectangle `(10, 20, 7, 5)`: the anchor `NONE`
gives `(13, 22)`, a point of the rectangle. -/
theorem C34_anchor_point_int32_witness :
    in_int32 10 ∧ in_int32 (10 + 7) ∧ in_int32 20 ∧ in_int32 (20 + 5) ∧
    get_positioner_anchor_point_int32
      { WakeFieldXdgPositioner.zero with anchor_rect := ⟨10, 20, 7, 5⟩, anchor := .NONE } =
        (13, 22) ∧
    (10 : Int) ≤ (get_positioner_anchor_point_int32
      { WakeFieldXdgPositioner.zero with anchor_rect := ⟨10, 20, 7, 5⟩,
                                         anchor := .BOTTOM_RIGHT }).1 :=
  ⟨by decide, by decide, by decide, by decide,
   (C34_anchor_point_int32 WakeFieldXdgPositioner.zero 10 20 7 5
      (by decide) (by decide) (by decide) (by decide)).1,
   ((C34_anchor_point_int32 WakeFieldXdgPositioner.zero 10 20 7 5
      (by decide) (by decide) (by decide) (by decide)).2.2.2.2.2.2.2.2.2.1
      (by decide) (by decide) .BOTTOM_RIGHT).1⟩

/-! ## Releases of a commit (C31) -/

/-- A returning commit releases the buffer that was current before it when a
buffer is pending, and no buffer otherwise; the buffer current after it is the
pending one if there is one. -/
theorem commit_released {fuel : Nat} {w w1 : World} {resource : Nat} {s : WakefieldSurface}
    {evs : List Event} (hs : w.surfaces resource = some s)
    (h : wl_surface_commit fuel w resource = .ok (w1, evs)) :
    ∃ s1, w1.surfaces resource = some s1 ∧
      s1.current.buffer = (s.pending.buffer <|> s.current.buffer) ∧
      released evs = (match s.pending.buffer, s.current.buffer with
                      | some _, some old => [old]
                      | _, _ => []) := by
  obtain ⟨mid, hmid, hs1, rfl⟩ := wl_surface_commit_ok hs h
  refine ⟨_, hs1, rfl, ?_⟩
  have hm : released mid = [] := by
    rcases hmid with ⟨_, rfl⟩ | ⟨_, d, rfl⟩ <;> rfl
  have hr : ∀ l1 l2, released (l1 ++ l2) = released l1 ++ released l2 := fun l1 l2 => by
    simp [released, List.filterMap_append]
  rw [hr, hr, hr, hm]
  cases s.pending.buffer <;> cases s.current.buffer <;> cases s.mapped <;> rfl

/-- A returning commit releases the buffer that is current after it only when
that buffer was both pending and current before. -/
theorem commit_releases_current {fuel : Nat} {w w1 : World} {resource : Nat}
    {s s1 : WakefieldSurface} {evs : List Event} (hs : w.surfaces resource = some s)
    (h : wl_surface_commit fuel w resource = .ok (w1, evs))
    (hs1 : w1.surfaces resource = some s1) (b : wl_buffer) (hb : b ∈ released evs)
    (hc : s1.current.buffer = some b) :
    s.pending.buffer = some b ∧ s.current.buffer = some b := by
  obtain ⟨t, ht, hcur, hrel⟩ := commit_released hs h
  rw [hs1] at ht
  cases ht
  rw [hrel] at hb
  rw [hcur] at hc
  cases hp : s.pending.buffer with
  | none => simp [hp] at hb
  | some p =>
    cases hq : s.current.buffer with
    | none => simp [hp, hq] at hb
    | some q =>
      simp only [hp, hq, List.mem_singleton] at hb
      simp only [hp, Option.some_orElse, HOrElse.hOrElse, OrElse.orElse, Option.orElse,
        Option.some.injEq] at hc
      subst hb
      exact ⟨by rw [hc], rfl⟩

/-- C31 (defect): after the client requests `attach A, commit, attach A` on a
new surface the buffer `A` is both current and pending; the commit that follows
returns, sends a release for `A`, and leaves `A` as the current buffer. -/
theorem C31_release_of_current_buffer :
    ClientReachable world_reattach ∧
    ∃ s w1 evs s1, world_reattach.surfaces 0 = some s ∧
      s.current.buffer = some bufferA ∧ s.pending.buffer = some bufferA ∧
      step 0 world_reattach (.commit 0) = .ok (w1, evs) ∧
      evs = [Event.buffer_release bufferA, Event.committed 0] ∧
      w1.surfaces 0 = some s1 ∧ s1.current.buffer = some bufferA ∧
      bufferA ∈ released evs := by
  have hall : ∀ r ∈ reattach_requests, r.fromClient = true := by decide
  have hrun : run 0 world0 reattach_requests =
      .ok (world_reattach, [Event.surface_mapped 0, Event.committed 0]) := rfl
  exact ⟨client_reachable_run (ClientReachable.empty _) hall hrun,
    ⟨_, _, _, _, rfl, rfl, rfl, rfl, rfl, rfl, rfl, by decide⟩⟩

/-! ## The region handed to the toolkit (C35) -/

/-- What lines 527-556 of a returning commit hand to the toolkit: nothing
without a shell surface; with one and no popup, the damage moved by the origin
of the widget; with a popup, the damage cut to the rectangle of the widget and
then moved by that origin plus the absolute coordinates of the popup. -/
theorem process_damage_region {fuel : Nat} {w w1 : World} {resource : Nat}
    {s : WakefieldSurface} {evs : List Event}
    (hs : w.surfaces resource = some s)
    (h : wl_surface_commit_process_damage fuel w resource = .ok (w1, evs)) :
    (s.xdg_surface = none → evs = []) ∧
    (s.xdg_surface ≠ none → s.xdg_popup = none →
      evs = [.queue_draw_region
        (cairo_region_translate s.damage w.allocation.x w.allocation.y)]) ∧
    (s.xdg_surface ≠ none → ∀ p, s.xdg_popup = some p →
      ∃ w2 orig, xdg_popup_compute_allocation fuel w p true = .ok w2 ∧
        xdg_popup_get_absolute_coordinates fuel w2 p = .ok orig ∧
        evs = [.queue_draw_region
          (cairo_region_translate (cairo_region_intersect_rectangle s.damage w.allocation)
            (w.allocation.x + orig.1) (w.allocation.y + orig.2))]) := by
  unfold wl_surface_commit_process_damage at h
  simp only [bind_eq_ok, deref_eq_ok, hs] at h
  obtain ⟨s0, hs0, h⟩ := h
  cases hs0
  split at h
  · rename_i hx
    simp only [pure_eq_ok, Prod.mk.injEq] at h
    obtain ⟨rfl, rfl⟩ := h
    exact ⟨fun _ => rfl, fun hn => absurd hx hn, fun hn => absurd hx hn⟩
  · rename_i x hx
    split at h
    · rename_i hp
      simp only [pure_eq_ok, Prod.mk.injEq] at h
      obtain ⟨rfl, rfl⟩ := h
      refine ⟨fun hn => ?_, fun _ _ => rfl, fun _ p hsome => ?_⟩
      · rw [hn] at hx
        cases hx
      · rw [hp] at hsome
        cases hsome
    · rename_i q hq
      simp only [bind_eq_ok, pure_eq_ok, Prod.mk.injEq] at h
      obtain ⟨w2, hca, orig, horig, xs, _, rfl, rfl⟩ := h
      refine ⟨fun hn => ?_, fun _ hnone => ?_, fun _ p hsome => ?_⟩
      · rw [hn] at hx
        cases hx
      · rw [hnone] at hq
        cases hq
      · rw [hq] at hsome
        cases hsome
        exact ⟨w2, orig, hca, horig, rfl⟩

/-- What a returning commit sends: the release, then the region of
`process_damage_region` for the damage accumulated up to line 523 (the damage
of the surface united with the region the buffer swap cleared), then
`surface_mapped` for a surface that was not mapped, then `committed`. -/
theorem commit_region {fuel : Nat} {w w1 : World} {resource : Nat} {s : WakefieldSurface}
    {evs : List Event} (hs : w.surfaces resource = some s)
    (h : wl_surface_commit fuel w resource = .ok (w1, evs)) :
    ∃ cr s1 cr1 rel mid, wl_surface_commit_footprint s = .ok cr ∧
      wl_surface_commit_buffer s cr = .ok (s1, cr1, rel) ∧
      evs = rel ++ mid ++ (if s.mapped then [] else [Event.surface_mapped resource]) ++
        [Event.committed resource] ∧
      (s.xdg_surface = none → mid = []) ∧
      (s.xdg_surface ≠ none → s.xdg_popup = none →
        mid = [.queue_draw_region
          (cairo_region_translate (wl_surface_commit_state s1 cr1).damage
            w.allocation.x w.allocation.y)]) ∧
      (s.xdg_surface ≠ none → ∀ p, s.xdg_popup = some p →
        ∃ w2 orig,
          xdg_popup_compute_allocation fuel
            (w.setSurface resource (some (wl_surface_commit_state s1 cr1))) p true = .ok w2 ∧
          xdg_popup_get_absolute_coordinates fuel w2 p = .ok orig ∧
          mid = [.queue_draw_region
            (cairo_region_translate
              (cairo_region_intersect_rectangle (wl_surface_commit_state s1 cr1).damage
                w.allocation)
              (w.allocation.x + orig.1) (w.allocation.y + orig.2))]) := by
  unfold wl_surface_commit at h
  simp only [bind_eq_ok, deref_eq_ok, hs, pure_eq_ok, Prod.mk.injEq] at h
  obtain ⟨s0, hs0, cr, hcr, ⟨s1, cr1, rel⟩, hbuf, ⟨w2, mid⟩, hpd, s3, hs3, rfl, rfl⟩ := h
  cases hs0
  have hs1 := (commit_buffer_ok hbuf).1
  obtain ⟨d, hd, _⟩ := process_damage_surface (surfaces_setSurface_same _ _ _) hpd
  simp only at hs3 hd
  rw [hd] at hs3
  cases hs3
  have hlinks : (wl_surface_commit_state s1 cr1).xdg_surface = s.xdg_surface ∧
      (wl_surface_commit_state s1 cr1).xdg_popup = s.xdg_popup := by
    rw [hs1]
    exact ⟨rfl, rfl⟩
  obtain ⟨r1, r2, r3⟩ := process_damage_region (surfaces_setSurface_same _ _ _) hpd
  rw [hlinks.1] at r1 r2 r3
  rw [hlinks.2] at r2 r3
  refine ⟨cr, s1, cr1, rel, mid, hcr, hbuf, ?_, r1, r2, r3⟩
  have hm : (wl_surface_commit_state s1 cr1).mapped = s.mapped := by
    rw [hs1]
    rfl
  simp only [wl_surface_commit_finish, hm]
  cases s.mapped <;> simp

/-- C35 (defect): with the compositor widget at (100, 50), a popup surface
whose accumulated damage is the rectangle (0, 0, 10, 10), reached by client
requests, is committed: the commit returns and hands the toolkit the empty
region, whereas the damage holds the pixel (0, 0) and moved by any offset is
not empty. -/
theorem C35_popup_damage_clipped :
    ClientReachable world_damaged_popup ∧
    world_damaged_popup.allocation = ⟨100, 50, 800, 600⟩ ∧
    world_damaged_popup.surfaces 3 = some damaged_popup_surface ∧
    ((0, 0) : Int × Int) ∈ damaged_popup_surface.damage ∧
    (∀ dx dy : Int, cairo_region_translate damaged_popup_surface.damage dx dy ≠ ∅) ∧
    ∃ w1, step 5 world_damaged_popup (.commit 3) =
      .ok (w1, [Event.queue_draw_region ∅, Event.surface_mapped 3, Event.committed 3]) := by
  have hall : ∀ r ∈ damaged_popup_requests, r.fromClient = true := by decide
  obtain ⟨evs0, hrun⟩ : ∃ evs0, run 5 world_offset damaged_popup_requests =
      .ok (world_damaged_popup, evs0) := ⟨_, rfl⟩
  have hs : world_damaged_popup.surfaces 3 = some damaged_popup_surface := rfl
  have halloc : world_damaged_popup.allocation = ⟨100, 50, 800, 600⟩ := rfl
  have hmem : ((0, 0) : Int × Int) ∈ damaged_popup_surface.damage := by
    simp [damaged_popup_surface, cairo_region_union_rectangle, cairo_region_create,
      cairo_region_create_rectangle]
  have hclip : cairo_region_intersect_rectangle damaged_popup_surface.damage
      world_damaged_popup.allocation = ∅ := by
    rw [halloc, Finset.eq_empty_iff_forall_not_mem]
    intro p hp
    simp only [damaged_popup_surface, cairo_region_intersect_rectangle,
      cairo_region_union_rectangle, cairo_region_create, cairo_region_create_rectangle,
      Finset.empty_union, Finset.mem_inter, Finset.mem_product, Finset.mem_Ico] at hp
    omega
  refine ⟨client_reachable_run (ClientReachable.empty _) hall hrun, halloc, hs, hmem, ?_, ?_⟩
  · intro dx dy he
    have : (0 + dx, 0 + dy) ∈ cairo_region_translate damaged_popup_surface.damage dx dy :=
      Finset.mem_image_of_mem _ hmem
    rw [he] at this
    cases this
  · obtain ⟨w1, evs, hstep⟩ : ∃ w1 evs, step 5 world_damaged_popup (.commit 3) = .ok (w1, evs) :=
      ⟨_, _, rfl⟩
    refine ⟨w1, ?_⟩
    rw [hstep]
    obtain ⟨cr, s1, cr1, rel, mid, hcr, hbuf, hevs, _, _, hmid⟩ := commit_region hs hstep
    have hcr0 : wl_surface_commit_footprint damaged_popup_surface = .ok none := rfl
    rw [hcr0] at hcr
    cases hcr
    have hbuf0 : wl_surface_commit_buffer damaged_popup_surface none =
        .ok (damaged_popup_surface, none, []) := rfl
    rw [hbuf0] at hbuf
    cases hbuf
    obtain ⟨w2, orig, _, _, hm⟩ := hmid (by decide) 6 rfl
    have hdamage : (wl_surface_commit_state damaged_popup_surface none).damage =
        damaged_popup_surface.damage := rfl
    rw [hdamage, hclip] at hm
    rw [hevs, hm]
    rfl

/-! ## Mapped and unmapped alternate (C32) -/

theorem surface_notes_append (a : Nat) (l1 l2 : List Event) :
    surface_notes a (l1 ++ l2) = surface_notes a l1 ++ surface_notes a l2 := by
  simp [surface_notes, List.filterMap_append]

theorem SurfacesFrom.flags {R : Nat → WakefieldSurface → WakefieldSurface → Prop}
    {w w1 : World} (h : SurfacesFrom R w w1) (a : Nat)
    (hR : ∀ s s1, R a s s1 → s1.mapped = s.mapped) : mapped_flag w1 a = mapped_flag w a := by
  unfold mapped_flag
  cases h1 : w1.surfaces a with
  | none =>
    cases h0 : w.surfaces a with
    | none => rfl
    | some s =>
      obtain ⟨s1, hs1⟩ := (h a).2 s h0
      rw [h1] at hs1
      cases hs1
  | some s1 =>
    obtain ⟨s, hs, hk⟩ := (h a).1 s1 h1
    rw [hs]
    exact hR s s1 hk

theorem flags_of_surfaces {w w1 : World} (h : w1.surfaces = w.surfaces) (a : Nat) :
    mapped_flag w1 a = mapped_flag w a := by
  unfold mapped_flag
  rw [h]

/-- A request that does not write the mapped flag leaves the flag of every
surface as it was. -/
theorem step_flag {fuel : Nat} {w w1 : World} {r : Request} {evs : List Event}
    (hfresh : Fresh w) (h : step fuel w r = .ok (w1, evs))
    (hm : SurfaceField.mapped ∉ r.edits) (a : Nat) :
    mapped_flag w1 a = mapped_flag w a := by
  have hF : Frame (fun _ (s s1 : WakefieldSurface) => s1.mapped = s.mapped) :=
    ⟨fun _ _ => rfl, fun _ _ _ _ e1 e2 => e2.trans e1⟩
  have hframe := step_frame hF (fun f hf b _ => by
    cases f
    case mapped => exact absurd hf hm
    all_goals
      intro t v
      rfl) h
  unfold mapped_flag
  cases h1 : w1.surfaces a with
  | none =>
    cases h0 : w.surfaces a with
    | none => rfl
    | some s =>
      rcases (hframe a).2 s h0 with ⟨s1, hs1⟩ | hd
      · rw [h1] at hs1
        cases hs1
      · rw [hd] at hm
        simp [Request.edits] at hm
  | some s1 =>
    rcases (hframe a).1 s1 h1 with ⟨s, hs, hk⟩ | ⟨_, hnext, hnew⟩
    · rw [hs]
      exact hk
    · rw [hfresh a (Nat.le_of_eq hnext.symm), hnew]
      rfl

/-- A request that does not write the mapped flag sends no notification about
a surface. -/
theorem step_silent {fuel : Nat} {w w1 : World} {r : Request} {evs : List Event}
    (h : step fuel w r = .ok (w1, evs)) (hm : SurfaceField.mapped ∉ r.edits) (a : Nat) :
    surface_notes a evs = [] := by
  cases r with
  | create_surface =>
    simp only [step, pure_eq_ok, Prod.mk.injEq] at h
    obtain ⟨_, rfl⟩ := h
    rfl
  | surface_destroy surface => simp [Request.edits] at hm
  | attach surface buffer dx dy =>
    simp only [step, wl_surface_attach, bind_eq_ok, deref_eq_ok, pure_eq_ok, Prod.mk.injEq] at h
    obtain ⟨s, hs, _, rfl⟩ := h
    rfl
  | damage surface x y width height =>
    simp only [step, wl_surface_damage, bind_eq_ok, deref_eq_ok, pure_eq_ok, Prod.mk.injEq] at h
    obtain ⟨s, hs, _, rfl⟩ := h
    rfl
  | frame surface callback_id =>
    simp only [step, wl_surface_frame, bind_eq_ok, deref_eq_ok, pure_eq_ok, Prod.mk.injEq] at h
    obtain ⟨s, hs, _, rfl⟩ := h
    rfl
  | set_opaque_region surface =>
    simp only [step, pure_eq_ok, Prod.mk.injEq] at h
    obtain ⟨_, rfl⟩ := h
    rfl
  | set_input_region surface region =>
    simp only [step, wl_surface_set_input_region, bind_eq_ok, deref_eq_ok, pure_eq_ok,
      Prod.mk.injEq] at h
    obtain ⟨s, hs, _, rfl⟩ := h
    rfl
  | commit surface => simp [Request.edits] at hm
  | set_buffer_transform surface transform =>
    simp only [step, pure_eq_ok, Prod.mk.injEq] at h
    obtain ⟨_, rfl⟩ := h
    rfl
  | set_buffer_scale surface scale =>
    simp only [step, wl_surface_set_buffer_scale, bind_eq_ok, deref_eq_ok, pure_eq_ok,
      Prod.mk.injEq] at h
    obtain ⟨s, hs, _, rfl⟩ := h
    rfl
  | damage_buffer surface =>
    simp only [step, wl_surface_damage_buffer, pure_eq_ok, Prod.mk.injEq] at h
    obtain ⟨_, rfl⟩ := h
    rfl
  | offset surface =>
    simp only [step, wl_surface_offset, pure_eq_ok, Prod.mk.injEq] at h
    obtain ⟨_, rfl⟩ := h
    rfl
  | get_xdg_surface surface =>
    simp only [step, bind_eq_ok, pure_eq_ok, Prod.mk.injEq] at h
    obtain ⟨_, _, _, rfl⟩ := h
    rfl
  | xdg_surface_destroy xdg_surface => simp [Request.edits] at hm
  | get_toplevel xdg_surface created =>
    simp only [step, xdg_surface_get_toplevel, bind_eq_ok, deref_eq_ok, g_assert_eq_ok] at h
    obtain ⟨x, _, sid, _, s, hs, _, _, h⟩ := h
    cases created with
    | false =>
      simp only [Bool.false_eq_true, if_false, pure_eq_ok, Prod.mk.injEq] at h
      obtain ⟨_, rfl⟩ := h
      rfl
    | true =>
      simp only [if_true, bind_eq_ok, pure_eq_ok, Prod.mk.injEq] at h
      obtain ⟨w2, _, _, rfl⟩ := h
      rfl
  | get_popup xdg_surface parent positioner created =>
    simp only [step] at h
    unfold xdg_surface_get_popup at h
    simp only [bind_eq_ok, deref_eq_ok] at h
    obtain ⟨x, _, h⟩ := h
    split at h
    · simp only [pure_eq_ok, Prod.mk.injEq] at h
      obtain ⟨_, rfl⟩ := h
      rfl
    · split at h
      · simp only [pure_eq_ok, Prod.mk.injEq] at h
        obtain ⟨_, rfl⟩ := h
        rfl
      · simp only [bind_eq_ok, deref_eq_ok, g_assert_eq_ok] at h
        obtain ⟨px, _, sid, _, s, hs, _, _, h⟩ := h
        cases created with
        | false =>
          simp only [Bool.false_eq_true, if_false, pure_eq_ok, Prod.mk.injEq] at h
          obtain ⟨_, rfl⟩ := h
          rfl
        | true =>
          simp only [if_true, bind_eq_ok, pure_eq_ok, Prod.mk.injEq] at h
          obtain ⟨w2, _, w4, _, _, rfl⟩ := h
          rfl
  | set_window_geometry xdg_surface x y width height =>
    simp only [step, xdg_surface_set_window_geometry, bind_eq_ok, deref_eq_ok] at h
    obtain ⟨xs, _, h⟩ := h
    split at h <;>
      · simp only [pure_eq_ok, Prod.mk.injEq] at h
        obtain ⟨_, rfl⟩ := h
        rfl
  | ack_configure xdg_surface serial =>
    simp only [step, pure_eq_ok, Prod.mk.injEq] at h
    obtain ⟨_, rfl⟩ := h
    rfl
  | toplevel_destroy xdg_toplevel =>
    simp only [step, xdg_toplevel_finalize, bind_eq_ok, deref_eq_ok, pure_eq_ok,
      Prod.mk.injEq] at h
    obtain ⟨x, _, wa, ha, _, rfl⟩ := h
    rfl
  | toplevel_hint xdg_toplevel =>
    simp only [step, pure_eq_ok, Prod.mk.injEq] at h
    obtain ⟨_, rfl⟩ := h
    rfl
  | popup_destroy xdg_popup => simp [Request.edits] at hm
  | popup_grab xdg_popup serial =>
    simp only [step, xdg_popup_grab, bind_eq_ok, deref_eq_ok, pure_eq_ok, Prod.mk.injEq] at h
    obtain ⟨x, hx, s, _, ps, _, o, _, _, _, g, _, _, _, _, rfl⟩ := h
    rfl
  | popup_reposition xdg_popup positioner token =>
    simp only [step, xdg_popup_reposition, bind_eq_ok, deref_eq_ok, pure_eq_ok,
      Prod.mk.injEq] at h
    obtain ⟨x, hx, pos, _, w2, hca, s, _, xs, _, _, _, _, rfl⟩ := h
    rfl
  | create_positioner =>
    simp only [step, pure_eq_ok, Prod.mk.injEq] at h
    obtain ⟨_, rfl⟩ := h
    rfl
  | positioner_destroy positioner =>
    simp only [step, xdg_positioner_finalize, bind_eq_ok, deref_eq_ok, pure_eq_ok,
      Prod.mk.injEq] at h
    obtain ⟨_, _, _, rfl⟩ := h
    rfl
  | positioner_set_size positioner width height =>
    simp only [step, xdg_positioner_set_size, bind_eq_ok, deref_eq_ok] at h
    obtain ⟨_, _, h⟩ := h
    split at h <;>
      · simp only [pure_eq_ok, Prod.mk.injEq] at h
        obtain ⟨_, rfl⟩ := h
        rfl
  | positioner_set_anchor_rect positioner x y width height =>
    simp only [step, xdg_positioner_set_anchor_rect, bind_eq_ok, deref_eq_ok] at h
    obtain ⟨_, _, h⟩ := h
    split at h <;>
      · simp only [pure_eq_ok, Prod.mk.injEq] at h
        obtain ⟨_, rfl⟩ := h
        rfl
  | positioner_set_anchor positioner anchor =>
    simp only [step, xdg_positioner_set_anchor, bind_eq_ok, deref_eq_ok] at h
    obtain ⟨_, _, h⟩ := h
    split at h <;>
      · simp only [pure_eq_ok, Prod.mk.injEq] at h
        obtain ⟨_, rfl⟩ := h
        rfl
  | positioner_set_gravity positioner gravity =>
    simp only [step, xdg_positioner_set_gravity, bind_eq_ok, deref_eq_ok] at h
    obtain ⟨_, _, h⟩ := h
    split at h <;>
      · simp only [pure_eq_ok, Prod.mk.injEq] at h
        obtain ⟨_, rfl⟩ := h
        rfl
  | positioner_set_constraint_adjustment positioner constraint_adjustment =>
    simp only [step, xdg_positioner_set_constraint_adjustment, bind_eq_ok, deref_eq_ok] at h
    obtain ⟨_, _, h⟩ := h
    split at h <;>
      · simp only [pure_eq_ok, Prod.mk.injEq] at h
        obtain ⟨_, rfl⟩ := h
        rfl
  | positioner_set_offset positioner x y =>
    simp only [step, xdg_positioner_set_offset, bind_eq_ok, deref_eq_ok, pure_eq_ok,
      Prod.mk.injEq] at h
    obtain ⟨_, _, _, rfl⟩ := h
    rfl
  | positioner_set_reactive positioner =>
    simp only [step, xdg_positioner_set_reactive, bind_eq_ok, deref_eq_ok, pure_eq_ok,
      Prod.mk.injEq] at h
    obtain ⟨_, _, _, rfl⟩ := h
    rfl
  | positioner_set_parent_size positioner parent_width parent_height =>
    simp only [step, xdg_positioner_set_parent_size, bind_eq_ok, deref_eq_ok, pure_eq_ok,
      Prod.mk.injEq] at h
    obtain ⟨_, _, _, rfl⟩ := h
    rfl
  | positioner_set_parent_configure positioner serial =>
    simp only [step, xdg_positioner_set_parent_configure, bind_eq_ok, deref_eq_ok, pure_eq_ok,
      Prod.mk.injEq] at h
    obtain ⟨_, _, _, rfl⟩ := h
    rfl
  | draw surface now =>
    simp only [step] at h
    unfold wakefield_surface_draw at h
    simp only [bind_eq_ok, deref_eq_ok, pure_eq_ok, Prod.mk.injEq] at h
    obtain ⟨s, hs, painted, hp, _, rfl⟩ := h
    obtain ⟨_, hpaint⟩ := draw_paint_ok hp
    rw [surface_notes_append]
    have h1 : surface_notes a painted = [] := by
      simp only [surface_notes, List.filterMap_eq_nil_iff]
      intro e he
      obtain ⟨b, k, x, y, rfl⟩ := hpaint e he
      rfl
    have h2 : surface_notes a (s.current.frame_callbacks.map
        (fun cr => Event.callback_done cr (now % 4294967296))) = [] := by
      simp only [surface_notes, List.filterMap_eq_nil_iff]
      intro e he
      obtain ⟨c, _, rfl⟩ := List.mem_map.mp he
      rfl
    rw [h1, h2]
    rfl
  | set_role surface role =>
    simp only [step, bind_eq_ok, pure_eq_ok, Prod.mk.injEq] at h
    obtain ⟨w2, _, _, rfl⟩ := h
    rfl
  | realize xdg_surface =>
    simp only [step, wakefield_xdg_surface_realize, bind_eq_ok, deref_eq_ok] at h
    obtain ⟨x, _, h⟩ := h
    split at h
    · simp only [pure_eq_ok, Prod.mk.injEq] at h
      obtain ⟨_, rfl⟩ := h
      rfl
    · simp only [bind_eq_ok, deref_eq_ok, pure_eq_ok, Prod.mk.injEq] at h
      obtain ⟨s, _, size, _, _, rfl⟩ := h
      rfl
  | unrealize xdg_surface => simp [Request.edits] at hm
  | popup_close xdg_popup => simp [Request.edits] at hm
  | size_allocate allocation =>
    simp only [step, pure_eq_ok, Prod.mk.injEq] at h
    obtain ⟨_, rfl⟩ := h
    rfl

theorem flag_setSurface (w : World) (b : Nat) (t : WakefieldSurface) (a : Nat) :
    mapped_flag (w.setSurface b (some t)) a = if a = b then t.mapped else mapped_flag w a := by
  unfold mapped_flag
  rw [surfaces_setSurface]
  by_cases h : a = b
  · rw [if_pos h, if_pos h]
  · rw [if_neg h, if_neg h]

theorem flag_removeSurface (w : World) (b a : Nat) :
    mapped_flag (w.setSurface b none) a = if a = b then false else mapped_flag w a := by
  unfold mapped_flag
  rw [surfaces_setSurface]
  by_cases h : a = b
  · rw [if_pos h, if_pos h]
  · rw [if_neg h, if_neg h]

theorem note_of_change_congr {w w1 w2 : World} (a : Nat)
    (h : mapped_flag w2 a = mapped_flag w1 a) :
    note_of_change w w2 a = note_of_change w w1 a := by
  unfold note_of_change
  rw [h]

theorem note_of_change_same (w : World) (a : Nat) : note_of_change w w a = [] := by
  simp [note_of_change]

/-- The function `wl_surface_unmap` sends `surface_unmapped` for a surface that
is mapped and nothing otherwise, and leaves the surface not mapped. -/
theorem unmap_notes {w w1 : World} {b : Nat} {evs : List Event}
    (h : wl_surface_unmap w b = .ok (w1, evs)) (a : Nat) :
    surface_notes a evs = note_of_change w w1 a ∧ mapped_flag w1 b = false := by
  have h0 := h
  unfold wl_surface_unmap at h0
  simp only [bind_eq_ok, deref_eq_ok] at h0
  obtain ⟨s, hs, _⟩ := h0
  rw [unmap_eq hs] at h
  simp only [Except.ok.injEq, Prod.mk.injEq] at h
  obtain ⟨rfl, rfl⟩ := h
  have hb : mapped_flag w b = s.mapped := by
    unfold mapped_flag
    rw [hs]
  refine ⟨?_, by rw [flag_setSurface, if_pos rfl]⟩
  unfold note_of_change
  rw [flag_setSurface]
  by_cases hab : a = b
  · subst hab
    rw [if_pos rfl, hb]
    cases hm : s.mapped
    · rfl
    · simp [surface_notes]
  · rw [if_neg hab, if_pos rfl]
    cases hm : s.mapped
    · rfl
    · simp only [if_true, surface_notes, List.filterMap_cons, List.filterMap_nil]
      rw [if_neg (fun e => hab e.symm)]

theorem unmap_if_linked_notes {w w1 : World} {link : Option Nat} {evs : List Event}
    (h : unmap_if_linked w link = .ok (w1, evs)) (a : Nat) :
    surface_notes a evs = note_of_change w w1 a := by
  cases link with
  | none =>
    simp only [unmap_if_linked, Except.ok.injEq, Prod.mk.injEq] at h
    obtain ⟨rfl, rfl⟩ := h
    rw [note_of_change_same]
    rfl
  | some b => exact (unmap_notes h a).1

theorem unrealize_notes {w w1 : World} {x : Nat} {evs : List Event}
    (h : wakefield_xdg_surface_unrealize w x = .ok (w1, evs)) (a : Nat) :
    surface_notes a evs = note_of_change w w1 a := by
  unfold wakefield_xdg_surface_unrealize at h
  simp only [bind_eq_ok, deref_eq_ok] at h
  obtain ⟨xs, _, ⟨wu, eu⟩, hu, h⟩ := h
  have hn := unmap_if_linked_notes hu a
  split at h
  · simp only [pure_eq_ok, Prod.mk.injEq] at h
    obtain ⟨rfl, rfl⟩ := h
    rw [hn]
    exact (note_of_change_congr a (flags_of_surfaces rfl a)).symm
  · simp only [pure_eq_ok, Prod.mk.injEq] at h
    obtain ⟨rfl, rfl⟩ := h
    exact hn

/-- The notifications a returning request sends about a surface tell the
change of its mapped flag: `surface_mapped` when the flag goes from false to
true, `surface_unmapped` when it goes from true to false, nothing when it
stays. -/
theorem step_notes {fuel : Nat} {w w1 : World} {r : Request} {evs : List Event}
    (hfresh : Fresh w) (h : step fuel w r = .ok (w1, evs)) (a : Nat) :
    surface_notes a evs = note_of_change w w1 a := by
  have hF : ∀ b : Nat, Frame (fun c (s s1 : WakefieldSurface) => c ≠ b → s1.mapped = s.mapped) :=
    fun b => ⟨fun _ _ _ => rfl, fun _ _ _ _ e1 e2 hc => (e2 hc).trans (e1 hc)⟩
  have hG : Frame (fun _ (s s1 : WakefieldSurface) => s1.mapped = s.mapped) :=
    ⟨fun _ _ => rfl, fun _ _ _ _ e1 e2 => e2.trans e1⟩
  by_cases hm : SurfaceField.mapped ∈ r.edits
  · cases r with
    | surface_destroy b =>
      simp only [step] at h
      unfold wl_surface_finalize at h
      simp only [bind_eq_ok, deref_eq_ok, pure_eq_ok, Prod.mk.injEq] at h
      obtain ⟨⟨wu, eu⟩, hu, s, _, wa, ha, wb, hb, wc, hc, rfl, rfl⟩ := h
      obtain ⟨hn, hfalse⟩ := unmap_notes hu a
      rw [hn]
      refine (note_of_change_congr a ?_).symm
      have e : wc.surfaces = wu.surfaces := by
        rw [clear_xdg_popup_surface_surfaces hc, clear_xdg_toplevel_surface_surfaces hb,
          clear_xdg_surface_surface_surfaces ha]
      rw [flag_removeSurface]
      split
      · rename_i hab
        rw [hab]
        exact hfalse.symm
      · exact flags_of_surfaces e a
    | commit b =>
      simp only [step] at h
      have h0 := h
      unfold wl_surface_commit at h0
      simp only [bind_eq_ok, deref_eq_ok] at h0
      obtain ⟨s, hs, _⟩ := h0
      obtain ⟨mid, hmid, hs1, rfl⟩ := wl_surface_commit_ok hs h
      have hmid0 : surface_notes a mid = [] := by
        rcases hmid with ⟨_, rfl⟩ | ⟨_, d, rfl⟩ <;> rfl
      have hrel : surface_notes a (match s.pending.buffer, s.current.buffer with
          | some _, some old => [Event.buffer_release old]
          | _, _ => []) = [] := by
        cases s.pending.buffer <;> cases s.current.buffer <;> rfl
      rw [surface_notes_append, surface_notes_append, surface_notes_append, hmid0, hrel]
      unfold note_of_change
      by_cases hab : a = b
      · subst hab
        have h1 : mapped_flag w1 a = true := by
          unfold mapped_flag
          rw [hs1]
        have h0 : mapped_flag w a = s.mapped := by
          unfold mapped_flag
          rw [hs]
        rw [h1, h0]
        cases s.mapped <;> simp [surface_notes]
      · have hk := from_commit (hF b) (fun _ _ hc => absurd rfl hc) (fun _ _ hc => absurd rfl hc)
          (fun _ _ hc => absurd rfl hc) (fun _ _ hc => absurd rfl hc) h
        rw [if_pos (hk.flags a (fun _ _ hR => hR hab))]
        have hba : ¬ b = a := fun e => hab e.symm
        cases s.mapped <;> simp [surface_notes, hba]
    | xdg_surface_destroy x =>
      simp only [step] at h
      unfold xdg_surface_finalize at h
      simp only [bind_eq_ok, deref_eq_ok, pure_eq_ok, Prod.mk.injEq] at h
      obtain ⟨xs, _, ⟨wu, eu⟩, hu, wa, ha, rfl, rfl⟩ := h
      rw [unrealize_notes hu a]
      refine (note_of_change_congr a ?_).symm
      have hk := from_clear_surface_xdg_surface hG (fun _ _ _ => rfl) ha
      exact (flags_of_surfaces (surfaces_setXdgSurface wa x none) a).trans
        (hk.flags a (fun _ _ hR => hR))
    | popup_destroy p =>
      simp only [step] at h
      unfold xdg_popup_finalize at h
      simp only [bind_eq_ok, deref_eq_ok, pure_eq_ok, Prod.mk.injEq] at h
      obtain ⟨xp, _, ⟨wu, eu⟩, hu, wa, ha, rfl, rfl⟩ := h
      rw [unmap_if_linked_notes hu a]
      refine (note_of_change_congr a ?_).symm
      have hk := from_clear_surface_xdg_popup hG (fun _ _ _ => rfl) ha
      exact (flags_of_surfaces (surfaces_setXdgPopup wa p none) a).trans
        (hk.flags a (fun _ _ hR => hR))
    | unrealize x => exact unrealize_notes h a
    | popup_close p =>
      simp only [step] at h
      unfold wakefield_xdg_popup_close at h
      simp only [bind_eq_ok, deref_eq_ok] at h
      obtain ⟨xp, _, h⟩ := h
      split at h
      · simp only [pure_eq_ok, Prod.mk.injEq] at h
        obtain ⟨rfl, rfl⟩ := h
        rw [note_of_change_same]
        rfl
      · rename_i b _
        simp only [bind_eq_ok, deref_eq_ok] at h
        obtain ⟨s, hs, h⟩ := h
        have hu : ∃ eu, wl_surface_unmap w b = .ok (w1, eu) ∧
            surface_notes a evs = surface_notes a eu := by
          rw [unmap_eq hs]
          split at h
          · rename_i hmapped
            simp only [pure_eq_ok, Prod.mk.injEq] at h
            obtain ⟨rfl, rfl⟩ := h
            refine ⟨_, rfl, ?_⟩
            rw [if_pos hmapped]
            exact (surface_notes_append a [Event.surface_unmapped b] [Event.popup_done p]).trans
              (List.append_nil _)
          · rename_i hmapped
            simp only [pure_eq_ok, Prod.mk.injEq] at h
            obtain ⟨rfl, rfl⟩ := h
            have hfalse : s.mapped = false := by
              cases hv : s.mapped
              · rfl
              · exact absurd hv hmapped
            have hsame : w.setSurface b (some { s with mapped := false }) = w := by
              have : ({ s with mapped := false } : WakefieldSurface) = s := by
                cases s
                simp only at hfalse
                subst hfalse
                rfl
              rw [this]
              unfold World.setSurface
              rw [← hs, Function.update_eq_self]
            refine ⟨_, by rw [hsame, if_neg hmapped], ?_⟩
            rfl
        obtain ⟨eu, hunmap, he⟩ := hu
        rw [he]
        exact (unmap_notes hunmap a).1
    | _ => simp [Request.edits] at hm
  · rw [step_silent h hm a]
    unfold note_of_change
    rw [if_pos (step_flag hfresh h hm a)]

theorem alternates_note (m m2 : Bool) (l : List Bool) (h : alternates m2 l = true) :
    alternates m ((if m2 = m then [] else [m2]) ++ l) = true := by
  by_cases e : m2 = m
  · rw [if_pos e, ← e]
    exact h
  · rw [if_neg e]
    simp only [List.singleton_append, alternates, Bool.and_eq_true, bne_iff_ne, ne_eq]
    exact ⟨e, h⟩

theorem last_note (m m2 : Bool) (l : List Bool) :
    (((if m2 = m then [] else [m2]) ++ l).getLast?).getD m = (l.getLast?).getD m2 := by
  by_cases e : m2 = m
  · rw [if_pos e, e]
    rfl
  · rw [if_neg e]
    cases l with
    | nil => rfl
    | cons b rest =>
      rw [List.singleton_append, List.getLast?_cons_cons]
      cases hl : (b :: rest).getLast? with
      | none => simp at hl
      | some v => rfl

theorem mem_surface_notes (a : Nat) (evs : List Event) :
    (true ∈ surface_notes a evs ↔ Event.surface_mapped a ∈ evs) ∧
    (false ∈ surface_notes a evs ↔ Event.surface_unmapped a ∈ evs) := by
  constructor
  · simp only [surface_notes, List.mem_filterMap]
    constructor
    · rintro ⟨e, he, hn⟩
      cases e <;> simp only [reduceCtorEq] at hn
      case surface_mapped b =>
        split at hn
        · rename_i hb
          rw [← hb]
          exact he
        · cases hn
      case surface_unmapped b =>
        split at hn <;> cases hn
    · intro he
      exact ⟨_, he, by simp⟩
  · simp only [surface_notes, List.mem_filterMap]
    constructor
    · rintro ⟨e, he, hn⟩
      cases e <;> simp only [reduceCtorEq] at hn
      case surface_mapped b =>
        split at hn <;> cases hn
      case surface_unmapped b =>
        split at hn
        · rename_i hb
          rw [← hb]
          exact he
        · cases hn
    · intro he
      exact ⟨_, he, by simp⟩

/-- Over a run that returns, the notifications about a surface alternate,
beginning with the opposite of its mapped flag at the start, and its mapped
flag at the end is the last of them. -/
theorem run_notes {fuel : Nat} (a : Nat) (reqs : List Request) :
    ∀ {w w1 : World} {evs : List Event}, Reachable w → run fuel w reqs = .ok (w1, evs) →
      alternates (mapped_flag w a) (surface_notes a evs) = true ∧
      mapped_flag w1 a = ((surface_notes a evs).getLast?).getD (mapped_flag w a) := by
  induction reqs with
  | nil =>
    intro w w1 evs _ h
    simp only [run, Except.ok.injEq, Prod.mk.injEq] at h
    obtain ⟨rfl, rfl⟩ := h
    exact ⟨rfl, rfl⟩
  | cons r rest ih =>
    intro w w1 evs hreach h
    rw [run_cons] at h
    simp only [bind_eq_ok, pure_eq_ok, Prod.mk.injEq] at h
    obtain ⟨⟨w2, e1⟩, hstep, ⟨w3, e2⟩, hrest, rfl, rfl⟩ := h
    obtain ⟨h1, h2⟩ := ih (Reachable.step fuel r hreach hstep) hrest
    rw [surface_notes_append, step_notes (reachable_sound hreach).1 hstep a]
    unfold note_of_change
    exact ⟨alternates_note _ _ _ h1, h2.trans (last_note _ _ _).symm⟩

theorem unmap_unmapped {w : World} {b : Nat} {s : WakefieldSurface}
    (hs : w.surfaces b = some s) (hm : s.mapped = false) :
    wl_surface_unmap w b = .ok (w, []) := by
  simp [wl_surface_unmap, hs, hm, deref, bind, Except.bind, pure, Except.pure]

theorem unmap_leaves_unmapped {w w1 : World} {b : Nat} {evs : List Event}
    (h : wl_surface_unmap w b = .ok (w1, evs)) :
    w1.xdg_surfaces = w.xdg_surfaces ∧ ∃ s, w1.surfaces b = some s ∧ s.mapped = false := by
  unfold wl_surface_unmap at h
  simp only [bind_eq_ok, deref_eq_ok] at h
  obtain ⟨s, hs, h⟩ := h
  split at h
  · simp only [pure_eq_ok, Prod.mk.injEq] at h
    obtain ⟨rfl, _⟩ := h
    exact ⟨rfl, _, surfaces_setSurface_same _ _ _, rfl⟩
  · rename_i hm
    simp only [pure_eq_ok, Prod.mk.injEq] at h
    obtain ⟨rfl, _⟩ := h
    refine ⟨rfl, s, hs, ?_⟩
    cases hv : s.mapped
    · rfl
    · exact absurd hv hm

/-- A second `wakefield_xdg_surface_unrealize` right after one that returned
returns, changes nothing and sends nothing. -/
theorem unrealize_twice {w w1 : World} {x : Nat} {evs : List Event}
    (h : wakefield_xdg_surface_unrealize w x = .ok (w1, evs)) :
    wakefield_xdg_surface_unrealize w1 x = .ok (w1, []) := by
  unfold wakefield_xdg_surface_unrealize at h
  simp only [bind_eq_ok, deref_eq_ok] at h
  obtain ⟨xs, hx, ⟨wu, eu⟩, hu, h⟩ := h
  have hstable : wu.xdg_surfaces x = some xs ∧
      ∀ w2 : World, w2.surfaces = wu.surfaces → unmap_if_linked w2 xs.surface = .ok (w2, []) := by
    cases hl : xs.surface with
    | none =>
      rw [hl] at hu
      simp only [unmap_if_linked, Except.ok.injEq, Prod.mk.injEq] at hu
      obtain ⟨rfl, _⟩ := hu
      exact ⟨hx, fun _ _ => rfl⟩
    | some b =>
      rw [hl] at hu
      obtain ⟨hux, s, hs, hm⟩ := unmap_leaves_unmapped hu
      refine ⟨by rw [hux]; exact hx, fun w2 h2 => ?_⟩
      exact unmap_unmapped (by rw [h2]; exact hs) hm
  obtain ⟨hx1, hagain⟩ := hstable
  cases hwin : xs.window with
  | none =>
    rw [hwin] at h
    simp only [pure_eq_ok, Prod.mk.injEq] at h
    obtain ⟨rfl, _⟩ := h
    simp [wakefield_xdg_surface_unrealize, hx1, hagain _ rfl, hwin, deref, bind, Except.bind,
      pure, Except.pure]
  | some win =>
    rw [hwin] at h
    simp only [pure_eq_ok, Prod.mk.injEq] at h
    obtain ⟨rfl, _⟩ := h
    have hx2 : (wu.setXdgSurface x (some { xs with window := none })).xdg_surfaces x =
        some { xs with window := none } := by
      simp [World.setXdgSurface]
    have h2 := hagain (wu.setXdgSurface x (some { xs with window := none })) rfl
    simp only [wakefield_xdg_surface_unrealize, hx2, deref, bind, Except.bind, h2]
    rfl

/-- C32: over every run of requests that returns from a reachable world, the
`surface_mapped` and `surface_unmapped` notifications about a surface
alternate, beginning with `surface_mapped` when the surface is not mapped (or
does not exist yet) at the start, and the mapped flag at the end is the one the
last notification tells.  In one request `surface_unmapped` is sent only for a
surface that is mapped, which is then not mapped, and `surface_mapped` only for
one that is not mapped, which is then mapped.  A second unrealize right after
one that returned returns, changes nothing and sends nothing. -/
theorem C32_mapped_unmapped_alternate (fuel : Nat) (w w1 : World) (reqs : List Request)
    (evs : List Event) (a : Nat) (hreach : Reachable w)
    (hrun : run fuel w reqs = .ok (w1, evs)) :
    alternates (mapped_flag w a) (surface_notes a evs) = true ∧
    mapped_flag w1 a = ((surface_notes a evs).getLast?).getD (mapped_flag w a) ∧
    (mapped_flag w a = false → ∀ first rest, surface_notes a evs = first :: rest →
      first = true) ∧
    (∀ r w2 evs2, step fuel w r = .ok (w2, evs2) →
      (Event.surface_unmapped a ∈ evs2 → mapped_flag w a = true ∧ mapped_flag w2 a = false) ∧
      (Event.surface_mapped a ∈ evs2 → mapped_flag w a = false ∧ mapped_flag w2 a = true)) ∧
    (∀ x w2 evs2, wakefield_xdg_surface_unrealize w x = .ok (w2, evs2) →
      wakefield_xdg_surface_unrealize w2 x = .ok (w2, [])) := by
  obtain ⟨h1, h2⟩ := run_notes a reqs hreach hrun
  refine ⟨h1, h2, ?_, ?_, fun x w2 evs2 h => unrealize_twice h⟩
  · intro hm first rest hl
    rw [hl, hm] at h1
    simp only [alternates, Bool.and_eq_true, bne_iff_ne, ne_eq] at h1
    cases first
    · exact absurd rfl h1.1
    · rfl
  · intro r w2 evs2 hstep
    have hn := step_notes (reachable_sound hreach).1 hstep a
    unfold note_of_change at hn
    obtain ⟨hmap, hunmap⟩ := mem_surface_notes a evs2
    constructor
    · intro he
      have hmem := hunmap.mpr he
      rw [hn] at hmem
      split at hmem
      · cases hmem
      · rename_i hne
        simp only [List.mem_singleton] at hmem
        rw [← hmem] at hne ⊢
        cases hw : mapped_flag w a
        · exact absurd hw.symm hne
        · exact ⟨rfl, rfl⟩
    · intro he
      have hmem := hmap.mpr he
      rw [hn] at hmem
      split at hmem
      · cases hmem
      · rename_i hne
        simp only [List.mem_singleton] at hmem
        rw [← hmem] at hne ⊢
        cases hw : mapped_flag w a
        · exact ⟨rfl, rfl⟩
        · exact absurd hw.symm hne

/-- C32, on the run `map_unmap_requests` from the empty world: it returns, and
the notifications about surface 0 are mapped, unmapped, mapped, unmapped. -/
theorem C32_mapped_unmapped_alternate_witness :
    ∃ w1 evs, run 0 world0 map_unmap_requests = .ok (w1, evs) ∧
      surface_notes 0 evs = [true, false, true, false] ∧
      alternates false (surface_notes 0 evs) = true := by
  obtain ⟨w1, evs, hrun, hnotes⟩ : ∃ w1 evs, run 0 world0 map_unmap_requests = .ok (w1, evs) ∧
      surface_notes 0 evs = [true, false, true, false] := ⟨_, _, rfl, rfl⟩
  exact ⟨w1, evs, hrun, hnotes,
    (C32_mapped_unmapped_alternate 0 world0 w1 map_unmap_requests evs 0 (Reachable.empty _)
      hrun).1⟩

end Wakefield
